import Mathlib

/-!
# SCI virtual machine core (engines/sci/engine/vm.cpp)

A shallow embedding of the selector dispatch, the execution stack and the
instruction interpreter of the SCI engine, followed by theorems about them.

Conventions of the embedding:

* a register `reg_t` is a pair of 16 bit fields held as naturals; `make_reg`
  truncates both fields modulo 2^16;
* `reg_t *` pointers are values of `Ptr`: the null pointer, a slot of the
  operand stack (index relative to `stack_base`), a property slot of an
  object, or a slot of a locals block;
* `Object *` pointers are indices into the pool `EngineState.objects`;
* the execution stack is a list whose head is the C list's `back()`, the top
  frame; a pointer to a frame is its index counted from the bottom;
* C code that dereferences a null or out-of-range pointer, or trips an
  `assert` of `Common::Array`, has no result: the embedding returns `none`;
* the file-level C globals (`script_error_flag`, `script_debug_flag`, ...)
  are fields of `EngineState`;
* constants, macros and tables declared in headers outside the translated
  source file are the fields of `Env`.
-/

namespace Sci

/-! ## Registers and pointers -/

/-- A register: `reg_t`, a `(segment, offset)` pair of 16 bit values. -/
structure reg_t where
  segment : Nat
  offset : Nat
deriving DecidableEq

/-- The constant `NULL_REG = {0, 0}`. -/
def NULL_REG : reg_t := ⟨0, 0⟩

/-- Truncation of a C integer to `uint16`. -/
def u16 (x : Int) : Nat := (x % 65536).toNat

/-- Conversion of a 16 bit pattern to `int16`. -/
def i16 (x : Int) : Int := if x % 65536 < 32768 then x % 65536 else x % 65536 - 65536

/-- The helper `make_reg(segment, offset)`: both fields are stored as 16 bit values. -/
def make_reg (segment offset : Int) : reg_t := ⟨u16 segment, u16 offset⟩

/-- A `reg_t *` (also `StackPtr`): where a pointer to a register may point. -/
inductive Ptr where
  | null
  | stack (i : Int)
  | prop (obj : Nat) (i : Int)
  | locals (blk : Nat) (i : Int)
deriving DecidableEq

/-- The marker `CALL_SP_CARRY`, the null stack pointer. -/
def CALL_SP_CARRY : Ptr := Ptr.null

/-- Pointer arithmetic `p + k` on a `reg_t *`. -/
def Ptr.add : Ptr → Int → Ptr
  | Ptr.null, _ => Ptr.null
  | Ptr.stack i, k => Ptr.stack (i + k)
  | Ptr.prop o i, k => Ptr.prop o (i + k)
  | Ptr.locals b i, k => Ptr.locals b (i + k)

/-- A pointer into a raw byte buffer (an address of `Env.mem`). -/
abbrev BytePtr := Int

/-! ## Objects, frames and the engine state -/

/-- The fields of `Object` used by the virtual machine. -/
structure Object where
  _variables : List reg_t
  variable_names_nr : Int
  methods_nr : Int
  base_obj : BytePtr
  base_vars : BytePtr
  base_method : BytePtr
  pos : reg_t
deriving DecidableEq

/-- The discriminator of an execution stack frame: a pending method call or a
pending variable access. -/
inductive ExecStackType where
  | EXEC_STACK_TYPE_CALL
  | EXEC_STACK_TYPE_VARSELECTOR
deriving DecidableEq

export ExecStackType (EXEC_STACK_TYPE_CALL EXEC_STACK_TYPE_VARSELECTOR)

/-- One frame of the execution stack: `ExecStack`.  The C union `addr` is kept as
its two members `addr_pc` and `addr_varp`. -/
structure ExecStack where
  objp : reg_t
  sendp : reg_t
  addr_pc : reg_t
  addr_varp : Ptr
  fp : Ptr
  sp : Ptr
  argc : Int
  variables_argp : Ptr
  local_segment : Int
  selector : Int
  origin : Int
  type : ExecStackType
deriving DecidableEq

/-- A loaded script as far as the interpreter reads it. -/
structure Script where
  nr : Int
  buf : BytePtr
  buf_size : Nat
  script_size : Nat
  objects : List Nat
  locals_segment : Nat
  locals_block : Option Nat
  lockers : Int
  markedAsDeleted : Bool
  export_table_offset : Int
  synonyms_offset : Int
  synonyms_nr : Int
deriving DecidableEq

/-- An entry of the class table: the script that defines the class and the
register of the class object (null while the script is not loaded). -/
structure Class where
  script : Int
  reg : reg_t
deriving DecidableEq

/-- A memory region owned by a segment. -/
inductive MemObject where
  | MEM_OBJ_SCRIPT (scr : Script)
  | MEM_OBJ_CLONES (table : List (Option Nat))
  | MEM_OBJ_LOCALS (blk : Nat)
  | MEM_OBJ_STACK
  | MEM_OBJ_DYNMEM
  | MEM_OBJ_OTHER
deriving DecidableEq

/-- The interpreter state: the fields of `EngineState` read or written by vm.cpp,
together with the global flags of that file. -/
structure EngineState where
  executionStack : List ExecStack
  execution_stack_base : Int
  executionStackPosChanged : Bool
  r_acc : reg_t
  r_prev : reg_t
  r_amp_rest : Int
  stack : List reg_t
  objects : List Object
  localsBlocks : List (List reg_t)
  heap : List (Option MemObject)
  stack_segment : Nat
  script_000 : Nat
  classtable : List Class
  flags : Nat
  version : Nat
  gameName : String
  gc_countdown : Int
  script_abort_flag : Int
  script_error_flag : Int
  script_debug_flag : Int
  script_step_counter : Int
  script_gc_interval : Int
  debug_step_running : Int
  debug_seeking : Int
  weak_validations : Int
  sci_debug_flags : Int
  breakpointFlag : Bool
  dummy_register : reg_t
deriving DecidableEq

/-- The code buffer the interpreter reads opcodes from: the buffer of a script, or
the two-byte `_fake_return_buffer`. -/
inductive CodeBuf where
  | script (buf : BytePtr)
  | fake
deriving DecidableEq

/-- The local variables of `run_vm` that live across loop iterations.  `xs` and
`xs_new` point to frames of the execution stack; the four-element arrays are
indexed by the variable type (global, local, temp, param). -/
structure VMLocals where
  xs : Nat
  xs_new : Option Nat
  restadjust : Int
  obj : Option Nat
  local_script : Option Script
  old_execution_stack_base : Int
  code_buf : CodeBuf
  code_buf_size : Nat
  variables_ : List Ptr
  variables_base : List Ptr
  variables_seg : List Nat
  variables_max : List Int
  opparams : List Int
deriving DecidableEq

/-- The operand formats of `g_opcode_formats`. -/
inductive opcode_format where
  | Script_Invalid
  | Script_None
  | Script_Byte
  | Script_SByte
  | Script_Word
  | Script_SWord
  | Script_Variable
  | Script_SVariable
  | Script_SRelative
  | Script_Property
  | Script_Global
  | Script_Local
  | Script_Temp
  | Script_Param
  | Script_Offset
  | Script_End
deriving DecidableEq

/-- An entry of the kernel function table: an optional signature and the native
callback, which receives the state, the function number, the argument count and
the argument pointer and returns the new accumulator. -/
structure KFunc where
  signature : Option Nat
  func : EngineState → Int → Int → Ptr → Option (reg_t × EngineState)

/-- Constants, macros and tables that vm.cpp takes from headers and from the
segment manager. -/
structure Env where
  mem : Int → Nat
  SCRIPT_SELECTOR_OFFSET : Int
  SCRIPT_SPECIES_SELECTOR : Nat
  SCRIPT_SUPERCLASS_SELECTOR : Nat
  SCRIPT_INFO_SELECTOR : Nat
  SCRIPT_INFO_CLASS : Nat
  SCRIPT_OBJECT_MAGIC_OFFSET : Int
  GF_SCI0_OLD : Nat
  SCI_VERSION_1_1 : Nat
  funcselector : Nat → BytePtr → Int → Int
  read_function : Nat → reg_t → BytePtr → Int → Int → reg_t
  RAW_IS_OBJECT : Script → Nat → Bool
  RAW_GET_CLASS_INDEX : Script → reg_t → Int
  selector_breakpoint : EngineState → reg_t → Int → Bool
  SCRIPT_GET_LOAD : Nat
  SCRIPT_GET_LOCK : Nat
  segGet : EngineState → Int → Int
  script_instantiate : EngineState → Int → Int × EngineState
  g_opcode_formats : Nat → Nat → opcode_format
  script_debug : EngineState → VMLocals → EngineState × VMLocals
  kfuncTable : List KFunc
  kernel_matches_signature : EngineState → Nat → Int → Ptr → Bool
  run_gc : EngineState → EngineState
  validateExportFunc : EngineState → Int → Int → Int
  export_breakpoint : EngineState → Int → Int → Bool
  GF_SCI1_LOFSABSOLUTE : Nat
  VM_STACK_SIZE : Int
  SIZEOF_REG_T : Nat

/-- The marker `SCI_XS_CALLEE_LOCALS`. -/
def SCI_XS_CALLEE_LOCALS : Int := -1

/-- The selector value `NULL_SELECTOR`. -/
def NULL_SELECTOR : Int := -1

/-- Result kinds of `lookup_selector`. -/
inductive SelectorType where
  | kSelectorNone
  | kSelectorVariable
  | kSelectorMethod
deriving DecidableEq

export SelectorType (kSelectorNone kSelectorVariable kSelectorMethod)

/-! ## Memory access -/

/-- The macro `READ_LE_UINT16(p)`: the little-endian 16 bit word at address `p`. -/
def READ_LE_UINT16 (E : Env) (p : BytePtr) : Nat :=
  E.mem p % 256 + 256 * (E.mem (p + 1) % 256)

/-- Element `xs[i]` of a `Common::Array` or C array, for a signed index. -/
def idx {α : Type} (xs : List α) (i : Int) : Option α :=
  if 0 ≤ i then xs[i.toNat]? else none

/-- Assignment `xs[i] = v`; no result when the index is out of range. -/
def setIdx {α : Type} (xs : List α) (i : Int) (v : α) : Option (List α) :=
  if 0 ≤ i ∧ i.toNat < xs.length then some (xs.set i.toNat v) else none

/-- Dereference `*p` of a `reg_t *`. -/
def load (s : EngineState) : Ptr → Option reg_t
  | Ptr.null => none
  | Ptr.stack i => idx s.stack i
  | Ptr.prop o i => (s.objects[o]?).bind (fun ob => idx ob._variables i)
  | Ptr.locals b i => (s.localsBlocks[b]?).bind (fun l => idx l i)

/-- Assignment `*p = v` through a `reg_t *`. -/
def store (s : EngineState) (p : Ptr) (v : reg_t) : Option EngineState :=
  match p with
  | Ptr.null => none
  | Ptr.stack i => (setIdx s.stack i v).map (fun st => { s with stack := st })
  | Ptr.prop o i =>
    (s.objects[o]?).bind (fun ob =>
      (setIdx ob._variables i v).map (fun vs =>
        { s with objects := s.objects.set o { ob with _variables := vs } }))
  | Ptr.locals b i =>
    (s.localsBlocks[b]?).bind (fun l =>
      (setIdx l i v).map (fun l2 => { s with localsBlocks := s.localsBlocks.set b l2 }))

/-! ## Validation helpers -/

/-- The statement `script_debug_flag = script_error_flag = 1`. -/
def setError (s : EngineState) : EngineState :=
  { s with script_debug_flag := 1, script_error_flag := 1 }

/-- The function `script_error`: reports, raises both flags, returns 0. -/
def script_error (s : EngineState) : EngineState := setError s

/-- The function `validate_arithmetic`: the offset of a plain register; for a
pointer the result is 0 and, unless weak validations are on, the flags are raised. -/
def validate_arithmetic (s : EngineState) (reg : reg_t) : Int × EngineState :=
  if reg.segment ≠ 0 then
    (0, if s.weak_validations = 0 then setError s else s)
  else (reg.offset, s)

/-- The function `signed_validate_arithmetic`: as `validate_arithmetic`, with the
offset read as a signed 16 bit number. -/
def signed_validate_arithmetic (s : EngineState) (reg : reg_t) : Int × EngineState :=
  if reg.segment ≠ 0 then
    (0, if s.weak_validations = 0 then setError s else s)
  else if reg.offset / 32768 % 2 = 1 then ((reg.offset : Int) - 65536, s)
  else (reg.offset, s)

/-- The function `validate_stack_addr`: a pointer inside `[stack_base, stack_top)`
is returned as it is; any other pointer raises the flags and yields null. -/
def validate_stack_addr (s : EngineState) (sp : Ptr) : Ptr × EngineState :=
  match sp with
  | Ptr.stack i => if 0 ≤ i ∧ i < s.stack.length then (sp, s) else (Ptr.null, setError s)
  | _ => (Ptr.null, setError s)

/-! ## Objects and selector lookup -/

/-- The macro `GET_OBJECT_SEGMENT`: the region of a segment when it is a script
or a clone table. -/
def GET_OBJECT_SEGMENT (s : EngineState) (seg : Nat) : Option MemObject :=
  if 0 < seg then
    match s.heap[seg]? with
    | some (some (MemObject.MEM_OBJ_SCRIPT scr)) => some (MemObject.MEM_OBJ_SCRIPT scr)
    | some (some (MemObject.MEM_OBJ_CLONES t)) => some (MemObject.MEM_OBJ_CLONES t)
    | _ => none
  else none

/-- The function `obj_get`: the object a register refers to, if any. -/
def obj_get (E : Env) (s : EngineState) (offset : reg_t) : Option Nat :=
  match GET_OBJECT_SEGMENT s offset.segment with
  | some (MemObject.MEM_OBJ_CLONES ct) =>
    match ct[offset.offset]? with
    | some (some o) => some o
    | _ => none
  | some (MemObject.MEM_OBJ_SCRIPT scr) =>
    if offset.offset ≤ scr.buf_size ∧ (offset.offset : Int) ≥ -E.SCRIPT_OBJECT_MAGIC_OFFSET
        ∧ E.RAW_IS_OBJECT scr offset.offset = true then
      idx scr.objects (E.RAW_GET_CLASS_INDEX scr offset)
    else none
  | _ => none

/-- The macro `IS_CLASS(obj)`: the class bit of the info selector. -/
def IS_CLASS (E : Env) (obj : Object) : Option Bool :=
  (obj._variables[E.SCRIPT_INFO_SELECTOR]?).map
    (fun r => decide (r.offset &&& E.SCRIPT_INFO_CLASS ≠ 0))

/-- The scan `for (i = 0; i < varnum; i++) if (READ_LE_UINT16(buf + (i << 1)) == slc) return i`
shared by the two branches of `_obj_locate_varselector`; `n` counts the remaining
iterations and the result is -1 when no entry matches. -/
def scanVarselector (E : Env) (buf : BytePtr) (slc : Int) : Nat → Int → Int
  | 0, _ => -1
  | n + 1, i => if (READ_LE_UINT16 E (buf + 2 * i) : Int) = slc then i
      else scanVarselector E buf slc n (i + 1)

/-- The function `_obj_locate_varselector`: the index of `slc` among the variable
selectors of `obj`, or -1.  In the older dialects the call also stores the table
address in `obj->base_vars`. -/
def _obj_locate_varselector (E : Env) (s : EngineState) (o : Nat) (slc : Int) :
    Option (Int × EngineState) :=
  match s.objects[o]? with
  | none => none
  | some obj =>
    if s.version < E.SCI_VERSION_1_1 then
      let varnum := obj.variable_names_nr
      let selector_name_offset := varnum * 2 + E.SCRIPT_SELECTOR_OFFSET
      let buf := obj.base_obj + selector_name_offset
      let s1 := { s with objects := s.objects.set o { obj with base_vars := buf } }
      some (scanVarselector E buf slc varnum.toNat 0, s1)
    else
      match obj._variables[1]?, obj._variables[E.SCRIPT_INFO_SELECTOR]? with
      | some v1, some info =>
        let varnum : Int := v1.offset
        if info.offset &&& E.SCRIPT_INFO_CLASS = 0 then
          match obj._variables[E.SCRIPT_SUPERCLASS_SELECTOR]? with
          | none => none
          | some sup =>
            match (obj_get E s sup).bind (fun p => s.objects[p]?) with
            | none => none
            | some sobj => some (scanVarselector E sobj.base_vars slc varnum.toNat 0, s)
        else some (scanVarselector E obj.base_vars slc varnum.toNat 0, s)
      | _, _ => none

/-- The macro `VM_OBJECT_GET_FUNCSELECTOR(obj, i)`: the selector id of entry `i` of
the method table of `obj`, read through `obj->base_method` by `Env.funcselector`. -/
def VM_OBJECT_GET_FUNCSELECTOR (E : Env) (s : EngineState) (obj : Object) (i : Int) : Int :=
  E.funcselector s.version obj.base_method i

/-- The macro `VM_OBJECT_READ_FUNCTION(obj, i)`: the code address of entry `i` of the
method table of `obj`, read by `Env.read_function`. -/
def VM_OBJECT_READ_FUNCTION (E : Env) (s : EngineState) (obj : Object) (i : Int) : reg_t :=
  E.read_function s.version obj.pos obj.base_method obj.methods_nr i

/-- The scan of `_class_locate_funcselector`, `n` iterations from index `i`. -/
def scanFuncselector (E : Env) (s : EngineState) (obj : Object) (slc : Int) : Nat → Int → Int
  | 0, _ => -1
  | n + 1, i => if VM_OBJECT_GET_FUNCSELECTOR E s obj i = slc then i
      else scanFuncselector E s obj slc n (i + 1)

/-- The function `_class_locate_funcselector`: the index of `slc` in the method
table of `obj` itself, or -1; superclasses are not consulted. -/
def _class_locate_funcselector (E : Env) (s : EngineState) (obj : Object) (slc : Int) : Int :=
  scanFuncselector E s obj slc obj.methods_nr.toNat 0

/-- The loop of `_lookup_selector_function`, bounded by `fuel` iterations; `none`
stands for a walk that does not come to an end (or an out-of-range superclass slot). -/
def lookupFunctionLoop (E : Env) (s : EngineState) (selector_id : Int) :
    Nat → Option Nat → Option (SelectorType × Option reg_t)
  | _, none => some (kSelectorNone, none)
  | 0, some _ => none
  | fuel + 1, some o =>
    match s.objects[o]? with
    | none => none
    | some obj =>
      let index := _class_locate_funcselector E s obj selector_id
      if index ≥ 0 then
        some (kSelectorMethod, some (VM_OBJECT_READ_FUNCTION E s obj index))
      else
        match obj._variables[E.SCRIPT_SUPERCLASS_SELECTOR]? with
        | none => none
        | some sup => lookupFunctionLoop E s selector_id fuel (obj_get E s sup)

/-- The function `_lookup_selector_function`: walks the superclass chain from `obj`.
A walk longer than the object pool has entered a cycle and never ends, so the
pool size bounds the iterations of every walk that ends. -/
def _lookup_selector_function (E : Env) (s : EngineState) (obj : Option Nat) (selector_id : Int) :
    Option (SelectorType × Option reg_t) :=
  lookupFunctionLoop E s selector_id (s.objects.length + 1) obj

/-- What `lookup_selector` hands back: the kind, `*vptr` and `*fptr`. -/
structure LookupResult where
  kind : SelectorType
  vptr : Option Ptr
  fptr : Option reg_t
deriving DecidableEq

/-- The statement `if (s->flags & GF_SCI0_OLD) selector_id &= ~1`: the selector id
that the lookup works with. -/
def selectorKey (E : Env) (s : EngineState) (selector_id : Int) : Int :=
  if s.flags &&& E.GF_SCI0_OLD ≠ 0 then selector_id - selector_id % 2 else selector_id

/-- The function `lookup_selector`. -/
def lookup_selector (E : Env) (s : EngineState) (obj_location : reg_t) (selector_id : Int) :
    Option (LookupResult × EngineState) :=
  let selector_id := selectorKey E s selector_id
  match obj_get E s obj_location with
  | none => some (⟨kSelectorNone, none, none⟩, script_error s)
  | some o =>
    match s.objects[o]? with
    | none => none
    | some obj =>
      match IS_CLASS E obj with
      | none => none
      | some cls =>
        if cls = false ∧ obj._variables[E.SCRIPT_SPECIES_SELECTOR]? = none then none
        else
          match _obj_locate_varselector E s o selector_id with
          | none => none
          | some (index, s1) =>
            if index ≥ 0 then
              if index.toNat < obj._variables.length then
                some (⟨kSelectorVariable, some (Ptr.prop o index), none⟩, s1)
              else none
            else
              (_lookup_selector_function E s1 (some o) selector_id).map
                (fun r => (⟨r.1, none, r.2⟩, s1))

/-! ## The execution stack -/

/-- The call `s->_executionStack.size()`. -/
def esSize (s : EngineState) : Int := s.executionStack.length

/-- The function `add_exec_stack_entry`: writes the argument count into the zeroth
argument slot and pushes a CALL frame. -/
def add_exec_stack_entry (s : EngineState) (pc : reg_t) (sp : Ptr) (objp : reg_t) (argc : Int)
    (argp : Ptr) (selector : Int) (sendp : reg_t) (origin : Int) (locals_segment : Int) :
    Option EngineState :=
  let xstack : ExecStack :=
    { objp := objp,
      local_segment := if locals_segment ≠ SCI_XS_CALLEE_LOCALS then locals_segment
        else pc.segment,
      sendp := sendp,
      addr_pc := pc,
      addr_varp := Ptr.null,
      fp := sp,
      sp := sp,
      argc := argc,
      variables_argp := argp,
      selector := selector,
      origin := origin,
      type := EXEC_STACK_TYPE_CALL }
  (store s argp (make_reg 0 argc)).map
    (fun s1 => { s1 with executionStack := xstack :: s1.executionStack })

/-- The function `add_exec_stack_varselector`: pushes a frame through
`add_exec_stack_entry`, then stores the slot address and marks the frame as a
pending variable access. -/
def add_exec_stack_varselector (s : EngineState) (objp : reg_t) (argc : Int) (argp : Ptr)
    (selector : Int) (address : Ptr) (origin : Int) : Option EngineState :=
  match add_exec_stack_entry s NULL_REG address objp argc argp selector objp origin
      SCI_XS_CALLEE_LOCALS with
  | none => none
  | some s1 =>
    match s1.executionStack with
    | [] => none
    | xstack :: rest =>
      some { s1 with executionStack :=
        { xstack with addr_varp := address, type := EXEC_STACK_TYPE_VARSELECTOR } :: rest }

/-- One pending access of a VARSELECTOR frame, as performed by `_exec_varselectors`
and by `ret`: a write of argument 1 when `argc` is non-zero, a read into the
accumulator otherwise. -/
def execVarselector (s : EngineState) (xs : ExecStack) : Option EngineState :=
  if xs.argc ≠ 0 then
    (load s (xs.variables_argp.add 1)).bind (fun v => store s xs.addr_varp v)
  else
    (load s xs.addr_varp).map (fun v => { s with r_acc := v })

/-- The loop of `_exec_varselectors`; every iteration pops a frame, so the number
of frames bounds the iterations. -/
def execVarselectorsLoop : Nat → EngineState → Option EngineState
  | 0, s => some s
  | n + 1, s =>
    match s.executionStack with
    | [] => some s
    | xs :: _ =>
      if xs.type = EXEC_STACK_TYPE_VARSELECTOR then
        match execVarselector s xs with
        | none => none
        | some s1 =>
          execVarselectorsLoop n { s1 with executionStack := s1.executionStack.tail }
      else some s

/-- The function `_exec_varselectors`: executes all varselector read/write ops on
the top of the execution stack. -/
def _exec_varselectors (s : EngineState) : Option EngineState :=
  execVarselectorsLoop s.executionStack.length s

/-! ## Selector dispatch -/

/-- An entry of the `sendCalls` stack. -/
structure CallsStruct where
  address_func : reg_t
  address_var : Ptr
  argp : Ptr
  argc : Int
  selector : Int
  sp : Ptr
  type : ExecStackType
deriving DecidableEq

/-- The first loop of `send_selector`, walking the send frame.  The result is
`none` when a dereference fails, `some (none, s)` when the function returns NULL
because of an oversized argument count, and otherwise the `sendCalls` stack (top
first).  Every iteration lowers `framesize` by at least 2, which `fuel` bounds. -/
def sendLoop (E : Env) (send_obj : reg_t) :
    Nat → EngineState → Ptr → Int → Ptr → List CallsStruct →
      Option (Option (List CallsStruct) × EngineState)
  | fuel, s, sp, framesize, argp, sendCalls =>
    if framesize > 0 then
      match fuel with
      | 0 => none
      | fuel + 1 =>
        match load s argp, load s (argp.add 1) with
        | some r0, some r1 =>
          let (selector, s) := validate_arithmetic s r0
          let argp := argp.add 1
          let (argc, s) := validate_arithmetic s r1
          if argc > 0x800 then some (none, script_error s)
          else
            let s := if E.selector_breakpoint s send_obj selector = true then
              { s with script_debug_flag := 1, breakpointFlag := true } else s
            match lookup_selector E s send_obj selector with
            | none => none
            | some (res, s) =>
              match res.kind, res.vptr, res.fptr with
              | kSelectorNone, _, _ =>
                let s := if s.gameName = "LSL6" ∧ selector = 0x18c then s else setError s
                sendLoop E send_obj fuel s sp (framesize - (2 + argc)) (argp.add (argc + 1))
                  sendCalls
              | kSelectorVariable, some varp, _ =>
                let call : CallsStruct :=
                  { address_func := NULL_REG, address_var := varp, argp := argp, argc := argc,
                    selector := selector, sp := Ptr.null,
                    type := EXEC_STACK_TYPE_VARSELECTOR }
                sendLoop E send_obj fuel s sp (framesize - (2 + argc)) (argp.add (argc + 1))
                  (call :: sendCalls)
              | kSelectorMethod, _, some funcp =>
                let call : CallsStruct :=
                  { address_func := funcp, address_var := Ptr.null, argp := argp, argc := argc,
                    selector := selector, sp := sp, type := EXEC_STACK_TYPE_CALL }
                sendLoop E send_obj fuel s CALL_SP_CARRY (framesize - (2 + argc))
                  (argp.add (argc + 1)) (call :: sendCalls)
              | _, _, _ => none
        | _, _ => none
    else some (some sendCalls, s)

/-- The second loop of `send_selector`: pops the registered calls and pushes a
frame for each. -/
def pushCalls (send_obj work_obj : reg_t) (origin : Int) :
    List CallsStruct → EngineState → Option EngineState
  | [], s => some s
  | call :: rest, s =>
    let r :=
      if call.type = EXEC_STACK_TYPE_VARSELECTOR then
        add_exec_stack_varselector s work_obj call.argc call.argp call.selector
          call.address_var origin
      else
        add_exec_stack_entry s call.address_func call.sp work_obj call.argc call.argp
          call.selector send_obj origin SCI_XS_CALLEE_LOCALS
    match r with
    | none => none
    | some s1 => pushCalls send_obj work_obj origin rest s1

/-- The function `send_selector`.  The returned frame pointer is `none` for NULL
and otherwise the index of the top frame. -/
def send_selector (E : Env) (s : EngineState) (send_obj work_obj : reg_t) (sp : Ptr)
    (framesize : Int) (argp : Ptr) : Option (Option Nat × EngineState) :=
  let origin := esSize s - 1
  match sendLoop E send_obj framesize.toNat s sp framesize argp [] with
  | none => none
  | some (none, s1) => some (none, s1)
  | some (some sendCalls, s1) =>
    match pushCalls send_obj work_obj origin sendCalls s1 with
    | none => none
    | some s2 =>
      match _exec_varselectors s2 with
      | none => none
      | some s3 =>
        if s3.executionStack.isEmpty then some (none, s3)
        else some (some (s3.executionStack.length - 1), s3)

/-! ## The interpreter: local state and stack macros -/

/-- The frame a frame pointer refers to. -/
def getFrame (s : EngineState) (i : Nat) : Option ExecStack :=
  if i < s.executionStack.length then s.executionStack[s.executionStack.length - 1 - i]?
  else none

/-- The execution stack with the frame at frame pointer `i` replaced. -/
def replaceFrame (es : List ExecStack) (i : Nat) (f : ExecStack) : List ExecStack :=
  es.set (es.length - 1 - i) f

/-- Assignment to the frame a frame pointer refers to. -/
def setFrame (s : EngineState) (i : Nat) (f : ExecStack) : Option EngineState :=
  if i < s.executionStack.length then
    some { s with executionStack := replaceFrame s.executionStack i f }
  else none

/-- The macro `PUSH32(a)`: `*(validate_stack_addr(s, (xs->sp)++)) = (a)`. -/
def PUSH32 (L : VMLocals) (s : EngineState) (a : reg_t) : Option EngineState :=
  match getFrame s L.xs with
  | none => none
  | some f =>
    let (p, s1) := validate_stack_addr s f.sp
    match setFrame s1 L.xs { f with sp := f.sp.add 1 } with
    | none => none
    | some s2 => store s2 p a

/-- The macro `POP32()`: `*(validate_stack_addr(s, --(xs->sp)))`. -/
def POP32 (L : VMLocals) (s : EngineState) : Option (reg_t × EngineState) :=
  match getFrame s L.xs with
  | none => none
  | some f =>
    match setFrame s L.xs { f with sp := f.sp.add (-1) } with
    | none => none
    | some s1 =>
      let (p, s2) := validate_stack_addr s1 (f.sp.add (-1))
      (load s2 p).map (fun v => (v, s2))

/-- The macro `PUSH(v)`: `PUSH32(make_reg(0, v))`. -/
def PUSH (L : VMLocals) (s : EngineState) (v : Int) : Option EngineState :=
  PUSH32 L s (make_reg 0 v)

/-- The macro `POP()`: `validate_arithmetic(POP32())`. -/
def POP (L : VMLocals) (s : EngineState) : Option (Int × EngineState) :=
  (POP32 L s).map (fun r => validate_arithmetic r.2 r.1)

/-- What one pass through the body of the interpreter loop leads to: the next
iteration, the end of `run_vm` by a hard return (with the locals as they are at
that moment), or its end by the abort flag. -/
inductive Outcome where
  | next (L : VMLocals) (s : EngineState)
  | hardReturn (L : VMLocals) (s : EngineState)
  | aborted (s : EngineState)
deriving DecidableEq

/-! ## The interpreter: arithmetic -/

/-- The case `0x04` (div) of the opcode switch. -/
def case_div (L : VMLocals) (s : EngineState) : Option Outcome :=
  let (aux, s1) := signed_validate_arithmetic s s.r_acc
  let aux_acc := i16 aux
  if aux_acc ≠ 0 then
    (POP L s1).map (fun r =>
      Outcome.next L { r.2 with r_acc := make_reg 0 (i16 (Int.tdiv (i16 r.1) aux_acc)) })
  else some (Outcome.next L { s1 with r_acc := make_reg 0 (i16 0) })

/-- The case `0x05` (mod) of the opcode switch. -/
def case_mod (L : VMLocals) (s : EngineState) : Option Outcome :=
  let (aux, s1) := signed_validate_arithmetic s s.r_acc
  let aux_acc := i16 aux
  if aux_acc ≠ 0 then
    (POP L s1).map (fun r =>
      Outcome.next L { r.2 with r_acc := make_reg 0 (i16 (Int.tmod (i16 r.1) aux_acc)) })
  else some (Outcome.next L { s1 with r_acc := make_reg 0 (i16 0) })

/-- The case `0x1a` (ldi). -/
def case_ldi (L : VMLocals) (s : EngineState) (opparams0 : Int) : Option Outcome :=
  some (Outcome.next L { s with r_acc := make_reg 0 opparams0 })

/-- The case `0x1b` (push). -/
def case_push (L : VMLocals) (s : EngineState) : Option Outcome :=
  (PUSH32 L s s.r_acc).map (Outcome.next L)

/-- The case `0x1c` (pushi). -/
def case_pushi (L : VMLocals) (s : EngineState) (opparams0 : Int) : Option Outcome :=
  (PUSH L s opparams0).map (Outcome.next L)

/-- Operand `opparams[i]` of the current instruction. -/
def opparam (L : VMLocals) (i : Nat) : Int := (L.opparams[i]?).getD 0

/-- An update of the frame `xs` points to. -/
def modXs (L : VMLocals) (s : EngineState) (f : ExecStack → ExecStack) : Option EngineState :=
  match getFrame s L.xs with
  | none => none
  | some x => setFrame s L.xs (f x)

/-- The macro `GET_SEGMENT_ANY`: the region of a segment of any kind. -/
def GET_SEGMENT_ANY (s : EngineState) (seg : Nat) : Option MemObject :=
  if 0 < seg then (s.heap[seg]?).join else none

/-- The function `pointer_add`. -/
def pointer_add (s : EngineState) (base : reg_t) (offset : Int) : reg_t × EngineState :=
  match GET_SEGMENT_ANY s base.segment with
  | none => (NULL_REG, setError s)
  | some (MemObject.MEM_OBJ_LOCALS _) => ({ base with offset := u16 (base.offset + 2 * offset) }, s)
  | some (MemObject.MEM_OBJ_SCRIPT _) => ({ base with offset := u16 (base.offset + offset) }, s)
  | some MemObject.MEM_OBJ_STACK => ({ base with offset := u16 (base.offset + offset) }, s)
  | some MemObject.MEM_OBJ_DYNMEM => ({ base with offset := u16 (base.offset + offset) }, s)
  | some _ => (NULL_REG, s)

/-- The case `0x00` (bnot). -/
def case_bnot (L : VMLocals) (s : EngineState) : Option Outcome :=
  let (v, s1) := validate_arithmetic s s.r_acc
  some (Outcome.next L { s1 with r_acc := make_reg 0 (Nat.xor 0xffff v.toNat) })

/-- The cases `0x01` (add, `sign = 1`) and `0x02` (sub, `sign = -1`). -/
def case_addsub (L : VMLocals) (s : EngineState) (sign : Int) : Option Outcome :=
  match POP32 L s with
  | none => none
  | some (r_temp, s1) =>
    if r_temp.segment ≠ 0 ∨ s1.r_acc.segment ≠ 0 then
      let (r_ptr, offset, s2) : reg_t × Int × EngineState :=
        if s1.r_acc.segment ≠ 0 then
          if r_temp.segment ≠ 0 then (NULL_REG, 0, setError s1)
          else (s1.r_acc, r_temp.offset, s1)
        else (r_temp, s1.r_acc.offset, s1)
      let (r, s3) := pointer_add s2 r_ptr (sign * offset)
      some (Outcome.next L { s3 with r_acc := r })
    else
      some (Outcome.next L
        { s1 with r_acc := make_reg 0 (r_temp.offset + sign * s1.r_acc.offset) })

/-- A binary operator of the shape `ACC_ARITHMETIC_L(f(POP(), acc))`; `prev` tells
whether the accumulator is first copied to `r_prev` (the comparisons). -/
def case_binary (L : VMLocals) (s : EngineState) (prev : Bool) (f : Int → Int → Int) :
    Option Outcome :=
  let s0 := if prev then { s with r_prev := s.r_acc } else s
  match POP L s0 with
  | none => none
  | some (a, s1) =>
    let (v, s2) := validate_arithmetic s1 s1.r_acc
    some (Outcome.next L { s2 with r_acc := make_reg 0 (f a v) })

/-- The cases `0x06` (shr) and `0x07` (shl), `ACC_ARITHMETIC_L(((uint16)POP()) >> acc)`
and its mirror image: the popped value is shifted as an `int`, so a count of 32 or
more has no defined result. -/
def case_shift (L : VMLocals) (s : EngineState) (f : Nat → Nat → Nat) : Option Outcome :=
  if (validate_arithmetic s s.r_acc).1 ≥ 32 then none
  else case_binary L s false (fun a v => (f (u16 a) v.toNat : Nat))

/-- The case `0x0b` (neg). -/
def case_neg (L : VMLocals) (s : EngineState) : Option Outcome :=
  let (v, s1) := validate_arithmetic s s.r_acc
  some (Outcome.next L { s1 with r_acc := make_reg 0 (-v) })

/-- The case `0x0c` (not). -/
def case_not (L : VMLocals) (s : EngineState) : Option Outcome :=
  some (Outcome.next L
    { s with r_acc := make_reg 0 (if s.r_acc.offset ≠ 0 ∨ s.r_acc.segment ≠ 0 then 0 else 1) })

/-- A comparison of whole registers: `eq?`, `ne?` and the unsigned comparisons, which
pop a register, copy the accumulator to `r_prev` and store a truth value. -/
def case_regcmp (L : VMLocals) (s : EngineState) (f : reg_t → reg_t → Bool) : Option Outcome :=
  match POP32 L { s with r_prev := s.r_acc } with
  | none => none
  | some (r_temp, s1) =>
    some (Outcome.next L { s1 with r_acc := make_reg 0 (if f r_temp s1.r_acc then 1 else 0) })

/-- The cases `0x17` (bt, `want = true`) and `0x18` (bnt, `want = false`). -/
def case_branch (L : VMLocals) (s : EngineState) (want : Bool) : Option Outcome :=
  if decide (s.r_acc.offset ≠ 0 ∨ s.r_acc.segment ≠ 0) = want then
    (modXs L s (fun x => { x with addr_pc :=
        { x.addr_pc with offset := u16 (x.addr_pc.offset + opparam L 0) } })).map (Outcome.next L)
  else some (Outcome.next L s)

/-- The case `0x19` (jmp). -/
def case_jmp (L : VMLocals) (s : EngineState) : Option Outcome :=
  (modXs L s (fun x => { x with addr_pc :=
      { x.addr_pc with offset := u16 (x.addr_pc.offset + opparam L 0) } })).map (Outcome.next L)

/-- The case `0x1d` (toss). -/
def case_toss (L : VMLocals) (s : EngineState) : Option Outcome :=
  (modXs L s (fun x => { x with sp := x.sp.add (-1) })).map (Outcome.next L)

/-- The case `0x1e` (dup). -/
def case_dup (L : VMLocals) (s : EngineState) : Option Outcome :=
  match getFrame s L.xs with
  | none => none
  | some x =>
    match load s (x.sp.add (-1)) with
    | none => none
    | some r_temp => (PUSH32 L s r_temp).map (Outcome.next L)

/-- The loop `for (i = 0; i < opparams[0]; i++) xs->sp[i] = NULL_REG` of link. -/
def linkLoop (sp : Ptr) : Nat → Int → EngineState → Option EngineState
  | 0, _, s => some s
  | n + 1, i, s =>
    match store s (sp.add i) NULL_REG with
    | none => none
    | some s1 => linkLoop sp n (i + 1) s1

/-- The case `0x1f` (link). -/
def case_link (L : VMLocals) (s : EngineState) : Option Outcome :=
  match getFrame s L.xs with
  | none => none
  | some x =>
    match linkLoop x.sp (opparam L 0).toNat 0 s with
    | none => none
    | some s1 =>
      (modXs L s1 (fun y => { y with sp := y.sp.add (opparam L 0) })).map (Outcome.next L)

/-- The case `0x20` (call). -/
def case_call (L : VMLocals) (s : EngineState) : Option Outcome :=
  match getFrame s L.xs with
  | none => none
  | some x =>
    let argc := (opparam L 1 >>> 1) + 1 + L.restadjust
    let call_base := x.sp.add (-argc)
    match load s (x.sp.add 1) with
    | none => none
    | some r =>
      match store s (x.sp.add 1) { r with offset := u16 (r.offset + L.restadjust) } with
      | none => none
      | some s1 =>
        match load s1 call_base with
        | none => none
        | some cb =>
          let (n, s2) := validate_arithmetic s1 cb
          match add_exec_stack_entry s2
              (make_reg x.addr_pc.segment (x.addr_pc.offset + opparam L 0)) x.sp x.objp
              (n + L.restadjust) call_base NULL_SELECTOR x.objp (esSize s2 - 1)
              x.local_segment with
          | none => none
          | some s3 =>
            match modXs L s3 (fun y => { y with sp := call_base }) with
            | none => none
            | some s4 =>
              some (Outcome.next
                { L with xs_new := some (s3.executionStack.length - 1), restadjust := 0 }
                { s4 with executionStackPosChanged := true })

/-- The function `gc_countdown`. -/
def gc_countdown (E : Env) (s : EngineState) : EngineState :=
  if s.gc_countdown ≤ 0 then
    E.run_gc { s with gc_countdown := s.script_gc_interval }
  else { s with gc_countdown := s.gc_countdown - 1 }

/-- The kernel call of callk: a signature that does not match raises the error
flags, otherwise the function runs and its result becomes the accumulator. -/
def callKernel (E : Env) (kf : KFunc) (s : EngineState) (n argc : Int) (argp : Ptr) :
    Option EngineState :=
  match kf.signature with
  | some sig =>
    if E.kernel_matches_signature s sig argc argp = false then some (setError s)
    else (kf.func s n argc argp).map (fun p => { p.2 with r_acc := p.1 })
  | none => (kf.func s n argc argp).map (fun p => { p.2 with r_acc := p.1 })

/-- The case `0x21` (callk) behind its first statement `gc_countdown(s)`: the stack
pointer is moved below the call block and the kernel function is called. -/
def callkBody (E : Env) (L : VMLocals) (s1 : EngineState) : Option Outcome :=
  let old := decide (s1.flags &&& E.GF_SCI0_OLD ≠ 0)
  match modXs L s1 (fun x => { x with sp :=
      (x.sp.add (-((opparam L 1 >>> 1) + 1))).add (if old then 0 else -L.restadjust) }) with
  | none => none
  | some s2 =>
    let s3 := if old then s2 else { s2 with r_amp_rest := 0 }
    if opparam L 0 ≥ E.kfuncTable.length then some (Outcome.next L (setError s3))
    else
      match idx E.kfuncTable (opparam L 0), getFrame s3 L.xs with
      | some kf, some x =>
        match load s3 x.sp with
        | none => none
        | some r0 =>
          let (a, s4) := validate_arithmetic s3 r0
          let argc := if old then a else a + L.restadjust
          match callKernel E kf s4 (opparam L 0) argc (x.sp.add 1) with
          | none => none
          | some s5 =>
            if s5.executionStack.isEmpty then none
            else
              some (Outcome.next
                { L with xs_new := some (s5.executionStack.length - 1),
                         restadjust := if s5.flags &&& E.GF_SCI0_OLD ≠ 0 then L.restadjust
                           else s5.r_amp_rest }
                { s5 with executionStackPosChanged := true })
      | _, _ => none

/-- The case `0x21` (callk): `gc_countdown(s)` runs first, then the call. -/
def case_callk (E : Env) (L : VMLocals) (s : EngineState) : Option Outcome :=
  callkBody E L (gc_countdown E s)

/-- The call `s->seg_manager->getScriptIfLoaded(seg)`. -/
def getScriptIfLoaded (s : EngineState) (seg : Int) : Option Script :=
  match idx s.heap seg with
  | some (some (MemObject.MEM_OBJ_SCRIPT scr)) => some scr
  | _ => none

/-- The call `scr->unmarkDeleted()` on the script of segment `seg`. -/
def unmarkDeleted (s : EngineState) (seg : Int) : EngineState :=
  match getScriptIfLoaded s seg with
  | some scr =>
    let scr2 : Script := { scr with markedAsDeleted := false }
    { s with heap := s.heap.set seg.toNat (some (MemObject.MEM_OBJ_SCRIPT scr2)) }
  | none => s

/-- The function `execute_method`; the result is the new frame pointer (`none` for
NULL) and the state. -/
def execute_method (E : Env) (s : EngineState) (script pubfunct : Int) (sp : Ptr)
    (calling_obj : reg_t) (argc : Int) (argp : Ptr) : Option (Option Nat × EngineState) :=
  let seg0 := E.segGet s script
  let (seg, s1) : Int × EngineState :=
    match getScriptIfLoaded s seg0 with
    | none => E.script_instantiate s script
    | some _ => (seg0, unmarkDeleted s seg0)
  let temp := E.validateExportFunc s1 pubfunct seg
  if temp = 0 then some (none, setError s1)
  else
    let s2 := if E.export_breakpoint s1 script pubfunct = true then
      { s1 with script_debug_flag := 1, breakpointFlag := true } else s1
    (add_exec_stack_entry s2 (make_reg seg temp) sp calling_obj argc argp (-1) calling_obj
      (esSize s2 - 1) seg).map (fun s3 => (some (s3.executionStack.length - 1), s3))

/-- The common body of the cases `0x22` (callb) and `0x23` (calle): `script` and
`pubfunct` name the exported function, `framesize` is the operand holding the size
of the argument block. -/
def case_calle (E : Env) (L : VMLocals) (s : EngineState) (script pubfunct framesize : Int) :
    Option Outcome :=
  match getFrame s L.xs with
  | none => none
  | some x =>
    let temp := (framesize >>> 1) + L.restadjust + 1
    let s_temp := x.sp
    let sp := x.sp.add (-temp)
    match setFrame s L.xs { x with sp := sp }, load s sp with
    | some s1, some r =>
      let r2 : reg_t := { r with offset := u16 (r.offset + L.restadjust) }
      match store s1 sp r2 with
      | none => none
      | some s2 =>
        match execute_method E s2 script pubfunct s_temp x.objp r2.offset sp with
        | none => none
        | some (xs_new, s3) =>
          some (Outcome.next { L with xs_new := xs_new, restadjust := 0 }
            (if xs_new ≠ none then { s3 with executionStackPosChanged := true } else s3))
    | _, _ => none

/-! ## The interpreter: calls, sends and returns -/

/-- The call `s->seg_manager->getScript(seg)->incrementLockers()`. -/
def incrementLockers (s : EngineState) (seg : Nat) : Option EngineState :=
  match s.heap[seg]? with
  | some (some (MemObject.MEM_OBJ_SCRIPT scr)) =>
    let scr2 : Script := { scr with lockers := scr.lockers + 1 }
    some { s with heap := s.heap.set seg (some (MemObject.MEM_OBJ_SCRIPT scr2)) }
  | _ => none

/-- The function `script_get_segment`. -/
def script_get_segment (E : Env) (s : EngineState) (script_nr : Int) (load : Nat) :
    Option (Int × EngineState) :=
  let s1 := if load &&& E.SCRIPT_GET_LOAD = E.SCRIPT_GET_LOAD then
    (E.script_instantiate s script_nr).2 else s
  let segment := E.segGet s1 script_nr
  if segment > 0 then
    if load &&& E.SCRIPT_GET_LOCK = E.SCRIPT_GET_LOCK then
      (incrementLockers s1 segment.toNat).map (fun s2 => (segment, s2))
    else some (segment, s1)
  else some (0, s1)

/-- The function `get_class_address`. -/
def get_class_address (E : Env) (s : EngineState) (classnr : Int) (lock : Nat) (caller : reg_t) :
    Option (reg_t × EngineState) :=
  match idx s.classtable classnr with
  | none => some (NULL_REG, setError s)
  | some the_class =>
    if the_class.script < 0 then some (NULL_REG, setError s)
    else if the_class.reg.segment = 0 then
      match script_get_segment E s the_class.script lock with
      | none => none
      | some (_, s1) =>
        match idx s1.classtable classnr with
        | none => none
        | some the_class =>
          if the_class.reg.segment = 0 then some (NULL_REG, setError s1)
          else some (the_class.reg, s1)
    else if caller.segment ≠ the_class.reg.segment then
      (incrementLockers s the_class.reg.segment).map (fun s1 => (the_class.reg, s1))
    else some (the_class.reg, s)

/-- The common body of the cases `0x25` (send), `0x2a` (self) and `0x2b` (super):
the stack pointer is moved below the send frame, the pending rest adjustment is
added to the argument count in the second slot, and `send_selector` is called. -/
def sendBody (E : Env) (L : VMLocals) (s : EngineState) (send_obj work_obj : reg_t)
    (opparam : Int) : Option Outcome :=
  match getFrame s L.xs with
  | none => none
  | some f =>
    let s_temp := f.sp
    let sp := f.sp.add (-((opparam >>> 1) + L.restadjust))
    match setFrame s L.xs { f with sp := sp } with
    | none => none
    | some s1 =>
      match load s1 (sp.add 1) with
      | none => none
      | some r =>
        match store s1 (sp.add 1) { r with offset := u16 (r.offset + L.restadjust) } with
        | none => none
        | some s2 =>
          match send_selector E s2 send_obj work_obj s_temp
              ((opparam >>> 1) + (u16 L.restadjust : Int)) sp with
          | none => none
          | some (xs_new, s3) =>
            let s4 := if xs_new ≠ none ∧ xs_new ≠ some L.xs then
              { s3 with executionStackPosChanged := true } else s3
            some (Outcome.next { L with xs_new := xs_new, restadjust := 0 } s4)

/-- The case `0x25` (send): the receiver is the accumulator. -/
def case_send (E : Env) (L : VMLocals) (s : EngineState) (opparams0 : Int) : Option Outcome :=
  sendBody E L s s.r_acc s.r_acc opparams0

/-- The case `0x2a` (self): the receiver is the current object. -/
def case_self (E : Env) (L : VMLocals) (s : EngineState) (opparams0 : Int) : Option Outcome :=
  match getFrame s L.xs with
  | none => none
  | some f => sendBody E L s f.objp f.objp opparams0

/-- The case `0x2b` (super): the receiver is the class `opparams[0]`, the work
object the current object. -/
def case_super (E : Env) (L : VMLocals) (s : EngineState) (opparams0 opparams1 : Int) :
    Option Outcome :=
  match getFrame s L.xs with
  | none => none
  | some f =>
    match get_class_address E s opparams0 E.SCRIPT_GET_LOAD f.addr_pc with
    | none => none
    | some (r_temp, s1) =>
      if r_temp.segment = 0 then some (Outcome.next L (script_error s1))
      else
        match getFrame s1 L.xs with
        | none => none
        | some f1 => sendBody E L s1 r_temp f1.objp opparams1

/-- The `do ... while` loop of the case `0x24` (ret); every iteration pops a frame. -/
def retLoop : Nat → VMLocals → EngineState → Option Outcome
  | 0, _, _ => none
  | n + 1, L, s =>
    match getFrame s L.xs, s.executionStack with
    | some xsf, old_xs :: rest =>
      let old_sp2 := xsf.sp
      let old_fp := xsf.fp
      if esSize s - 1 = s.execution_stack_base then
        some (Outcome.hardReturn L
          { s with execution_stack_base := L.old_execution_stack_base,
                   executionStack := rest,
                   executionStackPosChanged := true,
                   r_amp_rest := L.restadjust })
      else
        match (if old_xs.type = EXEC_STACK_TYPE_VARSELECTOR then execVarselector s old_xs
               else some s) with
        | none => none
        | some s1 =>
          match s1.executionStack.tail with
          | [] => none
          | top :: rest2 =>
            let top2 := if top.sp = CALL_SP_CARRY ∨ top.type ≠ EXEC_STACK_TYPE_CALL then
              { top with sp := old_sp2, fp := old_fp } else top
            let s3 := { s1 with executionStack := top2 :: rest2,
                                executionStackPosChanged := true }
            let L2 := { L with xs := rest2.length }
            if top2.type = EXEC_STACK_TYPE_VARSELECTOR then retLoop n L2 s3
            else some (Outcome.next { L2 with xs_new := some L2.xs } s3)
    | _, _ => none

/-- The case `0x24` (ret). -/
def case_ret (L : VMLocals) (s : EngineState) : Option Outcome :=
  retLoop s.executionStack.length L s

/-- The loop `for (; temp <= xs->argc; temp++) PUSH32(xs->variables_argp[temp])` of
the case `0x2c`, `n` iterations from `temp`. -/
def restLoop (L : VMLocals) : Nat → Int → EngineState → Option EngineState
  | 0, _, s => some s
  | n + 1, temp, s =>
    match getFrame s L.xs with
    | none => none
    | some f =>
      match load s (f.variables_argp.add temp) with
      | none => none
      | some v =>
        match PUSH32 L s v with
        | none => none
        | some s1 => restLoop L n (temp + 1) s1

/-- The case `0x2c` (&rest). -/
def case_rest (L : VMLocals) (s : EngineState) (opparams0 : Int) : Option Outcome :=
  match getFrame s L.xs with
  | none => none
  | some f =>
    let temp : Int := u16 opparams0
    let restadjust := f.argc - temp + 1
    let restadjust := if restadjust < 0 then 0 else restadjust
    (restLoop L (f.argc - temp + 1).toNat temp s).map
      (fun s1 => Outcome.next { L with restadjust := restadjust } s1)

/-! ## The interpreter: properties and variables -/

/-- The function `validate_property`: the slot `obj->_variables[index]`, or the
dummy register (reset to null, result `none`) for a null object or an index out of
range. -/
def validate_property (s : EngineState) (obj : Option Nat) (index : Int) :
    Option Ptr × EngineState :=
  match obj.bind (fun o => s.objects[o]?), obj with
  | some ob, some o =>
    if index < 0 ∨ index.toNat ≥ ob._variables.length then
      (none, { s with dummy_register := NULL_REG })
    else (some (Ptr.prop o index), s)
  | _, _ => (none, { s with dummy_register := NULL_REG })

/-- A read through the reference returned by `validate_property`. -/
def refRead (s : EngineState) : Option Ptr → Option reg_t
  | none => some s.dummy_register
  | some p => load s p

/-- A write through the reference returned by `validate_property`. -/
def refWrite (s : EngineState) (r : Option Ptr) (v : reg_t) : Option EngineState :=
  match r with
  | none => some { s with dummy_register := v }
  | some p => store s p v

/-- The case `0x31` (pToa). -/
def case_pToa (L : VMLocals) (s : EngineState) : Option Outcome :=
  let (r, s1) := validate_property s L.obj (opparam L 0 >>> 1)
  (refRead s1 r).map (fun v => Outcome.next L { s1 with r_acc := v })

/-- The case `0x32` (aTop). -/
def case_aTop (L : VMLocals) (s : EngineState) : Option Outcome :=
  let (r, s1) := validate_property s L.obj (opparam L 0 >>> 1)
  (refWrite s1 r s1.r_acc).map (Outcome.next L)

/-- The case `0x33` (pTos). -/
def case_pTos (L : VMLocals) (s : EngineState) : Option Outcome :=
  let (r, s1) := validate_property s L.obj (opparam L 0 >>> 1)
  match refRead s1 r with
  | none => none
  | some v => (PUSH32 L s1 v).map (Outcome.next L)

/-- The case `0x34` (sTop). -/
def case_sTop (L : VMLocals) (s : EngineState) : Option Outcome :=
  match POP32 L s with
  | none => none
  | some (v, s1) =>
    let (r, s2) := validate_property s1 L.obj (opparam L 0 >>> 1)
    (refWrite s2 r v).map (Outcome.next L)

/-- The cases `0x35` (ipToa, `d = 1`) and `0x36` (dpToa, `d = -1`). -/
def case_ipToa (L : VMLocals) (s : EngineState) (d : Int) : Option Outcome :=
  let (r, s1) := validate_property s L.obj (opparam L 0 >>> 1)
  match refRead s1 r with
  | none => none
  | some v =>
    let s2 := { s1 with r_acc := v }
    let (a, s3) := validate_arithmetic s2 s2.r_acc
    let (r2, s4) := validate_property s3 L.obj (opparam L 0 >>> 1)
    (refWrite s4 r2 (make_reg 0 (d + a))).map
      (fun s5 => Outcome.next L { s5 with r_acc := make_reg 0 (d + a) })

/-- The cases `0x37` (ipTos, `d = 1`) and `0x38` (dpTos, `d = -1`). -/
def case_ipTos (L : VMLocals) (s : EngineState) (d : Int) : Option Outcome :=
  let (r, s1) := validate_property s L.obj (opparam L 0 >>> 1)
  match refRead s1 r with
  | none => none
  | some v =>
    let (_, s2) := validate_arithmetic s1 v
    let (r2, s3) := validate_property s2 L.obj (opparam L 0 >>> 1)
    match refRead s3 r2 with
    | none => none
    | some w =>
      let temp := u16 (w.offset + d)
      match refWrite s3 r2 { w with offset := temp } with
      | none => none
      | some s4 => (PUSH L s4 temp).map (Outcome.next L)

/-- The case `0x28` (class). -/
def case_class (E : Env) (L : VMLocals) (s : EngineState) : Option Outcome :=
  match getFrame s L.xs with
  | none => none
  | some x =>
    (get_class_address E s (opparam L 0) E.SCRIPT_GET_LOCK x.addr_pc).map
      (fun p => Outcome.next L { p.2 with r_acc := p.1 })

/-- Pointer difference `p - q` of two `reg_t *` into the same region, as the
interpreter forms it for the stack and frame pointer of one frame and for a variable
pointer and the base of its block; two null pointers differ by 0.  Pointers into
different regions have no difference in C.  In vm.cpp both operands are always
taken from one region: `sp` and `fp` of a frame are stack pointers, and
`variables[i]` and `variables_base[i]` are assigned together; the last line stands
for states the interpreter does not build.  `validate_variable`, which compares a
block with the stack base, does not use this function. -/
def Ptr.diff : Ptr → Ptr → Int
  | Ptr.stack i, Ptr.stack j => i - j
  | Ptr.prop _ i, Ptr.prop _ j => i - j
  | Ptr.locals _ i, Ptr.locals _ j => i - j
  | _, _ => 0

/-- The case `0x2d` (lea). -/
def case_lea (E : Env) (L : VMLocals) (s : EngineState) : Option Outcome :=
  let temp : Nat := u16 (opparam L 0) / 2
  let var_number := temp % 4
  let seg := (L.variables_seg[var_number]?).getD 0
  let off0 : Int := ((L.variables_[var_number]?).getD Ptr.null).diff
    ((L.variables_base[var_number]?).getD Ptr.null)
  let (a, s1) : Int × EngineState :=
    if temp / 8 % 2 = 1 then signed_validate_arithmetic s s.r_acc else (0, s)
  let off1 := u16 ((u16 (u16 off0 + a) : Int) + opparam L 1)
  some (Outcome.next L { s1 with r_acc := ⟨seg, u16 (off1 * E.SIZEOF_REG_T)⟩ })

/-- The cases `0x39` (lofsa) and `0x3a` (lofss). -/
def case_lofs (E : Env) (L : VMLocals) (s : EngineState) (toStack : Bool) : Option Outcome :=
  match getFrame s L.xs with
  | none => none
  | some x =>
    let off : Option Nat :=
      if ¬ toStack ∧ s.version ≥ E.SCI_VERSION_1_1 then
        L.local_script.map (fun ls => u16 (opparam L 0 + ls.script_size))
      else if s.flags &&& E.GF_SCI1_LOFSABSOLUTE ≠ 0 then some (u16 (opparam L 0))
      else some (u16 (x.addr_pc.offset + opparam L 0))
    match off with
    | none => none
    | some o =>
      let r : reg_t := ⟨x.addr_pc.segment, o⟩
      let s1 := if o ≥ L.code_buf_size then setError s else s
      if toStack then (PUSH32 L s1 r).map (Outcome.next L)
      else some (Outcome.next L { s1 with r_acc := r })

/-- The function `validate_variable`: 0 grants the access, 1 denies it.  `STRICT_READ`
is undefined in vm.cpp, so an index out of range is reported and then granted,
except for a temporary or a parameter whose block does not lie within the stack:
`total_offset = r - stack_base` is the index of `r` when `r` points into the stack,
and a pointer that does not point into the stack is at no offset within
`[0, VM_STACK_SIZE)`. -/
def validate_variable (E : Env) (s : EngineState) (r : Ptr) (type : Nat) (max index : Int) :
    Int × EngineState :=
  if index < 0 ∨ index ≥ max then
    let s1 := if s.weak_validations = 0 then setError s else s
    if type = 3 ∨ type = 2 then
      match r with
      | Ptr.stack total_offset =>
        if total_offset < 0 ∨ total_offset ≥ E.VM_STACK_SIZE then (1, s1) else (0, s1)
      | _ => (1, s1)
    else (0, s1)
  else (0, s)

/-- The function `validate_read_var`. -/
def validate_read_var (E : Env) (s : EngineState) (r : Ptr) (type : Nat) (max index : Int)
    (default_value : reg_t) : Option (reg_t × EngineState) :=
  let (d, s1) := validate_variable E s r type max index
  if d = 0 then (load s1 (r.add index)).map (fun v => (v, s1))
  else some (default_value, s1)

/-- The function `validate_write_var`. -/
def validate_write_var (E : Env) (s : EngineState) (r : Ptr) (type : Nat) (max index : Int)
    (value : reg_t) : Option EngineState :=
  let (d, s1) := validate_variable E s r type max index
  if d = 0 then store s1 (r.add index) value else some s1

/-- The macro `READ_VAR(type, index, def)`. -/
def READ_VAR (E : Env) (L : VMLocals) (s : EngineState) (type : Nat) (index : Int)
    (default_value : reg_t) : Option (reg_t × EngineState) :=
  validate_read_var E s ((L.variables_[type]?).getD Ptr.null) type
    ((L.variables_max[type]?).getD 0) index default_value

/-- The macro `WRITE_VAR(type, index, value)`. -/
def WRITE_VAR (E : Env) (L : VMLocals) (s : EngineState) (type : Nat) (index : Int)
    (value : reg_t) : Option EngineState :=
  validate_write_var E s ((L.variables_[type]?).getD Ptr.null) type
    ((L.variables_max[type]?).getD 0) index value

/-- The index of a variable instruction: the operand, plus the signed accumulator
for the indexed forms. -/
def varIndex (L : VMLocals) (s : EngineState) (indexed : Bool) : Int × EngineState :=
  if indexed then
    let (a, s1) := signed_validate_arithmetic s s.r_acc
    (opparam L 0 + a, s1)
  else (opparam L 0, s)

/-- The cases `0x40` to `0x7f`: load, store, increment and decrement of a global,
local, temporary or parameter variable.  Bits 0-1 of the opcode number give the
variable type, bit 2 chooses the stack instead of the accumulator, bit 3 the
indexed form, bits 4-5 the operation. -/
def case_var (E : Env) (L : VMLocals) (s : EngineState) (opnumber : Nat) : Option Outcome :=
  let var_type := opnumber % 4
  let toStack := decide (opnumber / 4 % 2 = 1)
  let indexed := decide (opnumber / 8 % 2 = 1)
  let kind := opnumber / 16 % 4
  let (var_number, s1) := varIndex L s indexed
  if kind = 0 then
    match READ_VAR E L s1 var_type var_number s1.r_acc with
    | none => none
    | some (v, s2) =>
      if toStack then (PUSH32 L s2 v).map (Outcome.next L)
      else some (Outcome.next L { s2 with r_acc := v })
  else if kind = 1 then
    if toStack then
      match POP32 L s1 with
      | none => none
      | some (v, s2) => (WRITE_VAR E L s2 var_type var_number v).map (Outcome.next L)
    else if indexed then
      match POP32 L s1 with
      | none => none
      | some (v, s2) =>
        (WRITE_VAR E L { s2 with r_acc := v } var_type var_number v).map (Outcome.next L)
    else (WRITE_VAR E L s1 var_type var_number s1.r_acc).map (Outcome.next L)
  else
    let d : Int := if kind = 2 then 1 else -1
    match READ_VAR E L s1 var_type var_number s1.r_acc with
    | none => none
    | some (v, s2) =>
      let (a, s3) := validate_arithmetic s2 v
      let r_temp := make_reg 0 (d + a)
      if toStack then
        match PUSH32 L s3 r_temp with
        | none => none
        | some s4 => (WRITE_VAR E L s4 var_type var_number r_temp).map (Outcome.next L)
      else
        (WRITE_VAR E L { s3 with r_acc := r_temp } var_type var_number r_temp).map
          (Outcome.next L)

/-! ## The interpreter loop -/

/-- The byte `code_buf[offset]`; the fake return buffer holds `op_ret << 1` twice. -/
def codeByte (E : Env) (L : VMLocals) (offset : Nat) : Option Nat :=
  match L.code_buf with
  | CodeBuf.script buf => some (E.mem (buf + offset) % 256)
  | CodeBuf.fake => if offset < 2 then some (0x24 * 2) else none

/-- The macro `GET_OP_BYTE()`: the byte at the program counter, which advances. -/
def GET_OP_BYTE (E : Env) (L : VMLocals) (s : EngineState) : Option (Int × EngineState) :=
  match getFrame s L.xs with
  | none => none
  | some x =>
    match codeByte E L x.addr_pc.offset,
      setFrame s L.xs { x with addr_pc := { x.addr_pc with offset := u16 (x.addr_pc.offset + 1) } }
      with
    | some b, some s1 => some (b, s1)
    | _, _ => none

/-- The macro `GET_OP_WORD()`: the little-endian word at the program counter, which
advances by two. -/
def GET_OP_WORD (E : Env) (L : VMLocals) (s : EngineState) : Option (Int × EngineState) :=
  match getFrame s L.xs with
  | none => none
  | some x =>
    match codeByte E L x.addr_pc.offset, codeByte E L (x.addr_pc.offset + 1),
      setFrame s L.xs { x with addr_pc := { x.addr_pc with offset := u16 (x.addr_pc.offset + 2) } }
      with
    | some lo, some hi, some s1 => some ((lo + 256 * hi : Nat), s1)
    | _, _, _ => none

/-- Conversion of a byte to `int8`. -/
def i8 (x : Int) : Int := if x % 256 < 128 then x % 256 else x % 256 - 256

/-- One operand read according to its format; the result is stored as `int16`.
Formats without operand give `none` for the value; an invalid format raises the
error flags. -/
def fetchOperand (E : Env) (L : VMLocals) (s : EngineState) (opcode : Nat) :
    opcode_format → Option (Option Int × EngineState)
  | opcode_format.Script_Byte => (GET_OP_BYTE E L s).map (fun r => (some (i16 r.1), r.2))
  | opcode_format.Script_SByte => (GET_OP_BYTE E L s).map (fun r => (some (i8 r.1), r.2))
  | opcode_format.Script_Word => (GET_OP_WORD E L s).map (fun r => (some (i16 r.1), r.2))
  | opcode_format.Script_SWord => (GET_OP_WORD E L s).map (fun r => (some (i16 r.1), r.2))
  | opcode_format.Script_SVariable | opcode_format.Script_SRelative =>
    if opcode % 2 = 1 then (GET_OP_BYTE E L s).map (fun r => (some (i8 r.1), r.2))
    else (GET_OP_WORD E L s).map (fun r => (some (i16 r.1), r.2))
  | opcode_format.Script_None | opcode_format.Script_End => some (none, s)
  | opcode_format.Script_Invalid => some (none, setError s)
  | _ =>
    if opcode % 2 = 1 then (GET_OP_BYTE E L s).map (fun r => (some (i16 r.1), r.2))
    else (GET_OP_WORD E L s).map (fun r => (some (i16 r.1), r.2))

/-- The loop `for (temp = 0; g_opcode_formats[opnumber][temp]; temp++)`, which fills
`opparams`; the array has four entries, which bounds the loop. -/
def fetchOperands (E : Env) (opcode : Nat) :
    Nat → Nat → VMLocals → EngineState → Option (VMLocals × EngineState)
  | fuel, temp, L, s =>
    if E.g_opcode_formats (opcode / 2) temp = opcode_format.Script_None then some (L, s)
    else
      match fuel with
      | 0 => none
      | fuel + 1 =>
        match fetchOperand E L s opcode (E.g_opcode_formats (opcode / 2) temp) with
        | none => none
        | some (none, s1) => fetchOperands E opcode fuel (temp + 1) L s1
        | some (some v, s1) =>
          fetchOperands E opcode fuel (temp + 1) { L with opparams := L.opparams.set temp v } s1

/-- The call `script_locate_by_segment(s, seg)`. -/
def script_locate_by_segment (s : EngineState) (seg : Int) : Option Script :=
  getScriptIfLoaded s seg

/-- The block `if (s->_executionStackPosChanged) { ... }` at the top of the loop:
the locals are set up for the frame on top of the execution stack. -/
def posChangedInit (E : Env) (L : VMLocals) (s : EngineState) :
    Option (VMLocals × EngineState) :=
  match s.executionStack with
  | [] => none
  | x :: rest =>
    let L1 := { L with xs := rest.length }
    let s1 := { s with executionStackPosChanged := false }
    match script_locate_by_segment s1 x.addr_pc.segment with
    | none =>
      some ({ L1 with code_buf := CodeBuf.fake, code_buf_size := 2, obj := none },
        { s1 with executionStack := { x with addr_pc := { x.addr_pc with offset := 1 } } :: rest })
    | some scr =>
      let L2 := { L1 with obj := obj_get E s1 x.objp, code_buf := CodeBuf.script scr.buf,
                          code_buf_size := scr.buf_size,
                          local_script := script_locate_by_segment s1 x.local_segment }
      let L3 : VMLocals :=
        match L2.local_script with
        | none =>
          { L2 with variables_base := L2.variables_base.set 1 Ptr.null,
                    variables_ := L2.variables_.set 1 Ptr.null,
                    variables_max := L2.variables_max.set 1 0 }
        | some ls =>
          let p : Ptr := match ls.locals_block with
            | some b => Ptr.locals b 0
            | none => Ptr.null
          let n : Int := match ls.locals_block with
            | some b => ((s1.localsBlocks[b]?).getD []).length
            | none => 0
          { L2 with variables_seg := L2.variables_seg.set 1 ls.locals_segment,
                    variables_base := L2.variables_base.set 1 p,
                    variables_ := L2.variables_.set 1 p,
                    variables_max := ((L2.variables_max.set 1 n).set 2 (x.sp.diff x.fp)).set 3
                      (x.argc + 1) }
      some ({ L3 with variables_ := (L3.variables_.set 2 x.fp).set 3 x.variables_argp }, s1)

/-- The switch over the opcode number. -/
def execOpcode (E : Env) (L : VMLocals) (s : EngineState) (opnumber : Nat) : Option Outcome :=
  if opnumber = 0x00 then case_bnot L s
  else if opnumber = 0x01 then case_addsub L s 1
  else if opnumber = 0x02 then case_addsub L s (-1)
  else if opnumber = 0x03 then case_binary L s false (fun a v => i16 a * i16 v)
  else if opnumber = 0x04 then case_div L s
  else if opnumber = 0x05 then case_mod L s
  else if opnumber = 0x06 then case_shift L s (fun a v => a >>> v)
  else if opnumber = 0x07 then case_shift L s (fun a v => a <<< v)
  else if opnumber = 0x08 then case_binary L s false (fun a v => (Nat.xor a.toNat v.toNat : Nat))
  else if opnumber = 0x09 then case_binary L s false (fun a v => (Nat.land a.toNat v.toNat : Nat))
  else if opnumber = 0x0a then case_binary L s false (fun a v => (Nat.lor a.toNat v.toNat : Nat))
  else if opnumber = 0x0b then case_neg L s
  else if opnumber = 0x0c then case_not L s
  else if opnumber = 0x0d then case_regcmp L s (fun a b => decide (a = b))
  else if opnumber = 0x0e then case_regcmp L s (fun a b => decide (a ≠ b))
  else if opnumber = 0x0f then
    case_binary L s true (fun a v => if i16 a > i16 v then 1 else 0)
  else if opnumber = 0x10 then
    case_binary L s true (fun a v => if i16 a ≥ i16 v then 1 else 0)
  else if opnumber = 0x11 then
    case_binary L s true (fun a v => if i16 a < i16 v then 1 else 0)
  else if opnumber = 0x12 then
    case_binary L s true (fun a v => if i16 a ≤ i16 v then 1 else 0)
  else if opnumber = 0x13 then
    case_regcmp L s (fun a b => decide (a.segment = b.segment ∧ a.offset > b.offset))
  else if opnumber = 0x14 then
    case_regcmp L s (fun a b => decide (a.segment = b.segment ∧ a.offset ≥ b.offset))
  else if opnumber = 0x15 then
    case_regcmp L s (fun a b => decide (a.segment = b.segment ∧ a.offset < b.offset))
  else if opnumber = 0x16 then
    case_regcmp L s (fun a b => decide (a.segment = b.segment ∧ a.offset ≤ b.offset))
  else if opnumber = 0x17 then case_branch L s true
  else if opnumber = 0x18 then case_branch L s false
  else if opnumber = 0x19 then case_jmp L s
  else if opnumber = 0x1a then case_ldi L s (opparam L 0)
  else if opnumber = 0x1b then case_push L s
  else if opnumber = 0x1c then case_pushi L s (opparam L 0)
  else if opnumber = 0x1d then case_toss L s
  else if opnumber = 0x1e then case_dup L s
  else if opnumber = 0x1f then case_link L s
  else if opnumber = 0x20 then case_call L s
  else if opnumber = 0x21 then case_callk E L s
  else if opnumber = 0x22 then case_calle E L s 0 (opparam L 0) (opparam L 1)
  else if opnumber = 0x23 then case_calle E L s (opparam L 0) (opparam L 1) (opparam L 2)
  else if opnumber = 0x24 then case_ret L s
  else if opnumber = 0x25 then case_send E L s (opparam L 0)
  else if opnumber = 0x28 then case_class E L s
  else if opnumber = 0x2a then case_self E L s (opparam L 0)
  else if opnumber = 0x2b then case_super E L s (opparam L 0) (opparam L 1)
  else if opnumber = 0x2c then case_rest L s (opparam L 0)
  else if opnumber = 0x2d then case_lea E L s
  else if opnumber = 0x2e then
    (getFrame s L.xs).map (fun x => Outcome.next L { s with r_acc := x.objp })
  else if opnumber = 0x30 then (PUSH32 L s s.r_prev).map (Outcome.next L)
  else if opnumber = 0x31 then case_pToa L s
  else if opnumber = 0x32 then case_aTop L s
  else if opnumber = 0x33 then case_pTos L s
  else if opnumber = 0x34 then case_sTop L s
  else if opnumber = 0x35 then case_ipToa L s 1
  else if opnumber = 0x36 then case_ipToa L s (-1)
  else if opnumber = 0x37 then case_ipTos L s 1
  else if opnumber = 0x38 then case_ipTos L s (-1)
  else if opnumber = 0x39 then case_lofs E L s false
  else if opnumber = 0x3a then case_lofs E L s true
  else if opnumber = 0x3b then (PUSH L s 0).map (Outcome.next L)
  else if opnumber = 0x3c then (PUSH L s 1).map (Outcome.next L)
  else if opnumber = 0x3d then (PUSH L s 2).map (Outcome.next L)
  else if opnumber = 0x3e then
    (getFrame s L.xs).bind (fun x => (PUSH32 L s x.objp).map (Outcome.next L))
  else if 0x40 ≤ opnumber ∧ opnumber ≤ 0x7f then case_var E L s opnumber
  else some (Outcome.next L (script_error s))

/-- The end of the loop body: `xs` follows a changed stack position, and an error
flagged by the instruction restores the saved program counter offset and stack
pointer of the frame `xs` then points to. -/
def endOfInstruction (L : VMLocals) (s : EngineState) (old_pc_offset : Nat) (old_sp : Ptr) :
    Option Outcome :=
  let xs : Option Nat := if s.executionStackPosChanged then L.xs_new else some L.xs
  match xs with
  | none => none
  | some i =>
    let L1 := { L with xs := i }
    if s.script_error_flag ≠ 0 then
      (modXs L1 { s with debug_step_running := 0, debug_seeking := 0 }
        (fun x => { x with addr_pc := { x.addr_pc with offset := old_pc_offset },
                           sp := old_sp })).map (Outcome.next L1)
    else some (Outcome.next L1 { s with script_step_counter := s.script_step_counter + 1 })

/-- The debugger hook of the loop body: with a debug flag set, `script_debug` runs
with access to the state and to the locals `restadjust` and `variables*`, and the
breakpoint flag is cleared. -/
def debugHook (E : Env) (L : VMLocals) (s : EngineState) : EngineState × VMLocals :=
  if s.script_debug_flag ≠ 0 ∨ s.sci_debug_flags ≠ 0 then
    let r := E.script_debug s L
    ({ r.1 with breakpointFlag := false },
     { L with restadjust := r.2.restadjust, variables_ := r.2.variables_,
              variables_base := r.2.variables_base, variables_seg := r.2.variables_seg,
              variables_max := r.2.variables_max })
  else (s, L)

/-- One iteration of the loop `while (1)` of `run_vm`. -/
def vmStep (E : Env) (L : VMLocals) (s : EngineState) : Option Outcome :=
  match getFrame s L.xs with
  | none => none
  | some x0 =>
    let old_pc_offset := x0.addr_pc.offset
    let old_sp := x0.sp
    match (if s.executionStackPosChanged then posChangedInit E L s else some (L, s)) with
    | none => none
    | some (L1, s1) =>
      let s2 := { s1 with script_error_flag := 0 }
      if s2.script_abort_flag ≠ 0 then some (Outcome.aborted s2)
      else
        let (s3, L3) := debugHook E L1 s2
        match getFrame s3 L3.xs with
        | none => none
        | some x =>
          let s4 := if x.sp.diff x.fp < 0 then script_error s3 else s3
          let L4 := { L3 with variables_max := L3.variables_max.set 2 (x.sp.diff x.fp) }
          let s5 := if x.addr_pc.offset ≥ L4.code_buf_size then script_error s4 else s4
          match GET_OP_BYTE E L4 s5 with
          | none => none
          | some (opcode, s6) =>
            match fetchOperands E opcode.toNat 4 0 L4 s6 with
            | none => none
            | some (L5, s7) =>
              match execOpcode E L5 s7 (opcode.toNat / 2) with
              | none => none
              | some (Outcome.next L6 s8) => endOfInstruction L6 s8 old_pc_offset old_sp
              | some r => some r

/-- How an invocation of `run_vm` ends: by a failed dereference, by running out of
the iterations granted, by the early return for a missing local script, by the
abort flag, or by a hard return (recorded with the value the local `restadjust`
has at that moment). -/
inductive RunResult where
  | crash
  | timeout
  | astray (s : EngineState)
  | aborted (s : EngineState)
  | hardReturn (restadjust : Int) (s : EngineState)
deriving DecidableEq

/-- The loop `while (1)` of `run_vm`, cut off after `fuel` iterations. -/
def runLoop (E : Env) : Nat → VMLocals → EngineState → RunResult
  | 0, _, _ => RunResult.timeout
  | fuel + 1, L, s =>
    match vmStep E L s with
    | none => RunResult.crash
    | some (Outcome.next L1 s1) => runLoop E fuel L1 s1
    | some (Outcome.hardReturn L1 s1) => RunResult.hardReturn L1.restadjust s1
    | some (Outcome.aborted s1) => RunResult.aborted s1

/-- The function `run_vm`, with its loop cut off after `fuel` iterations. -/
def run_vm (E : Env) (fuel : Nat) (s : EngineState) (restoring : Int) : RunResult :=
  match s.executionStack with
  | [] => RunResult.crash
  | x :: rest =>
    match script_locate_by_segment s x.local_segment with
    | none => RunResult.astray (script_error s)
    | some ls =>
      match getScriptIfLoaded s s.script_000 with
      | none => RunResult.crash
      | some s000 =>
        let s1 := if restoring = 0 then { s with execution_stack_base := esSize s - 1 } else s
        let g : Ptr := match s000.locals_block with
          | some b => Ptr.locals b 0
          | none => Ptr.null
        let gmax : Int := match s000.locals_block with
          | some b => ((s1.localsBlocks[b]?).getD []).length
          | none => 0
        let L : VMLocals :=
          { xs := rest.length, xs_new := none, restadjust := s.r_amp_rest,
            obj := obj_get E s x.objp, local_script := some ls,
            old_execution_stack_base := s.execution_stack_base,
            code_buf := CodeBuf.fake, code_buf_size := 0,
            variables_ := [g, Ptr.null, Ptr.null, Ptr.null],
            variables_base := [g, Ptr.null, Ptr.stack 0, Ptr.stack 0],
            variables_seg := [s000.locals_segment, 0, s.stack_segment, s.stack_segment],
            variables_max := [gmax, 0, 0, 0],
            opparams := [0, 0, 0, 0] }
        runLoop E fuel L { s1 with executionStackPosChanged := true }

/-- The first `n` iterations of the interpreter loop, as long as it goes on. -/
def vmSteps (E : Env) : Nat → VMLocals → EngineState → Option Outcome
  | 0, L, s => some (Outcome.next L s)
  | n + 1, L, s =>
    match vmStep E L s with
    | some (Outcome.next L1 s1) => vmSteps E n L1 s1
    | r => r

/-! ## The script loader -/

/-- The resource types the loader asks the resource manager for. -/
inductive ResourceType where
  | kResourceTypeScript
  | kResourceTypeHeap
deriving DecidableEq

/-- A resource as the loader reads it: `data` and `size`. -/
structure Resource where
  data : List Nat
  size : Nat
deriving DecidableEq

/-- What the loader of vm.cpp takes from the resource manager, from the segment
manager and from the script headers: the lookup of resources, the operations on
script segments, the locker decrement of `Script`, the block types of a script
resource and the offsets of the species and superclass words of an object. -/
structure Loader where
  findResource : ResourceType → Int → Option Resource
  allocateScript : EngineState → Int → Option (Int × EngineState)
  initialiseScript : EngineState → Int → Int → EngineState
  freeScript : EngineState → Int → EngineState
  mcpyInOut : EngineState → Int → Int → List Nat → Nat → EngineState
  getHeap : EngineState → Int → Int → Int
  scriptInitialiseLocalsZero : EngineState → Int → Int → EngineState
  scriptInitialiseLocals : EngineState → reg_t → EngineState
  scriptAddCodeBlock : EngineState → reg_t → EngineState
  scriptObjInit : EngineState → reg_t → Option (Nat × EngineState)
  scriptRelocate : EngineState → reg_t → EngineState
  scriptRelocateExportsSci11 : EngineState → Int → EngineState
  scriptInitialiseObjectsSci11 : EngineState → Int → EngineState
  heapRelocate : EngineState → reg_t → EngineState
  decrementLockers : Int → Int
  SCI_OBJ_OBJECT : Int
  SCI_OBJ_CODE : Int
  SCI_OBJ_SYNONYMS : Int
  SCI_OBJ_CLASS : Int
  SCI_OBJ_EXPORTS : Int
  SCI_OBJ_POINTERS : Int
  SCI_OBJ_LOCALVARS : Int
  SCRIPT_SPECIES_OFFSET : Int
  SCRIPT_SUPERCLASS_OFFSET : Int

/-- The little-endian word at offset `off` of the bytes of a resource. -/
def readLE16 (data : List Nat) (off : Nat) : Option Nat :=
  match data[off]?, data[off + 1]? with
  | some lo, some hi => some (lo % 256 + 256 * (hi % 256))
  | _, _ => none

/-- An update through the pointer `getScript(seg)`; without a script in the segment
there is no result. -/
def modScript (s : EngineState) (seg : Int) (f : Script → Script) : Option EngineState :=
  match getScriptIfLoaded s seg with
  | some scr =>
    some { s with heap := s.heap.set seg.toNat (some (MemObject.MEM_OBJ_SCRIPT (f scr))) }
  | none => none

/-- What `script_instantiate_common` hands back: the segment id and, through its
pointer arguments, the two resources and `was_new`. -/
structure InstCommon where
  seg_id : Int
  script : Option Resource
  heap : Option Resource
  was_new : Bool
deriving DecidableEq

/-- The end of `script_instantiate_common`, from `initialiseScript` on. -/
def instantiateFresh (Ld : Loader) (s : EngineState) (seg_id script_nr : Int)
    (script heap : Option Resource) : Option (InstCommon × EngineState) :=
  (modScript (Ld.initialiseScript s seg_id script_nr) seg_id
    (fun c => { c with lockers := 1, export_table_offset := 0, synonyms_offset := 0,
                       synonyms_nr := 0 })).map
    (fun s1 => (⟨seg_id, script, heap, false⟩, s1))

/-- The function `script_instantiate_common`; `heapArg` tells whether the argument
`heap` is a pointer (SCI1.1 loader) or NULL (SCI0 loader).  Storing the heap
resource through a NULL `heap` has no result. -/
def script_instantiate_common (E : Env) (Ld : Loader) (s : EngineState) (script_nr : Int)
    (heapArg : Bool) : Option (InstCommon × EngineState) :=
  let script := Ld.findResource ResourceType.kResourceTypeScript script_nr
  if s.version ≥ E.SCI_VERSION_1_1 ∧ heapArg = false then none
  else
    let heap := if s.version ≥ E.SCI_VERSION_1_1 then
      Ld.findResource ResourceType.kResourceTypeHeap script_nr else none
    if script = none ∨ (s.version ≥ E.SCI_VERSION_1_1 ∧ heapArg = false) then
      some (⟨0, script, heap, true⟩, s)
    else
      let seg_id := E.segGet s script_nr
      match script_locate_by_segment s seg_id with
      | some scr =>
        if scr.markedAsDeleted = false then
          (modScript s seg_id (fun c => { c with lockers := c.lockers + 1 })).map
            (fun s1 => (⟨seg_id, script, heap, true⟩, s1))
        else instantiateFresh Ld (Ld.freeScript s seg_id) seg_id script_nr script heap
      | none =>
        match Ld.allocateScript s script_nr with
        | none => some (⟨0, script, heap, true⟩, setError s)
        | some (seg, s1) => instantiateFresh Ld s1 seg script_nr script heap

/-- The first pass of `script_instantiate_sci0` over the blocks of the script,
`fuel` iterations at most: export table, synonyms, local variables and the
registration of classes.  The result is `some (some v, s)` when the pass returns
`v` from the loader and `some (none, s)` when it comes to the end of the blocks. -/
def firstPass (E : Env) (Ld : Loader) (script_nr seg : Int) :
    Nat → Nat → Int → EngineState → Option (Option Int × EngineState)
  | 0, _, _, _ => none
  | fuel + 1, offset, objlength, s =>
    let offset := u16 (offset + objlength)
    let objtype := Ld.getHeap s seg offset
    if objtype = 0 then some (none, s)
    else
      let objlength := Ld.getHeap s seg (u16 (offset + 2))
      let data_base := make_reg seg (offset + 4)
      if objtype = Ld.SCI_OBJ_EXPORTS then
        match modScript s seg (fun c => { c with export_table_offset := data_base.offset }) with
        | none => none
        | some s1 => firstPass E Ld script_nr seg fuel offset objlength s1
      else if objtype = Ld.SCI_OBJ_SYNONYMS then
        match modScript s seg (fun c => { c with synonyms_offset := data_base.offset,
                                                 synonyms_nr := objlength % 4294967296 / 4 }) with
        | none => none
        | some s1 => firstPass E Ld script_nr seg fuel offset objlength s1
      else if objtype = Ld.SCI_OBJ_LOCALVARS then
        firstPass E Ld script_nr seg fuel offset objlength (Ld.scriptInitialiseLocals s data_base)
      else if objtype = Ld.SCI_OBJ_CLASS then
        let classpos := data_base.offset - E.SCRIPT_OBJECT_MAGIC_OFFSET
        let species := Ld.getHeap s seg
          (u16 (data_base.offset - E.SCRIPT_OBJECT_MAGIC_OFFSET + Ld.SCRIPT_SPECIES_OFFSET))
        if species < 0 ∨ species ≥ s.classtable.length then some (some 1, setError s)
        else
          let entry : Class := { script := script_nr, reg := ⟨data_base.segment, u16 classpos⟩ }
          firstPass E Ld script_nr seg fuel offset objlength
            { s with classtable := s.classtable.set species.toNat entry }
      else firstPass E Ld script_nr seg fuel offset objlength s

/-- The macro `INST_LOOKUP_CLASS(id)`; `reg` is the position the loader has
reached. -/
def INST_LOOKUP_CLASS (E : Env) (s : EngineState) (id : Nat) (reg : reg_t) :
    Option (reg_t × EngineState) :=
  if id = 0xffff then some (NULL_REG, s)
  else get_class_address E s id E.SCRIPT_GET_LOCK reg

/-- An update of the object with pool index `o`. -/
def modObject (s : EngineState) (o : Nat) (f : Object → Object) : Option EngineState :=
  (s.objects[o]?).map (fun ob => { s with objects := s.objects.set o (f ob) })

/-- The assignment `obj->_variables[i] = v`. -/
def setObjectVariable (s : EngineState) (o i : Nat) (v : reg_t) : Option EngineState :=
  match s.objects[o]? with
  | none => none
  | some ob =>
    if i < ob._variables.length then
      some { s with objects := s.objects.set o { ob with _variables := ob._variables.set i v } }
    else none

/-- The linking of one object or class in the second pass: species and superclass
numbers are replaced by class addresses, and the selector table of the species
class is taken over. -/
def linkObject (E : Env) (s : EngineState) (o : Nat) (reg : reg_t) : Option EngineState :=
  match (s.objects[o]?).bind (fun ob => ob._variables[E.SCRIPT_SPECIES_SELECTOR]?) with
  | none => none
  | some species =>
    match INST_LOOKUP_CLASS E s species.offset reg with
    | none => none
    | some (r1, s1) =>
      match setObjectVariable s1 o E.SCRIPT_SPECIES_SELECTOR r1 with
      | none => none
      | some s2 =>
        match (obj_get E s2 r1).bind (fun b => s2.objects[b]?) with
        | none => none
        | some base_obj =>
          match modObject s2 o (fun ob => { ob with
              variable_names_nr := base_obj._variables.length,
              base_obj := base_obj.base_obj }) with
          | none => none
          | some s3 =>
            match (s3.objects[o]?).bind
                (fun ob => ob._variables[E.SCRIPT_SUPERCLASS_SELECTOR]?) with
            | none => none
            | some sup =>
              match INST_LOOKUP_CLASS E s3 sup.offset reg with
              | none => none
              | some (r2, s4) => setObjectVariable s4 o E.SCRIPT_SUPERCLASS_SELECTOR r2

/-- The second pass of `script_instantiate_sci0`, `fuel` iterations at most: code
blocks, objects and classes, and the position of the relocation table, which is
the result together with the state. -/
def secondPass (E : Env) (Ld : Loader) (seg : Int) (size : Nat) :
    Nat → Nat → Int → Int → EngineState → Option (Int × EngineState)
  | 0, _, _, _, _ => none
  | fuel + 1, offset, objlength, relocation, s =>
    let offset := u16 (offset + objlength)
    let objtype := Ld.getHeap s seg offset
    if objtype = 0 then some (relocation, s)
    else
      let objlength := Ld.getHeap s seg (u16 (offset + 2))
      let addr := make_reg seg (offset + 4)
      let r : Option (Int × EngineState) :=
        if objtype = Ld.SCI_OBJ_CODE then some (relocation, Ld.scriptAddCodeBlock s addr)
        else if objtype = Ld.SCI_OBJ_OBJECT ∨ objtype = Ld.SCI_OBJ_CLASS then
          match Ld.scriptObjInit s addr with
          | none => none
          | some (o, s1) => (linkObject E s1 o addr).map (fun s2 => (relocation, s2))
        else if objtype = Ld.SCI_OBJ_POINTERS then some (addr.offset, s)
        else some (relocation, s)
      match r with
      | none => none
      | some (relocation, s1) =>
        let offset := u16 ((addr.offset : Int) - 4)
        if (offset : Int) < (size : Int) - 2 then
          secondPass E Ld seg size fuel offset objlength relocation s1
        else some (relocation, s1)

/-- The function `script_instantiate_sci0`, its two loops cut off after `fuel`
iterations each. -/
def script_instantiate_sci0 (E : Env) (Ld : Loader) (fuel : Nat) (s : EngineState)
    (script_nr : Int) : Option (Int × EngineState) :=
  match script_instantiate_common E Ld s script_nr false with
  | none => none
  | some (c, s1) =>
    if c.was_new then some (c.seg_id, s1)
    else
      match c.script, getScriptIfLoaded s1 c.seg_id with
      | some script, some _ =>
        let copied := Ld.mcpyInOut s1 c.seg_id 0 script.data script.size
        let start : Option (Nat × EngineState) :=
          if s1.flags &&& E.GF_SCI0_OLD ≠ 0 then
            (readLE16 script.data 0).map (fun locals_nr =>
              (2, if locals_nr ≠ 0 then
                    Ld.scriptInitialiseLocalsZero copied (u16 c.seg_id) locals_nr
                  else copied))
          else some (0, copied)
        match start with
        | none => none
        | some (magic_pos_adder, s2) =>
          match firstPass E Ld script_nr c.seg_id fuel magic_pos_adder 0 s2 with
          | none => none
          | some (some v, s3) => some (v, s3)
          | some (none, s3) =>
            match secondPass E Ld c.seg_id script.size fuel magic_pos_adder 0 (-1) s3 with
            | none => none
            | some (relocation, s4) =>
              some ((u16 c.seg_id : Int),
                if relocation ≥ 0 then Ld.scriptRelocate s4 (make_reg c.seg_id relocation)
                else s4)
      | _, _ => none

/-- The function `script_instantiate_sci11`.  Without a heap resource the copy of
`heap->data` has no result. -/
def script_instantiate_sci11 (E : Env) (Ld : Loader) (s : EngineState) (script_nr : Int) :
    Option (Int × EngineState) :=
  match script_instantiate_common E Ld s script_nr true with
  | none => none
  | some (c, s1) =>
    if c.was_new then some (c.seg_id, s1)
    else
      match getScriptIfLoaded s1 c.seg_id, c.script, c.heap with
      | some _, some script, some heap =>
        let heap_start := if script.size &&& 2 ≠ 0 then script.size + 1 else script.size
        let s2 := Ld.mcpyInOut s1 c.seg_id 0 script.data script.size
        let s3 := Ld.mcpyInOut s2 c.seg_id heap_start heap.data heap.size
        match readLE16 script.data 6, readLE16 heap.data 0 with
        | some exports, some relocs =>
          let s4 := if exports > 0 then
            modScript s3 c.seg_id (fun x => { x with export_table_offset := 6 }) else some s3
          s4.map (fun s4 =>
            (c.seg_id,
              Ld.heapRelocate
                (Ld.scriptInitialiseObjectsSci11
                  (Ld.scriptRelocateExportsSci11
                    (Ld.scriptInitialiseLocals s4 (make_reg c.seg_id (heap_start + 4)))
                    c.seg_id)
                  c.seg_id)
                (make_reg c.seg_id relocs)))
        | _, _ => none
      | _, _, _ => none

/-- The function `script_instantiate`. -/
def script_instantiate (E : Env) (Ld : Loader) (fuel : Nat) (s : EngineState)
    (script_nr : Int) : Option (Int × EngineState) :=
  if s.version ≥ E.SCI_VERSION_1_1 then script_instantiate_sci11 E Ld s script_nr
  else script_instantiate_sci0 E Ld fuel s script_nr

/-- The statement `if (s->_classtable[i].reg.segment == seg) s->_classtable[i].reg = NULL_REG`
for one entry of the class table. -/
def freeClassEntry (seg : Nat) (c : Class) : Class :=
  if c.reg.segment = seg then { c with reg := NULL_REG } else c

/-- The loop of `script_uninstantiate_sci0` over the blocks of the script in
segment `seg`, `fuel` iterations at most; `recur` is the function
`script_uninstantiate` for the calls on other scripts.  Next to the state the
result lists the segments whose class-table references were freed on the way. -/
def uninstantiateLoop (E : Env) (Ld : Loader)
    (recur : EngineState → Int → Option (List Nat × EngineState)) (script_nr : Int) (seg : Nat) :
    Nat → Nat → Int → EngineState → Option (List Nat × EngineState)
  | 0, _, _, _ => none
  | fuel + 1, offset, objlength, s =>
    let offset := u16 (offset + objlength)
    let objtype := Ld.getHeap s seg offset
    if objtype = 0 then some ([], s)
    else
      let objlength := Ld.getHeap s seg (u16 (offset + 2))
      let header := u16 (offset + 4)
      if objtype = Ld.SCI_OBJ_OBJECT ∨ objtype = Ld.SCI_OBJ_CLASS then
        let object := u16 (header - E.SCRIPT_OBJECT_MAGIC_OFFSET)
        let superclass := Ld.getHeap s seg (u16 (object + Ld.SCRIPT_SUPERCLASS_OFFSET))
        let r : Option (List Nat × EngineState) :=
          if superclass ≥ 0 then
            match idx s.classtable superclass with
            | none => none
            | some c =>
              if c.script = script_nr then
                match getScriptIfLoaded s seg with
                | none => none
                | some scr =>
                  if scr.lockers ≠ 0 then
                    (modScript s seg (fun x =>
                      { x with lockers := Ld.decrementLockers x.lockers })).map
                      (fun s1 => ([], s1))
                  else some ([], s)
              else recur s c.script
          else some ([], s)
        match r with
        | none => none
        | some (freed, s1) =>
          match uninstantiateLoop E Ld recur script_nr seg fuel
              (u16 ((u16 (object + E.SCRIPT_OBJECT_MAGIC_OFFSET) : Int) - 4)) objlength s1 with
          | none => none
          | some (freed2, s2) => some (freed ++ freed2, s2)
      else
        uninstantiateLoop E Ld recur script_nr seg fuel (u16 ((header : Int) - 4)) objlength s

/-- The function `script_uninstantiate_sci0`; `recur` is `script_uninstantiate`. -/
def script_uninstantiate_sci0 (E : Env) (Ld : Loader)
    (recur : EngineState → Int → Option (List Nat × EngineState)) (fuel : Nat)
    (s : EngineState) (script_nr : Int) (seg : Nat) : Option (List Nat × EngineState) :=
  uninstantiateLoop E Ld recur script_nr seg fuel
    (if s.flags &&& E.GF_SCI0_OLD ≠ 0 then 2 else 0) 0 s

/-- The function `script_uninstantiate`; `fuel` bounds the depth of the recursion
and the iterations of the loop of `script_uninstantiate_sci0`.  Next to the state
the result lists the segments whose class-table references the call has freed,
this script's segment first. -/
def script_uninstantiate (E : Env) (Ld : Loader) :
    Nat → EngineState → Int → Option (List Nat × EngineState)
  | 0, _, _ => none
  | fuel + 1, s, script_nr =>
    let seg := u16 (E.segGet s script_nr)
    match script_locate_by_segment s seg with
    | none => some ([], s)
    | some _ =>
      match modScript s seg (fun x => { x with lockers := Ld.decrementLockers x.lockers }),
        getScriptIfLoaded s seg with
      | some s1, some scr =>
        if Ld.decrementLockers scr.lockers > 0 then some ([], s1)
        else
          let s2 := { s1 with classtable := s1.classtable.map (freeClassEntry seg) }
          let r : Option (List Nat × EngineState) :=
            if s2.version < E.SCI_VERSION_1_1 then
              script_uninstantiate_sci0 E Ld
                (fun s0 nr => script_uninstantiate E Ld fuel s0 nr) fuel s2 script_nr seg
            else some ([], s2)
          match r with
          | none => none
          | some (freed, s3) =>
            match getScriptIfLoaded s3 seg with
            | none => none
            | some scr3 =>
              if scr3.lockers ≠ 0 then some (seg :: freed, s3)
              else
                (modScript s3 seg (fun x => { x with markedAsDeleted := true })).map
                  (fun s4 => (seg :: freed, s4))
      | _, _ => none

/-! ## Specification-side definitions -/

/-- The first `n` entries of the variable-selector name table stored at `buf`. -/
def nameTable (E : Env) (buf : BytePtr) (n : Nat) : List Int :=
  (List.range n).map (fun (k : Nat) => (READ_LE_UINT16 E (buf + 2 * (k : Int)) : Int))

/-- The variable-selector name table of an object, as the specification describes
it: the object's declared table, inherited from its base object when the object
is not a class (newer dialect). -/
def varselectorTable (E : Env) (s : EngineState) (obj : Object) : Option (List Int) :=
  if s.version < E.SCI_VERSION_1_1 then
    some (nameTable E (obj.base_obj + (obj.variable_names_nr * 2 + E.SCRIPT_SELECTOR_OFFSET))
      obj.variable_names_nr.toNat)
  else
    match obj._variables[1]?, obj._variables[E.SCRIPT_INFO_SELECTOR]? with
    | some v1, some info =>
      if info.offset &&& E.SCRIPT_INFO_CLASS = 0 then
        match obj._variables[E.SCRIPT_SUPERCLASS_SELECTOR]? with
        | none => none
        | some sup =>
          match (obj_get E s sup).bind (fun p => s.objects[p]?) with
          | none => none
          | some sobj => some (nameTable E sobj.base_vars v1.offset)
      else some (nameTable E obj.base_vars v1.offset)
    | _, _ => none

/-- The method table of an object as the specification describes it: the ordered
list of (selector id, code address) pairs. -/
def methodTable (E : Env) (s : EngineState) (obj : Object) : List (Int × reg_t) :=
  (List.range obj.methods_nr.toNat).map
    (fun (k : Nat) =>
      (VM_OBJECT_GET_FUNCSELECTOR E s obj (k : Int), VM_OBJECT_READ_FUNCTION E s obj (k : Int)))

/-- The superclass chain starting at an object pointer: the object itself, its
parent, its grandparent, ... up to the first superclass register that is no
object, each with its pointer.  The result is `none` when the chain does not end
within `n` links. -/
def superclassChain (E : Env) (s : EngineState) : Nat → Option Nat → Option (List (Nat × Object))
  | _, none => some []
  | 0, some _ => none
  | n + 1, some o =>
    match s.objects[o]? with
    | none => none
    | some obj =>
      match obj._variables[E.SCRIPT_SUPERCLASS_SELECTOR]? with
      | none => none
      | some sup => (superclassChain E s n (obj_get E s sup)).map (fun l => (o, obj) :: l)

/-- An object defines a selector when its own method table contains the id. -/
def definesSelector (E : Env) (s : EngineState) (key : Int) (ob : Object) : Bool :=
  decide (key ∈ (methodTable E s ob).map Prod.fst)

/-- The answer the specification prescribes for a method lookup along a chain:
METHOD with the code address found in the table of the nearest object that
defines the selector, NONE when no object of the chain defines it. -/
def nearestMethod (E : Env) (s : EngineState) (key : Int) (chain : List Object) :
    SelectorType × Option reg_t :=
  match chain.find? (definesSelector E s key) with
  | some ob =>
    (kSelectorMethod, ((methodTable E s ob).find? (fun e => decide (e.1 = key))).map Prod.snd)
  | none => (kSelectorNone, none)

/-- An object with its cached table address `base_vars` blanked out. -/
def eraseBaseVars (ob : Object) : Object := { ob with base_vars := 0 }

/-- Two states between which the selector lookup cannot distinguish: they have the
same dialect, flags, segments and objects, except that in the older dialects,
where `base_vars` is written by the lookup and never read, the `base_vars` fields
may differ. -/
def LookupEquiv (E : Env) (s s1 : EngineState) : Prop :=
  s1.version = s.version ∧ s1.flags = s.flags ∧ s1.heap = s.heap ∧
    s1.objects.map eraseBaseVars = s.objects.map eraseBaseVars ∧
    (¬ s.version < E.SCI_VERSION_1_1 → s1.objects = s.objects)

/-- The state `s1` differs from `s` at most in the object pool and in the error,
debug and breakpoint flags. -/
def SameButFlagsAndObjects (s s1 : EngineState) : Prop :=
  s1 = { s with objects := s1.objects, script_error_flag := s1.script_error_flag,
                script_debug_flag := s1.script_debug_flag,
                breakpointFlag := s1.breakpointFlag }

/-- One group of a send frame as the specification describes it: a selector id,
the arguments (their number is the group's argument count) and the way the
selector resolves on the receiver. -/
structure SendGroup where
  selector : Nat
  args : List reg_t
  res : LookupResult

/-- The registers of a send frame: for every group the selector, the argument
count and the arguments. -/
def sendFrame : List SendGroup → List reg_t
  | [] => []
  | g :: gs => ⟨0, g.selector⟩ :: ⟨0, g.args.length⟩ :: (g.args ++ sendFrame gs)

/-- The actions queued for the groups of a send frame that starts at stack index
`p`, last queued first: a variable access for a group that resolves to a variable,
a call for a group that resolves to a method (the first call carries the stack
pointer `sp`, later ones the carry marker), nothing for an unresolved group. -/
def callsFor (sp : Ptr) (p : Int) : List SendGroup → List CallsStruct → List CallsStruct
  | [], acc => acc
  | g :: gs, acc =>
    match g.res.kind, g.res.vptr, g.res.fptr with
    | kSelectorVariable, some varp, _ =>
      callsFor sp (p + 2 + g.args.length) gs
        ({ address_func := NULL_REG, address_var := varp, argp := Ptr.stack (p + 1),
           argc := g.args.length, selector := g.selector, sp := Ptr.null,
           type := EXEC_STACK_TYPE_VARSELECTOR } :: acc)
    | kSelectorMethod, _, some funcp =>
      callsFor CALL_SP_CARRY (p + 2 + g.args.length) gs
        ({ address_func := funcp, address_var := Ptr.null, argp := Ptr.stack (p + 1),
           argc := g.args.length, selector := g.selector, sp := sp,
           type := EXEC_STACK_TYPE_CALL } :: acc)
    | _, _, _ => callsFor sp (p + 2 + g.args.length) gs acc

/-- The CALL frames that a send frame of method groups starting at stack index `p`
asks for, the frame of the first group first: each frame carries its group's
selector, argument count, argument pointer and resolved code address; the first
frame takes the stack pointer `sp`, the others the carry marker. -/
def methodFrames (send_obj work_obj : reg_t) (origin : Int) (sp : Ptr) (p : Int) :
    List SendGroup → List ExecStack
  | [] => []
  | g :: gs =>
    match g.res.fptr with
    | some funcp =>
      { objp := work_obj, sendp := send_obj, addr_pc := funcp, addr_varp := Ptr.null,
        fp := sp, sp := sp, argc := g.args.length, variables_argp := Ptr.stack (p + 1),
        local_segment := funcp.segment, selector := g.selector, origin := origin,
        type := EXEC_STACK_TYPE_CALL } ::
        methodFrames send_obj work_obj origin CALL_SP_CARRY (p + 2 + g.args.length) gs
    | none => methodFrames send_obj work_obj origin sp (p + 2 + g.args.length) gs

/-- The pending accesses of a list of VARSELECTOR frames executed one after the
other, the frame nearest to the top first, each exactly once. -/
def drainAccesses : List ExecStack → EngineState → Option EngineState
  | [], s => some s
  | v :: vs, s => (execVarselector s v).bind (drainAccesses vs)

/-- The frame that a soft return resumes: a frame whose stack pointer is the carry
marker takes over the stack and frame pointer of the returning frame. -/
def resumeFrame (c r : ExecStack) : ExecStack :=
  if c.sp = CALL_SP_CARRY then { c with sp := r.sp, fp := r.fp } else c

/-- The state `s` with another execution stack and position-changed flag. -/
def withFrames (s : EngineState) (es : List ExecStack) (b : Bool) : EngineState :=
  { s with executionStack := es, executionStackPosChanged := b }

/-- A settled equation, kept as a fact that rewriting leaves alone. -/
def Was {α : Type} (a b : α) : Prop := a = b

/-- Environment functions that leave `execution_stack_base` as they find it: the
debugger hook, the garbage collector, the script loader and the kernel functions
(a kernel function that runs a nested `run_vm` gets the base back on its return). -/
def EnvKeepsBase (E : Env) : Prop :=
  (∀ s L, (E.script_debug s L).1.execution_stack_base = s.execution_stack_base) ∧
  (∀ s, (E.run_gc s).execution_stack_base = s.execution_stack_base) ∧
  (∀ s nr, (E.script_instantiate s nr).2.execution_stack_base = s.execution_stack_base) ∧
  (∀ kf, kf ∈ E.kfuncTable → ∀ s n argc argp r, kf.func s n argc argp = some r →
    r.2.execution_stack_base = s.execution_stack_base)

/-- A hard return as `ret` performs it, seen from the state `s1` it leaves behind:
it took place in a state `s2` whose execution stack was `top :: s1.executionStack`
with `top` at the base index `b`, and it popped that frame, restored the saved
outer base `old`, raised the position-changed flag and stored the local
`restadjust` in `r_amp_rest`. -/
def HardReturnAt (b old : Int) (L1 : VMLocals) (s1 : EngineState) : Prop :=
  ∃ top s2, s2.executionStack = top :: s1.executionStack ∧
    s2.execution_stack_base = b ∧ esSize s2 - 1 = b ∧
    s1 = { s2 with execution_stack_base := old,
                   executionStack := s1.executionStack,
                   executionStackPosChanged := true,
                   r_amp_rest := L1.restadjust }

/-- What a piece of the loop body may do to the base bookkeeping when it starts from
locals `L` and state `s`: going on, it leaves `execution_stack_base` and the saved
outer base alone; a hard return is one at the current base that restores the saved
outer base. -/
def KeepsBase (L : VMLocals) (s : EngineState) : Option Outcome → Prop
  | some (Outcome.next L1 s1) =>
    s1.execution_stack_base = s.execution_stack_base ∧
    L1.old_execution_stack_base = L.old_execution_stack_base
  | some (Outcome.hardReturn L1 s1) =>
    HardReturnAt s.execution_stack_base L.old_execution_stack_base L1 s1
  | _ => True

/-- The state in which the script of segment `seg` is `scr` and everything else is
as in `s`. -/
def withScript (s : EngineState) (seg : Int) (scr : Script) : EngineState :=
  { s with heap := s.heap.set seg.toNat (some (MemObject.MEM_OBJ_SCRIPT scr)) }

/-- A class-table entry after the references into the segments `freed` have been
freed: its register is null when it pointed into one of them, and its script
number is kept. -/
def freeClassEntries (freed : List Nat) (c : Class) : Class :=
  if c.reg.segment ∈ freed then { c with reg := NULL_REG } else c

/-- What a piece of `script_uninstantiate` that frees the references into the
segments `freed` does to the state as far as the class table and unlocked scripts
go: the class table is the old one with the references into `freed` nulled, and a
script without lockers is still there without lockers. -/
def Uninstantiates (s : EngineState) (freed : List Nat) (s1 : EngineState) : Prop :=
  s1.classtable = s.classtable.map (freeClassEntries freed) ∧
  ∀ (g : Int) (scr : Script), getScriptIfLoaded s g = some scr → scr.lockers = 0 →
    ∃ scr1, getScriptIfLoaded s1 g = some scr1 ∧ scr1.lockers = 0

/-- The state `s` after the frame `f`, which `xs` points to, has popped one operand:
its stack pointer is at stack cell `i`. -/
def popped (L : VMLocals) (s : EngineState) (f : ExecStack) (i : Nat) : EngineState :=
  { s with executionStack := replaceFrame s.executionStack L.xs { f with sp := Ptr.stack i } }

/-- The state `s` with the program counter of the frame `x`, which the frame
pointer `i` refers to, set to the offset `t`. -/
def withPc (i : Nat) (s : EngineState) (x : ExecStack) (t : Nat) : EngineState :=
  { s with executionStack :=
      replaceFrame s.executionStack i { x with addr_pc := { x.addr_pc with offset := t } } }

/-- The relative operand of the branch instruction with opcode byte `op` at offset
`pc` of the code buffer `buf`: a signed byte after an odd opcode byte, a signed
little-endian word after an even one. -/
def branchOperand (E : Env) (buf : BytePtr) (op pc : Nat) : Int :=
  if op % 2 = 1 then i8 ((E.mem (buf + (pc + 1 : Nat)) % 256 : Nat))
  else i16 ((E.mem (buf + (pc + 1 : Nat)) % 256 + 256 * (E.mem (buf + (pc + 2 : Nat)) % 256) : Nat))

/-- The length of a branch instruction with opcode byte `op`. -/
def branchLength (op : Nat) : Nat := if op % 2 = 1 then 2 else 3

/-- The state after a loop iteration that ran without error an instruction of the
frame `x` (at frame pointer `i`) and left its program counter at the offset `t`. -/
def afterInstruction (i : Nat) (s : EngineState) (x : ExecStack) (t : Nat) : EngineState :=
  { withPc i s x t with script_error_flag := 0,
                        script_step_counter := s.script_step_counter + 1 }

/-- The locals of the interpreter after a branch instruction with opcode byte `op`
of the frame `x`: the number of temporaries and the operand are recorded. -/
def branchLocals (E : Env) (L : VMLocals) (x : ExecStack) (buf : BytePtr) (op : Nat) :
    VMLocals :=
  { L with variables_max := L.variables_max.set 2 (x.sp.diff x.fp),
           opparams := L.opparams.set 0 (branchOperand E buf op x.addr_pc.offset) }

/-- Two states with the same collection countdown and the same collection
interval. -/
def GcSame (s t : EngineState) : Prop :=
  t.gc_countdown = s.gc_countdown ∧ t.script_gc_interval = s.script_gc_interval

/-- The interpreter locals with which the implicit `ret` of a frame without script
runs: `x` is that frame, on top of the frames `rest`. -/
def fakeLocals (L : VMLocals) (x : ExecStack) (rest : List ExecStack) : VMLocals :=
  { L with xs := rest.length, code_buf := CodeBuf.fake, code_buf_size := 2, obj := none,
           variables_max := L.variables_max.set 2 (x.sp.diff x.fp) }

/-- The state in which the implicit `ret` of the frame `x` runs: the position-changed
flag and the error flag are cleared and the program counter of `x` has moved past
the opcode in the fake return buffer. -/
def fakeState (s : EngineState) (x : ExecStack) (rest : List ExecStack) : EngineState :=
  { s with executionStackPosChanged := false, script_error_flag := 0,
           executionStack := { x with addr_pc := { x.addr_pc with offset := 2 } } :: rest }

/-- A registered call without its argument pointer. -/
def noArgp (c : CallsStruct) : CallsStruct := { c with argp := Ptr.null }

/-- The registered call `c` belongs to the group `g` of a send frame in the state
`s`: it carries the selector and the argument count of `g`, which resolves, and its
argument pointer is the address of the group's argument-count slot, behind the
selector slot and in front of the arguments of `g`. -/
def CallOfGroup (s : EngineState) (c : CallsStruct) (g : SendGroup) : Prop :=
  g.res.kind ≠ kSelectorNone ∧ c.selector = g.selector ∧ c.argc = g.args.length ∧
    load s (c.argp.add (-1)) = some ⟨0, g.selector⟩ ∧
    load s c.argp = some ⟨0, g.args.length⟩ ∧
    ∀ i : Nat, i < g.args.length → load s (c.argp.add (1 + i)) = g.args[i]?

/-- The accumulator after an instruction that goes on. -/
def accAfter : Option Outcome → Option reg_t
  | some (Outcome.next _ s) => some s.r_acc
  | _ => none

/-! ## A small machine for concrete runs

One script in segment 1 holds three objects: an instance (pool index 0, register
1:8), its class (index 1, register 1:108) and the class of that class (index 2,
register 1:208).  The instance has the five variable selectors 1, 2, 3, 30 and 20;
the parent class defines the methods 30 (at 1:300) and 31 (at 1:310); the
grandparent defines the methods 30 (at 1:500) and 40 (at 1:400). -/

/-- The raw bytes of the example script: name table of the instance at 10, method
tables of the two classes at 200 and 220, and four code sequences: at 600
`pushi 10; ldi 0; div; ret`, at 610 `pushi 10; ldi 2; div; ret`, at 620
`bnot; ldi 7`, at 630 `send 8; ret`. -/
def exMem (a : Int) : Nat :=
  ([(10, 1), (12, 2), (14, 3), (16, 30), (18, 20),
    (200, 30), (202, 31), (204, 300 % 256), (205, 300 / 256), (206, 310 % 256),
    (207, 310 / 256),
    (220, 30), (222, 40), (224, 500 % 256), (225, 500 / 256), (226, 400 % 256),
    (227, 400 / 256),
    (600, 0x39), (601, 10), (602, 0x35), (603, 0), (604, 0x08), (605, 0x48),
    (610, 0x39), (611, 10), (612, 0x35), (613, 2), (614, 0x08), (615, 0x48),
    (620, 0x00), (621, 0x35), (622, 7),
    (630, 0x4b), (631, 8), (632, 0x48)].lookup a).getD 0

/-- The example environment: older-dialect object layout. -/
def exEnv : Env :=
  { mem := exMem,
    SCRIPT_SELECTOR_OFFSET := 0,
    SCRIPT_SPECIES_SELECTOR := 0,
    SCRIPT_SUPERCLASS_SELECTOR := 1,
    SCRIPT_INFO_SELECTOR := 2,
    SCRIPT_INFO_CLASS := 0x8000,
    SCRIPT_OBJECT_MAGIC_OFFSET := -8,
    GF_SCI0_OLD := 1,
    SCI_VERSION_1_1 := 6,
    funcselector := fun _ bm i => (exMem (bm + 2 * i) : Int),
    read_function := fun _ pos bm nr i =>
      ⟨pos.segment, exMem (bm + 2 * (nr + i)) + 256 * exMem (bm + 2 * (nr + i) + 1)⟩,
    RAW_IS_OBJECT := fun _ _ => true,
    RAW_GET_CLASS_INDEX := fun _ r => ((r.offset : Int) - 8) / 100,
    selector_breakpoint := fun _ _ _ => false,
    SCRIPT_GET_LOAD := 1,
    SCRIPT_GET_LOCK := 3,
    segGet := fun _ nr => if nr = 0 then 1 else 0,
    script_instantiate := fun s nr => (if nr = 0 then 1 else 0, s),
    g_opcode_formats := fun opnumber temp =>
      if temp = 0 ∧ (opnumber = 0x1a ∨ opnumber = 0x1c ∨ opnumber = 0x25 ∨ opnumber = 0x2a
        ∨ opnumber = 0x2c) then opcode_format.Script_Variable
      else opcode_format.Script_None,
    script_debug := fun s L => (s, L),
    kfuncTable := [],
    kernel_matches_signature := fun _ _ _ _ => true,
    run_gc := fun s => s,
    validateExportFunc := fun _ _ _ => 0,
    export_breakpoint := fun _ _ _ => false,
    GF_SCI1_LOFSABSOLUTE := 2,
    VM_STACK_SIZE := 0x1000,
    SIZEOF_REG_T := 4 }

/-- The instance of the example script. -/
def exInstance : Object :=
  { _variables := [⟨1, 108⟩, ⟨1, 108⟩, ⟨0, 0⟩, ⟨0, 7⟩, ⟨0, 42⟩], variable_names_nr := 5,
    methods_nr := 0, base_obj := 0, base_vars := 0, base_method := 0, pos := ⟨1, 8⟩ }

/-- The class of the instance. -/
def exParent : Object :=
  { _variables := [⟨1, 108⟩, ⟨1, 208⟩, ⟨0, 0x8000⟩], variable_names_nr := 0,
    methods_nr := 2, base_obj := 100, base_vars := 0, base_method := 200, pos := ⟨1, 108⟩ }

/-- The superclass of that class; its own superclass register is no object. -/
def exGrandparent : Object :=
  { _variables := [⟨1, 208⟩, ⟨0, 0⟩, ⟨0, 0x8000⟩], variable_names_nr := 0,
    methods_nr := 2, base_obj := 180, base_vars := 0, base_method := 220, pos := ⟨1, 208⟩ }

/-- The three objects of the example script. -/
def exObjects : List Object := [exInstance, exParent, exGrandparent]

/-- The example state with a given operand stack, execution stack and accumulator. -/
def exState (stack : List reg_t) (es : List ExecStack) (acc : reg_t) : EngineState :=
  { executionStack := es,
    execution_stack_base := 0,
    executionStackPosChanged := false,
    r_acc := acc,
    r_prev := NULL_REG,
    r_amp_rest := 0,
    stack := stack,
    objects := exObjects,
    localsBlocks := [],
    heap := [none, some (MemObject.MEM_OBJ_SCRIPT
      { nr := 0, buf := 0, buf_size := 1000, script_size := 1000, objects := [0, 1, 2],
        locals_segment := 0, locals_block := none, lockers := 1, markedAsDeleted := false,
        export_table_offset := 0, synonyms_offset := 0, synonyms_nr := 0 })],
    stack_segment := 2,
    script_000 := 1,
    classtable := [],
    flags := 0,
    version := 0,
    gameName := "",
    gc_countdown := 0,
    script_abort_flag := 0,
    script_error_flag := 0,
    script_debug_flag := 0,
    script_step_counter := 0,
    script_gc_interval := 0,
    debug_step_running := 0,
    debug_seeking := 0,
    weak_validations := 0,
    sci_debug_flags := 0,
    breakpointFlag := false,
    dummy_register := NULL_REG }

/-- A bottom frame for the example machine: a call running in the example script. -/
def exBaseFrame (sp : Int) : ExecStack :=
  { objp := ⟨1, 8⟩, sendp := ⟨1, 8⟩, addr_pc := ⟨1, 600⟩, addr_varp := Ptr.null,
    fp := Ptr.stack 0, sp := Ptr.stack sp, argc := 0, variables_argp := Ptr.stack 0,
    local_segment := 1, selector := -1, origin := -1, type := EXEC_STACK_TYPE_CALL }

/-- A send frame with two method groups: selector 31 with one argument, selector 40
without arguments. -/
def exMethodGroups : List SendGroup :=
  [ { selector := 31, args := [⟨0, 5⟩], res := ⟨kSelectorMethod, none, some ⟨1, 310⟩⟩ },
    { selector := 40, args := [], res := ⟨kSelectorMethod, none, some ⟨1, 400⟩⟩ } ]

/-- Interpreter locals for the example machine: the current frame is the bottom
frame, with a given pending rest adjustment. -/
def exLocals (restadjust : Int) : VMLocals :=
  { xs := 0, xs_new := none, restadjust := restadjust, obj := some 0, local_script := none,
    old_execution_stack_base := 0, code_buf := CodeBuf.script 0, code_buf_size := 1000,
    variables_ := [], variables_base := [], variables_seg := [], variables_max := [],
    opparams := [] }

/-- An execution stack for the example machine, top first: a returning CALL frame,
a pending read of property slot 4, a pending write of stack slot 3 to property
slot 3, a CALL frame whose stack pointer is the carry marker, and the bottom
frame. -/
def exReturnStack : List ExecStack :=
  [ { exBaseFrame 6 with fp := Ptr.stack 6, origin := 1 },
    { exBaseFrame 0 with addr_varp := Ptr.prop 0 4, sp := Ptr.prop 0 4, fp := Ptr.prop 0 4,
                         type := EXEC_STACK_TYPE_VARSELECTOR },
    { exBaseFrame 0 with addr_varp := Ptr.prop 0 3, sp := Ptr.prop 0 3, fp := Ptr.prop 0 3,
                         argc := 1, variables_argp := Ptr.stack 2,
                         type := EXEC_STACK_TYPE_VARSELECTOR },
    { exBaseFrame 0 with sp := CALL_SP_CARRY, fp := CALL_SP_CARRY, addr_pc := ⟨1, 700⟩ },
    exBaseFrame 1 ]

/-- The example machine about to run the code at offset `pc` of the example script:
one frame, an empty operand stack of three cells, accumulator null. -/
def exStart (pc : Nat) : EngineState :=
  { exState [⟨0, 0⟩, ⟨0, 0⟩, ⟨0, 0⟩] [{ exBaseFrame 0 with addr_pc := ⟨1, pc⟩ }] NULL_REG with
    executionStackPosChanged := true }

/-- What is looked at after a run that goes on: the stack pointer of every frame,
the accumulator and the error flag. -/
def exObserve : Option Outcome → Option (List Ptr × reg_t × Int)
  | some (Outcome.next _ s) => some (s.executionStack.map (fun f => f.sp), s.r_acc,
      s.script_error_flag)
  | _ => none

/-- The example machine at the entry of a nested `run_vm`: the outer invocation has
recorded the base 7, three `&rest` arguments are pending, and the single frame is
about to run `pushi 10; ldi 2; div; ret`. -/
def exNested : EngineState :=
  { exStart 610 with execution_stack_base := 7, r_amp_rest := 3,
                     executionStackPosChanged := false }

/-- The state the nested invocation of `exNested` leaves behind. -/
def exNestedExit : EngineState :=
  { exNested with executionStack := [], executionStackPosChanged := true, r_acc := ⟨0, 5⟩,
                  stack := [⟨0, 10⟩, ⟨0, 0⟩, ⟨0, 0⟩], script_step_counter := 3 }

/-- The example machine about to run `bnot` at 1:620 with a pointer in the
accumulator, one operand on the stack. -/
def exErrStart : EngineState :=
  { exState [⟨0, 0⟩, ⟨0, 0⟩, ⟨0, 0⟩] [{ exBaseFrame 1 with addr_pc := ⟨1, 620⟩ }] ⟨1, 8⟩ with
    executionStackPosChanged := true }

/-- The example machine about to run `send 8` at 1:630 on the instance, with a send
frame of two groups on the stack: the selector `first` without arguments, then the
method selector 31 without arguments. -/
def exSendStart (first : Nat) : EngineState :=
  { exState [⟨0, first⟩, ⟨0, 0⟩, ⟨0, 31⟩, ⟨0, 0⟩, ⟨0, 0⟩]
      [{ exBaseFrame 4 with addr_pc := ⟨1, 630⟩ }] ⟨1, 8⟩ with
    executionStackPosChanged := true }

/-- Locals of the interpreter at the entry of the loop on the example machine. -/
def exLoopLocals : VMLocals := { exLocals 0 with opparams := [0, 0, 0, 0] }

/-- What is looked at after a run that goes on: program counter and stack pointer
of every frame (top first), and the error flag. -/
def exFrames : Option Outcome → Option (List (reg_t × Ptr) × Int)
  | some (Outcome.next _ s) =>
    some (s.executionStack.map (fun f => (f.addr_pc, f.sp)), s.script_error_flag)
  | _ => none

/-- The opcode byte the next loop iteration reads with `GET_OP_BYTE` after a run
that goes on. -/
def exNextOpcode (E : Env) : Option Outcome → Option Int
  | some (Outcome.next L s) => (GET_OP_BYTE E L s).map (fun r => r.1)
  | _ => none

/-- Locals and state after the first loop iteration from `exErrStart`. -/
def exErrAfter : VMLocals × EngineState :=
  match vmStep exEnv exLoopLocals exErrStart with
  | some (Outcome.next L s) => (L, s)
  | _ => (exLoopLocals, exErrStart)

/-- The example state with one locals block of three slots, owned by segment 3. -/
def exLocalsState : EngineState :=
  { exState [] [exBaseFrame 0] NULL_REG with
    localsBlocks := [[⟨0, 11⟩, ⟨0, 12⟩, ⟨0, 13⟩]],
    heap := (exState [] [] NULL_REG).heap ++ [none, some (MemObject.MEM_OBJ_LOCALS 0)] }

/-- Interpreter locals whose local variables are the block of `exLocalsState`, for
an instruction with the operands `a` and `b`. -/
def exLocalsOf (a b : Int) : VMLocals :=
  { exLocals 0 with variables_ := [Ptr.null, Ptr.locals 0 0, Ptr.stack 0, Ptr.stack 0],
                    variables_base := [Ptr.null, Ptr.locals 0 0, Ptr.stack 0, Ptr.stack 0],
                    variables_seg := [0, 3, 2, 2], variables_max := [0, 3, 0, 1],
                    opparams := [a, b, 0, 0] }

/-- The bytes of example script 5: one class block (type 6, length 30) whose
species word, at offset 12, is 7, followed by the end marker. -/
def exClassScript : Resource :=
  { data := [6, 0, 30, 0, 0, 0, 0, 0, 0, 0, 0, 0, 7, 0, 0, 0, 0, 0, 0, 0, 0, 0, 0, 0, 0, 0,
      0, 0, 0, 0, 0, 0, 0, 0],
    size := 34 }

/-- The script resources of the example: script 0 (an empty script) and script 5;
there is no heap resource and no script 9. -/
def exResources (t : ResourceType) (nr : Int) : Option Resource :=
  if t = ResourceType.kResourceTypeScript ∧ nr = 0 then some { data := [0, 0], size := 2 }
  else if t = ResourceType.kResourceTypeScript ∧ nr = 5 then some exClassScript
  else none

/-- The example loader: a new script gets the next free segment, the words of a
loaded script are those of its resource, lockers are never counted below zero, and
the remaining segment operations leave the state alone. -/
def exLoader : Loader :=
  { findResource := exResources,
    allocateScript := fun s nr =>
      some (s.heap.length, { s with heap := s.heap ++ [some (MemObject.MEM_OBJ_SCRIPT
        { nr := nr, buf := 0, buf_size := 0, script_size := 0, objects := [],
          locals_segment := 0, locals_block := none, lockers := 0, markedAsDeleted := false,
          export_table_offset := 0, synonyms_offset := 0, synonyms_nr := 0 })] }),
    initialiseScript := fun s _ _ => s,
    freeScript := fun s _ => s,
    mcpyInOut := fun s _ _ _ _ => s,
    getHeap := fun s seg offset =>
      match getScriptIfLoaded s seg with
      | some scr =>
        (((exResources ResourceType.kResourceTypeScript scr.nr).bind
          (fun r => readLE16 r.data offset.toNat)).getD 0 : Nat)
      | none => 0,
    scriptInitialiseLocalsZero := fun s _ _ => s,
    scriptInitialiseLocals := fun s _ => s,
    scriptAddCodeBlock := fun s _ => s,
    scriptObjInit := fun _ _ => none,
    scriptRelocate := fun s _ => s,
    scriptRelocateExportsSci11 := fun s _ => s,
    scriptInitialiseObjectsSci11 := fun s _ => s,
    heapRelocate := fun s _ => s,
    decrementLockers := fun n => if n > 0 then n - 1 else n,
    SCI_OBJ_OBJECT := 1,
    SCI_OBJ_CODE := 2,
    SCI_OBJ_SYNONYMS := 3,
    SCI_OBJ_CLASS := 6,
    SCI_OBJ_EXPORTS := 7,
    SCI_OBJ_POINTERS := 8,
    SCI_OBJ_LOCALVARS := 10,
    SCRIPT_SPECIES_OFFSET := 0,
    SCRIPT_SUPERCLASS_OFFSET := 2 }

/-- The example state with a class table of two entries, both classes of the
loaded script 0 in segment 1, in the dialect with the given version number. -/
def exLoadState (version : Nat) : EngineState :=
  { exState [] [] NULL_REG with classtable := [⟨0, ⟨1, 108⟩⟩, ⟨0, ⟨1, 208⟩⟩],
                                version := version }

/-- The loaded script 0 of the example machine with a given locker count. -/
def exScript0 (lockers : Int) : Script :=
  { nr := 0, buf := 0, buf_size := 1000, script_size := 1000, objects := [0, 1, 2],
    locals_segment := 0, locals_block := none, lockers := lockers, markedAsDeleted := false,
    export_table_offset := 0, synonyms_offset := 0, synonyms_nr := 0 }

/-- The example state before script 0 is uninstantiated: script 0 in segment 1 has
the given locker count, two classes of the class table live in segment 1 and a
class of script 7 lives in segment 4. -/
def exUnloadState (lockers : Int) : EngineState :=
  { withScript (exState [] [] NULL_REG) 1 (exScript0 lockers) with
    classtable := [⟨0, ⟨1, 108⟩⟩, ⟨0, ⟨1, 208⟩⟩, ⟨7, ⟨4, 10⟩⟩] }

/-- The state after the last locker of script 0 is gone. -/
def exUnloadExit : EngineState :=
  { withScript (exState [] [] NULL_REG) 1 { exScript0 0 with markedAsDeleted := true } with
    classtable := [⟨0, NULL_REG⟩, ⟨0, NULL_REG⟩, ⟨7, ⟨4, 10⟩⟩] }

/-- The example state with a third segment, a clones table. -/
def exClonesState : EngineState :=
  { exState [⟨2, 8⟩] [exBaseFrame 1] ⟨0, 3⟩ with
    heap := (exState [] [] NULL_REG).heap ++ [some (MemObject.MEM_OBJ_CLONES [some 0])] }

/-- Two pending variable accesses for the example machine, top first: a read of
property slot 4 of the instance, and a write to its property slot 3 with two
arguments, which lie in the stack cells 3 and 4. -/
def exPending : List ExecStack :=
  [ { exBaseFrame 0 with addr_varp := Ptr.prop 0 4, sp := Ptr.prop 0 4, fp := Ptr.prop 0 4,
                         type := EXEC_STACK_TYPE_VARSELECTOR },
    { exBaseFrame 0 with addr_varp := Ptr.prop 0 3, sp := Ptr.prop 0 3, fp := Ptr.prop 0 3,
                         argc := 2, variables_argp := Ptr.stack 2,
                         type := EXEC_STACK_TYPE_VARSELECTOR } ]

/-- The example state with the two pending accesses above a CALL frame. -/
def exPendingState : EngineState :=
  exState [⟨0, 0⟩, ⟨0, 0⟩, ⟨0, 2⟩, ⟨0, 77⟩, ⟨0, 88⟩] (exPending ++ [exBaseFrame 1]) ⟨0, 5⟩

/-- The example machine about to send two variable selectors to the instance: a
read of selector 20, then a write of 9 to selector 30. -/
def exVarSendState : EngineState :=
  exState [⟨0, 20⟩, ⟨0, 0⟩, ⟨0, 30⟩, ⟨0, 1⟩, ⟨0, 9⟩, ⟨0, 0⟩] [exBaseFrame 5] NULL_REG

/-- The calls that the walk over the send frame of `exVarSendState` registers, the
last one first. -/
def exVarSendCalls : List CallsStruct :=
  [ { address_func := NULL_REG, address_var := Ptr.prop 0 3, argp := Ptr.stack 3, argc := 1,
      selector := 30, sp := Ptr.null, type := EXEC_STACK_TYPE_VARSELECTOR },
    { address_func := NULL_REG, address_var := Ptr.prop 0 4, argp := Ptr.stack 1, argc := 0,
      selector := 20, sp := Ptr.null, type := EXEC_STACK_TYPE_VARSELECTOR } ]

/-- The state after the walk over the send frame of `exVarSendState`: the lookup
has recorded the name table of the instance. -/
def exVarSendWalked : EngineState :=
  { exVarSendState with
    objects := [{ exInstance with base_vars := 10 }, exParent, exGrandparent] }

/-- The instance after the send of `exVarSendState`: slot 3 holds 9. -/
def exInstanceWritten : Object :=
  { exInstance with base_vars := 10,
                    _variables := [⟨1, 108⟩, ⟨1, 108⟩, ⟨0, 0⟩, ⟨0, 9⟩, ⟨0, 42⟩] }

/-- The state after the send of `exVarSendState`. -/
def exVarSendExit : EngineState :=
  { exVarSendState with r_acc := ⟨0, 42⟩,
                        objects := [exInstanceWritten, exParent, exGrandparent] }

/-- The example environment with two branch instructions in the script, `bt 5` with
a byte operand at 640 and `bnt -3` with a word operand at 650, and the operand
format of the branch instructions. -/
def exBranchEnv : Env :=
  { exEnv with
    mem := fun a => (([(640, 0x2f), (641, 5), (650, 0x30), (651, 0xfd), (652, 0xff)] :
      List (Int × Nat)).lookup a).getD (exMem a),
    g_opcode_formats := fun opnumber temp =>
      if temp = 0 ∧ (opnumber = 0x17 ∨ opnumber = 0x18 ∨ opnumber = 0x19) then
        opcode_format.Script_SRelative
      else exEnv.g_opcode_formats opnumber temp }

/-- The frame of the example machine at the offset `pc` of the example script. -/
def exFrameAt (pc : Nat) : ExecStack := { exBaseFrame 0 with addr_pc := ⟨1, pc⟩ }

/-- The example machine inside the loop, about to fetch the instruction at offset
`pc` with the accumulator `acc`. -/
def exBranchState (pc : Nat) (acc : reg_t) : EngineState :=
  exState [⟨0, 0⟩] [exFrameAt pc] acc

/-- The example machine about to run `call` with the frame's stack pointer at cell
`sp`: the call block starts at cell 0 with one explicit argument, followed by two
further arguments; cell 5 holds 5. -/
def exCallState (sp : Int) : EngineState :=
  exState [⟨0, 1⟩, ⟨0, 10⟩, ⟨0, 20⟩, ⟨0, 30⟩, ⟨0, 0⟩, ⟨0, 5⟩, ⟨0, 0⟩] [exBaseFrame sp] NULL_REG

/-- Interpreter locals for `call` on the example machine: relative target 0, `n`
explicit arguments (operand `2 * n`) and the rest adjustment `r`. -/
def exCallLocals (n r : Int) : VMLocals :=
  { exLocals r with opparams := [0, 2 * n, 0, 0] }

/-- The operand stack after an instruction that goes on. -/
def exStack : Option Outcome → Option (List reg_t)
  | some (Outcome.next _ s) => some s.stack
  | _ => none

/-- The example machine with the abort flag set, the stack position marked as
changed, and a single frame whose program counter is in segment `seg`. -/
def exAbortState (seg : Nat) : EngineState :=
  { exState [⟨0, 3⟩] [{ exBaseFrame 1 with addr_pc := ⟨seg, 600⟩ }] ⟨0, 9⟩ with
    script_abort_flag := 1, script_error_flag := 1, executionStackPosChanged := true }

/-- What is looked at after a run of `run_vm` that ends by the abort flag: program
counter of every frame, operand stack and accumulator. -/
def exAborted : RunResult → Option (List reg_t × List reg_t × reg_t)
  | RunResult.aborted s => some (s.executionStack.map (fun f => f.addr_pc), s.stack, s.r_acc)
  | _ => none

/-- An environment with one kernel function, which returns 1 and changes nothing. -/
def exKernelEnv : Env :=
  { exEnv with kfuncTable := [⟨none, fun s _ _ _ => some (⟨0, 1⟩, s)⟩] }

/-- The example machine with the collection countdown at `c` and the collection
interval 2; the operand stack holds a kernel call block without arguments. -/
def exGcState (c : Int) : EngineState :=
  { exState [⟨0, 0⟩, ⟨0, 0⟩] [exBaseFrame 1] NULL_REG with
    gc_countdown := c, script_gc_interval := 2 }

/-- Interpreter locals for `callk` on the example machine: kernel function 0 with no
arguments and no rest adjustment. -/
def exCallkLocals : VMLocals := { exLocals 0 with opparams := [0, 0, 0, 0] }

/-- Countdown, interval and accumulator after an instruction that goes on. -/
def exGcFields : Option Outcome → Option (Int × Int × reg_t)
  | some (Outcome.next _ s) => some (s.gc_countdown, s.script_gc_interval, s.r_acc)
  | _ => none

/-- The example machine after a call into segment 7, which holds no script: the new
frame lies on top of the caller's and the stack position is marked as changed. -/
def exFakeState : EngineState :=
  { exState [⟨0, 3⟩] [{ exBaseFrame 1 with addr_pc := ⟨7, 600⟩ }, exBaseFrame 1] ⟨0, 9⟩ with
    executionStackPosChanged := true }

/-- What is looked at after a run of `run_vm` that ends by a hard return: program
counter of every frame left, operand stack and accumulator. -/
def exHardReturned : RunResult → Option (List reg_t × List reg_t × reg_t)
  | RunResult.hardReturn _ s =>
    some (s.executionStack.map (fun f => f.addr_pc), s.stack, s.r_acc)
  | _ => none

/-- The group in the middle of the example send frame `[31 (5)] [77 (9)] [40 ()]`:
selector 77 is neither a variable nor a method of the instance. -/
def exUnresolved : SendGroup :=
  { selector := 77, args := [⟨0, 9⟩], res := ⟨kSelectorNone, none, none⟩ }

/-- The example machine with the send frame `[31 (5)] [77 (9)] [40 ()]` on the
operand stack. -/
def exUnresolvedState : EngineState :=
  exState [⟨0, 31⟩, ⟨0, 1⟩, ⟨0, 5⟩, ⟨0, 77⟩, ⟨0, 1⟩, ⟨0, 9⟩, ⟨0, 40⟩, ⟨0, 0⟩, ⟨0, 0⟩]
    [exBaseFrame 8] NULL_REG

/-- What is looked at after `send_selector`: selector, program counter and argument
pointer of every frame, and the error flag. -/
def exSent : Option (Option Nat × EngineState) → Option (List (Int × reg_t × Ptr) × Int)
  | some (_, s) =>
    some (s.executionStack.map (fun f => (f.selector, f.addr_pc, f.variables_argp)),
      s.script_error_flag)
  | none => none

/-- The example machine with the send frame `[31 (5)] [40 ...]` on the operand stack,
the second group announcing 0x801 arguments. -/
def exOversizedState : EngineState :=
  exState [⟨0, 31⟩, ⟨0, 1⟩, ⟨0, 5⟩, ⟨0, 40⟩, ⟨0, 0x801⟩, ⟨0, 0⟩] [exBaseFrame 5] ⟨0, 9⟩

/-- What is looked at after a `send_selector` that returns NULL: execution stack,
operand stack, accumulator, objects and error flag. -/
def exNullSend : Option (Option Nat × EngineState) →
    Option (List ExecStack × List reg_t × reg_t × List (List reg_t) × Int)
  | some (none, s) =>
    some (s.executionStack, s.stack, s.r_acc, s.objects.map (fun ob => ob._variables),
      s.script_error_flag)
  | _ => none

/-- The example machine with an ill-formed send frame of seven slots on the operand
stack: the second group has a pointer in its selector slot, and the third announces
more arguments than the frame holds. -/
def exOddState : EngineState :=
  exState [⟨0, 31⟩, ⟨0, 1⟩, ⟨0, 5⟩, ⟨1, 8⟩, ⟨0, 0⟩, ⟨0, 40⟩, ⟨0, 3⟩, ⟨0, 0⟩, ⟨0, 0⟩]
    [exBaseFrame 8] NULL_REG

/-- Selector, argument count and argument pointer of the calls a walk has registered,
last registered first. -/
def exWalk : Option (Option (List CallsStruct) × EngineState) →
    Option (List (Int × Int × Ptr))
  | some (some calls, _) => some (calls.map (fun c => (c.selector, c.argc, c.argp)))
  | _ => none

/-- An environment with one kernel function, which returns 1 and changes nothing, and
a collector that frees segment 3. -/
def exCollectorEnv : Env :=
  { exEnv with kfuncTable := [⟨none, fun s _ _ _ => some (⟨0, 1⟩, s)⟩],
               run_gc := fun s => { s with heap := s.heap.set 3 none } }

/-- The example machine with the collection countdown at `c` and the collection
interval 2; the operand stack holds a kernel call block without arguments, and
segment 3 holds a region for the collector to free. -/
def exGarbageState (c : Int) : EngineState :=
  { exState [⟨0, 0⟩, ⟨0, 0⟩] [exBaseFrame 1] NULL_REG with
    gc_countdown := c, script_gc_interval := 2,
    heap := (exState [] [] NULL_REG).heap ++ [none, some MemObject.MEM_OBJ_DYNMEM] }

/-- The state an instruction that goes on leaves behind; `s` when it does not go on. -/
def exAfter (s : EngineState) : Option Outcome → EngineState
  | some (Outcome.next _ t) => t
  | _ => s

/-- The locals an instruction that goes on leaves behind; `L` when it does not go
on. -/
def exLocalsAfter (L : VMLocals) : Option Outcome → VMLocals
  | some (Outcome.next L1 _) => L1
  | _ => L

/-- A run of kernel calls on the example machine: the state in which kernel call
number `i + 1` starts.  Between two calls the call block is pushed again and
segment 3 is allocated again. -/
def exCallkStart : Nat → EngineState
  | 0 => exGarbageState 1
  | i + 1 =>
    let t := exAfter (exCallkStart i) (case_callk exCollectorEnv exCallkLocals (exCallkStart i))
    { t with executionStack := [exBaseFrame 1],
             heap := t.heap.set 3 (some MemObject.MEM_OBJ_DYNMEM) }

/-- The state in which kernel call number `i + 1` of the run ends. -/
def exCallkEnd (i : Nat) : EngineState :=
  exAfter (exCallkStart i) (case_callk exCollectorEnv exCallkLocals (exCallkStart i))

/-- Countdown and segment 3 of a state. -/
def exGcView (s : EngineState) : Int × Option (Option MemObject) :=
  (s.gc_countdown, s.heap[3]?)

/-! ## Theorems -/

/-! ### The table scans -/

theorem scanVarselector_miss (E : Env) (buf : BytePtr) (slc : Int) (n : Nat) (i : Int)
    (h : ∀ k : Nat, k < n → (READ_LE_UINT16 E (buf + 2 * (i + k)) : Int) ≠ slc) :
    scanVarselector E buf slc n i = -1 := by
  induction n generalizing i with
  | zero => rfl
  | succ n ih =>
    have h0 := h 0 (Nat.succ_pos n)
    simp only [Nat.cast_zero, add_zero] at h0
    rw [scanVarselector, if_neg h0]
    apply ih
    intro k hk
    have := h (k + 1) (Nat.succ_lt_succ hk)
    have e : i + ((k + 1 : Nat) : Int) = i + 1 + (k : Int) := by push_cast; ring
    rwa [e] at this

theorem scanVarselector_hit (E : Env) (buf : BytePtr) (slc : Int) (n : Nat) (i : Int) (k : Nat)
    (hk : k < n) (hit : (READ_LE_UINT16 E (buf + 2 * (i + k)) : Int) = slc)
    (h : ∀ j : Nat, j < k → (READ_LE_UINT16 E (buf + 2 * (i + j)) : Int) ≠ slc) :
    scanVarselector E buf slc n i = i + k := by
  induction n generalizing i k with
  | zero => omega
  | succ n ih =>
    rw [scanVarselector]
    cases k with
    | zero =>
      simp only [Nat.cast_zero, add_zero] at hit
      rw [if_pos hit]; simp
    | succ k =>
      have h0 := h 0 (Nat.succ_pos k)
      simp only [Nat.cast_zero, add_zero] at h0
      rw [if_neg h0]
      have e : ∀ m : Nat, i + ((m + 1 : Nat) : Int) = i + 1 + (m : Int) := by
        intro m; push_cast; ring
      rw [e k] at hit
      rw [ih (i + 1) k (Nat.lt_of_succ_lt_succ hk) hit, e k]
      intro j hj
      have := h (j + 1) (Nat.succ_lt_succ hj)
      rwa [e j] at this

theorem scanFuncselector_miss (E : Env) (s : EngineState) (obj : Object) (slc : Int) (n : Nat)
    (i : Int) (h : ∀ k : Nat, k < n → VM_OBJECT_GET_FUNCSELECTOR E s obj (i + k) ≠ slc) :
    scanFuncselector E s obj slc n i = -1 := by
  induction n generalizing i with
  | zero => rfl
  | succ n ih =>
    have h0 := h 0 (Nat.succ_pos n)
    simp only [Nat.cast_zero, add_zero] at h0
    rw [scanFuncselector, if_neg h0]
    apply ih
    intro k hk
    have := h (k + 1) (Nat.succ_lt_succ hk)
    have e : i + ((k + 1 : Nat) : Int) = i + 1 + (k : Int) := by push_cast; ring
    rwa [e] at this

theorem scanFuncselector_hit (E : Env) (s : EngineState) (obj : Object) (slc : Int) (n : Nat)
    (i : Int) (k : Nat) (hk : k < n) (hit : VM_OBJECT_GET_FUNCSELECTOR E s obj (i + k) = slc)
    (h : ∀ j : Nat, j < k → VM_OBJECT_GET_FUNCSELECTOR E s obj (i + j) ≠ slc) :
    scanFuncselector E s obj slc n i = i + k := by
  induction n generalizing i k with
  | zero => omega
  | succ n ih =>
    rw [scanFuncselector]
    cases k with
    | zero =>
      simp only [Nat.cast_zero, add_zero] at hit
      rw [if_pos hit]; simp
    | succ k =>
      have h0 := h 0 (Nat.succ_pos k)
      simp only [Nat.cast_zero, add_zero] at h0
      rw [if_neg h0]
      have e : ∀ m : Nat, i + ((m + 1 : Nat) : Int) = i + 1 + (m : Int) := by
        intro m; push_cast; ring
      rw [e k] at hit
      rw [ih (i + 1) k (Nat.lt_of_succ_lt_succ hk) hit, e k]
      intro j hj
      have := h (j + 1) (Nat.succ_lt_succ hj)
      rwa [e j] at this

theorem nameTable_get (E : Env) (buf : BytePtr) (n j : Nat) (x : Int) :
    (nameTable E buf n).get? j = some x ↔
      j < n ∧ (READ_LE_UINT16 E (buf + 2 * (j : Int)) : Int) = x := by
  unfold nameTable
  rw [List.get?_eq_getElem?, List.getElem?_map]
  by_cases hj : j < n
  · rw [List.getElem?_range hj]; simp [hj]
  · have : (List.range n)[j]? = none := by
      rw [List.getElem?_eq_none_iff]; simpa using hj
    rw [this]; simp [hj]

/-- A name that is absent from the table makes the scan of `n` entries fail. -/
theorem scanVarselector_of_not_mem (E : Env) (buf : BytePtr) (slc : Int) (n : Nat)
    (h : slc ∉ nameTable E buf n) : scanVarselector E buf slc n 0 = -1 := by
  apply scanVarselector_miss
  intro k hk hr
  apply h
  rw [List.mem_iff_get?]
  exact ⟨k, (nameTable_get E buf n k slc).2 ⟨hk, by simpa using hr⟩⟩

/-- The scan returns the least index at which the name occurs. -/
theorem scanVarselector_of_least (E : Env) (buf : BytePtr) (slc : Int) (n i : Nat)
    (hi : (nameTable E buf n).get? i = some slc)
    (hleast : ∀ j, j < i → (nameTable E buf n).get? j ≠ some slc) :
    scanVarselector E buf slc n 0 = i := by
  obtain ⟨hin, hr⟩ := (nameTable_get E buf n i slc).1 hi
  have := scanVarselector_hit E buf slc n 0 i hin (by simpa using hr) (by
    intro j hj hjr
    exact hleast j hj ((nameTable_get E buf n j slc).2 ⟨lt_trans hj hin, by simpa using hjr⟩))
  simpa using this

/-! ### Variable selectors -/

/-- The state after `_obj_locate_varselector` stored a table address in the
`base_vars` field of object `o`. -/
theorem locate_varselector_eq (E : Env) (s : EngineState) (o : Nat) (obj : Object)
    (table : List Int) (slc : Int) (hobj : s.objects[o]? = some obj)
    (htab : varselectorTable E s obj = some table) :
    ∃ s1 buf n, _obj_locate_varselector E s o slc = some (scanVarselector E buf slc n 0, s1)
      ∧ table = nameTable E buf n
      ∧ (s1 = s ∨ ∃ b, s1 = { s with objects := s.objects.set o { obj with base_vars := b } }) := by
  unfold varselectorTable at htab
  unfold _obj_locate_varselector
  rw [hobj]
  by_cases hv : s.version < E.SCI_VERSION_1_1
  · simp only [hv, if_true, Option.some.injEq] at htab ⊢
    exact ⟨_, _, _, rfl, htab.symm, Or.inr ⟨_, rfl⟩⟩
  · simp only [hv, if_false] at htab ⊢
    cases h1 : obj._variables[1]? with
    | none => simp [h1] at htab
    | some v1 =>
      cases h2 : obj._variables[E.SCRIPT_INFO_SELECTOR]? with
      | none => simp [h1, h2] at htab
      | some info =>
        simp only [h1, h2] at htab ⊢
        by_cases hc : info.offset &&& E.SCRIPT_INFO_CLASS = 0
        · simp only [hc, if_true] at htab ⊢
          cases h3 : obj._variables[E.SCRIPT_SUPERCLASS_SELECTOR]? with
          | none => simp [h3] at htab
          | some sup =>
            simp only [h3] at htab ⊢
            cases h4 : (obj_get E s sup).bind (fun p => s.objects[p]?) with
            | none => simp [h4] at htab
            | some sobj =>
              simp only [h4, Option.some.injEq] at htab ⊢
              refine ⟨s, sobj.base_vars, v1.offset, ?_, htab.symm, Or.inl rfl⟩
              simp
        · simp only [hc, if_false, Option.some.injEq] at htab ⊢
          refine ⟨s, obj.base_vars, v1.offset, ?_, htab.symm, Or.inl rfl⟩
          simp

theorem IS_CLASS_isSome (E : Env) (obj : Object)
    (hinfo : E.SCRIPT_INFO_SELECTOR < obj._variables.length) :
    ∃ c, IS_CLASS E obj = some c := by
  unfold IS_CLASS
  rw [List.getElem?_eq_getElem hinfo]
  exact ⟨_, rfl⟩

/-- C4: when the selector id that the lookup works with (the id itself, with its
low bit cleared in the oldest dialect) occurs in the variable-selector name table
of the object, `lookup_selector` answers VARIABLE with the address of the
object's own property slot `i`, `i` being the least index at which the id occurs.
Nothing is assumed about the method tables of the object or of its superclasses,
so the variable selector wins over any method of the same id. -/
theorem lookup_selector_variable_first (E : Env) (s : EngineState) (loc : reg_t) (sel : Int)
    (o : Nat) (obj : Object) (table : List Int) (i : Nat)
    (hloc : obj_get E s loc = some o) (hobj : s.objects[o]? = some obj)
    (hinfo : E.SCRIPT_INFO_SELECTOR < obj._variables.length)
    (hspecies : E.SCRIPT_SPECIES_SELECTOR < obj._variables.length)
    (htab : varselectorTable E s obj = some table)
    (hi : table.get? i = some (selectorKey E s sel))
    (hleast : ∀ j, j < i → table.get? j ≠ some (selectorKey E s sel))
    (hslot : i < obj._variables.length) :
    ∃ s1, lookup_selector E s loc sel
        = some (⟨kSelectorVariable, some (Ptr.prop o i), none⟩, s1)
      ∧ (s1 = s ∨ ∃ b, s1 = { s with objects := s.objects.set o { obj with base_vars := b } }) := by
  obtain ⟨s1, buf, n, hloc2, htn, hs1⟩ :=
    locate_varselector_eq E s o obj table (selectorKey E s sel) hobj htab
  subst htn
  have hscan := scanVarselector_of_least E buf (selectorKey E s sel) n i hi hleast
  obtain ⟨c, hc⟩ := IS_CLASS_isSome E obj hinfo
  refine ⟨s1, ?_, hs1⟩
  unfold lookup_selector
  simp only [hloc, hobj, hc, hloc2, hscan]
  have hsp : obj._variables[E.SCRIPT_SPECIES_SELECTOR]? ≠ none := by
    rw [List.getElem?_eq_getElem hspecies]; simp
  simp [hsp, hslot]

/-! ### Method tables -/

theorem find_range_map {α : Type} (f : Nat → α) (q : α → Bool) (n i k : Nat) (hk : k < n)
    (hit : q (f (i + k)) = true) (h : ∀ j, j < k → q (f (i + j)) = false) :
    ((List.range' i n).map f).find? q = some (f (i + k)) := by
  induction n generalizing i k with
  | zero => omega
  | succ n ih =>
    rw [List.range'_succ, List.map_cons, List.find?_cons]
    cases k with
    | zero => simp only [add_zero] at hit; simp [hit]
    | succ k =>
      have h0 := h 0 (Nat.succ_pos k)
      simp only [add_zero] at h0
      rw [h0]
      have e : ∀ m, i + (m + 1) = i + 1 + m := by intro m; omega
      rw [e k] at hit
      have := ih (i + 1) k (Nat.lt_of_succ_lt_succ hk) hit (by
        intro j hj
        have := h (j + 1) (Nat.succ_lt_succ hj)
        rwa [e j] at this)
      rw [e k]; exact this

/-- The entry of a method table found first for a selector id is the one at the
least index carrying that id. -/
theorem methodTable_find (E : Env) (s : EngineState) (obj : Object) (key : Int) (k : Nat)
    (hk : k < obj.methods_nr.toNat) (hit : VM_OBJECT_GET_FUNCSELECTOR E s obj k = key)
    (h : ∀ j : Nat, j < k → VM_OBJECT_GET_FUNCSELECTOR E s obj j ≠ key) :
    ((methodTable E s obj).find? (fun e => decide (e.1 = key))).map Prod.snd
      = some (VM_OBJECT_READ_FUNCTION E s obj k) := by
  unfold methodTable
  rw [List.range_eq_range']
  rw [find_range_map _ _ obj.methods_nr.toNat 0 k hk (by simpa using hit)
    (by intro j hj; simpa using h j hj)]
  simp

theorem mem_methodTable_iff (E : Env) (s : EngineState) (obj : Object) (key : Int) :
    key ∈ (methodTable E s obj).map Prod.fst ↔
      ∃ k : Nat, k < obj.methods_nr.toNat ∧ VM_OBJECT_GET_FUNCSELECTOR E s obj k = key := by
  unfold methodTable
  simp [List.mem_map, List.mem_range]

/-- The scan of `_class_locate_funcselector` agrees with the method table: it fails
exactly when the table does not list the selector, and otherwise yields the index
whose code address is the first one listed for the selector. -/
theorem class_locate_funcselector_spec (E : Env) (s : EngineState) (obj : Object) (key : Int) :
    (key ∉ (methodTable E s obj).map Prod.fst ∧ _class_locate_funcselector E s obj key = -1)
    ∨ (key ∈ (methodTable E s obj).map Prod.fst ∧ 0 ≤ _class_locate_funcselector E s obj key
        ∧ ((methodTable E s obj).find? (fun e => decide (e.1 = key))).map Prod.snd
          = some (VM_OBJECT_READ_FUNCTION E s obj (_class_locate_funcselector E s obj key))) := by
  by_cases hm : key ∈ (methodTable E s obj).map Prod.fst
  · right
    have hex := (mem_methodTable_iff E s obj key).1 hm
    classical
    let k := Nat.find hex
    have hk : k < obj.methods_nr.toNat ∧ VM_OBJECT_GET_FUNCSELECTOR E s obj k = key :=
      Nat.find_spec hex
    have hmin : ∀ j : Nat, j < k → VM_OBJECT_GET_FUNCSELECTOR E s obj j ≠ key := by
      intro j hj hjk
      have hjn : j < obj.methods_nr.toNat := lt_trans hj hk.1
      exact Nat.find_min hex hj ⟨hjn, hjk⟩
    have hscan : _class_locate_funcselector E s obj key = (k : Int) := by
      unfold _class_locate_funcselector
      have := scanFuncselector_hit E s obj key obj.methods_nr.toNat 0 k hk.1
        (by simpa using hk.2) (by intro j hj; simpa using hmin j hj)
      simpa using this
    refine ⟨hm, ?_, ?_⟩
    · rw [hscan]; exact Int.natCast_nonneg k
    · rw [hscan]; exact methodTable_find E s obj key k hk.1 hk.2 hmin
  · left
    refine ⟨hm, ?_⟩
    unfold _class_locate_funcselector
    apply scanFuncselector_miss
    intro k hk hr
    exact hm ((mem_methodTable_iff E s obj key).2 ⟨k, hk, by simpa using hr⟩)

/-! ### The superclass chain -/

theorem superclassChain_mono (E : Env) (s : EngineState) (n : Nat) (p : Option Nat)
    (l : List (Nat × Object)) (h : superclassChain E s n p = some l) (m : Nat) (hm : n ≤ m) :
    superclassChain E s m p = some l := by
  induction n generalizing p l m with
  | zero =>
    cases p with
    | none => cases m <;> simpa [superclassChain] using h
    | some o => simp [superclassChain] at h
  | succ n ih =>
    cases p with
    | none => cases m <;> simpa [superclassChain] using h
    | some o =>
      obtain ⟨m, rfl⟩ : ∃ m2, m = m2 + 1 := ⟨m - 1, by omega⟩
      simp only [superclassChain] at h ⊢
      cases ho : s.objects[o]? with
      | none => simp [ho] at h
      | some obj =>
        simp only [ho] at h ⊢
        cases hs : obj._variables[E.SCRIPT_SUPERCLASS_SELECTOR]? with
        | none => simp [hs] at h
        | some sup =>
          simp only [hs] at h ⊢
          cases hc : superclassChain E s n (obj_get E s sup) with
          | none => simp [hc] at h
          | some l2 =>
            rw [ih _ _ hc m (by omega)]
            simpa [hc] using h

theorem superclassChain_det (E : Env) (s : EngineState) (n m : Nat) (p : Option Nat)
    (l l2 : List (Nat × Object)) (h : superclassChain E s n p = some l)
    (h2 : superclassChain E s m p = some l2) : l = l2 := by
  have a := superclassChain_mono E s n p l h (max n m) (le_max_left _ _)
  have b := superclassChain_mono E s m p l2 h2 (max n m) (le_max_right _ _)
  rw [a] at b
  exact Option.some.inj b

theorem superclassChain_cons (E : Env) (s : EngineState) (n : Nat) (o : Nat)
    (l : List (Nat × Object)) (h : superclassChain E s n (some o) = some l) :
    ∃ obj sup rest m, s.objects[o]? = some obj
      ∧ obj._variables[E.SCRIPT_SUPERCLASS_SELECTOR]? = some sup
      ∧ superclassChain E s m (obj_get E s sup) = some rest ∧ l = (o, obj) :: rest := by
  cases n with
  | zero => simp [superclassChain] at h
  | succ n =>
    simp only [superclassChain] at h
    cases ho : s.objects[o]? with
    | none => simp [ho] at h
    | some obj =>
      simp only [ho] at h
      cases hs : obj._variables[E.SCRIPT_SUPERCLASS_SELECTOR]? with
      | none => simp [hs] at h
      | some sup =>
        simp only [hs] at h
        cases hc : superclassChain E s n (obj_get E s sup) with
        | none => simp [hc] at h
        | some l2 =>
          simp only [hc, Option.map_some', Option.some.injEq] at h
          exact ⟨obj, sup, l2, n, rfl, hs, hc, h.symm⟩

/-- Every object of a chain starts a chain of its own that is no longer. -/
theorem superclassChain_mem (E : Env) (s : EngineState) (l : List (Nat × Object)) :
    ∀ (n : Nat) (p : Option Nat), superclassChain E s n p = some l →
      ∀ x ∈ l.map Prod.fst, ∃ m l2, superclassChain E s m (some x) = some l2
        ∧ l2.length ≤ l.length := by
  induction l with
  | nil => intro n p _ x hx; simp at hx
  | cons a rest ih =>
    intro n p h x hx
    cases p with
    | none => cases n <;> simp [superclassChain] at h
    | some o =>
      obtain ⟨obj, sup, rest2, m, ho, hs, hc, hl⟩ := superclassChain_cons E s n o _ h
      simp only [List.cons.injEq] at hl
      obtain ⟨ha, hr⟩ := hl
      subst hr; subst ha
      simp only [List.map_cons, List.mem_cons] at hx
      rcases hx with hx | hx
      · subst hx
        exact ⟨n, _, h, le_refl _⟩
      · obtain ⟨m2, l2, h2, hlen⟩ := ih m _ hc x hx
        exact ⟨m2, l2, h2, by simp only [List.length_cons]; omega⟩

theorem superclassChain_nodup (E : Env) (s : EngineState) (l : List (Nat × Object)) :
    ∀ (n : Nat) (p : Option Nat), superclassChain E s n p = some l → (l.map Prod.fst).Nodup := by
  induction l with
  | nil => intro n p _; simp
  | cons a rest ih =>
    intro n p h
    cases p with
    | none => cases n <;> simp [superclassChain] at h
    | some o =>
      obtain ⟨obj, sup, rest2, m, ho, hs, hc, hl⟩ := superclassChain_cons E s n o _ h
      simp only [List.cons.injEq] at hl
      obtain ⟨ha, hr⟩ := hl
      subst hr; subst ha
      simp only [List.map_cons, List.nodup_cons]
      refine ⟨?_, ih m _ hc⟩
      intro hmem
      obtain ⟨m2, l2, h2, hlen⟩ := superclassChain_mem E s rest m _ hc o hmem
      have := superclassChain_det E s n m2 (some o) _ _ h h2
      rw [← this] at hlen
      simp only [List.length_cons] at hlen
      omega

theorem superclassChain_lt (E : Env) (s : EngineState) (l : List (Nat × Object)) :
    ∀ (n : Nat) (p : Option Nat), superclassChain E s n p = some l →
      ∀ x ∈ l.map Prod.fst, x < s.objects.length := by
  induction l with
  | nil => intro n p _ x hx; simp at hx
  | cons a rest ih =>
    intro n p h x hx
    cases p with
    | none => cases n <;> simp [superclassChain] at h
    | some o =>
      obtain ⟨obj, sup, rest2, m, ho, hs, hc, hl⟩ := superclassChain_cons E s n o _ h
      simp only [List.cons.injEq] at hl
      obtain ⟨ha, hr⟩ := hl
      subst hr; subst ha
      simp only [List.map_cons, List.mem_cons] at hx
      rcases hx with hx | hx
      · subst hx
        by_contra hlt
        rw [List.getElem?_eq_none (by omega)] at ho
        simp at ho
      · exact ih m _ hc x hx

/-- A chain that ends visits every object at most once, so it is no longer than
the object pool. -/
theorem superclassChain_length_le (E : Env) (s : EngineState) (l : List (Nat × Object))
    (n : Nat) (p : Option Nat) (h : superclassChain E s n p = some l) :
    l.length ≤ s.objects.length := by
  have hnd := superclassChain_nodup E s l n p h
  have hlt := superclassChain_lt E s l n p h
  have hsub : (l.map Prod.fst).toFinset ⊆ Finset.range s.objects.length := by
    intro x hx
    rw [List.mem_toFinset] at hx
    exact Finset.mem_range.2 (hlt x hx)
  have hcard := Finset.card_le_card hsub
  rw [List.toFinset_card_of_nodup hnd, Finset.card_range, List.length_map] at hcard
  exact hcard

/-- Along a chain that ends, the walk of `_lookup_selector_function` returns the
prescribed answer as soon as it may run for as many iterations as the chain has
objects. -/
theorem lookupFunctionLoop_chain (E : Env) (s : EngineState) (key : Int)
    (l : List (Nat × Object)) :
    ∀ (n : Nat) (p : Option Nat) (fuel : Nat), superclassChain E s n p = some l →
      l.length ≤ fuel →
      lookupFunctionLoop E s key fuel p = some (nearestMethod E s key (l.map Prod.snd)) := by
  induction l with
  | nil =>
    intro n p fuel h _
    cases p with
    | none => cases fuel <;> simp [lookupFunctionLoop, nearestMethod]
    | some o =>
      obtain ⟨obj, sup, rest2, m, ho, hs, hc, hl⟩ := superclassChain_cons E s n o _ h
      simp at hl
  | cons a rest ih =>
    intro n p fuel h hfuel
    cases p with
    | none => cases n <;> simp [superclassChain] at h
    | some o =>
      obtain ⟨obj, sup, rest2, m, ho, hs, hc, hl⟩ := superclassChain_cons E s n o _ h
      simp only [List.cons.injEq] at hl
      obtain ⟨ha, hr⟩ := hl
      subst hr; subst ha
      obtain ⟨fuel, rfl⟩ : ∃ f2, fuel = f2 + 1 := ⟨fuel - 1, by
        simp only [List.length_cons] at hfuel; omega⟩
      simp only [lookupFunctionLoop, ho, hs]
      rcases class_locate_funcselector_spec E s obj key with ⟨hn, hm1⟩ | ⟨hy, hge, hfind⟩
      · have hneg : ¬ (_class_locate_funcselector E s obj key ≥ 0) := by rw [hm1]; decide
        rw [if_neg hneg]
        rw [ih m _ fuel hc (by simp only [List.length_cons] at hfuel; omega)]
        simp only [nearestMethod, List.map_cons, List.find?_cons]
        have : definesSelector E s key obj = false := by
          simp only [definesSelector, decide_eq_false_iff_not]; exact hn
        rw [this]
      · rw [if_pos hge]
        simp only [nearestMethod, List.map_cons, List.find?_cons]
        have : definesSelector E s key obj = true := by
          simp only [definesSelector, decide_eq_true_eq]; exact hy
        rw [this]
        simp only
        rw [hfind]

/-! ### States the lookup cannot tell apart -/

theorem erase_getElem (l1 l : List Object) (h : l1.map eraseBaseVars = l.map eraseBaseVars)
    (o : Nat) : (l1[o]?).map eraseBaseVars = (l[o]?).map eraseBaseVars := by
  rw [← List.getElem?_map, ← List.getElem?_map, h]

theorem erase_eq_fields (a b : Object) (h : eraseBaseVars a = eraseBaseVars b) :
    a._variables = b._variables ∧ a.variable_names_nr = b.variable_names_nr
      ∧ a.methods_nr = b.methods_nr ∧ a.base_obj = b.base_obj
      ∧ a.base_method = b.base_method ∧ a.pos = b.pos := by
  cases a; cases b
  simp only [eraseBaseVars, Object.mk.injEq] at h
  simp only
  tauto

theorem obj_get_congr (E : Env) (s s1 : EngineState) (hh : s1.heap = s.heap) (r : reg_t) :
    obj_get E s1 r = obj_get E s r := by
  unfold obj_get GET_OBJECT_SEGMENT
  rw [hh]

theorem scanFuncselector_congr (E : Env) (s s1 : EngineState) (ob ob1 : Object) (key : Int)
    (hv : s1.version = s.version) (hb : ob1.base_method = ob.base_method) :
    ∀ (k : Nat) (i : Int),
      scanFuncselector E s1 ob1 key k i = scanFuncselector E s ob key k i := by
  intro k
  induction k with
  | zero => intro i; rfl
  | succ k ih =>
    intro i
    simp only [scanFuncselector, VM_OBJECT_GET_FUNCSELECTOR, hv, hb]
    rw [ih]

/-- The walk reads of an object only its method table and its superclass slot, so
it runs alike in two states that differ in `base_vars` fields and flags. -/
theorem lookupFunctionLoop_congr (E : Env) (s s1 : EngineState) (key : Int)
    (hv : s1.version = s.version) (hh : s1.heap = s.heap)
    (ho : s1.objects.map eraseBaseVars = s.objects.map eraseBaseVars) :
    ∀ (fuel : Nat) (p : Option Nat),
      lookupFunctionLoop E s1 key fuel p = lookupFunctionLoop E s key fuel p := by
  intro fuel
  induction fuel with
  | zero => intro p; cases p <;> rfl
  | succ fuel ih =>
    intro p
    cases p with
    | none => rfl
    | some q =>
      simp only [lookupFunctionLoop]
      have hq := erase_getElem _ _ ho q
      cases h1 : s1.objects[q]? with
      | none =>
        rw [h1] at hq
        cases h2 : s.objects[q]? with
        | none => rfl
        | some ob => rw [h2] at hq; simp at hq
      | some ob1 =>
        rw [h1] at hq
        cases h2 : s.objects[q]? with
        | none => rw [h2] at hq; simp at hq
        | some ob =>
          rw [h2] at hq
          simp only [Option.map_some', Option.some.injEq] at hq
          obtain ⟨hvars, _, hnr, _, hbm, hpos⟩ := erase_eq_fields _ _ hq
          simp only
          have e2 : _class_locate_funcselector E s1 ob1 key
              = _class_locate_funcselector E s ob key := by
            unfold _class_locate_funcselector
            rw [hnr]
            exact scanFuncselector_congr E s s1 ob ob1 key hv hbm _ _
          rw [e2, hvars]
          have e3 : ∀ i, VM_OBJECT_READ_FUNCTION E s1 ob1 i = VM_OBJECT_READ_FUNCTION E s ob i := by
            intro i
            simp only [VM_OBJECT_READ_FUNCTION, hv, hnr, hbm, hpos]
          rw [e3]
          split
          · rfl
          · cases hs : ob._variables[E.SCRIPT_SUPERCLASS_SELECTOR]? with
            | none => rfl
            | some sup =>
              simp only
              rw [obj_get_congr E s s1 hh]
              exact ih _

theorem LookupEquiv_refl (E : Env) (s : EngineState) : LookupEquiv E s s :=
  ⟨rfl, rfl, rfl, rfl, fun _ => rfl⟩

theorem LookupEquiv_trans (E : Env) (s s1 s2 : EngineState) (h1 : LookupEquiv E s s1)
    (h2 : LookupEquiv E s1 s2) : LookupEquiv E s s2 := by
  obtain ⟨a1, a2, a3, a4, a5⟩ := h1
  obtain ⟨b1, b2, b3, b4, b5⟩ := h2
  refine ⟨by rw [b1, a1], by rw [b2, a2], by rw [b3, a3], by rw [b4, a4], ?_⟩
  intro hv
  rw [b5 (by rw [a1]; exact hv), a5 hv]

theorem LookupEquiv_symm (E : Env) (s s1 : EngineState) (h : LookupEquiv E s s1) :
    LookupEquiv E s1 s := by
  obtain ⟨a1, a2, a3, a4, a5⟩ := h
  refine ⟨a1.symm, a2.symm, a3.symm, a4.symm, ?_⟩
  intro hv
  rw [a5 (by rw [← a1]; exact hv)]

theorem set_base_vars_erase (l : List Object) (o : Nat) (obj : Object) (b : BytePtr)
    (hobj : l[o]? = some obj) :
    (l.set o { obj with base_vars := b }).map eraseBaseVars = l.map eraseBaseVars := by
  apply List.ext_getElem?
  intro i
  rw [List.getElem?_map, List.getElem?_map]
  by_cases hi : i = o
  · subst hi
    have hlen : i < l.length := by
      by_contra hlt
      rw [List.getElem?_eq_none (by omega)] at hobj
      simp at hobj
    rw [List.getElem?_set_self hlen, hobj]
    rfl
  · rw [List.getElem?_set_ne (Ne.symm hi)]

theorem locate_varselector_congr (E : Env) (s s1 : EngineState) (o : Nat) (key : Int)
    (h : LookupEquiv E s s1) :
    (_obj_locate_varselector E s1 o key).map Prod.fst
      = (_obj_locate_varselector E s o key).map Prod.fst := by
  obtain ⟨hv, _, hh, ho, hnew⟩ := h
  unfold _obj_locate_varselector
  have hq := erase_getElem _ _ ho o
  by_cases hold : s.version < E.SCI_VERSION_1_1
  · cases h1 : s1.objects[o]? with
    | none =>
      rw [h1] at hq
      cases h2 : s.objects[o]? with
      | none => rfl
      | some ob => rw [h2] at hq; simp at hq
    | some ob1 =>
      rw [h1] at hq
      cases h2 : s.objects[o]? with
      | none => rw [h2] at hq; simp at hq
      | some ob =>
        rw [h2] at hq
        simp only [Option.map_some', Option.some.injEq] at hq
        obtain ⟨_, hnr, _, hbo, _, _⟩ := erase_eq_fields _ _ hq
        simp only [hv, hold, if_true, Option.map_some', hnr, hbo]
  · rw [hnew hold, hv]
    cases h2 : s.objects[o]? with
    | none => rfl
    | some ob =>
      simp only [hold, if_false]
      cases ob._variables[1]? with
      | none => rfl
      | some v1 =>
        cases ob._variables[E.SCRIPT_INFO_SELECTOR]? with
        | none => rfl
        | some info =>
          simp only
          by_cases hc : info.offset &&& E.SCRIPT_INFO_CLASS = 0
          · simp only [hc, if_true]
            cases ob._variables[E.SCRIPT_SUPERCLASS_SELECTOR]? with
            | none => rfl
            | some sup =>
              simp only
              rw [obj_get_congr E s s1 hh]
              cases (obj_get E s sup).bind (fun p => s.objects[p]?) with
              | none => rfl
              | some sobj => rfl
          · simp only [hc, if_false, Option.map_some']

/-- The state that `_obj_locate_varselector` leaves behind differs from the one it
started in at most in `base_vars` fields, and not at all in the newer dialect. -/
theorem locate_varselector_state (E : Env) (s s1 : EngineState) (o : Nat) (key i : Int)
    (h : _obj_locate_varselector E s o key = some (i, s1)) :
    LookupEquiv E s s1 ∧ SameButFlagsAndObjects s s1 := by
  unfold _obj_locate_varselector at h
  cases h2 : s.objects[o]? with
  | none => simp [h2] at h
  | some ob =>
    simp only [h2] at h
    by_cases hold : s.version < E.SCI_VERSION_1_1
    · simp only [hold, if_true, Option.some.injEq, Prod.mk.injEq] at h
      obtain ⟨_, hs1⟩ := h
      subst hs1
      exact ⟨⟨rfl, rfl, rfl, set_base_vars_erase s.objects o ob _ h2,
        fun hn => absurd hold hn⟩, rfl⟩
    · have hs1 : s1 = s := by
        simp only [hold, if_false] at h
        cases h3 : ob._variables[1]? with
        | none => simp [h3] at h
        | some v1 =>
          cases h4 : ob._variables[E.SCRIPT_INFO_SELECTOR]? with
          | none => simp [h3, h4] at h
          | some info =>
            simp only [h3, h4] at h
            by_cases hc : info.offset &&& E.SCRIPT_INFO_CLASS = 0
            · simp only [hc, if_true] at h
              cases h5 : ob._variables[E.SCRIPT_SUPERCLASS_SELECTOR]? with
              | none => simp [h5] at h
              | some sup =>
                simp only [h5] at h
                cases h6 : (obj_get E s sup).bind (fun p => s.objects[p]?) with
                | none => simp [h6] at h
                | some sobj =>
                  simp only [h6, Option.some.injEq, Prod.mk.injEq] at h
                  exact h.2.symm
            · simp only [hc, if_false, Option.some.injEq, Prod.mk.injEq] at h
              exact h.2.symm
      subst hs1
      exact ⟨LookupEquiv_refl E s1, rfl⟩

theorem setError_same (s : EngineState) : SameButFlagsAndObjects s (setError s) := rfl

/-- Lookup frame property: `lookup_selector` changes the state at most in the object pool's
`base_vars` fields and in the error and debug flags. -/
theorem lookup_selector_state (E : Env) (s s1 : EngineState) (loc : reg_t) (sel : Int)
    (r : LookupResult) (h : lookup_selector E s loc sel = some (r, s1)) :
    LookupEquiv E s s1 ∧ SameButFlagsAndObjects s s1 := by
  unfold lookup_selector at h
  cases h1 : obj_get E s loc with
  | none =>
    simp only [h1, Option.some.injEq, Prod.mk.injEq] at h
    obtain ⟨_, hs⟩ := h
    subst hs
    exact ⟨⟨rfl, rfl, rfl, rfl, fun _ => rfl⟩, rfl⟩
  | some o =>
    simp only [h1] at h
    cases h2 : s.objects[o]? with
    | none => simp [h2] at h
    | some ob =>
      simp only [h2] at h
      cases h3 : IS_CLASS E ob with
      | none => simp [h3] at h
      | some c =>
        simp only [h3] at h
        split at h
        · simp at h
        · cases h4 : _obj_locate_varselector E s o (selectorKey E s sel) with
          | none => simp [h4] at h
          | some res =>
            obtain ⟨i, s2⟩ := res
            simp only [h4] at h
            have hst := locate_varselector_state E s s2 o _ i h4
            split at h
            · split at h
              · simp only [Option.some.injEq, Prod.mk.injEq] at h
                rw [← h.2]; exact hst
              · simp at h
            · cases h5 : _lookup_selector_function E s2 (some o) (selectorKey E s sel) with
              | none => simp [h5] at h
              | some rr =>
                simp only [h5, Option.map_some', Option.some.injEq, Prod.mk.injEq] at h
                rw [← h.2]; exact hst

/-- The answer of `lookup_selector` is the same in two states that the lookup
cannot tell apart. -/
theorem lookup_selector_congr (E : Env) (s s1 : EngineState) (loc : reg_t) (sel : Int)
    (h : LookupEquiv E s s1) :
    (lookup_selector E s1 loc sel).map Prod.fst = (lookup_selector E s loc sel).map Prod.fst := by
  have hloc := locate_varselector_congr E s s1
  obtain ⟨hv, hf, hh, ho, hnew⟩ := h
  have hkey : selectorKey E s1 sel = selectorKey E s sel := by
    unfold selectorKey; rw [hf]
  unfold lookup_selector
  rw [hkey, obj_get_congr E s s1 hh]
  cases h1 : obj_get E s loc with
  | none => rfl
  | some o =>
    simp only
    have hq := erase_getElem _ _ ho o
    have hl := hloc o (selectorKey E s sel) ⟨hv, hf, hh, ho, hnew⟩
    cases h2 : s1.objects[o]? with
    | none =>
      rw [h2] at hq
      cases h3 : s.objects[o]? with
      | none => rfl
      | some ob => rw [h3] at hq; simp at hq
    | some ob1 =>
      rw [h2] at hq
      cases h3 : s.objects[o]? with
      | none => rw [h3] at hq; simp at hq
      | some ob =>
        rw [h3] at hq
        simp only [Option.map_some', Option.some.injEq] at hq
        obtain ⟨hvars, _, _, _, _, _⟩ := erase_eq_fields _ _ hq
        simp only
        have hcls : IS_CLASS E ob1 = IS_CLASS E ob := by unfold IS_CLASS; rw [hvars]
        rw [hcls, hvars]
        cases IS_CLASS E ob with
        | none => rfl
        | some c =>
          simp only
          split
          · rfl
          · cases h4 : _obj_locate_varselector E s1 o (selectorKey E s sel) with
            | none =>
              rw [h4] at hl
              cases h5 : _obj_locate_varselector E s o (selectorKey E s sel) with
              | none => rfl
              | some r5 => rw [h5] at hl; simp at hl
            | some r4 =>
              rw [h4] at hl
              cases h5 : _obj_locate_varselector E s o (selectorKey E s sel) with
              | none => rw [h5] at hl; simp at hl
              | some r5 =>
                rw [h5] at hl
                obtain ⟨i4, s4⟩ := r4
                obtain ⟨i5, s5⟩ := r5
                simp only [Option.map_some', Option.some.injEq] at hl
                subst hl
                simp only
                obtain ⟨e4, _⟩ := locate_varselector_state E s1 s4 o _ _ h4
                obtain ⟨e5, _⟩ := locate_varselector_state E s s5 o _ _ h5
                have e45 : LookupEquiv E s5 s4 :=
                  LookupEquiv_trans E s5 s s4 (LookupEquiv_symm E s s5 e5)
                    (LookupEquiv_trans E s s1 s4 ⟨hv, hf, hh, ho, hnew⟩ e4)
                split
                · split <;> rfl
                · have : _lookup_selector_function E s4 (some o) (selectorKey E s sel)
                      = _lookup_selector_function E s5 (some o) (selectorKey E s sel) := by
                    unfold _lookup_selector_function
                    obtain ⟨b1, _, b3, b4, _⟩ := e45
                    have hlen : s4.objects.length = s5.objects.length := by
                      have := congrArg List.length b4
                      simpa using this
                    rw [hlen]
                    exact lookupFunctionLoop_congr E s5 s4 _ b1 b3 b4 _ _
                  rw [this]
                  cases _lookup_selector_function E s5 (some o) (selectorKey E s sel) with
                  | none => rfl
                  | some rr => rfl

theorem nearestMethod_none_iff (E : Env) (s : EngineState) (key : Int) (chain : List Object) :
    (nearestMethod E s key chain).1 = kSelectorNone ↔
      ∀ ob ∈ chain, key ∉ (methodTable E s ob).map Prod.fst := by
  unfold nearestMethod
  cases h : chain.find? (definesSelector E s key) with
  | none =>
    simp only [true_iff]
    intro ob hob
    have := List.find?_eq_none.1 h ob hob
    simpa [definesSelector] using this
  | some ob =>
    simp only [false_iff, reduceCtorEq]
    intro hall
    have hmem := List.mem_of_find?_eq_some h
    have hdef := List.find?_some h
    simp only [definesSelector, decide_eq_true_eq] at hdef
    exact hall ob hmem hdef

/-- C3: for an object whose superclass chain ends and a selector id (as the lookup
works with it) that is not among the object's variable selectors, `lookup_selector`
answers with the method lookup along the chain: METHOD with the code address
listed in the method table of the nearest object of the chain (the object, its
parent, its grandparent, ...) whose own table contains the selector, and NONE
exactly when no object of the chain defines the selector. -/
theorem lookup_selector_inherited_method (E : Env) (s : EngineState) (loc : reg_t) (sel : Int)
    (o : Nat) (obj : Object) (rest : List (Nat × Object)) (n : Nat) (table : List Int)
    (hloc : obj_get E s loc = some o)
    (hchain : superclassChain E s n (some o) = some ((o, obj) :: rest))
    (hinfo : E.SCRIPT_INFO_SELECTOR < obj._variables.length)
    (hspecies : E.SCRIPT_SPECIES_SELECTOR < obj._variables.length)
    (htab : varselectorTable E s obj = some table)
    (hnot : selectorKey E s sel ∉ table) :
    ∃ s1, lookup_selector E s loc sel
        = some (⟨(nearestMethod E s (selectorKey E s sel) (obj :: rest.map Prod.snd)).1, none,
            (nearestMethod E s (selectorKey E s sel) (obj :: rest.map Prod.snd)).2⟩, s1)
      ∧ (s1 = s ∨ ∃ b, s1 = { s with objects := s.objects.set o { obj with base_vars := b } })
      ∧ ((nearestMethod E s (selectorKey E s sel) (obj :: rest.map Prod.snd)).1 = kSelectorNone ↔
          ∀ ob ∈ obj :: rest.map Prod.snd,
            selectorKey E s sel ∉ (methodTable E s ob).map Prod.fst) := by
  obtain ⟨obj2, sup, rest2, m, hobj, hs, hc, hl⟩ := superclassChain_cons E s n o _ hchain
  simp only [List.cons.injEq, Prod.mk.injEq, true_and] at hl
  obtain ⟨ha, hr⟩ := hl
  subst hr; subst ha
  obtain ⟨s1, buf, k, hloc2, htn, hs1⟩ :=
    locate_varselector_eq E s o obj table (selectorKey E s sel) hobj htab
  subst htn
  have hscan := scanVarselector_of_not_mem E buf (selectorKey E s sel) k hnot
  obtain ⟨c, hcl⟩ := IS_CLASS_isSome E obj hinfo
  have hsp : obj._variables[E.SCRIPT_SPECIES_SELECTOR]? ≠ none := by
    rw [List.getElem?_eq_getElem hspecies]; simp
  have hlen := superclassChain_length_le E s _ n _ hchain
  have hwalk : _lookup_selector_function E s1 (some o) (selectorKey E s sel)
      = some (nearestMethod E s (selectorKey E s sel) (obj :: rest.map Prod.snd)) := by
    unfold _lookup_selector_function
    rcases hs1 with h1 | ⟨b, h1⟩
    · subst h1
      have := lookupFunctionLoop_chain E s1 (selectorKey E s1 sel) _ n (some o)
        (s1.objects.length + 1) hchain (by omega)
      simpa using this
    · subst h1
      rw [lookupFunctionLoop_congr E s
        { s with objects := s.objects.set o { obj with base_vars := b } }
        (selectorKey E s sel) rfl rfl (set_base_vars_erase s.objects o obj b hobj)]
      simp only [List.length_set]
      have := lookupFunctionLoop_chain E s (selectorKey E s sel) _ n (some o)
        (s.objects.length + 1) hchain (by omega)
      simpa using this
  refine ⟨s1, ?_, hs1, nearestMethod_none_iff E s _ _⟩
  unfold lookup_selector
  simp only [hloc, hobj, hcl, hloc2, hscan, hwalk]
  simp [hsp]

/-- At the instance of the example machine selector 40 is defined by the
grandparent class only; the lookup answers METHOD with the grandparent's code
address 1:400. -/
theorem lookup_selector_inherited_method_witness :
    ∃ s1, lookup_selector exEnv (exState [] [] NULL_REG) ⟨1, 8⟩ 40
      = some (⟨kSelectorMethod, none, some ⟨1, 400⟩⟩, s1) :=
  let ⟨s1, h, _⟩ := lookup_selector_inherited_method exEnv (exState [] [] NULL_REG) ⟨1, 8⟩ 40 0
    exInstance [(1, exParent), (2, exGrandparent)] 3 [1, 2, 3, 30, 20]
    (by decide) (by decide) (by decide) (by decide) (by decide) (by decide)
  ⟨s1, h⟩

/-- At the instance of the example machine selector 30 is the fourth variable
selector and also a method of both classes; the lookup answers VARIABLE with
property slot 3. -/
theorem lookup_selector_variable_first_witness :
    ∃ s1, lookup_selector exEnv (exState [] [] NULL_REG) ⟨1, 8⟩ 30
      = some (⟨kSelectorVariable, some (Ptr.prop 0 3), none⟩, s1) :=
  let ⟨s1, h, _⟩ := lookup_selector_variable_first exEnv (exState [] [] NULL_REG) ⟨1, 8⟩ 30 0
    exInstance [1, 2, 3, 30, 20] 3
    (by decide) (by decide) (by decide) (by decide) (by decide) (by decide) (by decide)
    (by decide)
  ⟨s1, h⟩

/-! ### The walk over the send frame -/

theorem SameButFlagsAndObjects_trans (s s1 s2 : EngineState)
    (h1 : SameButFlagsAndObjects s s1) (h2 : SameButFlagsAndObjects s1 s2) :
    SameButFlagsAndObjects s s2 := by
  unfold SameButFlagsAndObjects at *
  rw [h2, h1]

theorem SameButFlagsAndObjects_stack_eq (s s1 : EngineState)
    (h : SameButFlagsAndObjects s s1) : s1.stack = s.stack :=
  (congrArg EngineState.stack h : _)

theorem SameButFlagsAndObjects_es_eq (s s1 : EngineState)
    (h : SameButFlagsAndObjects s s1) : s1.executionStack = s.executionStack :=
  (congrArg EngineState.executionStack h : _)

theorem SameButFlagsAndObjects_acc_eq (s s1 : EngineState)
    (h : SameButFlagsAndObjects s s1) : s1.r_acc = s.r_acc :=
  (congrArg EngineState.r_acc h : _)

theorem SameButFlagsAndObjects_refl (s : EngineState) : SameButFlagsAndObjects s s := rfl

theorem lookup_selector_shape (E : Env) (s s1 : EngineState) (loc : reg_t) (sel : Int)
    (r : LookupResult) (h : lookup_selector E s loc sel = some (r, s1)) :
    r = ⟨kSelectorNone, none, none⟩ ∨ (∃ v, r = ⟨kSelectorVariable, some v, none⟩)
      ∨ (∃ f, r = ⟨kSelectorMethod, none, some f⟩) := by
  unfold lookup_selector at h
  cases h1 : obj_get E s loc with
  | none =>
    simp only [h1, Option.some.injEq, Prod.mk.injEq] at h
    exact Or.inl h.1.symm
  | some o =>
    simp only [h1] at h
    cases h2 : s.objects[o]? with
    | none => simp [h2] at h
    | some ob =>
      simp only [h2] at h
      cases h3 : IS_CLASS E ob with
      | none => simp [h3] at h
      | some c =>
        simp only [h3] at h
        split at h
        · simp at h
        · cases h4 : _obj_locate_varselector E s o (selectorKey E s sel) with
          | none => simp [h4] at h
          | some res =>
            obtain ⟨i, s2⟩ := res
            simp only [h4] at h
            split at h
            · split at h
              · simp only [Option.some.injEq, Prod.mk.injEq] at h
                exact Or.inr (Or.inl ⟨_, h.1.symm⟩)
              · simp at h
            · cases h5 : _lookup_selector_function E s2 (some o) (selectorKey E s sel) with
              | none => simp [h5] at h
              | some rr =>
                simp only [h5, Option.map_some', Option.some.injEq, Prod.mk.injEq] at h
                obtain ⟨hr, _⟩ := h
                unfold _lookup_selector_function at h5
                have : ∀ (fuel : Nat) (p : Option Nat) (rr : SelectorType × Option reg_t),
                    lookupFunctionLoop E s2 (selectorKey E s sel) fuel p = some rr →
                    rr = (kSelectorNone, none) ∨ ∃ f, rr = (kSelectorMethod, some f) := by
                  intro fuel
                  induction fuel with
                  | zero =>
                    intro p rr hrr
                    cases p with
                    | none =>
                      simp only [lookupFunctionLoop, Option.some.injEq] at hrr
                      exact Or.inl hrr.symm
                    | some q => simp [lookupFunctionLoop] at hrr
                  | succ fuel ih =>
                    intro p rr hrr
                    cases p with
                    | none =>
                      simp only [lookupFunctionLoop, Option.some.injEq] at hrr
                      exact Or.inl hrr.symm
                    | some q =>
                      simp only [lookupFunctionLoop] at hrr
                      cases h6 : s2.objects[q]? with
                      | none => simp [h6] at hrr
                      | some ob2 =>
                        simp only [h6] at hrr
                        split at hrr
                        · simp only [Option.some.injEq] at hrr
                          exact Or.inr ⟨_, hrr.symm⟩
                        · cases h7 : ob2._variables[E.SCRIPT_SUPERCLASS_SELECTOR]? with
                          | none => simp [h7] at hrr
                          | some sup =>
                            simp only [h7] at hrr
                            exact ih _ _ hrr
                rcases this _ _ _ h5 with hn | ⟨f, hf⟩
                · left; rw [← hr, hn]
                · right; right; exact ⟨f, by rw [← hr, hf]⟩

theorem idx_append_cons {α : Type} (pre post : List α) (x : α) :
    idx (pre ++ x :: post) (pre.length : Int) = some x := by
  unfold idx
  simp only [Int.natCast_nonneg, if_true, Int.toNat_ofNat]
  rw [List.getElem?_append_right (le_refl _)]
  simp

theorem sendFrame_length_cons (g : SendGroup) (gs : List SendGroup) :
    ((sendFrame (g :: gs)).length : Int) = 2 + g.args.length + (sendFrame gs).length := by
  simp only [sendFrame, List.length_cons, List.length_append]
  push_cast
  ring

/-- The first loop of `send_selector`, run over a send frame that lies on the
operand stack from index `pre.length` and whose groups resolve as recorded in
them, registers exactly the actions `callsFor` lists, reads the stack without
changing it, and leaves a state that the lookup cannot tell from the initial one. -/
theorem sendLoop_groups (E : Env) (send_obj : reg_t) (s0 : EngineState) :
    ∀ (gs : List SendGroup) (fuel : Nat) (s : EngineState) (sp : Ptr) (pre post : List reg_t)
      (acc : List CallsStruct),
      LookupEquiv E s0 s →
      (∀ g ∈ gs, (lookup_selector E s0 send_obj g.selector).map Prod.fst = some g.res) →
      (∀ g ∈ gs, g.args.length ≤ 0x800) →
      s.stack = pre ++ sendFrame gs ++ post →
      (sendFrame gs).length ≤ fuel →
      ∃ s1, sendLoop E send_obj fuel s sp (sendFrame gs).length (Ptr.stack pre.length) acc
          = some (some (callsFor sp pre.length gs acc), s1)
        ∧ LookupEquiv E s0 s1 ∧ SameButFlagsAndObjects s s1 := by
  intro gs
  induction gs with
  | nil =>
    intro fuel s sp pre post acc hle _ _ _ _
    refine ⟨s, ?_, hle, SameButFlagsAndObjects_refl s⟩
    unfold sendLoop
    simp [sendFrame, callsFor]
  | cons g gs ih =>
    intro fuel s sp pre post acc hle hres hargc hstack hfuel
    have hlen := sendFrame_length_cons g gs
    obtain ⟨fuel, rfl⟩ : ∃ f2, fuel = f2 + 1 := ⟨fuel - 1, by
      have : 0 < (sendFrame (g :: gs)).length := by simp [sendFrame]
      omega⟩
    have hpos : ((sendFrame (g :: gs)).length : Int) > 0 := by
      have : 0 < (sendFrame (g :: gs)).length := by simp [sendFrame]
      omega
    have hl0 : load s (Ptr.stack pre.length) = some ⟨0, g.selector⟩ := by
      simp only [load, hstack, sendFrame, List.append_assoc, List.cons_append]
      exact idx_append_cons _ _ _
    have hl1 : load s ((Ptr.stack pre.length).add 1) = some ⟨0, g.args.length⟩ := by
      simp only [load, Ptr.add, hstack, sendFrame, List.append_assoc, List.cons_append]
      have := idx_append_cons (pre ++ [(⟨0, g.selector⟩ : reg_t)])
        (g.args ++ (sendFrame gs ++ post)) (⟨0, g.args.length⟩ : reg_t)
      simpa using this
    -- the state after the breakpoint check
    let sb : EngineState := if E.selector_breakpoint s send_obj g.selector = true then
      { s with script_debug_flag := 1, breakpointFlag := true } else s
    have hsb : LookupEquiv E s sb ∧ SameButFlagsAndObjects s sb := by
      by_cases hb : E.selector_breakpoint s send_obj g.selector = true
      · simp only [sb, hb, if_true]
        exact ⟨⟨rfl, rfl, rfl, rfl, fun _ => rfl⟩, rfl⟩
      · simp only [sb, hb]
        exact ⟨LookupEquiv_refl E s, rfl⟩
    have hle_sb := LookupEquiv_trans E s0 s sb hle hsb.1
    have hlk := lookup_selector_congr E s0 sb send_obj g.selector hle_sb
    rw [hres g (List.mem_cons_self _ _)] at hlk
    cases hlk2 : lookup_selector E sb send_obj g.selector with
    | none => rw [hlk2] at hlk; simp at hlk
    | some rs =>
      obtain ⟨r, s2⟩ := rs
      rw [hlk2] at hlk
      simp only [Option.map_some', Option.some.injEq] at hlk
      subst hlk
      obtain ⟨hle2, hsame2⟩ := lookup_selector_state E sb s2 send_obj _ _ hlk2
      have hshape := lookup_selector_shape E sb s2 send_obj _ _ hlk2
      have hargc1 : ¬ ((g.args.length : Int) > 0x800) := by
        have := hargc g (List.mem_cons_self _ _)
        omega
      have hpre2 : ((pre ++ (⟨0, g.selector⟩ :: ⟨0, g.args.length⟩ :: g.args) : List reg_t).length
          : Int) = pre.length + 2 + g.args.length := by
        simp only [List.length_append, List.length_cons]
        push_cast
        ring
      have harg : ((Ptr.stack pre.length).add 1).add ((g.args.length : Int) + 1)
          = Ptr.stack ((pre ++ (⟨0, g.selector⟩ :: ⟨0, g.args.length⟩ :: g.args)
              : List reg_t).length : Int) := by
        simp only [Ptr.add, hpre2]
        congr 1
        ring
      have hfs : ((sendFrame (g :: gs)).length : Int) - (2 + (g.args.length : Int))
          = (sendFrame gs).length := by rw [hlen]; ring
      -- one step of the loop
      have hstep : ∀ (s3 : EngineState) (sp3 : Ptr) (acc3 : List CallsStruct),
          LookupEquiv E s0 s3 → SameButFlagsAndObjects s s3 →
          ∃ s1, sendLoop E send_obj fuel s3 sp3 (sendFrame gs).length
              (Ptr.stack ((pre ++ (⟨0, g.selector⟩ :: ⟨0, g.args.length⟩ :: g.args)
                : List reg_t).length : Int)) acc3
            = some (some (callsFor sp3 (pre.length + 2 + g.args.length) gs acc3), s1)
            ∧ LookupEquiv E s0 s1 ∧ SameButFlagsAndObjects s s1 := by
        intro s3 sp3 acc3 h3 hs3
        have hst3 : s3.stack = (pre ++ (⟨0, g.selector⟩ :: ⟨0, g.args.length⟩ :: g.args))
            ++ sendFrame gs ++ post := by
          rw [SameButFlagsAndObjects_stack_eq s s3 hs3, hstack]
          simp [sendFrame]
        obtain ⟨s1, h1, h2, h3b⟩ := ih fuel s3 sp3 _ post acc3 h3
          (fun g2 hg2 => hres g2 (List.mem_cons_of_mem _ hg2))
          (fun g2 hg2 => hargc g2 (List.mem_cons_of_mem _ hg2)) hst3
          (by simp only [sendFrame, List.length_cons, List.length_append] at hfuel; omega)
        refine ⟨s1, ?_, h2, SameButFlagsAndObjects_trans s s3 s1 hs3 h3b⟩
        rw [h1, hpre2]
      have hsame_s2 : SameButFlagsAndObjects s s2 :=
        SameButFlagsAndObjects_trans s sb s2 hsb.2 hsame2
      have hle_s2 : LookupEquiv E s0 s2 := LookupEquiv_trans E s0 sb s2 hle_sb hle2
      rw [sendLoop]
      simp only [hpos, if_true, hl0, hl1, validate_arithmetic, ne_eq, not_true_eq_false,
        if_false, hargc1]
      rw [show (if E.selector_breakpoint s send_obj (g.selector : Int) = true then
          { s with script_debug_flag := 1, breakpointFlag := true } else s) = sb from rfl, hlk2]
      rcases hshape with hn | ⟨v, hv⟩ | ⟨f, hf⟩
      · simp only [hn, hfs, harg, callsFor]
        apply hstep
        · by_cases hg : s2.gameName = "LSL6" ∧ (g.selector : Int) = 0x18c
          · simp only [hg, and_self, if_true]; exact hle_s2
          · simp only [hg, if_false]
            exact LookupEquiv_trans E s0 s2 _ hle_s2 ⟨rfl, rfl, rfl, rfl, fun _ => rfl⟩
        · by_cases hg : s2.gameName = "LSL6" ∧ (g.selector : Int) = 0x18c
          · simp only [hg, and_self, if_true]; exact hsame_s2
          · simp only [hg, if_false]
            exact SameButFlagsAndObjects_trans s s2 _ hsame_s2 (setError_same s2)
      · simp only [hv, hfs, callsFor, Ptr.add]
        simp only [Ptr.add] at harg
        rw [harg]
        exact hstep s2 sp _ hle_s2 hsame_s2
      · simp only [hf, hfs, callsFor, Ptr.add]
        simp only [Ptr.add] at harg
        rw [harg]
        exact hstep s2 CALL_SP_CARRY _ hle_s2 hsame_s2

/-! ### Sends of method groups -/

theorem list_set_same {α : Type} (l : List α) (i : Nat) (v : α) (h : l[i]? = some v) :
    l.set i v = l := by
  have hlt : i < l.length := by
    by_contra hn
    rw [List.getElem?_eq_none (by omega)] at h
    simp at h
  apply List.ext_getElem?
  intro j
  by_cases hj : j = i
  · subst hj; rw [List.getElem?_set_self hlt, h]
  · rw [List.getElem?_set_ne (Ne.symm hj)]

theorem store_same (s : EngineState) (i : Int) (v : reg_t) (h : idx s.stack i = some v) :
    store s (Ptr.stack i) v = some s := by
  unfold idx at h
  split at h
  · rename_i hi
    have hlt : i.toNat < s.stack.length := by
      by_contra hn
      rw [List.getElem?_eq_none (by omega)] at h
      simp at h
    simp only [store, setIdx, hi, hlt, and_self, if_true, Option.map_some', Option.some.injEq]
    rw [list_set_same _ _ _ h]
  · simp at h

theorem methodFrames_length (send_obj work_obj : reg_t) (origin : Int) :
    ∀ (gs : List SendGroup) (sp : Ptr) (p : Int),
      (∀ g ∈ gs, ∃ f, g.res = ⟨kSelectorMethod, none, some f⟩) →
      (methodFrames send_obj work_obj origin sp p gs).length = gs.length := by
  intro gs
  induction gs with
  | nil => intro sp p _; rfl
  | cons g gs ih =>
    intro sp p h
    obtain ⟨f, hf⟩ := h g (List.mem_cons_self _ _)
    simp only [methodFrames, hf, List.length_cons]
    rw [ih _ _ (fun g2 hg2 => h g2 (List.mem_cons_of_mem _ hg2))]

theorem methodFrames_type (send_obj work_obj : reg_t) (origin : Int) :
    ∀ (gs : List SendGroup) (sp : Ptr) (p : Int),
      ∀ f ∈ methodFrames send_obj work_obj origin sp p gs, f.type = EXEC_STACK_TYPE_CALL := by
  intro gs
  induction gs with
  | nil => intro sp p f hf; simp [methodFrames] at hf
  | cons g gs ih =>
    intro sp p f hf
    simp only [methodFrames] at hf
    split at hf
    · simp only [List.mem_cons] at hf
      rcases hf with hf | hf
      · rw [hf]
      · exact ih _ _ f hf
    · exact ih _ _ f hf

/-- Pushing the actions registered for method groups puts the groups' CALL frames
on the execution stack, the first group's frame on top, and rewrites each
argument-count slot with the value it already holds. -/
theorem pushCalls_callsFor (send_obj work_obj : reg_t) (origin : Int) :
    ∀ (gs : List SendGroup) (sp : Ptr) (pre post : List reg_t) (acc : List CallsStruct)
      (s : EngineState),
      (∀ g ∈ gs, ∃ f, g.res = ⟨kSelectorMethod, none, some f⟩) →
      (∀ g ∈ gs, g.args.length ≤ 0x800) →
      s.stack = pre ++ sendFrame gs ++ post →
      pushCalls send_obj work_obj origin (callsFor sp pre.length gs acc) s
        = pushCalls send_obj work_obj origin acc
            { s with executionStack :=
              methodFrames send_obj work_obj origin sp pre.length gs ++ s.executionStack } := by
  intro gs
  induction gs with
  | nil => intro sp pre post acc s _ _ _; rfl
  | cons g gs ih =>
    intro sp pre post acc s hres hargc hstack
    obtain ⟨f, hf⟩ := hres g (List.mem_cons_self _ _)
    have hpre2 : ((pre ++ (⟨0, g.selector⟩ :: ⟨0, g.args.length⟩ :: g.args) : List reg_t).length
        : Int) = pre.length + 2 + g.args.length := by
      simp only [List.length_append, List.length_cons]
      push_cast
      ring
    have hst2 : s.stack = (pre ++ (⟨0, g.selector⟩ :: ⟨0, g.args.length⟩ :: g.args))
        ++ sendFrame gs ++ post := by
      rw [hstack]; simp [sendFrame]
    have hih := ih CALL_SP_CARRY (pre ++ (⟨0, g.selector⟩ :: ⟨0, g.args.length⟩ :: g.args)) post
      ({ address_func := f, address_var := Ptr.null, argp := Ptr.stack (pre.length + 1),
         argc := g.args.length, selector := g.selector, sp := sp,
         type := EXEC_STACK_TYPE_CALL } :: acc) s
      (fun g2 hg2 => hres g2 (List.mem_cons_of_mem _ hg2))
      (fun g2 hg2 => hargc g2 (List.mem_cons_of_mem _ hg2)) hst2
    rw [hpre2] at hih
    simp only [callsFor, hf, methodFrames]
    rw [hih]
    have hslot : idx s.stack ((pre.length : Int) + 1) = some (make_reg 0 g.args.length) := by
      have h1 := idx_append_cons (pre ++ [(⟨0, g.selector⟩ : reg_t)])
        (g.args ++ (sendFrame gs ++ post)) (⟨0, g.args.length⟩ : reg_t)
      have hm : make_reg 0 (g.args.length : Int) = ⟨0, g.args.length⟩ := by
        have := hargc g (List.mem_cons_self _ _)
        simp only [make_reg, u16, reg_t.mk.injEq]
        constructor
        · rfl
        · omega
      rw [hm, hstack]
      simpa [sendFrame] using h1
    rw [pushCalls]
    simp only [reduceCtorEq, if_false, add_exec_stack_entry]
    rw [store_same _ _ _ (by simpa using hslot)]
    simp only [Option.map_some', SCI_XS_CALLEE_LOCALS, ne_eq, not_true_eq_false, if_false,
      List.cons_append]

theorem exec_varselectors_call_top (s : EngineState) (f : ExecStack) (rest : List ExecStack)
    (hes : s.executionStack = f :: rest) (hf : f.type = EXEC_STACK_TYPE_CALL) :
    _exec_varselectors s = some s := by
  unfold _exec_varselectors
  rw [hes]
  simp only [List.length_cons, execVarselectorsLoop, hes, hf, reduceCtorEq, if_false]

/-- The effect of `send_selector` on a send frame of method groups, with the
groups' resolutions known in a state `s0` that the lookup cannot tell from `s`. -/
theorem send_selector_methods (E : Env) (s0 : EngineState) (s : EngineState) (send_obj work_obj : reg_t)
    (sp : Ptr) (gs : List SendGroup) (pre post : List reg_t)
    (hne : gs ≠ [])
    (hmeth : ∀ g ∈ gs, ∃ f, g.res = ⟨kSelectorMethod, none, some f⟩)
    (hle0 : LookupEquiv E s0 s)
    (hres : ∀ g ∈ gs, (lookup_selector E s0 send_obj g.selector).map Prod.fst = some g.res)
    (hargc : ∀ g ∈ gs, g.args.length ≤ 0x800)
    (hstack : s.stack = pre ++ sendFrame gs ++ post) :
    ∃ s1, send_selector E s send_obj work_obj sp (sendFrame gs).length (Ptr.stack pre.length)
        = some (some (s.executionStack.length + gs.length - 1), s1)
      ∧ s1.executionStack
          = methodFrames send_obj work_obj (esSize s - 1) sp pre.length gs ++ s.executionStack
      ∧ (methodFrames send_obj work_obj (esSize s - 1) sp pre.length gs).length = gs.length
      ∧ (∀ f ∈ methodFrames send_obj work_obj (esSize s - 1) sp pre.length gs,
          f.type = EXEC_STACK_TYPE_CALL)
      ∧ s1.stack = s.stack
      ∧ s1.executionStackPosChanged = s.executionStackPosChanged := by
  obtain ⟨s1, hloop, _, hsame⟩ := sendLoop_groups E send_obj s0 gs (sendFrame gs).length s sp
    pre post [] hle0 hres hargc hstack (le_refl _)
  have hpc1 : s1.executionStackPosChanged = s.executionStackPosChanged :=
    (congrArg EngineState.executionStackPosChanged hsame : _)
  have hst1 : s1.stack = s.stack := SameButFlagsAndObjects_stack_eq s s1 hsame
  have hes1 : s1.executionStack = s.executionStack := SameButFlagsAndObjects_es_eq s s1 hsame
  have hpush := pushCalls_callsFor send_obj work_obj (esSize s - 1) gs sp pre post [] s1
    hmeth hargc (by rw [hst1]; exact hstack)
  have hlen := methodFrames_length send_obj work_obj (esSize s - 1) gs sp pre.length hmeth
  have htype := methodFrames_type send_obj work_obj (esSize s - 1) gs sp pre.length
  cases hfr : methodFrames send_obj work_obj (esSize s - 1) sp pre.length gs with
  | nil =>
    rw [hfr] at hlen
    cases gs with
    | nil => exact absurd rfl hne
    | cons g gs => simp at hlen
  | cons f rest =>
    refine ⟨{ s1 with executionStack := (f :: rest) ++ s.executionStack }, ?_, rfl, ?_, ?_, hst1,
      hpc1⟩
    · unfold send_selector
      simp only [Int.toNat_ofNat, hloop, hpush, hfr, pushCalls, hes1]
      rw [exec_varselectors_call_top _ f (rest ++ s.executionStack) rfl
        (htype f (by rw [hfr]; exact List.mem_cons_self _ _))]
      simp only [List.cons_append, List.isEmpty_cons, Bool.false_eq_true, if_false,
        List.length_cons, List.length_append, Option.some.injEq, Prod.mk.injEq, and_true]
      rw [hfr] at hlen
      simp only [List.length_cons] at hlen
      congr 1
      omega
    · rw [← hfr]; exact hlen
    · rw [← hfr]; exact htype

/-- C1: a send frame of k >= 1 groups that all resolve to methods makes
`send_selector` push exactly k CALL frames.  Read from the top of the execution
stack downward the new frames belong to the groups 1, 2, ..., k in this order: the
top frame is the first group's and each frame carries its group's selector,
argument count, argument pointer and resolved code address (`methodFrames`).  The
returned frame pointer is the new top, and the operand stack is left as it was. -/
theorem send_selector_method_groups (E : Env) (s : EngineState) (send_obj work_obj : reg_t)
    (sp : Ptr) (gs : List SendGroup) (pre post : List reg_t)
    (hne : gs ≠ [])
    (hmeth : ∀ g ∈ gs, ∃ f, g.res = ⟨kSelectorMethod, none, some f⟩)
    (hres : ∀ g ∈ gs, (lookup_selector E s send_obj g.selector).map Prod.fst = some g.res)
    (hargc : ∀ g ∈ gs, g.args.length ≤ 0x800)
    (hstack : s.stack = pre ++ sendFrame gs ++ post) :
    ∃ s1, send_selector E s send_obj work_obj sp (sendFrame gs).length (Ptr.stack pre.length)
        = some (some (s.executionStack.length + gs.length - 1), s1)
      ∧ s1.executionStack
          = methodFrames send_obj work_obj (esSize s - 1) sp pre.length gs ++ s.executionStack
      ∧ (methodFrames send_obj work_obj (esSize s - 1) sp pre.length gs).length = gs.length
      ∧ (∀ f ∈ methodFrames send_obj work_obj (esSize s - 1) sp pre.length gs,
          f.type = EXEC_STACK_TYPE_CALL)
      ∧ s1.stack = s.stack := by
  obtain ⟨s1, h1, h2, h3, h4, h5, _⟩ := send_selector_methods E s s send_obj work_obj sp gs
    pre post hne hmeth (LookupEquiv_refl E s) hres hargc hstack
  exact ⟨s1, h1, h2, h3, h4, h5⟩

/-- On the example machine the send frame `[31 (5)] [40 ()]` sent to the instance
pushes two CALL frames; the top one is the frame of selector 31 at 1:310 with one
argument, the one below it the frame of selector 40 at 1:400. -/
theorem send_selector_method_groups_witness :
    ∃ s1, send_selector exEnv
        (exState [⟨0, 31⟩, ⟨0, 1⟩, ⟨0, 5⟩, ⟨0, 40⟩, ⟨0, 0⟩, ⟨0, 0⟩] [exBaseFrame 5] NULL_REG)
        ⟨1, 8⟩ ⟨1, 8⟩ (Ptr.stack 5) 5 (Ptr.stack 0) = some (some 2, s1)
      ∧ s1.executionStack =
        [ { objp := ⟨1, 8⟩, sendp := ⟨1, 8⟩, addr_pc := ⟨1, 310⟩, addr_varp := Ptr.null,
            fp := Ptr.stack 5, sp := Ptr.stack 5, argc := 1, variables_argp := Ptr.stack 1,
            local_segment := 1, selector := 31, origin := 0, type := EXEC_STACK_TYPE_CALL },
          { objp := ⟨1, 8⟩, sendp := ⟨1, 8⟩, addr_pc := ⟨1, 400⟩, addr_varp := Ptr.null,
            fp := CALL_SP_CARRY, sp := CALL_SP_CARRY, argc := 0,
            variables_argp := Ptr.stack 4, local_segment := 1, selector := 40, origin := 0,
            type := EXEC_STACK_TYPE_CALL },
          exBaseFrame 5 ] :=
  let ⟨s1, h1, h2, _⟩ := send_selector_method_groups exEnv
    (exState [⟨0, 31⟩, ⟨0, 1⟩, ⟨0, 5⟩, ⟨0, 40⟩, ⟨0, 0⟩, ⟨0, 0⟩] [exBaseFrame 5] NULL_REG)
    ⟨1, 8⟩ ⟨1, 8⟩ (Ptr.stack 5) exMethodGroups [] [⟨0, 0⟩]
    (by simp [exMethodGroups])
    (by intro g hg
        simp only [exMethodGroups, List.mem_cons, List.mem_singleton, List.not_mem_nil,
          or_false] at hg
        rcases hg with rfl | rfl <;> exact ⟨_, rfl⟩)
    (by intro g hg
        simp only [exMethodGroups, List.mem_cons, List.mem_singleton, List.not_mem_nil,
          or_false] at hg
        rcases hg with rfl | rfl <;> decide)
    (by intro g hg
        simp only [exMethodGroups, List.mem_cons, List.mem_singleton, List.not_mem_nil,
          or_false] at hg
        rcases hg with rfl | rfl <;> decide)
    (by decide)
  ⟨s1, h1, h2⟩

/-! ### A read followed by a call -/

theorem SameButFlagsAndObjects_locals_eq (s s1 : EngineState)
    (h : SameButFlagsAndObjects s s1) : s1.localsBlocks = s.localsBlocks :=
  (congrArg EngineState.localsBlocks h : _)

/-- Registers read through pointers are the same in two states that differ in
`base_vars` fields and flags only. -/
theorem load_congr (E : Env) (s s1 : EngineState) (h : LookupEquiv E s s1)
    (h2 : SameButFlagsAndObjects s s1) (p : Ptr) : load s1 p = load s p := by
  cases p with
  | null => rfl
  | stack i => simp only [load, SameButFlagsAndObjects_stack_eq s s1 h2]
  | locals b i => simp only [load, SameButFlagsAndObjects_locals_eq s s1 h2]
  | prop o i =>
    simp only [load]
    have hq := erase_getElem _ _ h.2.2.2.1 o
    cases h3 : s1.objects[o]? with
    | none =>
      rw [h3] at hq
      cases h4 : s.objects[o]? with
      | none => rfl
      | some ob => rw [h4] at hq; simp at hq
    | some ob1 =>
      rw [h3] at hq
      cases h4 : s.objects[o]? with
      | none => rw [h4] at hq; simp at hq
      | some ob =>
        rw [h4] at hq
        simp only [Option.map_some', Option.some.injEq] at hq
        obtain ⟨hvars, _⟩ := erase_eq_fields _ _ hq
        simp [hvars]

theorem load_executionStack (s : EngineState) (es : List ExecStack) (p : Ptr) :
    load { s with executionStack := es } p = load s p := by
  cases p <;> rfl

/-- C2: a two-group send frame `[read X] [call Y]`, where X resolves to a variable
selector and Y to a method, leaves the accumulator equal to the value of X's
property slot when `send_selector` returns, leaves that slot as it was, and grows
the execution stack by exactly one frame: the CALL frame of Y, on top of the
stack, with its program counter at the resolved code address of Y, that is,
before its first instruction. -/
theorem send_selector_read_then_call (E : Env) (s : EngineState) (send_obj work_obj : reg_t)
    (sp : Ptr) (selX selY : Nat) (argsY : List reg_t) (pre post : List reg_t)
    (varp : Ptr) (funcp v : reg_t)
    (hX : (lookup_selector E s send_obj selX).map Prod.fst
      = some ⟨kSelectorVariable, some varp, none⟩)
    (hY : (lookup_selector E s send_obj selY).map Prod.fst
      = some ⟨kSelectorMethod, none, some funcp⟩)
    (hargc : argsY.length ≤ 0x800)
    (hstack : s.stack = pre ++ sendFrame
      [⟨selX, [], ⟨kSelectorVariable, some varp, none⟩⟩,
       ⟨selY, argsY, ⟨kSelectorMethod, none, some funcp⟩⟩] ++ post)
    (hv : load s varp = some v) :
    ∃ s1, send_selector E s send_obj work_obj sp (4 + argsY.length) (Ptr.stack pre.length)
        = some (some s.executionStack.length, s1)
      ∧ s1.r_acc = v
      ∧ load s1 varp = some v
      ∧ s1.executionStack =
        { objp := work_obj, sendp := send_obj, addr_pc := funcp, addr_varp := Ptr.null,
          fp := sp, sp := sp, argc := argsY.length,
          variables_argp := Ptr.stack (pre.length + 2 + 1), local_segment := funcp.segment,
          selector := selY, origin := esSize s - 1, type := EXEC_STACK_TYPE_CALL }
          :: s.executionStack := by
  have hfl : ((sendFrame [⟨selX, [], ⟨kSelectorVariable, some varp, none⟩⟩,
       ⟨selY, argsY, ⟨kSelectorMethod, none, some funcp⟩⟩]).length : Int)
       = 4 + argsY.length := by
    simp only [sendFrame, List.length_cons, List.length_append, List.length_nil, List.nil_append]
    push_cast; ring
  obtain ⟨s1, hloop, hle, hsame⟩ := sendLoop_groups E send_obj s
    [⟨selX, [], ⟨kSelectorVariable, some varp, none⟩⟩,
     ⟨selY, argsY, ⟨kSelectorMethod, none, some funcp⟩⟩] _ s sp pre post []
    (LookupEquiv_refl E s)
    (by intro g hg
        simp only [List.mem_cons, List.mem_singleton, List.not_mem_nil, or_false] at hg
        rcases hg with rfl | rfl
        · exact hX
        · exact hY)
    (by intro g hg
        simp only [List.mem_cons, List.mem_singleton, List.not_mem_nil, or_false] at hg
        rcases hg with rfl | rfl
        · simp
        · exact hargc)
    hstack (le_refl _)
  rw [hfl] at hloop
  have hst1 : s1.stack = s.stack := SameButFlagsAndObjects_stack_eq s s1 hsame
  have hes1 : s1.executionStack = s.executionStack := SameButFlagsAndObjects_es_eq s s1 hsame
  have hld : ∀ p, load s1 p = load s p := load_congr E s s1 hle hsame
  -- the two argument-count slots already hold the counts
  have hslotX : idx s1.stack ((pre.length : Int) + 1) = some (make_reg 0 0) := by
    rw [hst1, hstack]
    have h1 := idx_append_cons (pre ++ [(⟨0, selX⟩ : reg_t)])
      (⟨0, selY⟩ :: ⟨0, argsY.length⟩ :: (argsY ++ post)) (⟨0, 0⟩ : reg_t)
    simpa [sendFrame, make_reg, u16] using h1
  have hslotY : idx s1.stack ((pre.length : Int) + 2 + 1)
      = some (make_reg 0 (argsY.length : Int)) := by
    rw [hst1, hstack]
    have h1 := idx_append_cons (pre ++ [(⟨0, selX⟩ : reg_t), ⟨0, 0⟩, ⟨0, selY⟩])
      (argsY ++ post) (⟨0, argsY.length⟩ : reg_t)
    have hm : make_reg 0 (argsY.length : Int) = ⟨0, argsY.length⟩ := by
      simp only [make_reg, u16, reg_t.mk.injEq]
      constructor
      · rfl
      · omega
    rw [hm]
    have e : ((pre ++ [(⟨0, selX⟩ : reg_t), ⟨0, 0⟩, ⟨0, selY⟩]).length : Int)
        = (pre.length : Int) + 2 + 1 := by
      simp only [List.length_append, List.length_cons, List.length_nil]; push_cast; ring
    rw [e] at h1
    simpa [sendFrame] using h1
  refine ⟨{ s1 with executionStack :=
      { objp := work_obj, sendp := send_obj, addr_pc := funcp, addr_varp := Ptr.null,
        fp := sp, sp := sp, argc := argsY.length,
        variables_argp := Ptr.stack (pre.length + 2 + 1), local_segment := funcp.segment,
        selector := selY, origin := esSize s - 1, type := EXEC_STACK_TYPE_CALL }
        :: s.executionStack, r_acc := v }, ?_, rfl, ?_, rfl⟩
  · unfold send_selector
    have e4 : (4 + (argsY.length : Int)).toNat
        = (sendFrame [⟨selX, [], ⟨kSelectorVariable, some varp, none⟩⟩,
            ⟨selY, argsY, ⟨kSelectorMethod, none, some funcp⟩⟩]).length := by
      rw [← hfl]; simp
    rw [e4, hloop]
    simp only [callsFor, List.length_nil, Nat.cast_zero, add_zero, pushCalls, reduceCtorEq,
      if_false, if_true, add_exec_stack_entry, add_exec_stack_varselector]
    rw [store_same _ _ _ hslotY]
    simp only [Option.map_some']
    rw [store_same _ _ _ (by simpa using hslotX)]
    simp only [Option.map_some', _exec_varselectors, List.length_cons, execVarselectorsLoop,
      if_true, execVarselector, ne_eq, not_true_eq_false, if_false]
    rw [load_executionStack, hld, hv]
    simp only [Option.map_some', List.tail_cons, reduceCtorEq, if_false, hes1,
      SCI_XS_CALLEE_LOCALS, ne_eq, not_true_eq_false]
    cases hes : s.executionStack <;>
      simp [execVarselectorsLoop, hes]
  · have : load { s1 with executionStack :=
      { objp := work_obj, sendp := send_obj, addr_pc := funcp, addr_varp := Ptr.null,
        fp := sp, sp := sp, argc := argsY.length,
        variables_argp := Ptr.stack (pre.length + 2 + 1), local_segment := funcp.segment,
        selector := selY, origin := esSize s - 1, type := EXEC_STACK_TYPE_CALL }
        :: s.executionStack, r_acc := v } varp = load s1 varp := by
      cases varp <;> rfl
    rw [this, hld, hv]

/-- On the example machine the send frame `[20 ()] [40 (9)]` sent to the instance
reads variable selector 20 (property slot 4, holding 42) into the accumulator and
leaves the CALL frame of method 40 at 1:400 as the only new frame. -/
theorem send_selector_read_then_call_witness :
    ∃ s1, send_selector exEnv
        (exState [⟨0, 20⟩, ⟨0, 0⟩, ⟨0, 40⟩, ⟨0, 1⟩, ⟨0, 9⟩, ⟨0, 0⟩] [exBaseFrame 5] NULL_REG)
        ⟨1, 8⟩ ⟨1, 8⟩ (Ptr.stack 5) 5 (Ptr.stack 0) = some (some 1, s1)
      ∧ s1.r_acc = ⟨0, 42⟩
      ∧ load s1 (Ptr.prop 0 4) = some ⟨0, 42⟩
      ∧ s1.executionStack =
        [ { objp := ⟨1, 8⟩, sendp := ⟨1, 8⟩, addr_pc := ⟨1, 400⟩, addr_varp := Ptr.null,
            fp := Ptr.stack 5, sp := Ptr.stack 5, argc := 1, variables_argp := Ptr.stack 3,
            local_segment := 1, selector := 40, origin := 0, type := EXEC_STACK_TYPE_CALL },
          exBaseFrame 5 ] :=
  send_selector_read_then_call exEnv
    (exState [⟨0, 20⟩, ⟨0, 0⟩, ⟨0, 40⟩, ⟨0, 1⟩, ⟨0, 9⟩, ⟨0, 0⟩] [exBaseFrame 5] NULL_REG)
    ⟨1, 8⟩ ⟨1, 8⟩ (Ptr.stack 5) 20 40 [⟨0, 9⟩] [] [⟨0, 0⟩] (Ptr.prop 0 4) ⟨1, 400⟩ ⟨0, 42⟩
    (by decide) (by decide) (by decide) (by decide) (by decide)

/-! ### Frames and the operand stack -/

theorem getFrame_lt (s : EngineState) (i : Nat) (f : ExecStack) (h : getFrame s i = some f) :
    i < s.executionStack.length := by
  unfold getFrame at h
  split at h
  · assumption
  · simp at h

theorem setFrame_eq (s : EngineState) (i : Nat) (f g : ExecStack) (h : getFrame s i = some f) :
    setFrame s i g = some { s with executionStack := replaceFrame s.executionStack i g } := by
  unfold setFrame
  rw [if_pos (getFrame_lt s i f h)]

theorem getFrame_set (s : EngineState) (i : Nat) (f g : ExecStack) (h : getFrame s i = some f) :
    getFrame { s with executionStack := replaceFrame s.executionStack i g } i = some g := by
  have hlt := getFrame_lt s i f h
  unfold getFrame replaceFrame
  simp only [List.length_set, hlt, if_true]
  rw [List.getElem?_set_self (by omega)]

theorem getFrame_stack (s : EngineState) (st : List reg_t) (i : Nat) :
    getFrame { s with stack := st } i = getFrame s i := rfl

theorem store_stack_eq (s : EngineState) (pre post : List reg_t) (w v : reg_t)
    (h : s.stack = pre ++ w :: post) :
    store s (Ptr.stack pre.length) v = some { s with stack := pre ++ v :: post } := by
  simp only [store, setIdx, h, Int.natCast_nonneg, Int.toNat_ofNat, List.length_append,
    List.length_cons, true_and]
  rw [if_pos (by omega)]
  simp

theorem validate_stack_addr_ok (s : EngineState) (q : Nat) (h : q < s.stack.length) :
    validate_stack_addr s (Ptr.stack q) = (Ptr.stack q, s) := by
  simp only [validate_stack_addr, Int.natCast_nonneg, true_and]
  rw [if_pos (by omega)]

/-- A push through `PUSH32` when the stack pointer of the current frame is the
valid stack index `pre.length`. -/
theorem PUSH32_eq (L : VMLocals) (s : EngineState) (f : ExecStack) (pre post : List reg_t)
    (w v : reg_t) (hf : getFrame s L.xs = some f) (hsp : f.sp = Ptr.stack pre.length)
    (h : s.stack = pre ++ w :: post) :
    PUSH32 L s v = some { s with
      stack := pre ++ v :: post,
      executionStack := replaceFrame s.executionStack L.xs { f with sp := Ptr.stack (pre.length + 1) } } := by
  unfold PUSH32
  simp only [hf, hsp]
  rw [validate_stack_addr_ok s pre.length (by rw [h]; simp)]
  simp only [Ptr.add]
  rw [setFrame_eq s L.xs f _ hf]
  simp only
  rw [store_stack_eq _ pre post w v (by exact h)]

/-! ### The &rest instruction -/

theorem replaceFrame_replaceFrame (es : List ExecStack) (i : Nat) (f g : ExecStack) :
    replaceFrame (replaceFrame es i f) i g = replaceFrame es i g := by
  unfold replaceFrame
  simp only [List.length_set]
  exact List.set_set _ _ _ _

/-- The copy loop of `&rest`: with the arguments `vals` stored below the stack
pointer and `vals.length` free slots `window` at the stack pointer, the loop writes
the arguments over the window in their order and advances the stack pointer past
them. -/
theorem restLoop_copies (L : VMLocals) (a : Int) :
    ∀ (vals : List reg_t) (temp : Int) (s : EngineState) (f : ExecStack)
      (A mid window above : List reg_t),
      getFrame s L.xs = some f →
      f.variables_argp = Ptr.stack a →
      f.sp = Ptr.stack ((A ++ vals ++ mid).length : Int) →
      (A.length : Int) = a + temp →
      window.length = vals.length →
      s.stack = A ++ vals ++ mid ++ window ++ above →
      restLoop L vals.length temp s = some { s with
        stack := A ++ vals ++ mid ++ vals ++ above,
        executionStack := replaceFrame s.executionStack L.xs
          { f with sp := Ptr.stack (((A ++ vals ++ mid).length : Int) + vals.length) } } := by
  intro vals
  induction vals with
  | nil =>
    intro temp s f A mid window above hf _ hsp _ hw hst
    have hwn : window = [] := List.eq_nil_of_length_eq_zero (by simpa using hw)
    subst hwn
    simp only [List.length_nil, restLoop, Nat.cast_zero, add_zero, Option.some.injEq]
    have h1 : replaceFrame s.executionStack L.xs
        { f with sp := Ptr.stack ((A ++ [] ++ mid).length : Int) } = s.executionStack := by
      rw [← hsp]
      unfold replaceFrame
      apply list_set_same
      have := hf
      unfold getFrame at this
      rw [if_pos (getFrame_lt s L.xs f hf)] at this
      exact this
    rw [h1]
    cases s
    simp only at hst
    simp only [hst, List.append_nil]
  | cons v vals ih =>
    intro temp s f A mid window above hf hargp hsp hA hw hst
    cases window with
    | nil => simp at hw
    | cons w window =>
      simp only [List.length_cons, Nat.succ.injEq, add_left_inj] at hw
      have hload : load s (f.variables_argp.add temp) = some v := by
        rw [hargp]
        simp only [Ptr.add, load, ← hA, hst, List.append_assoc, List.cons_append]
        exact idx_append_cons _ _ _
      have hst2 : s.stack = (A ++ (v :: vals) ++ mid) ++ w :: (window ++ above) := by
        rw [hst]; simp
      have hpush := PUSH32_eq L s f (A ++ (v :: vals) ++ mid) (window ++ above) w v hf hsp hst2
      simp only [List.length_cons, restLoop, hf, hload, hpush]
      have hf2 := getFrame_set s L.xs f
        { f with sp := Ptr.stack (((A ++ (v :: vals) ++ mid).length : Int) + 1) } hf
      have hlen2 : (((A ++ [v]) ++ vals ++ (mid ++ [v]) : List reg_t).length : Int)
          = ((A ++ (v :: vals) ++ mid).length : Int) + 1 := by
        simp only [List.length_append, List.length_cons, List.length_nil]
        push_cast; ring
      have := ih (temp + 1)
        { s with
          stack := A ++ (v :: vals) ++ mid ++ v :: (window ++ above),
          executionStack := replaceFrame s.executionStack L.xs
            { f with sp := Ptr.stack (((A ++ (v :: vals) ++ mid).length : Int) + 1) } }
        { f with sp := Ptr.stack (((A ++ (v :: vals) ++ mid).length : Int) + 1) }
        (A ++ [v]) (mid ++ [v]) window above hf2 hargp
        (by simp only; rw [hlen2])
        (by simp only [List.length_append, List.length_cons, List.length_nil]
            push_cast; rw [hA]; ring)
        hw (by simp)
      rw [this]
      simp only [replaceFrame_replaceFrame, Option.some.injEq]
      congr 1
      · congr 3
        rw [hlen2]
        push_cast
        ring_nf
      · simp

/-- C7: in a frame with argument count `argc`, `&rest` with operand N (read as an
unsigned 16 bit number) pushes exactly max(0, argc - N + 1) registers, which are
the frame's arguments argp[N], argp[N+1], ..., argp[argc] in this order, and sets
the pending rest adjustment to the same number.  The operand stack is described
by its parts: `A` ends right before argp[N], `vals` are the arguments argp[N] to
argp[argc], and `window` are the slots at the stack pointer that receive them. -/
theorem rest_pushes_trailing_arguments (L : VMLocals) (s : EngineState) (f : ExecStack)
    (opparams0 a : Int) (A vals mid window above : List reg_t)
    (hf : getFrame s L.xs = some f)
    (hargp : f.variables_argp = Ptr.stack a)
    (hsp : f.sp = Ptr.stack ((A ++ vals ++ mid).length : Int))
    (hA : (A.length : Int) = a + u16 opparams0)
    (hvals : vals.length = (f.argc - u16 opparams0 + 1).toNat)
    (hw : window.length = vals.length)
    (hst : s.stack = A ++ vals ++ mid ++ window ++ above) :
    case_rest L s opparams0 = some (Outcome.next { L with restadjust := vals.length }
      { s with
        stack := A ++ vals ++ mid ++ vals ++ above,
        executionStack := replaceFrame s.executionStack L.xs
          { f with sp := Ptr.stack (((A ++ vals ++ mid).length : Int) + vals.length) } })
    ∧ (vals.length : Int) = max 0 (f.argc - u16 opparams0 + 1) := by
  have hmax : (vals.length : Int) = max 0 (f.argc - u16 opparams0 + 1) := by
    rw [hvals]
    rcases le_total 0 (f.argc - (u16 opparams0 : Int) + 1) with h | h
    · rw [Int.toNat_of_nonneg h, max_eq_right h]
    · rw [Int.toNat_of_nonpos h, max_eq_left h]; rfl
  refine ⟨?_, hmax⟩
  unfold case_rest
  simp only [hf]
  rw [← hvals, restLoop_copies L a vals _ s f A mid window above hf hargp hsp hA hw hst]
  simp only [Option.map_some', Option.some.injEq, Outcome.next.injEq, and_true]
  congr 1
  rw [hmax]
  rcases le_total 0 (f.argc - (u16 opparams0 : Int) + 1) with h | h
  · rw [max_eq_right h]
    rcases lt_or_eq_of_le h with h2 | h2
    · rw [if_neg (by omega)]
    · rw [← h2]; simp
  · rw [max_eq_left h]
    rcases lt_or_eq_of_le h with h2 | h2
    · rw [if_pos h2]
    · rw [h2]; simp

/-- The example frame has three arguments 11, 12, 13 in the stack slots 1 to 3
(slot 0 holds the count); `&rest 2` pushes the arguments 12 and 13 at the stack
pointer 5 and leaves a pending adjustment of 2. -/
theorem rest_pushes_trailing_arguments_witness :
    case_rest (exLocals 0)
        (exState [⟨0, 3⟩, ⟨0, 11⟩, ⟨0, 12⟩, ⟨0, 13⟩, ⟨0, 0⟩, ⟨0, 0⟩, ⟨0, 0⟩, ⟨0, 0⟩]
          [{ exBaseFrame 5 with argc := 3 }] NULL_REG) 2
      = some (Outcome.next (exLocals 2)
        (exState [⟨0, 3⟩, ⟨0, 11⟩, ⟨0, 12⟩, ⟨0, 13⟩, ⟨0, 0⟩, ⟨0, 12⟩, ⟨0, 13⟩, ⟨0, 0⟩]
          [{ exBaseFrame 7 with argc := 3 }] NULL_REG)) :=
  (rest_pushes_trailing_arguments (exLocals 0)
    (exState [⟨0, 3⟩, ⟨0, 11⟩, ⟨0, 12⟩, ⟨0, 13⟩, ⟨0, 0⟩, ⟨0, 0⟩, ⟨0, 0⟩, ⟨0, 0⟩]
      [{ exBaseFrame 5 with argc := 3 }] NULL_REG)
    { exBaseFrame 5 with argc := 3 } 2 0
    [⟨0, 3⟩, ⟨0, 11⟩] [⟨0, 12⟩, ⟨0, 13⟩] [⟨0, 0⟩] [⟨0, 0⟩, ⟨0, 0⟩] [⟨0, 0⟩]
    (by decide) (by decide) (by decide) (by decide) (by decide) (by decide) (by decide)).1

/-! ### A send after &rest -/

/-- C8: a single-group send (or self) of a method selector with k explicit
arguments, executed with a pending rest adjustment r, the r forwarded registers
lying above the explicit arguments, gives the callee frame the argument count
k + r; the zeroth argument slot holds k + r, the slots 1..k the explicit arguments
and the slots k+1..k+r the forwarded registers in their order; the pending
adjustment is 0 afterwards and the caller's stack pointer is below the send
frame.  The statement is about the common body of send and self, of which
`case_send` is the instance with the accumulator as receiver and `case_self` the
one with the current object. -/
theorem send_forwards_rest_arguments (E : Env) (L : VMLocals) (s : EngineState) (f : ExecStack)
    (send_obj : reg_t) (sel : Nat) (explicit forwarded pre post : List reg_t) (funcp : reg_t)
    (opparams0 : Int)
    (hf : getFrame s L.xs = some f)
    (hr : L.restadjust = forwarded.length)
    (hop : opparams0 >>> 1 = 2 + explicit.length)
    (hsp : f.sp = Ptr.stack (pre.length + 2 + explicit.length + forwarded.length))
    (hst : s.stack = pre ++ ⟨0, sel⟩ :: ⟨0, explicit.length⟩ :: (explicit ++ forwarded) ++ post)
    (hres : (lookup_selector E s send_obj sel).map Prod.fst
      = some ⟨kSelectorMethod, none, some funcp⟩)
    (hargc : explicit.length + forwarded.length ≤ 0x800) :
    ∃ s1, sendBody E L s send_obj send_obj opparams0
        = some (Outcome.next
            { L with xs_new := some s.executionStack.length, restadjust := 0 } s1)
      ∧ s1.executionStack =
          { objp := send_obj, sendp := send_obj, addr_pc := funcp, addr_varp := Ptr.null,
            fp := f.sp, sp := f.sp, argc := explicit.length + forwarded.length,
            variables_argp := Ptr.stack (pre.length + 1), local_segment := funcp.segment,
            selector := sel, origin := esSize s - 1, type := EXEC_STACK_TYPE_CALL }
          :: replaceFrame s.executionStack L.xs { f with sp := Ptr.stack pre.length }
      ∧ s1.stack = pre ++ ⟨0, sel⟩ :: ⟨0, explicit.length + forwarded.length⟩
          :: (explicit ++ forwarded) ++ post
      ∧ s1.executionStackPosChanged = true
      ∧ (send_obj = s.r_acc → case_send E L s opparams0 = sendBody E L s send_obj send_obj opparams0)
      ∧ (send_obj = f.objp → case_self E L s opparams0 = sendBody E L s send_obj send_obj opparams0)
      := by
  have hlt := getFrame_lt s L.xs f hf
  let g : SendGroup := ⟨sel, explicit ++ forwarded, ⟨kSelectorMethod, none, some funcp⟩⟩
  -- the state in which `send_selector` is called
  let s2 : EngineState := { s with
    executionStack := replaceFrame s.executionStack L.xs { f with sp := Ptr.stack pre.length },
    stack := pre ++ ⟨0, sel⟩ :: ⟨0, explicit.length + forwarded.length⟩
      :: (explicit ++ forwarded) ++ post }
  have hs2st : s2.stack = pre ++ sendFrame [g] ++ post := by
    simp [s2, sendFrame, g]
  have hfl : ((sendFrame [g]).length : Int) = 2 + explicit.length + forwarded.length := by
    simp only [sendFrame, g, List.length_cons, List.length_append, List.length_nil]
    push_cast; ring
  obtain ⟨s1, h1, h2, _, _, h5, h6⟩ := send_selector_methods E s s2 send_obj send_obj f.sp [g]
    pre post (by simp) (by intro g2 hg2; simp only [List.mem_singleton] at hg2; subst hg2
                           exact ⟨funcp, rfl⟩)
    ⟨rfl, rfl, rfl, rfl, fun _ => rfl⟩
    (by intro g2 hg2; simp only [List.mem_singleton] at hg2; subst hg2; exact hres)
    (by intro g2 hg2; simp only [List.mem_singleton] at hg2; subst hg2
        simp only [g, List.length_append]; exact hargc)
    hs2st
  have hes2 : s2.executionStack.length = s.executionStack.length := by
    simp [s2, replaceFrame]
  refine ⟨{ s1 with executionStackPosChanged := true }, ?_, ?_, ?_, rfl, ?_, ?_⟩
  · unfold sendBody
    simp only [hf, hsp, hr, hop, Ptr.add]
    have e1 : (pre.length : Int) + 2 + explicit.length + forwarded.length
        + -(2 + (explicit.length : Int) + forwarded.length) = pre.length := by ring
    rw [e1, setFrame_eq s L.xs f _ hf]
    simp only
    let sA : EngineState :=
      { s with executionStack := replaceFrame s.executionStack L.xs { f with sp := Ptr.stack pre.length } }
    have hl1 : load sA (Ptr.stack ((pre.length : Int) + 1)) = some ⟨0, explicit.length⟩ := by
      simp only [load, sA, hst]
      have := idx_append_cons (pre ++ [(⟨0, sel⟩ : reg_t)])
        ((explicit ++ forwarded) ++ post) (⟨0, explicit.length⟩ : reg_t)
      simpa using this
    simp only [sA] at hl1
    rw [hl1]
    simp only
    have hu : u16 ((explicit.length : Int) + forwarded.length)
        = explicit.length + forwarded.length := by
      simp only [u16]; omega
    have hst3 : store sA (Ptr.stack ((pre.length : Int) + 1))
        { segment := 0, offset := u16 ((explicit.length : Int) + forwarded.length) }
        = some s2 := by
      have := store_stack_eq sA
        (pre ++ [(⟨0, sel⟩ : reg_t)]) ((explicit ++ forwarded) ++ post)
        (⟨0, explicit.length⟩ : reg_t)
        { segment := 0, offset := u16 ((explicit.length : Int) + forwarded.length) }
        (by simp [sA, hst])
      simp only [List.length_append, List.length_cons, List.length_nil, Nat.cast_add,
        Nat.cast_one, Nat.cast_zero, zero_add] at this
      rw [this, hu]
      simp [s2, sA]
    simp only [sA] at hst3
    rw [hst3]
    have hu2 : ((u16 (forwarded.length : Int) : Nat) : Int) = forwarded.length := by
      simp only [u16]; omega
    have hfs : (2 : Int) + explicit.length + (u16 (forwarded.length : Int) : Nat)
        = ((sendFrame [g]).length : Int) := by rw [hfl, hu2]
    rw [hfs, ← hsp]
    simp only [h1, List.length_singleton, hes2, Nat.add_sub_cancel, ne_eq, reduceCtorEq,
      not_false_eq_true, Option.some.injEq, true_and]
    rw [if_pos (by omega)]
  · simp only [h2, methodFrames, g, List.length_append, Nat.cast_add, List.append_nil, s2,
      List.cons_append, List.nil_append, List.singleton_append]
    congr 2
    simp [esSize, replaceFrame]
  · simp only [h5, s2]
  · intro h; subst h; rfl
  · intro h; subst h; simp only [case_self, hf]

/-- On the example machine a send of method 40 with the two explicit arguments 21,
22 and a pending adjustment of 3 (forwarded registers 31, 32, 33) gives the callee
five arguments: its frame has `argc = 5` and the argument-count slot holds 5. -/
theorem send_forwards_rest_arguments_witness :
    ∃ s1, case_send exEnv (exLocals 3)
        (exState [⟨0, 40⟩, ⟨0, 2⟩, ⟨0, 21⟩, ⟨0, 22⟩, ⟨0, 31⟩, ⟨0, 32⟩, ⟨0, 33⟩, ⟨0, 0⟩]
          [exBaseFrame 7] ⟨1, 8⟩) 8
        = some (Outcome.next { exLocals 0 with xs_new := some 1 } s1)
      ∧ s1.executionStack.head?.map (fun f => f.argc) = some 5
      ∧ s1.stack = [⟨0, 40⟩, ⟨0, 5⟩, ⟨0, 21⟩, ⟨0, 22⟩, ⟨0, 31⟩, ⟨0, 32⟩, ⟨0, 33⟩, ⟨0, 0⟩] :=
  let ⟨s1, h1, h2, h3, _, h5, _⟩ := send_forwards_rest_arguments exEnv (exLocals 3)
    (exState [⟨0, 40⟩, ⟨0, 2⟩, ⟨0, 21⟩, ⟨0, 22⟩, ⟨0, 31⟩, ⟨0, 32⟩, ⟨0, 33⟩, ⟨0, 0⟩]
      [exBaseFrame 7] ⟨1, 8⟩)
    (exBaseFrame 7) ⟨1, 8⟩ 40 [⟨0, 21⟩, ⟨0, 22⟩] [⟨0, 31⟩, ⟨0, 32⟩, ⟨0, 33⟩] [] [⟨0, 0⟩]
    ⟨1, 400⟩ 8
    (by decide) (by decide) (by decide) (by decide) (by decide) (by decide) (by decide)
  ⟨s1, (h5 rfl).trans h1, by rw [h2]; rfl, h3⟩

/-! ### Returns -/

theorem getFrame_top (s : EngineState) (t : ExecStack) (rest : List ExecStack)
    (h : s.executionStack = t :: rest) : getFrame s rest.length = some t := by
  unfold getFrame
  rw [h]
  simp

theorem execVarselector_es (s : EngineState) (es : List ExecStack) (b : Bool) (v : ExecStack) :
    execVarselector (withFrames s es b) v
      = (execVarselector s v).map (fun x => withFrames x es b) := by
  unfold execVarselector
  have hl : ∀ p, load (withFrames s es b) p = load s p := by intro p; cases p <;> rfl
  have hs : ∀ p w, store (withFrames s es b) p w
      = (store s p w).map (fun x => withFrames x es b) := by
    intro p w
    cases p with
    | null => rfl
    | stack i =>
      simp only [store, withFrames]
      cases setIdx s.stack i w <;> rfl
    | prop o i =>
      simp only [store, withFrames]
      cases s.objects[o]? with
      | none => rfl
      | some ob =>
        simp only [Option.some_bind]
        cases setIdx ob._variables i w <;> rfl
    | locals bl i =>
      simp only [store, withFrames]
      cases s.localsBlocks[bl]? with
      | none => rfl
      | some l =>
        simp only [Option.some_bind]
        cases setIdx l i w <;> rfl
  by_cases hc : v.argc ≠ 0
  · rw [if_pos hc, if_pos hc]
    simp only [hl, hs]
    cases load s (v.variables_argp.add 1) <;> rfl
  · rw [if_neg hc, if_neg hc]
    simp only [hl]
    cases load s v.addr_varp <;> rfl

theorem drainAccesses_es (es : List ExecStack) (b : Bool) :
    ∀ (vs : List ExecStack) (s : EngineState),
      drainAccesses vs (withFrames s es b) = (drainAccesses vs s).map (fun x => withFrames x es b) := by
  intro vs
  induction vs with
  | nil => intro s; rfl
  | cons v vs ih =>
    intro s
    simp only [drainAccesses, execVarselector_es]
    cases execVarselector s v with
    | none => rfl
    | some s1 => simp only [Option.map_some', Option.some_bind, ih]

theorem withFrames_withFrames (s : EngineState) (es es2 : List ExecStack) (b b2 : Bool) :
    withFrames (withFrames s es b) es2 b2 = withFrames s es2 b2 := rfl

theorem execVarselector_keeps_es (s s1 : EngineState) (v : ExecStack)
    (h : execVarselector s v = some s1) :
    s1.executionStack = s.executionStack ∧ s1.execution_stack_base = s.execution_stack_base := by
  unfold execVarselector at h
  have hs : ∀ p w s2, store s p w = some s2 →
      s2.executionStack = s.executionStack ∧ s2.execution_stack_base = s.execution_stack_base := by
    intro p w s2 h2
    cases p with
    | null => simp [store] at h2
    | stack i =>
      simp only [store] at h2
      cases h3 : setIdx s.stack i w with
      | none => simp [h3] at h2
      | some st => simp only [h3, Option.map_some', Option.some.injEq] at h2; subst h2; exact ⟨rfl, rfl⟩
    | prop o i =>
      simp only [store] at h2
      cases h3 : s.objects[o]? with
      | none => simp [h3] at h2
      | some ob =>
        simp only [h3, Option.some_bind] at h2
        cases h4 : setIdx ob._variables i w with
        | none => simp [h4] at h2
        | some st => simp only [h4, Option.map_some', Option.some.injEq] at h2; subst h2; exact ⟨rfl, rfl⟩
    | locals bl i =>
      simp only [store] at h2
      cases h3 : s.localsBlocks[bl]? with
      | none => simp [h3] at h2
      | some l =>
        simp only [h3, Option.some_bind] at h2
        cases h4 : setIdx l i w with
        | none => simp [h4] at h2
        | some st => simp only [h4, Option.map_some', Option.some.injEq] at h2; subst h2; exact ⟨rfl, rfl⟩
  split at h
  · cases h3 : load s (v.variables_argp.add 1) with
    | none => simp [h3] at h
    | some w => simp only [h3, Option.some_bind] at h; exact hs _ _ _ h
  · cases h3 : load s v.addr_varp with
    | none => simp [h3] at h
    | some w => simp only [h3, Option.map_some', Option.some.injEq] at h; subst h; exact ⟨rfl, rfl⟩

/-- The unwinding loop of `ret`, started on a top frame `t` followed by the
VARSELECTOR frames `vs` and a CALL frame `c`, with the base below them: the access
of `t` (when `t` is itself a VARSELECTOR frame) and the accesses of `vs` are
executed in order, all these frames are popped and `c` is resumed. -/
theorem retLoop_drain (c : ExecStack) (rest : List ExecStack) (r : ExecStack)
    (hc : c.type = EXEC_STACK_TYPE_CALL) :
    ∀ (vs : List ExecStack) (n : Nat) (L : VMLocals) (s sd : EngineState) (t : ExecStack),
      s.executionStack = t :: (vs ++ c :: rest) →
      L.xs = (vs ++ c :: rest).length →
      t.sp = r.sp → t.fp = r.fp →
      (∀ v ∈ vs, v.type = EXEC_STACK_TYPE_VARSELECTOR) →
      s.execution_stack_base < rest.length + 1 →
      vs.length + 1 ≤ n →
      ((if t.type = EXEC_STACK_TYPE_VARSELECTOR then execVarselector s t else some s).bind
        (drainAccesses vs)) = some sd →
      retLoop n L s = some (Outcome.next
        { L with xs := rest.length, xs_new := some rest.length }
        (withFrames sd (resumeFrame c r :: rest) true)) := by
  intro vs
  induction vs with
  | nil =>
    intro n L s sd t hes hxs hsp hfp _ hbase hn hacc
    obtain ⟨n, rfl⟩ : ∃ m, n = m + 1 := ⟨n - 1, by omega⟩
    have hgf : getFrame s L.xs = some t := by rw [hxs]; exact getFrame_top s t _ hes
    have hnb : ¬ (esSize s - 1 = s.execution_stack_base) := by
      simp only [esSize, hes, List.length_cons, List.nil_append]
      push_cast
      omega
    cases h1 : (if t.type = EXEC_STACK_TYPE_VARSELECTOR then execVarselector s t else some s) with
    | none => rw [h1] at hacc; simp at hacc
    | some s1 =>
      rw [h1] at hacc
      simp only [Option.some_bind, drainAccesses, Option.some.injEq] at hacc
      subst hacc
      have hes1 : s1.executionStack = s.executionStack := by
        split at h1
        · exact (execVarselector_keeps_es s s1 t h1).1
        · simp only [Option.some.injEq] at h1; rw [← h1]
      rw [retLoop]
      simp only [hgf, hes, hnb, if_false, h1, hes1, List.tail_cons, List.nil_append]
      have hty : (if c.sp = CALL_SP_CARRY ∨ c.type ≠ EXEC_STACK_TYPE_CALL then
          { c with sp := t.sp, fp := t.fp } else c) = resumeFrame c r := by
        unfold resumeFrame
        simp only [hc, ne_eq, not_true_eq_false, or_false, hsp, hfp]
      rw [hty]
      have hrt : (resumeFrame c r).type = EXEC_STACK_TYPE_CALL := by
        unfold resumeFrame; split <;> exact hc
      simp only [hrt, reduceCtorEq, if_false, withFrames]
  | cons v vs ih =>
    intro n L s sd t hes hxs hsp hfp hvs hbase hn hacc
    obtain ⟨n, rfl⟩ : ∃ m, n = m + 1 := ⟨n - 1, by omega⟩
    have hgf : getFrame s L.xs = some t := by rw [hxs]; exact getFrame_top s t _ hes
    have hnb : ¬ (esSize s - 1 = s.execution_stack_base) := by
      simp only [esSize, hes, List.length_cons, List.length_append]
      push_cast
      omega
    have hv : v.type = EXEC_STACK_TYPE_VARSELECTOR := hvs v (List.mem_cons_self _ _)
    cases h1 : (if t.type = EXEC_STACK_TYPE_VARSELECTOR then execVarselector s t else some s) with
    | none => rw [h1] at hacc; simp at hacc
    | some s1 =>
      rw [h1] at hacc
      simp only [Option.some_bind, drainAccesses] at hacc
      have hkeep : s1.executionStack = s.executionStack
          ∧ s1.execution_stack_base = s.execution_stack_base := by
        split at h1
        · exact execVarselector_keeps_es s s1 t h1
        · simp only [Option.some.injEq] at h1; rw [← h1]; exact ⟨rfl, rfl⟩
      rw [retLoop]
      simp only [hgf, hes, hnb, if_false, h1, hkeep.1, List.tail_cons, List.cons_append]
      have hty : (if v.sp = CALL_SP_CARRY ∨ v.type ≠ EXEC_STACK_TYPE_CALL then
          { v with sp := t.sp, fp := t.fp } else v) = { v with sp := r.sp, fp := r.fp } := by
        simp only [hv, ne_eq, reduceCtorEq, not_false_eq_true, or_true, if_true, hsp, hfp]
      rw [hty]
      obtain ⟨v2, hv2⟩ : ∃ v2 : ExecStack, v2 = { v with sp := r.sp, fp := r.fp } := ⟨_, rfl⟩
      rw [← hv2]
      have hv2t : v2.type = EXEC_STACK_TYPE_VARSELECTOR := by rw [hv2]; exact hv
      have hx : ∀ st, execVarselector st v2 = execVarselector st v := by
        intro st; rw [hv2]; rfl
      rw [if_pos hv2t]
      have hacc2 : ((if v2.type = EXEC_STACK_TYPE_VARSELECTOR then
          execVarselector (withFrames s1 (v2 :: (vs ++ c :: rest)) true) v2
          else some (withFrames s1 (v2 :: (vs ++ c :: rest)) true)).bind (drainAccesses vs))
          = some (withFrames sd (v2 :: (vs ++ c :: rest)) true) := by
        rw [if_pos hv2t, execVarselector_es, hx]
        cases h2 : execVarselector s1 v with
        | none => rw [h2] at hacc; simp at hacc
        | some s2 =>
          rw [h2] at hacc
          simp only [Option.some_bind] at hacc
          simp only [Option.map_some', Option.some_bind]
          rw [drainAccesses_es, hacc]
          rfl
      have := ih n { L with xs := (vs ++ c :: rest).length }
        (withFrames s1 (v2 :: (vs ++ c :: rest)) true)
        (withFrames sd (v2 :: (vs ++ c :: rest)) true)
        v2 rfl rfl (by rw [hv2]) (by rw [hv2])
        (fun v3 hv3 => hvs v3 (List.mem_cons_of_mem _ hv3))
        (by simp only [withFrames]; rw [hkeep.2]; exact hbase)
        (by simp only [List.length_cons] at hn; omega) hacc2
      exact this

/-- C6: `ret` executed in a CALL frame `r` that lies above the base, with the
VARSELECTOR frames `vs` and then a CALL frame `c` beneath it and the base not
above `c`, pops `r` and every frame of `vs`, executing the pending access of each
frame of `vs` exactly once and in order (`drainAccesses`: a write of argument 1
when `argc` is non-zero, a read into the accumulator otherwise), and stops at `c`,
which becomes the new top and the current frame: the frame resumed by a soft
return is a CALL frame, never a VARSELECTOR frame. -/
theorem ret_drains_varselectors (L : VMLocals) (s sd : EngineState) (r c : ExecStack)
    (vs rest : List ExecStack)
    (hes : s.executionStack = r :: (vs ++ c :: rest))
    (hxs : L.xs = (vs ++ c :: rest).length)
    (hr : r.type = EXEC_STACK_TYPE_CALL)
    (hvs : ∀ v ∈ vs, v.type = EXEC_STACK_TYPE_VARSELECTOR)
    (hc : c.type = EXEC_STACK_TYPE_CALL)
    (hbase : s.execution_stack_base < rest.length + 1)
    (hacc : drainAccesses vs s = some sd) :
    case_ret L s = some (Outcome.next
        { L with xs := rest.length, xs_new := some rest.length }
        (withFrames sd (resumeFrame c r :: rest) true))
      ∧ (resumeFrame c r).type = EXEC_STACK_TYPE_CALL := by
  constructor
  · unfold case_ret
    apply retLoop_drain c rest r hc vs _ L s sd r hes hxs rfl rfl hvs hbase
    · rw [hes]; simp only [List.length_cons, List.length_append]; omega
    · rw [hr]; simpa using hacc
  · unfold resumeFrame; split <;> exact hc

/-- On the example machine `ret` in the top frame of `exReturnStack` drains the
pending read (the accumulator becomes 42) and the pending write (property slot 3
receives 99), pops three frames and resumes the CALL frame beneath them, which
takes over the stack pointer of the returning frame. -/
theorem ret_drains_varselectors_witness :
    ∃ s1, case_ret { exLocals 0 with xs := 4 }
        (exState [⟨0, 0⟩, ⟨0, 0⟩, ⟨0, 1⟩, ⟨0, 99⟩] exReturnStack NULL_REG)
        = some (Outcome.next { exLocals 0 with xs := 1, xs_new := some 1 } s1)
      ∧ s1.r_acc = ⟨0, 42⟩
      ∧ load s1 (Ptr.prop 0 3) = some ⟨0, 99⟩
      ∧ s1.executionStack =
          [{ exBaseFrame 6 with fp := Ptr.stack 6, addr_pc := ⟨1, 700⟩ }, exBaseFrame 1] :=
  ⟨_, (ret_drains_varselectors { exLocals 0 with xs := 4 }
      (exState [⟨0, 0⟩, ⟨0, 0⟩, ⟨0, 1⟩, ⟨0, 99⟩] exReturnStack NULL_REG)
      { exState [⟨0, 0⟩, ⟨0, 0⟩, ⟨0, 1⟩, ⟨0, 99⟩] exReturnStack NULL_REG with
        r_acc := ⟨0, 42⟩,
        objects := [{ exInstance with _variables := [⟨1, 108⟩, ⟨1, 108⟩, ⟨0, 0⟩, ⟨0, 99⟩, ⟨0, 42⟩] },
          exParent, exGrandparent] }
      { exBaseFrame 6 with fp := Ptr.stack 6, origin := 1 }
      { exBaseFrame 0 with sp := CALL_SP_CARRY, fp := CALL_SP_CARRY, addr_pc := ⟨1, 700⟩ }
      [ { exBaseFrame 0 with addr_varp := Ptr.prop 0 4, sp := Ptr.prop 0 4, fp := Ptr.prop 0 4,
                             type := EXEC_STACK_TYPE_VARSELECTOR },
        { exBaseFrame 0 with addr_varp := Ptr.prop 0 3, sp := Ptr.prop 0 3, fp := Ptr.prop 0 3,
                             argc := 1, variables_argp := Ptr.stack 2,
                             type := EXEC_STACK_TYPE_VARSELECTOR } ]
      [exBaseFrame 1]
      (by decide) (by decide) (by decide) (by decide) (by decide) (by decide) (by decide)).1,
    by decide, by decide, by decide⟩

/-! ### Division and modulo -/

/-- C9 (does not hold for the code): div and mod pop their operand only when the
accumulator is non-zero.  On the example machine the stack pointer starts at stack
cell 0; after `pushi 10; ldi 0; div` it is at cell 1, the pushed operand still on
the stack, while after `pushi 10; ldi 2; div` it is back at cell 0 with 5 in the
accumulator.  Neither run raises the error flag. -/
theorem div_by_zero_leaves_operand :
    (exStart 600).executionStack.map (fun f => f.sp) = [Ptr.stack 0] ∧
    exObserve (vmSteps exEnv 3 { exLocals 0 with opparams := [0, 0, 0, 0] } (exStart 600))
      = some ([Ptr.stack 1], ⟨0, 0⟩, 0) ∧
    exObserve (vmSteps exEnv 3 { exLocals 0 with opparams := [0, 0, 0, 0] } (exStart 610))
      = some ([Ptr.stack 0], ⟨0, 5⟩, 0) := by
  decide!

/-- C10: executed with the plain value 0 in the accumulator, div (0x04) and mod
(0x05) go on to the next instruction with a state that differs from the one before
in nothing: the accumulator is the plain register (0, 0), the error flag is as it
was, whatever the operand stack holds. -/
theorem div_mod_by_zero_yield_zero (E : Env) (L : VMLocals) (s : EngineState)
    (h : s.r_acc = ⟨0, 0⟩) :
    execOpcode E L s 0x04 = some (Outcome.next L s) ∧
    execOpcode E L s 0x05 = some (Outcome.next L s) ∧
    s.r_acc = make_reg 0 0 := by
  have hm : make_reg 0 0 = ⟨0, 0⟩ := by decide
  have hs : ({ s with r_acc := ⟨0, 0⟩ } : EngineState) = s := by
    cases s
    simp only at h
    subst h
    rfl
  refine ⟨?_, ?_, ?_⟩
  · simp [execOpcode, case_div, signed_validate_arithmetic, h, i16, hm, hs]
  · simp [execOpcode, case_mod, signed_validate_arithmetic, h, i16, hm, hs]
  · rw [h, hm]

theorem div_mod_by_zero_yield_zero_witness :
    (exState [⟨0, 10⟩] [exBaseFrame 1] ⟨0, 0⟩).r_acc = ⟨0, 0⟩ ∧
    (execOpcode exEnv (exLocals 0) (exState [⟨0, 10⟩] [exBaseFrame 1] ⟨0, 0⟩) 0x04
        = some (Outcome.next (exLocals 0) (exState [⟨0, 10⟩] [exBaseFrame 1] ⟨0, 0⟩)) ∧
      execOpcode exEnv (exLocals 0) (exState [⟨0, 10⟩] [exBaseFrame 1] ⟨0, 0⟩) 0x05
        = some (Outcome.next (exLocals 0) (exState [⟨0, 10⟩] [exBaseFrame 1] ⟨0, 0⟩)) ∧
      (exState [⟨0, 10⟩] [exBaseFrame 1] ⟨0, 0⟩).r_acc = make_reg 0 0) :=
  ⟨rfl, div_mod_by_zero_yield_zero exEnv (exLocals 0)
    (exState [⟨0, 10⟩] [exBaseFrame 1] ⟨0, 0⟩) rfl⟩

/-! ### The base of the execution stack

No function of the interpreter writes `execution_stack_base`, except the hard
return of `ret`, which restores the value saved at the entry of `run_vm`.  For a
function `f` the lemma `f_base` says that `f` leaves the base alone; `f_was` says
the same in a form that rewrites a hypothesis `f ... = some a`, and `f_keeps`,
`f_kwas` do so for the parts of the loop body that may end in a hard return. -/

set_option linter.unusedTactic false
set_option linter.unreachableTactic false

theorem setError_base (s : EngineState) :
    (setError s).execution_stack_base = s.execution_stack_base := rfl

theorem script_error_base (s : EngineState) :
    (script_error s).execution_stack_base = s.execution_stack_base := rfl

theorem store_base {s : EngineState} {p : Ptr} {v : reg_t} {a : EngineState}
    (h : store s p v = some a) :
    a.execution_stack_base = s.execution_stack_base := by
  cases p <;> simp [store, Option.map_eq_some', Option.bind_eq_some] at h
  · obtain ⟨_, _, rfl⟩ := h; rfl
  · obtain ⟨_, _, _, _, rfl⟩ := h; rfl
  · obtain ⟨_, _, _, _, rfl⟩ := h; rfl

theorem store_was {s : EngineState} {p : Ptr} {v : reg_t} (a : EngineState) :
    store s p v = some a ↔ Was (store s p v) (some a) ∧ a.execution_stack_base =
          s.execution_stack_base :=
  ⟨fun h => ⟨h, store_base h⟩, fun h => h.1⟩

theorem validate_arithmetic_base {s : EngineState} {r : reg_t} :
    (validate_arithmetic s r).2.execution_stack_base = s.execution_stack_base := by
  unfold validate_arithmetic
  repeat' split
  all_goals (try rfl)
  all_goals (try simp_all [setError, script_error, Option.bind_eq_some, Option.map_eq_some',
        setError_base])
  all_goals (try (repeat' split))
  all_goals (try rfl)
  all_goals (try simp_all [setError, script_error, Option.bind_eq_some, Option.map_eq_some',
        setError_base])

theorem validate_arithmetic_was {s : EngineState} {r : reg_t} (a : Int × EngineState) :
    validate_arithmetic s r = a ↔ Was (validate_arithmetic s r) a ∧ a.2.execution_stack_base =
          s.execution_stack_base :=
  ⟨fun h => ⟨h, by rw [← h]; exact validate_arithmetic_base⟩, fun h => h.1⟩

theorem signed_validate_arithmetic_base {s : EngineState} {r : reg_t} :
    (signed_validate_arithmetic s r).2.execution_stack_base = s.execution_stack_base := by
  unfold signed_validate_arithmetic
  repeat' split
  all_goals (try rfl)
  all_goals (try simp_all [setError, script_error, Option.bind_eq_some, Option.map_eq_some',
        setError_base])
  all_goals (try (repeat' split))
  all_goals (try rfl)
  all_goals (try simp_all [setError, script_error, Option.bind_eq_some, Option.map_eq_some',
        setError_base])

theorem signed_validate_arithmetic_was {s : EngineState} {r : reg_t} (a : Int × EngineState) :
    signed_validate_arithmetic s r = a ↔ Was (signed_validate_arithmetic s r) a ∧
          a.2.execution_stack_base = s.execution_stack_base :=
  ⟨fun h => ⟨h, by rw [← h]; exact signed_validate_arithmetic_base⟩, fun h => h.1⟩

theorem validate_stack_addr_base {s : EngineState} {p : Ptr} :
    (validate_stack_addr s p).2.execution_stack_base = s.execution_stack_base := by
  unfold validate_stack_addr
  repeat' split
  all_goals (try rfl)
  all_goals (try simp_all [setError, script_error, Option.bind_eq_some, Option.map_eq_some',
        setError_base])
  all_goals (try (repeat' split))
  all_goals (try rfl)
  all_goals (try simp_all [setError, script_error, Option.bind_eq_some, Option.map_eq_some',
        setError_base])

theorem validate_stack_addr_was {s : EngineState} {p : Ptr} (a : Ptr × EngineState) :
    validate_stack_addr s p = a ↔ Was (validate_stack_addr s p) a ∧ a.2.execution_stack_base =
          s.execution_stack_base :=
  ⟨fun h => ⟨h, by rw [← h]; exact validate_stack_addr_base⟩, fun h => h.1⟩

theorem setFrame_base {s : EngineState} {i : Nat} {f : ExecStack} {a : EngineState}
    (h : setFrame s i f = some a) :
    a.execution_stack_base = s.execution_stack_base := by
  unfold setFrame at h
  all_goals (repeat' split at h)
  all_goals (try simp_all [Option.bind_eq_some, Option.map_eq_some'])
  all_goals (try (repeat' split at h))
  all_goals (try simp_all [Option.bind_eq_some, Option.map_eq_some'])
  all_goals (try (revert h; (try simp only [exists_imp, and_imp,
        forall_exists_index]); intros; subst_vars; first | rfl | simp_all [Option.bind_eq_some,
        Option.map_eq_some']))

theorem setFrame_was {s : EngineState} {i : Nat} {f : ExecStack} (a : EngineState) :
    setFrame s i f = some a ↔ Was (setFrame s i f) (some a) ∧ a.execution_stack_base =
          s.execution_stack_base :=
  ⟨fun h => ⟨h, setFrame_base h⟩, fun h => h.1⟩

theorem modXs_base {L : VMLocals} {s : EngineState} {f : ExecStack → ExecStack} {a : EngineState}
    (h : modXs L s f = some a) :
    a.execution_stack_base = s.execution_stack_base := by
  unfold modXs at h
  all_goals (repeat' split at h)
  all_goals (try simp_all [Option.bind_eq_some, Option.map_eq_some', setFrame_was])
  all_goals (try (repeat' split at h))
  all_goals (try simp_all [Option.bind_eq_some, Option.map_eq_some', setFrame_was])
  all_goals (try (revert h; (try simp only [exists_imp, and_imp,
        forall_exists_index]); intros; subst_vars; first | rfl | simp_all [Option.bind_eq_some,
        Option.map_eq_some', setFrame_was]))

theorem modXs_was {L : VMLocals} {s : EngineState} {f : ExecStack → ExecStack} (a : EngineState) :
    modXs L s f = some a ↔ Was (modXs L s f) (some a) ∧ a.execution_stack_base =
          s.execution_stack_base :=
  ⟨fun h => ⟨h, modXs_base h⟩, fun h => h.1⟩

theorem PUSH32_base {L : VMLocals} {s : EngineState} {v : reg_t} {a : EngineState}
    (h : PUSH32 L s v = some a) :
    a.execution_stack_base = s.execution_stack_base := by
  unfold PUSH32 at h
  all_goals (repeat' split at h)
  all_goals (try simp_all [Option.bind_eq_some, Option.map_eq_some', store_was,
        validate_stack_addr_was, validate_stack_addr_base, setFrame_was])
  all_goals (try (repeat' split at h))
  all_goals (try simp_all [Option.bind_eq_some, Option.map_eq_some', store_was,
        validate_stack_addr_was, validate_stack_addr_base, setFrame_was])
  all_goals (try (revert h; (try simp only [exists_imp, and_imp,
        forall_exists_index]); intros; subst_vars; first | rfl | simp_all [Option.bind_eq_some,
        Option.map_eq_some', store_was, validate_stack_addr_was, validate_stack_addr_base,
        setFrame_was]))

theorem PUSH32_was {L : VMLocals} {s : EngineState} {v : reg_t} (a : EngineState) :
    PUSH32 L s v = some a ↔ Was (PUSH32 L s v) (some a) ∧ a.execution_stack_base =
          s.execution_stack_base :=
  ⟨fun h => ⟨h, PUSH32_base h⟩, fun h => h.1⟩

theorem POP32_base {L : VMLocals} {s : EngineState} {a : reg_t × EngineState}
    (h : POP32 L s = some a) :
    a.2.execution_stack_base = s.execution_stack_base := by
  unfold POP32 at h
  all_goals (repeat' split at h)
  all_goals (try simp_all [Option.bind_eq_some, Option.map_eq_some', validate_stack_addr_was,
        validate_stack_addr_base, setFrame_was])
  all_goals (try (repeat' split at h))
  all_goals (try simp_all [Option.bind_eq_some, Option.map_eq_some', validate_stack_addr_was,
        validate_stack_addr_base, setFrame_was])
  all_goals (try (revert h; (try simp only [exists_imp, and_imp,
        forall_exists_index]); intros; subst_vars; first | rfl | simp_all [Option.bind_eq_some,
        Option.map_eq_some', validate_stack_addr_was, validate_stack_addr_base, setFrame_was]))

theorem POP32_was {L : VMLocals} {s : EngineState} (a : reg_t × EngineState) :
    POP32 L s = some a ↔ Was (POP32 L s) (some a) ∧ a.2.execution_stack_base =
          s.execution_stack_base :=
  ⟨fun h => ⟨h, POP32_base h⟩, fun h => h.1⟩

theorem PUSH_base {L : VMLocals} {s : EngineState} {v : Int} {a : EngineState}
    (h : PUSH L s v = some a) :
    a.execution_stack_base = s.execution_stack_base := by
  unfold PUSH at h
  all_goals (repeat' split at h)
  all_goals (try simp_all [Option.bind_eq_some, Option.map_eq_some', PUSH32_was])
  all_goals (try (repeat' split at h))
  all_goals (try simp_all [Option.bind_eq_some, Option.map_eq_some', PUSH32_was])
  all_goals (try (revert h; (try simp only [exists_imp, and_imp,
        forall_exists_index]); intros; subst_vars; first | rfl | simp_all [Option.bind_eq_some,
        Option.map_eq_some', PUSH32_was]))

theorem PUSH_was {L : VMLocals} {s : EngineState} {v : Int} (a : EngineState) :
    PUSH L s v = some a ↔ Was (PUSH L s v) (some a) ∧ a.execution_stack_base =
          s.execution_stack_base :=
  ⟨fun h => ⟨h, PUSH_base h⟩, fun h => h.1⟩

theorem POP_base {L : VMLocals} {s : EngineState} {a : Int × EngineState}
    (h : POP L s = some a) :
    a.2.execution_stack_base = s.execution_stack_base := by
  unfold POP at h
  all_goals (repeat' split at h)
  all_goals (try simp_all [Option.bind_eq_some, Option.map_eq_some', validate_arithmetic_was,
        validate_arithmetic_base, POP32_was])
  all_goals (try (repeat' split at h))
  all_goals (try simp_all [Option.bind_eq_some, Option.map_eq_some', validate_arithmetic_was,
        validate_arithmetic_base, POP32_was])
  all_goals (try (revert h; (try simp only [exists_imp, and_imp,
        forall_exists_index]); intros; subst_vars; first | rfl | simp_all [Option.bind_eq_some,
        Option.map_eq_some', validate_arithmetic_was, validate_arithmetic_base, POP32_was]))

theorem POP_was {L : VMLocals} {s : EngineState} (a : Int × EngineState) :
    POP L s = some a ↔ Was (POP L s) (some a) ∧ a.2.execution_stack_base = s.execution_stack_base :=
  ⟨fun h => ⟨h, POP_base h⟩, fun h => h.1⟩

theorem pointer_add_base {s : EngineState} {b : reg_t} {o : Int} :
    (pointer_add s b o).2.execution_stack_base = s.execution_stack_base := by
  unfold pointer_add
  repeat' split
  all_goals (try rfl)
  all_goals (try simp_all [setError, script_error, Option.bind_eq_some, Option.map_eq_some',
        setError_base])
  all_goals (try (repeat' split))
  all_goals (try rfl)
  all_goals (try simp_all [setError, script_error, Option.bind_eq_some, Option.map_eq_some',
        setError_base])

theorem pointer_add_was {s : EngineState} {b : reg_t} {o : Int} (a : reg_t × EngineState) :
    pointer_add s b o = a ↔ Was (pointer_add s b o) a ∧ a.2.execution_stack_base =
          s.execution_stack_base :=
  ⟨fun h => ⟨h, by rw [← h]; exact pointer_add_base⟩, fun h => h.1⟩

theorem linkLoop_base {sp : Ptr} {n : Nat} {i : Int} {s : EngineState} {a : EngineState}
    (h : linkLoop sp n i s = some a) :
    a.execution_stack_base = s.execution_stack_base := by
  induction n generalizing i s with
  | zero =>
    unfold linkLoop at h
    repeat' split at h
    all_goals (try simp_all [Option.bind_eq_some, Option.map_eq_some', store_was])
    all_goals (try (repeat' split at h))
    all_goals (try simp_all [Option.bind_eq_some, Option.map_eq_some', store_was])
    all_goals (try (revert h; (try simp only [exists_imp, and_imp,
          forall_exists_index]); intros; subst_vars; first | rfl | simp_all [Option.bind_eq_some,
          Option.map_eq_some', store_was]))
  | succ n ih =>
    unfold linkLoop at h
    repeat' split at h
    all_goals (try have ih2 := ih h)
    all_goals (try simp_all [Option.bind_eq_some, Option.map_eq_some', store_was])
    all_goals (try (repeat' split at h))
    all_goals (try have ih2 := ih h)
    all_goals (try simp_all [Option.bind_eq_some, Option.map_eq_some', store_was])
    all_goals (try (revert h; (try simp only [exists_imp, and_imp,
          forall_exists_index]); intros; subst_vars; first | rfl | simp_all [Option.bind_eq_some,
          Option.map_eq_some', store_was]))

theorem linkLoop_was {sp : Ptr} {n : Nat} {i : Int} {s : EngineState} (a : EngineState) :
    linkLoop sp n i s = some a ↔ Was (linkLoop sp n i s) (some a) ∧ a.execution_stack_base =
          s.execution_stack_base :=
  ⟨fun h => ⟨h, linkLoop_base h⟩, fun h => h.1⟩

theorem add_exec_stack_entry_base {s : EngineState} {pc : reg_t} {sp : Ptr} {objp : reg_t} {argc :
      Int} {argp : Ptr} {selector : Int} {sendp : reg_t} {origin : Int} {locals_segment : Int} {a :
      EngineState}
    (h : add_exec_stack_entry s pc sp objp argc argp selector sendp origin locals_segment = some a)
          :
    a.execution_stack_base = s.execution_stack_base := by
  unfold add_exec_stack_entry at h
  all_goals (repeat' split at h)
  all_goals (try simp_all [Option.bind_eq_some, Option.map_eq_some', store_was])
  all_goals (try (repeat' split at h))
  all_goals (try simp_all [Option.bind_eq_some, Option.map_eq_some', store_was])
  all_goals (try (revert h; (try simp only [exists_imp, and_imp,
        forall_exists_index]); intros; subst_vars; first | rfl | simp_all [Option.bind_eq_some,
        Option.map_eq_some', store_was]))

theorem add_exec_stack_entry_was {s : EngineState} {pc : reg_t} {sp : Ptr} {objp : reg_t} {argc :
      Int} {argp : Ptr} {selector : Int} {sendp : reg_t} {origin : Int} {locals_segment : Int} (a :
      EngineState) :
    add_exec_stack_entry s pc sp objp argc argp selector sendp origin locals_segment = some a ↔ Was
          (add_exec_stack_entry s pc sp objp argc argp selector sendp origin locals_segment) (some
          a) ∧ a.execution_stack_base = s.execution_stack_base :=
  ⟨fun h => ⟨h, add_exec_stack_entry_base h⟩, fun h => h.1⟩

theorem add_exec_stack_varselector_base {s : EngineState} {objp : reg_t} {argc : Int} {argp : Ptr}
      {selector : Int} {address : Ptr} {origin : Int} {a : EngineState}
    (h : add_exec_stack_varselector s objp argc argp selector address origin = some a) :
    a.execution_stack_base = s.execution_stack_base := by
  unfold add_exec_stack_varselector at h
  all_goals (repeat' split at h)
  all_goals (try simp_all [Option.bind_eq_some, Option.map_eq_some', add_exec_stack_entry_was])
  all_goals (try (repeat' split at h))
  all_goals (try simp_all [Option.bind_eq_some, Option.map_eq_some', add_exec_stack_entry_was])
  all_goals (try (revert h; (try simp only [exists_imp, and_imp,
        forall_exists_index]); intros; subst_vars; first | rfl | simp_all [Option.bind_eq_some,
        Option.map_eq_some', add_exec_stack_entry_was]))

theorem add_exec_stack_varselector_was {s : EngineState} {objp : reg_t} {argc : Int} {argp : Ptr}
      {selector : Int} {address : Ptr} {origin : Int} (a : EngineState) :
    add_exec_stack_varselector s objp argc argp selector address origin = some a ↔ Was
          (add_exec_stack_varselector s objp argc argp selector address origin) (some a) ∧
          a.execution_stack_base = s.execution_stack_base :=
  ⟨fun h => ⟨h, add_exec_stack_varselector_base h⟩, fun h => h.1⟩

theorem gc_countdown_base {E : Env} {s : EngineState} (hE : EnvKeepsBase E) :
    (gc_countdown E s).execution_stack_base = s.execution_stack_base := by
  unfold gc_countdown
  repeat' split
  all_goals (try rfl)
  all_goals (try simp_all [setError, script_error, Option.bind_eq_some, Option.map_eq_some', hE.1,
        hE.2.1, hE.2.2.1])
  all_goals (try (repeat' split))
  all_goals (try rfl)
  all_goals (try simp_all [setError, script_error, Option.bind_eq_some, Option.map_eq_some', hE.1,
        hE.2.1, hE.2.2.1])

theorem unmarkDeleted_base {s : EngineState} {seg : Int} :
    (unmarkDeleted s seg).execution_stack_base = s.execution_stack_base := by
  unfold unmarkDeleted
  repeat' split
  all_goals (try rfl)
  all_goals (try simp_all [setError, script_error, Option.bind_eq_some, Option.map_eq_some'])
  all_goals (try (repeat' split))
  all_goals (try rfl)
  all_goals (try simp_all [setError, script_error, Option.bind_eq_some, Option.map_eq_some'])

theorem execute_method_base {E : Env} {s : EngineState} {script pubfunct : Int} {sp : Ptr}
      {calling_obj : reg_t} {argc : Int} {argp : Ptr} {a : Option Nat × EngineState}
    (hE : EnvKeepsBase E) (h : execute_method E s script pubfunct sp calling_obj argc argp = some
          a) :
    a.2.execution_stack_base = s.execution_stack_base := by
  unfold execute_method at h
  cases hgs : getScriptIfLoaded s (E.segGet s script) <;> simp only [hgs] at h
  all_goals (repeat' split at h)
  all_goals (try simp_all [Option.bind_eq_some, Option.map_eq_some', setError_base,
        add_exec_stack_entry_was, unmarkDeleted_base, hE.1, hE.2.1, hE.2.2.1])
  all_goals (try (repeat' split at h))
  all_goals (try simp_all [Option.bind_eq_some, Option.map_eq_some', setError_base,
        add_exec_stack_entry_was, unmarkDeleted_base, hE.1, hE.2.1, hE.2.2.1])
  all_goals (try (revert h; (try simp only [exists_imp, and_imp,
        forall_exists_index]); intros; subst_vars; first | rfl | simp_all [Option.bind_eq_some,
        Option.map_eq_some', setError_base, add_exec_stack_entry_was, unmarkDeleted_base, hE.1,
        hE.2.1, hE.2.2.1]))

theorem execute_method_was {E : Env} {s : EngineState} {script pubfunct : Int} {sp : Ptr}
      {calling_obj : reg_t} {argc : Int} {argp : Ptr} (hE : EnvKeepsBase E) (a : Option Nat ×
      EngineState) :
    execute_method E s script pubfunct sp calling_obj argc argp = some a ↔ Was (execute_method E s
          script pubfunct sp calling_obj argc argp) (some a) ∧ a.2.execution_stack_base =
          s.execution_stack_base :=
  ⟨fun h => ⟨h, execute_method_base hE h⟩, fun h => h.1⟩

theorem incrementLockers_base {s : EngineState} {seg : Nat} {a : EngineState}
    (h : incrementLockers s seg = some a) :
    a.execution_stack_base = s.execution_stack_base := by
  unfold incrementLockers at h
  all_goals (repeat' split at h)
  all_goals (try simp_all [Option.bind_eq_some, Option.map_eq_some'])
  all_goals (try (repeat' split at h))
  all_goals (try simp_all [Option.bind_eq_some, Option.map_eq_some'])
  all_goals (try (revert h; (try simp only [exists_imp, and_imp,
        forall_exists_index]); intros; subst_vars; first | rfl | simp_all [Option.bind_eq_some,
        Option.map_eq_some']))

theorem incrementLockers_was {s : EngineState} {seg : Nat} (a : EngineState) :
    incrementLockers s seg = some a ↔ Was (incrementLockers s seg) (some a) ∧
          a.execution_stack_base = s.execution_stack_base :=
  ⟨fun h => ⟨h, incrementLockers_base h⟩, fun h => h.1⟩

theorem script_get_segment_base {E : Env} {s : EngineState} {script_nr : Int} {load : Nat} {a : Int
      × EngineState}
    (hE : EnvKeepsBase E) (h : script_get_segment E s script_nr load = some a) :
    a.2.execution_stack_base = s.execution_stack_base := by
  unfold script_get_segment at h
  all_goals (repeat' split at h)
  all_goals (try simp_all [Option.bind_eq_some, Option.map_eq_some', incrementLockers_was, hE.1,
        hE.2.1, hE.2.2.1])
  all_goals (try (repeat' split at h))
  all_goals (try simp_all [Option.bind_eq_some, Option.map_eq_some', incrementLockers_was, hE.1,
        hE.2.1, hE.2.2.1])
  all_goals (try (revert h; (try simp only [exists_imp, and_imp,
        forall_exists_index]); intros; subst_vars; first | rfl | simp_all [Option.bind_eq_some,
        Option.map_eq_some', incrementLockers_was, hE.1, hE.2.1, hE.2.2.1]))

theorem script_get_segment_was {E : Env} {s : EngineState} {script_nr : Int} {load : Nat} (hE :
      EnvKeepsBase E) (a : Int × EngineState) :
    script_get_segment E s script_nr load = some a ↔ Was (script_get_segment E s script_nr load)
          (some a) ∧ a.2.execution_stack_base = s.execution_stack_base :=
  ⟨fun h => ⟨h, script_get_segment_base hE h⟩, fun h => h.1⟩

theorem get_class_address_base {E : Env} {s : EngineState} {classnr : Int} {lock : Nat} {caller :
      reg_t} {a : reg_t × EngineState}
    (hE : EnvKeepsBase E) (h : get_class_address E s classnr lock caller = some a) :
    a.2.execution_stack_base = s.execution_stack_base := by
  unfold get_class_address at h
  all_goals (repeat' split at h)
  all_goals (try simp_all [Option.bind_eq_some, Option.map_eq_some', setError_base,
        incrementLockers_was, script_get_segment_was hE, hE.1, hE.2.1, hE.2.2.1])
  all_goals (try (repeat' split at h))
  all_goals (try simp_all [Option.bind_eq_some, Option.map_eq_some', setError_base,
        incrementLockers_was, script_get_segment_was hE, hE.1, hE.2.1, hE.2.2.1])
  all_goals (try (revert h; (try simp only [exists_imp, and_imp,
        forall_exists_index]); intros; subst_vars; first | rfl | simp_all [Option.bind_eq_some,
        Option.map_eq_some', setError_base, incrementLockers_was, script_get_segment_was hE, hE.1,
        hE.2.1, hE.2.2.1]))

theorem get_class_address_was {E : Env} {s : EngineState} {classnr : Int} {lock : Nat} {caller :
      reg_t} (hE : EnvKeepsBase E) (a : reg_t × EngineState) :
    get_class_address E s classnr lock caller = some a ↔ Was (get_class_address E s classnr lock
          caller) (some a) ∧ a.2.execution_stack_base = s.execution_stack_base :=
  ⟨fun h => ⟨h, get_class_address_base hE h⟩, fun h => h.1⟩

theorem lookup_selector_base {E : Env} {s : EngineState} {loc : reg_t} {sel : Int} {a :
      LookupResult × EngineState}
    (h : lookup_selector E s loc sel = some a) :
    a.2.execution_stack_base = s.execution_stack_base := by
  have h1 := (lookup_selector_state E s a.2 loc sel a.1 h).2
  unfold SameButFlagsAndObjects at h1
  rw [h1]

theorem lookup_selector_was {E : Env} {s : EngineState} {loc : reg_t} {sel : Int} (a : LookupResult
      × EngineState) :
    lookup_selector E s loc sel = some a ↔ Was (lookup_selector E s loc sel) (some a) ∧
          a.2.execution_stack_base = s.execution_stack_base :=
  ⟨fun h => ⟨h, lookup_selector_base h⟩, fun h => h.1⟩

theorem execVarselector_base {s : EngineState} {xs : ExecStack} {a : EngineState}
    (h : execVarselector s xs = some a) :
    a.execution_stack_base = s.execution_stack_base := by
  unfold execVarselector at h
  all_goals (repeat' split at h)
  all_goals (try simp_all [Option.bind_eq_some, Option.map_eq_some', store_was])
  all_goals (try (repeat' split at h))
  all_goals (try simp_all [Option.bind_eq_some, Option.map_eq_some', store_was])
  all_goals (try (revert h; (try simp only [exists_imp, and_imp,
        forall_exists_index]); intros; subst_vars; first | rfl | simp_all [Option.bind_eq_some,
        Option.map_eq_some', store_was]))

theorem execVarselector_was {s : EngineState} {xs : ExecStack} (a : EngineState) :
    execVarselector s xs = some a ↔ Was (execVarselector s xs) (some a) ∧ a.execution_stack_base =
          s.execution_stack_base :=
  ⟨fun h => ⟨h, execVarselector_base h⟩, fun h => h.1⟩

theorem execVarselectorsLoop_base {n : Nat} {s : EngineState} {a : EngineState}
    (h : execVarselectorsLoop n s = some a) :
    a.execution_stack_base = s.execution_stack_base := by
  induction n generalizing s with
  | zero =>
    unfold execVarselectorsLoop at h
    repeat' split at h
    all_goals (try simp_all [Option.bind_eq_some, Option.map_eq_some', execVarselector_was])
    all_goals (try (repeat' split at h))
    all_goals (try simp_all [Option.bind_eq_some, Option.map_eq_some', execVarselector_was])
    all_goals (try (revert h; (try simp only [exists_imp, and_imp,
          forall_exists_index]); intros; subst_vars; first | rfl | simp_all [Option.bind_eq_some,
          Option.map_eq_some', execVarselector_was]))
  | succ n ih =>
    unfold execVarselectorsLoop at h
    repeat' split at h
    all_goals (try have ih2 := ih h)
    all_goals (try simp_all [Option.bind_eq_some, Option.map_eq_some', execVarselector_was])
    all_goals (try (repeat' split at h))
    all_goals (try have ih2 := ih h)
    all_goals (try simp_all [Option.bind_eq_some, Option.map_eq_some', execVarselector_was])
    all_goals (try (revert h; (try simp only [exists_imp, and_imp,
          forall_exists_index]); intros; subst_vars; first | rfl | simp_all [Option.bind_eq_some,
          Option.map_eq_some', execVarselector_was]))

theorem execVarselectorsLoop_was {n : Nat} {s : EngineState} (a : EngineState) :
    execVarselectorsLoop n s = some a ↔ Was (execVarselectorsLoop n s) (some a) ∧
          a.execution_stack_base = s.execution_stack_base :=
  ⟨fun h => ⟨h, execVarselectorsLoop_base h⟩, fun h => h.1⟩

theorem _exec_varselectors_base {s : EngineState} {a : EngineState}
    (h : _exec_varselectors s = some a) :
    a.execution_stack_base = s.execution_stack_base := by
  unfold _exec_varselectors at h
  all_goals (repeat' split at h)
  all_goals (try simp_all [Option.bind_eq_some, Option.map_eq_some', execVarselectorsLoop_was])
  all_goals (try (repeat' split at h))
  all_goals (try simp_all [Option.bind_eq_some, Option.map_eq_some', execVarselectorsLoop_was])
  all_goals (try (revert h; (try simp only [exists_imp, and_imp,
        forall_exists_index]); intros; subst_vars; first | rfl | simp_all [Option.bind_eq_some,
        Option.map_eq_some', execVarselectorsLoop_was]))

theorem _exec_varselectors_was {s : EngineState} (a : EngineState) :
    _exec_varselectors s = some a ↔ Was (_exec_varselectors s) (some a) ∧ a.execution_stack_base =
          s.execution_stack_base :=
  ⟨fun h => ⟨h, _exec_varselectors_base h⟩, fun h => h.1⟩

theorem pushCalls_base {send_obj work_obj : reg_t} {origin : Int} {calls : List CallsStruct} {s :
      EngineState} {a : EngineState}
    (h : pushCalls send_obj work_obj origin calls s = some a) :
    a.execution_stack_base = s.execution_stack_base := by
  induction calls generalizing s with
  | nil =>
    unfold pushCalls at h
    repeat' split at h
    all_goals (try simp_all [Option.bind_eq_some, Option.map_eq_some', add_exec_stack_entry_was,
          add_exec_stack_varselector_was])
    all_goals (try (repeat' split at h))
    all_goals (try simp_all [Option.bind_eq_some, Option.map_eq_some', add_exec_stack_entry_was,
          add_exec_stack_varselector_was])
    all_goals (try (revert h; (try simp only [exists_imp, and_imp,
          forall_exists_index]); intros; subst_vars; first | rfl | simp_all [Option.bind_eq_some,
          Option.map_eq_some', add_exec_stack_entry_was, add_exec_stack_varselector_was]))
  | cons c cs ih =>
    unfold pushCalls at h
    repeat' split at h
    all_goals (try have ih2 := ih h)
    all_goals (try simp_all [Option.bind_eq_some, Option.map_eq_some', add_exec_stack_entry_was,
          add_exec_stack_varselector_was])
    all_goals (try (repeat' split at h))
    all_goals (try have ih2 := ih h)
    all_goals (try simp_all [Option.bind_eq_some, Option.map_eq_some', add_exec_stack_entry_was,
          add_exec_stack_varselector_was])
    all_goals (try (revert h; (try simp only [exists_imp, and_imp,
          forall_exists_index]); intros; subst_vars; first | rfl | simp_all [Option.bind_eq_some,
          Option.map_eq_some', add_exec_stack_entry_was, add_exec_stack_varselector_was]))

theorem pushCalls_was {send_obj work_obj : reg_t} {origin : Int} {calls : List CallsStruct} {s :
      EngineState} (a : EngineState) :
    pushCalls send_obj work_obj origin calls s = some a ↔ Was (pushCalls send_obj work_obj origin
          calls s) (some a) ∧ a.execution_stack_base = s.execution_stack_base :=
  ⟨fun h => ⟨h, pushCalls_base h⟩, fun h => h.1⟩

theorem sendLoop_base {E : Env} {send_obj : reg_t} {fuel : Nat} {s : EngineState} {sp : Ptr}
      {framesize : Int} {argp : Ptr} {sendCalls : List CallsStruct} {a : Option (List CallsStruct)
      × EngineState}
    (h : sendLoop E send_obj fuel s sp framesize argp sendCalls = some a) :
    a.2.execution_stack_base = s.execution_stack_base := by
  induction fuel generalizing s sp framesize argp sendCalls with
  | zero =>
    unfold sendLoop at h
    repeat' split at h
    all_goals (try simp_all [Option.bind_eq_some, Option.map_eq_some', setError_base,
          script_error_base, validate_arithmetic_was, validate_arithmetic_base,
          lookup_selector_was])
    all_goals (try (repeat' split at h))
    all_goals (try simp_all [Option.bind_eq_some, Option.map_eq_some', setError_base,
          script_error_base, validate_arithmetic_was, validate_arithmetic_base,
          lookup_selector_was])
    all_goals (try (revert h; (try simp only [exists_imp, and_imp,
          forall_exists_index]); intros; subst_vars; first | rfl | simp_all [Option.bind_eq_some,
          Option.map_eq_some', setError_base, script_error_base, validate_arithmetic_was,
          validate_arithmetic_base, lookup_selector_was]))
  | succ n ih =>
    unfold sendLoop at h
    repeat' split at h
    all_goals (try have ih2 := ih h)
    all_goals (try simp_all [Option.bind_eq_some, Option.map_eq_some', setError_base,
          script_error_base, validate_arithmetic_was, validate_arithmetic_base,
          lookup_selector_was])
    all_goals (try (repeat' split at h))
    all_goals (try have ih2 := ih h)
    all_goals (try simp_all [Option.bind_eq_some, Option.map_eq_some', setError_base,
          script_error_base, validate_arithmetic_was, validate_arithmetic_base,
          lookup_selector_was])
    all_goals (try (revert h; (try simp only [exists_imp, and_imp,
          forall_exists_index]); intros; subst_vars; first | rfl | simp_all [Option.bind_eq_some,
          Option.map_eq_some', setError_base, script_error_base, validate_arithmetic_was,
          validate_arithmetic_base, lookup_selector_was]))

theorem sendLoop_was {E : Env} {send_obj : reg_t} {fuel : Nat} {s : EngineState} {sp : Ptr}
      {framesize : Int} {argp : Ptr} {sendCalls : List CallsStruct} (a : Option (List CallsStruct)
      × EngineState) :
    sendLoop E send_obj fuel s sp framesize argp sendCalls = some a ↔ Was (sendLoop E send_obj fuel
          s sp framesize argp sendCalls) (some a) ∧ a.2.execution_stack_base =
          s.execution_stack_base :=
  ⟨fun h => ⟨h, sendLoop_base h⟩, fun h => h.1⟩

theorem send_selector_base {E : Env} {s : EngineState} {send_obj work_obj : reg_t} {sp : Ptr}
      {framesize : Int} {argp : Ptr} {a : Option Nat × EngineState}
    (h : send_selector E s send_obj work_obj sp framesize argp = some a) :
    a.2.execution_stack_base = s.execution_stack_base := by
  unfold send_selector at h
  all_goals (repeat' split at h)
  all_goals (try simp_all [Option.bind_eq_some, Option.map_eq_some', _exec_varselectors_was,
        pushCalls_was, sendLoop_was])
  all_goals (try (repeat' split at h))
  all_goals (try simp_all [Option.bind_eq_some, Option.map_eq_some', _exec_varselectors_was,
        pushCalls_was, sendLoop_was])
  all_goals (try (revert h; (try simp only [exists_imp, and_imp,
        forall_exists_index]); intros; subst_vars; first | rfl | simp_all [Option.bind_eq_some,
        Option.map_eq_some', _exec_varselectors_was, pushCalls_was, sendLoop_was]))

theorem send_selector_was {E : Env} {s : EngineState} {send_obj work_obj : reg_t} {sp : Ptr}
      {framesize : Int} {argp : Ptr} (a : Option Nat × EngineState) :
    send_selector E s send_obj work_obj sp framesize argp = some a ↔ Was (send_selector E s
          send_obj work_obj sp framesize argp) (some a) ∧ a.2.execution_stack_base =
          s.execution_stack_base :=
  ⟨fun h => ⟨h, send_selector_base h⟩, fun h => h.1⟩

theorem restLoop_base {L : VMLocals} {n : Nat} {temp : Int} {s : EngineState} {a : EngineState}
    (h : restLoop L n temp s = some a) :
    a.execution_stack_base = s.execution_stack_base := by
  induction n generalizing temp s with
  | zero =>
    unfold restLoop at h
    repeat' split at h
    all_goals (try simp_all [Option.bind_eq_some, Option.map_eq_some', PUSH32_was])
    all_goals (try (repeat' split at h))
    all_goals (try simp_all [Option.bind_eq_some, Option.map_eq_some', PUSH32_was])
    all_goals (try (revert h; (try simp only [exists_imp, and_imp,
          forall_exists_index]); intros; subst_vars; first | rfl | simp_all [Option.bind_eq_some,
          Option.map_eq_some', PUSH32_was]))
  | succ n ih =>
    unfold restLoop at h
    repeat' split at h
    all_goals (try have ih2 := ih h)
    all_goals (try simp_all [Option.bind_eq_some, Option.map_eq_some', PUSH32_was])
    all_goals (try (repeat' split at h))
    all_goals (try have ih2 := ih h)
    all_goals (try simp_all [Option.bind_eq_some, Option.map_eq_some', PUSH32_was])
    all_goals (try (revert h; (try simp only [exists_imp, and_imp,
          forall_exists_index]); intros; subst_vars; first | rfl | simp_all [Option.bind_eq_some,
          Option.map_eq_some', PUSH32_was]))

theorem restLoop_was {L : VMLocals} {n : Nat} {temp : Int} {s : EngineState} (a : EngineState) :
    restLoop L n temp s = some a ↔ Was (restLoop L n temp s) (some a) ∧ a.execution_stack_base =
          s.execution_stack_base :=
  ⟨fun h => ⟨h, restLoop_base h⟩, fun h => h.1⟩

theorem validate_property_base {s : EngineState} {obj : Option Nat} {index : Int} :
    (validate_property s obj index).2.execution_stack_base = s.execution_stack_base := by
  unfold validate_property
  repeat' split
  all_goals (try rfl)
  all_goals (try simp_all [setError, script_error, Option.bind_eq_some, Option.map_eq_some'])
  all_goals (try (repeat' split))
  all_goals (try rfl)
  all_goals (try simp_all [setError, script_error, Option.bind_eq_some, Option.map_eq_some'])

theorem validate_property_was {s : EngineState} {obj : Option Nat} {index : Int} (a : Option Ptr ×
      EngineState) :
    validate_property s obj index = a ↔ Was (validate_property s obj index) a ∧
          a.2.execution_stack_base = s.execution_stack_base :=
  ⟨fun h => ⟨h, by rw [← h]; exact validate_property_base⟩, fun h => h.1⟩

theorem refWrite_base {s : EngineState} {r : Option Ptr} {v : reg_t} {a : EngineState}
    (h : refWrite s r v = some a) :
    a.execution_stack_base = s.execution_stack_base := by
  unfold refWrite at h
  all_goals (repeat' split at h)
  all_goals (try simp_all [Option.bind_eq_some, Option.map_eq_some', store_was])
  all_goals (try (repeat' split at h))
  all_goals (try simp_all [Option.bind_eq_some, Option.map_eq_some', store_was])
  all_goals (try (revert h; (try simp only [exists_imp, and_imp,
        forall_exists_index]); intros; subst_vars; first | rfl | simp_all [Option.bind_eq_some,
        Option.map_eq_some', store_was]))

theorem refWrite_was {s : EngineState} {r : Option Ptr} {v : reg_t} (a : EngineState) :
    refWrite s r v = some a ↔ Was (refWrite s r v) (some a) ∧ a.execution_stack_base =
          s.execution_stack_base :=
  ⟨fun h => ⟨h, refWrite_base h⟩, fun h => h.1⟩

theorem validate_variable_base {E : Env} {s : EngineState} {r : Ptr} {type : Nat} {max index : Int}
      :
    (validate_variable E s r type max index).2.execution_stack_base = s.execution_stack_base := by
  unfold validate_variable
  repeat' split
  all_goals (try rfl)
  all_goals (try simp_all [setError, script_error, Option.bind_eq_some, Option.map_eq_some',
        setError_base])
  all_goals (try (repeat' split))
  all_goals (try rfl)
  all_goals (try simp_all [setError, script_error, Option.bind_eq_some, Option.map_eq_some',
        setError_base])

theorem validate_variable_was {E : Env} {s : EngineState} {r : Ptr} {type : Nat} {max index : Int}
      (a : Int × EngineState) :
    validate_variable E s r type max index = a ↔ Was (validate_variable E s r type max index) a ∧
          a.2.execution_stack_base = s.execution_stack_base :=
  ⟨fun h => ⟨h, by rw [← h]; exact validate_variable_base⟩, fun h => h.1⟩

theorem validate_read_var_base {E : Env} {s : EngineState} {r : Ptr} {type : Nat} {max index : Int}
      {d : reg_t} {a : reg_t × EngineState}
    (h : validate_read_var E s r type max index d = some a) :
    a.2.execution_stack_base = s.execution_stack_base := by
  unfold validate_read_var at h
  all_goals (repeat' split at h)
  all_goals (try simp_all [Option.bind_eq_some, Option.map_eq_some', validate_variable_was,
        validate_variable_base])
  all_goals (try (repeat' split at h))
  all_goals (try simp_all [Option.bind_eq_some, Option.map_eq_some', validate_variable_was,
        validate_variable_base])
  all_goals (try (revert h; (try simp only [exists_imp, and_imp,
        forall_exists_index]); intros; subst_vars; first | rfl | simp_all [Option.bind_eq_some,
        Option.map_eq_some', validate_variable_was, validate_variable_base]))

theorem validate_read_var_was {E : Env} {s : EngineState} {r : Ptr} {type : Nat} {max index : Int}
      {d : reg_t} (a : reg_t × EngineState) :
    validate_read_var E s r type max index d = some a ↔ Was (validate_read_var E s r type max index
          d) (some a) ∧ a.2.execution_stack_base = s.execution_stack_base :=
  ⟨fun h => ⟨h, validate_read_var_base h⟩, fun h => h.1⟩

theorem validate_write_var_base {E : Env} {s : EngineState} {r : Ptr} {type : Nat} {max index :
      Int} {v : reg_t} {a : EngineState}
    (h : validate_write_var E s r type max index v = some a) :
    a.execution_stack_base = s.execution_stack_base := by
  unfold validate_write_var at h
  all_goals (repeat' split at h)
  all_goals (try simp_all [Option.bind_eq_some, Option.map_eq_some', store_was,
        validate_variable_was, validate_variable_base])
  all_goals (try (repeat' split at h))
  all_goals (try simp_all [Option.bind_eq_some, Option.map_eq_some', store_was,
        validate_variable_was, validate_variable_base])
  all_goals (try (revert h; (try simp only [exists_imp, and_imp,
        forall_exists_index]); intros; subst_vars; first | rfl | simp_all [Option.bind_eq_some,
        Option.map_eq_some', store_was, validate_variable_was, validate_variable_base]))

theorem validate_write_var_was {E : Env} {s : EngineState} {r : Ptr} {type : Nat} {max index : Int}
      {v : reg_t} (a : EngineState) :
    validate_write_var E s r type max index v = some a ↔ Was (validate_write_var E s r type max
          index v) (some a) ∧ a.execution_stack_base = s.execution_stack_base :=
  ⟨fun h => ⟨h, validate_write_var_base h⟩, fun h => h.1⟩

theorem READ_VAR_base {E : Env} {L : VMLocals} {s : EngineState} {type : Nat} {index : Int} {d :
      reg_t} {a : reg_t × EngineState}
    (h : READ_VAR E L s type index d = some a) :
    a.2.execution_stack_base = s.execution_stack_base := by
  unfold READ_VAR at h
  all_goals (repeat' split at h)
  all_goals (try simp_all [Option.bind_eq_some, Option.map_eq_some', validate_read_var_was])
  all_goals (try (repeat' split at h))
  all_goals (try simp_all [Option.bind_eq_some, Option.map_eq_some', validate_read_var_was])
  all_goals (try (revert h; (try simp only [exists_imp, and_imp,
        forall_exists_index]); intros; subst_vars; first | rfl | simp_all [Option.bind_eq_some,
        Option.map_eq_some', validate_read_var_was]))

theorem READ_VAR_was {E : Env} {L : VMLocals} {s : EngineState} {type : Nat} {index : Int} {d :
      reg_t} (a : reg_t × EngineState) :
    READ_VAR E L s type index d = some a ↔ Was (READ_VAR E L s type index d) (some a) ∧
          a.2.execution_stack_base = s.execution_stack_base :=
  ⟨fun h => ⟨h, READ_VAR_base h⟩, fun h => h.1⟩

theorem WRITE_VAR_base {E : Env} {L : VMLocals} {s : EngineState} {type : Nat} {index : Int} {v :
      reg_t} {a : EngineState}
    (h : WRITE_VAR E L s type index v = some a) :
    a.execution_stack_base = s.execution_stack_base := by
  unfold WRITE_VAR at h
  all_goals (repeat' split at h)
  all_goals (try simp_all [Option.bind_eq_some, Option.map_eq_some', validate_write_var_was])
  all_goals (try (repeat' split at h))
  all_goals (try simp_all [Option.bind_eq_some, Option.map_eq_some', validate_write_var_was])
  all_goals (try (revert h; (try simp only [exists_imp, and_imp,
        forall_exists_index]); intros; subst_vars; first | rfl | simp_all [Option.bind_eq_some,
        Option.map_eq_some', validate_write_var_was]))

theorem WRITE_VAR_was {E : Env} {L : VMLocals} {s : EngineState} {type : Nat} {index : Int} {v :
      reg_t} (a : EngineState) :
    WRITE_VAR E L s type index v = some a ↔ Was (WRITE_VAR E L s type index v) (some a) ∧
          a.execution_stack_base = s.execution_stack_base :=
  ⟨fun h => ⟨h, WRITE_VAR_base h⟩, fun h => h.1⟩

theorem varIndex_base {L : VMLocals} {s : EngineState} {indexed : Bool} :
    (varIndex L s indexed).2.execution_stack_base = s.execution_stack_base := by
  unfold varIndex
  repeat' split
  all_goals (try rfl)
  all_goals (try simp_all [setError, script_error, Option.bind_eq_some, Option.map_eq_some',
        signed_validate_arithmetic_was, signed_validate_arithmetic_base])
  all_goals (try (repeat' split))
  all_goals (try rfl)
  all_goals (try simp_all [setError, script_error, Option.bind_eq_some, Option.map_eq_some',
        signed_validate_arithmetic_was, signed_validate_arithmetic_base])

theorem varIndex_was {L : VMLocals} {s : EngineState} {indexed : Bool} (a : Int × EngineState) :
    varIndex L s indexed = a ↔ Was (varIndex L s indexed) a ∧ a.2.execution_stack_base =
          s.execution_stack_base :=
  ⟨fun h => ⟨h, by rw [← h]; exact varIndex_base⟩, fun h => h.1⟩

theorem GET_OP_BYTE_base {E : Env} {L : VMLocals} {s : EngineState} {a : Int × EngineState}
    (h : GET_OP_BYTE E L s = some a) :
    a.2.execution_stack_base = s.execution_stack_base := by
  unfold GET_OP_BYTE at h
  all_goals (repeat' split at h)
  all_goals (try simp_all [Option.bind_eq_some, Option.map_eq_some', setFrame_was])
  all_goals (try (repeat' split at h))
  all_goals (try simp_all [Option.bind_eq_some, Option.map_eq_some', setFrame_was])
  all_goals (try (revert h; (try simp only [exists_imp, and_imp,
        forall_exists_index]); intros; subst_vars; first | rfl | simp_all [Option.bind_eq_some,
        Option.map_eq_some', setFrame_was]))

theorem GET_OP_BYTE_was {E : Env} {L : VMLocals} {s : EngineState} (a : Int × EngineState) :
    GET_OP_BYTE E L s = some a ↔ Was (GET_OP_BYTE E L s) (some a) ∧ a.2.execution_stack_base =
          s.execution_stack_base :=
  ⟨fun h => ⟨h, GET_OP_BYTE_base h⟩, fun h => h.1⟩

theorem GET_OP_WORD_base {E : Env} {L : VMLocals} {s : EngineState} {a : Int × EngineState}
    (h : GET_OP_WORD E L s = some a) :
    a.2.execution_stack_base = s.execution_stack_base := by
  unfold GET_OP_WORD at h
  all_goals (repeat' split at h)
  all_goals (try simp_all [Option.bind_eq_some, Option.map_eq_some', setFrame_was])
  all_goals (try (repeat' split at h))
  all_goals (try simp_all [Option.bind_eq_some, Option.map_eq_some', setFrame_was])
  all_goals (try (revert h; (try simp only [exists_imp, and_imp,
        forall_exists_index]); intros; subst_vars; first | rfl | simp_all [Option.bind_eq_some,
        Option.map_eq_some', setFrame_was]))

theorem GET_OP_WORD_was {E : Env} {L : VMLocals} {s : EngineState} (a : Int × EngineState) :
    GET_OP_WORD E L s = some a ↔ Was (GET_OP_WORD E L s) (some a) ∧ a.2.execution_stack_base =
          s.execution_stack_base :=
  ⟨fun h => ⟨h, GET_OP_WORD_base h⟩, fun h => h.1⟩

theorem fetchOperand_base {E : Env} {L : VMLocals} {s : EngineState} {opcode : Nat} {fmt :
      opcode_format} {a : Option Int × EngineState}
    (h : fetchOperand E L s opcode fmt = some a) :
    a.2.execution_stack_base = s.execution_stack_base := by
  unfold fetchOperand at h
  all_goals (repeat' split at h)
  all_goals (try simp_all [Option.bind_eq_some, Option.map_eq_some', setError_base,
        GET_OP_BYTE_was, GET_OP_WORD_was])
  all_goals (try (repeat' split at h))
  all_goals (try simp_all [Option.bind_eq_some, Option.map_eq_some', setError_base,
        GET_OP_BYTE_was, GET_OP_WORD_was])
  all_goals (try (revert h; (try simp only [exists_imp, and_imp,
        forall_exists_index]); intros; subst_vars; first | rfl | simp_all [Option.bind_eq_some,
        Option.map_eq_some', setError_base, GET_OP_BYTE_was, GET_OP_WORD_was]))

theorem fetchOperand_was {E : Env} {L : VMLocals} {s : EngineState} {opcode : Nat} {fmt :
      opcode_format} (a : Option Int × EngineState) :
    fetchOperand E L s opcode fmt = some a ↔ Was (fetchOperand E L s opcode fmt) (some a) ∧
          a.2.execution_stack_base = s.execution_stack_base :=
  ⟨fun h => ⟨h, fetchOperand_base h⟩, fun h => h.1⟩

theorem KeepsBase_of (L : VMLocals) (s : EngineState) (r : Option Outcome)
    (h : ∀ o, r = some o → KeepsBase L s (some o)) : KeepsBase L s r := by
  cases r with
  | none => simp [KeepsBase]
  | some o => exact h o rfl

theorem KeepsBase_from (L L0 : VMLocals) (s s0 : EngineState) (r : Option Outcome)
    (hs : s.execution_stack_base = s0.execution_stack_base)
    (hL : L.old_execution_stack_base = L0.old_execution_stack_base)
    (h : KeepsBase L s r) : KeepsBase L0 s0 r := by
  unfold KeepsBase at h ⊢
  split at h <;> simp_all

theorem case_div_keeps {L : VMLocals} {s : EngineState} :
    KeepsBase L s (case_div L s) := by
  apply KeepsBase_of
  intro o h
  unfold case_div at h
  all_goals (repeat' split at h)
  all_goals (try simp_all [Option.bind_eq_some, Option.map_eq_some',
        signed_validate_arithmetic_was, signed_validate_arithmetic_base, POP_was, KeepsBase])
  all_goals (try (repeat' split at h))
  all_goals (try simp_all [Option.bind_eq_some, Option.map_eq_some',
        signed_validate_arithmetic_was, signed_validate_arithmetic_base, POP_was, KeepsBase])
  all_goals (try (revert h; (try simp only [exists_imp, and_imp,
        forall_exists_index]); intros; subst_vars; simp_all [Option.bind_eq_some,
        Option.map_eq_some', signed_validate_arithmetic_was, signed_validate_arithmetic_base,
        POP_was, KeepsBase]))
  all_goals (try (cases o <;> simp_all [Option.bind_eq_some, Option.map_eq_some',
        signed_validate_arithmetic_was, signed_validate_arithmetic_base, POP_was, KeepsBase]))
  all_goals (try (repeat' split))
  all_goals (try simp_all [Option.bind_eq_some, Option.map_eq_some',
        signed_validate_arithmetic_was, signed_validate_arithmetic_base, POP_was, KeepsBase])

theorem case_div_kwas {L : VMLocals} {s : EngineState} (o : Outcome) :
    case_div L s = some o ↔ Was (case_div L s) (some o) ∧ KeepsBase L s (some o) :=
  ⟨fun h => ⟨h, by rw [← h]; exact case_div_keeps⟩, fun h => h.1⟩

theorem case_mod_keeps {L : VMLocals} {s : EngineState} :
    KeepsBase L s (case_mod L s) := by
  apply KeepsBase_of
  intro o h
  unfold case_mod at h
  all_goals (repeat' split at h)
  all_goals (try simp_all [Option.bind_eq_some, Option.map_eq_some',
        signed_validate_arithmetic_was, signed_validate_arithmetic_base, POP_was, KeepsBase])
  all_goals (try (repeat' split at h))
  all_goals (try simp_all [Option.bind_eq_some, Option.map_eq_some',
        signed_validate_arithmetic_was, signed_validate_arithmetic_base, POP_was, KeepsBase])
  all_goals (try (revert h; (try simp only [exists_imp, and_imp,
        forall_exists_index]); intros; subst_vars; simp_all [Option.bind_eq_some,
        Option.map_eq_some', signed_validate_arithmetic_was, signed_validate_arithmetic_base,
        POP_was, KeepsBase]))
  all_goals (try (cases o <;> simp_all [Option.bind_eq_some, Option.map_eq_some',
        signed_validate_arithmetic_was, signed_validate_arithmetic_base, POP_was, KeepsBase]))
  all_goals (try (repeat' split))
  all_goals (try simp_all [Option.bind_eq_some, Option.map_eq_some',
        signed_validate_arithmetic_was, signed_validate_arithmetic_base, POP_was, KeepsBase])

theorem case_mod_kwas {L : VMLocals} {s : EngineState} (o : Outcome) :
    case_mod L s = some o ↔ Was (case_mod L s) (some o) ∧ KeepsBase L s (some o) :=
  ⟨fun h => ⟨h, by rw [← h]; exact case_mod_keeps⟩, fun h => h.1⟩

theorem case_ldi_keeps {L : VMLocals} {s : EngineState} {v : Int} :
    KeepsBase L s (case_ldi L s v) := by
  apply KeepsBase_of
  intro o h
  unfold case_ldi at h
  all_goals (repeat' split at h)
  all_goals (try simp_all [Option.bind_eq_some, Option.map_eq_some', KeepsBase])
  all_goals (try (repeat' split at h))
  all_goals (try simp_all [Option.bind_eq_some, Option.map_eq_some', KeepsBase])
  all_goals (try (revert h; (try simp only [exists_imp, and_imp,
        forall_exists_index]); intros; subst_vars; simp_all [Option.bind_eq_some,
        Option.map_eq_some', KeepsBase]))
  all_goals (try (cases o <;> simp_all [Option.bind_eq_some, Option.map_eq_some', KeepsBase]))
  all_goals (try (repeat' split))
  all_goals (try simp_all [Option.bind_eq_some, Option.map_eq_some', KeepsBase])

theorem case_ldi_kwas {L : VMLocals} {s : EngineState} {v : Int} (o : Outcome) :
    case_ldi L s v = some o ↔ Was (case_ldi L s v) (some o) ∧ KeepsBase L s (some o) :=
  ⟨fun h => ⟨h, by rw [← h]; exact case_ldi_keeps⟩, fun h => h.1⟩

theorem case_push_keeps {L : VMLocals} {s : EngineState} :
    KeepsBase L s (case_push L s) := by
  apply KeepsBase_of
  intro o h
  unfold case_push at h
  all_goals (repeat' split at h)
  all_goals (try simp_all [Option.bind_eq_some, Option.map_eq_some', PUSH32_was, KeepsBase])
  all_goals (try (repeat' split at h))
  all_goals (try simp_all [Option.bind_eq_some, Option.map_eq_some', PUSH32_was, KeepsBase])
  all_goals (try (revert h; (try simp only [exists_imp, and_imp,
        forall_exists_index]); intros; subst_vars; simp_all [Option.bind_eq_some,
        Option.map_eq_some', PUSH32_was, KeepsBase]))
  all_goals (try (cases o <;> simp_all [Option.bind_eq_some, Option.map_eq_some', PUSH32_was,
        KeepsBase]))
  all_goals (try (repeat' split))
  all_goals (try simp_all [Option.bind_eq_some, Option.map_eq_some', PUSH32_was, KeepsBase])

theorem case_push_kwas {L : VMLocals} {s : EngineState} (o : Outcome) :
    case_push L s = some o ↔ Was (case_push L s) (some o) ∧ KeepsBase L s (some o) :=
  ⟨fun h => ⟨h, by rw [← h]; exact case_push_keeps⟩, fun h => h.1⟩

theorem case_pushi_keeps {L : VMLocals} {s : EngineState} {v : Int} :
    KeepsBase L s (case_pushi L s v) := by
  apply KeepsBase_of
  intro o h
  unfold case_pushi at h
  all_goals (repeat' split at h)
  all_goals (try simp_all [Option.bind_eq_some, Option.map_eq_some', PUSH_was, KeepsBase])
  all_goals (try (repeat' split at h))
  all_goals (try simp_all [Option.bind_eq_some, Option.map_eq_some', PUSH_was, KeepsBase])
  all_goals (try (revert h; (try simp only [exists_imp, and_imp,
        forall_exists_index]); intros; subst_vars; simp_all [Option.bind_eq_some,
        Option.map_eq_some', PUSH_was, KeepsBase]))
  all_goals (try (cases o <;> simp_all [Option.bind_eq_some, Option.map_eq_some', PUSH_was,
        KeepsBase]))
  all_goals (try (repeat' split))
  all_goals (try simp_all [Option.bind_eq_some, Option.map_eq_some', PUSH_was, KeepsBase])

theorem case_pushi_kwas {L : VMLocals} {s : EngineState} {v : Int} (o : Outcome) :
    case_pushi L s v = some o ↔ Was (case_pushi L s v) (some o) ∧ KeepsBase L s (some o) :=
  ⟨fun h => ⟨h, by rw [← h]; exact case_pushi_keeps⟩, fun h => h.1⟩

theorem case_bnot_keeps {L : VMLocals} {s : EngineState} :
    KeepsBase L s (case_bnot L s) := by
  apply KeepsBase_of
  intro o h
  unfold case_bnot at h
  all_goals (repeat' split at h)
  all_goals (try simp_all [Option.bind_eq_some, Option.map_eq_some', validate_arithmetic_was,
        validate_arithmetic_base, KeepsBase])
  all_goals (try (repeat' split at h))
  all_goals (try simp_all [Option.bind_eq_some, Option.map_eq_some', validate_arithmetic_was,
        validate_arithmetic_base, KeepsBase])
  all_goals (try (revert h; (try simp only [exists_imp, and_imp,
        forall_exists_index]); intros; subst_vars; simp_all [Option.bind_eq_some,
        Option.map_eq_some', validate_arithmetic_was, validate_arithmetic_base, KeepsBase]))
  all_goals (try (cases o <;> simp_all [Option.bind_eq_some, Option.map_eq_some',
        validate_arithmetic_was, validate_arithmetic_base, KeepsBase]))
  all_goals (try (repeat' split))
  all_goals (try simp_all [Option.bind_eq_some, Option.map_eq_some', validate_arithmetic_was,
        validate_arithmetic_base, KeepsBase])

theorem case_bnot_kwas {L : VMLocals} {s : EngineState} (o : Outcome) :
    case_bnot L s = some o ↔ Was (case_bnot L s) (some o) ∧ KeepsBase L s (some o) :=
  ⟨fun h => ⟨h, by rw [← h]; exact case_bnot_keeps⟩, fun h => h.1⟩

theorem case_addsub_keeps {L : VMLocals} {s : EngineState} {sign : Int} :
    KeepsBase L s (case_addsub L s sign) := by
  apply KeepsBase_of
  intro o h
  unfold case_addsub at h
  all_goals (repeat' split at h)
  all_goals (try simp_all [Option.bind_eq_some, Option.map_eq_some', setError_base, POP32_was,
        pointer_add_was, pointer_add_base, KeepsBase])
  all_goals (try (repeat' split at h))
  all_goals (try simp_all [Option.bind_eq_some, Option.map_eq_some', setError_base, POP32_was,
        pointer_add_was, pointer_add_base, KeepsBase])
  all_goals (try (revert h; (try simp only [exists_imp, and_imp,
        forall_exists_index]); intros; subst_vars; simp_all [Option.bind_eq_some,
        Option.map_eq_some', setError_base, POP32_was, pointer_add_was, pointer_add_base,
        KeepsBase]))
  all_goals (try (cases o <;> simp_all [Option.bind_eq_some, Option.map_eq_some', setError_base,
        POP32_was, pointer_add_was, pointer_add_base, KeepsBase]))
  all_goals (try (repeat' split))
  all_goals (try simp_all [Option.bind_eq_some, Option.map_eq_some', setError_base, POP32_was,
        pointer_add_was, pointer_add_base, KeepsBase])
  all_goals (rename_i h1 h2; repeat' split at h1)
  all_goals (try simp_all [Prod.mk.injEq, Option.bind_eq_some, Option.map_eq_some', setError_base,
        POP32_was, pointer_add_was, pointer_add_base, KeepsBase])
  all_goals (obtain ⟨_, _, h3⟩ := h1; subst h3; simp_all [Option.bind_eq_some, Option.map_eq_some',
        setError_base, POP32_was, pointer_add_was, pointer_add_base, KeepsBase])

theorem case_addsub_kwas {L : VMLocals} {s : EngineState} {sign : Int} (o : Outcome) :
    case_addsub L s sign = some o ↔ Was (case_addsub L s sign) (some o) ∧ KeepsBase L s (some o) :=
  ⟨fun h => ⟨h, by rw [← h]; exact case_addsub_keeps⟩, fun h => h.1⟩

theorem case_binary_keeps {L : VMLocals} {s : EngineState} {prev : Bool} {f : Int → Int → Int} :
    KeepsBase L s (case_binary L s prev f) := by
  apply KeepsBase_of
  intro o h
  unfold case_binary at h
  all_goals (repeat' split at h)
  all_goals (try simp_all [Option.bind_eq_some, Option.map_eq_some', validate_arithmetic_was,
        validate_arithmetic_base, POP_was, KeepsBase])
  all_goals (try (repeat' split at h))
  all_goals (try simp_all [Option.bind_eq_some, Option.map_eq_some', validate_arithmetic_was,
        validate_arithmetic_base, POP_was, KeepsBase])
  all_goals (try (revert h; (try simp only [exists_imp, and_imp,
        forall_exists_index]); intros; subst_vars; simp_all [Option.bind_eq_some,
        Option.map_eq_some', validate_arithmetic_was, validate_arithmetic_base, POP_was,
        KeepsBase]))
  all_goals (try (cases o <;> simp_all [Option.bind_eq_some, Option.map_eq_some',
        validate_arithmetic_was, validate_arithmetic_base, POP_was, KeepsBase]))
  all_goals (try (repeat' split))
  all_goals (try simp_all [Option.bind_eq_some, Option.map_eq_some', validate_arithmetic_was,
        validate_arithmetic_base, POP_was, KeepsBase])

theorem case_binary_kwas {L : VMLocals} {s : EngineState} {prev : Bool} {f : Int → Int → Int} (o :
      Outcome) :
    case_binary L s prev f = some o ↔ Was (case_binary L s prev f) (some o) ∧ KeepsBase L s (some
          o) :=
  ⟨fun h => ⟨h, by rw [← h]; exact case_binary_keeps⟩, fun h => h.1⟩

theorem case_shift_keeps {L : VMLocals} {s : EngineState} {f : Nat → Nat → Nat} :
    KeepsBase L s (case_shift L s f) := by
  unfold case_shift
  split
  · simp [KeepsBase]
  · exact case_binary_keeps

theorem case_neg_keeps {L : VMLocals} {s : EngineState} :
    KeepsBase L s (case_neg L s) := by
  apply KeepsBase_of
  intro o h
  unfold case_neg at h
  all_goals (repeat' split at h)
  all_goals (try simp_all [Option.bind_eq_some, Option.map_eq_some', validate_arithmetic_was,
        validate_arithmetic_base, KeepsBase])
  all_goals (try (repeat' split at h))
  all_goals (try simp_all [Option.bind_eq_some, Option.map_eq_some', validate_arithmetic_was,
        validate_arithmetic_base, KeepsBase])
  all_goals (try (revert h; (try simp only [exists_imp, and_imp,
        forall_exists_index]); intros; subst_vars; simp_all [Option.bind_eq_some,
        Option.map_eq_some', validate_arithmetic_was, validate_arithmetic_base, KeepsBase]))
  all_goals (try (cases o <;> simp_all [Option.bind_eq_some, Option.map_eq_some',
        validate_arithmetic_was, validate_arithmetic_base, KeepsBase]))
  all_goals (try (repeat' split))
  all_goals (try simp_all [Option.bind_eq_some, Option.map_eq_some', validate_arithmetic_was,
        validate_arithmetic_base, KeepsBase])

theorem case_neg_kwas {L : VMLocals} {s : EngineState} (o : Outcome) :
    case_neg L s = some o ↔ Was (case_neg L s) (some o) ∧ KeepsBase L s (some o) :=
  ⟨fun h => ⟨h, by rw [← h]; exact case_neg_keeps⟩, fun h => h.1⟩

theorem case_not_keeps {L : VMLocals} {s : EngineState} :
    KeepsBase L s (case_not L s) := by
  apply KeepsBase_of
  intro o h
  unfold case_not at h
  all_goals (repeat' split at h)
  all_goals (try simp_all [Option.bind_eq_some, Option.map_eq_some', KeepsBase])
  all_goals (try (repeat' split at h))
  all_goals (try simp_all [Option.bind_eq_some, Option.map_eq_some', KeepsBase])
  all_goals (try (revert h; (try simp only [exists_imp, and_imp,
        forall_exists_index]); intros; subst_vars; simp_all [Option.bind_eq_some,
        Option.map_eq_some', KeepsBase]))
  all_goals (try (cases o <;> simp_all [Option.bind_eq_some, Option.map_eq_some', KeepsBase]))
  all_goals (try (repeat' split))
  all_goals (try simp_all [Option.bind_eq_some, Option.map_eq_some', KeepsBase])

theorem case_not_kwas {L : VMLocals} {s : EngineState} (o : Outcome) :
    case_not L s = some o ↔ Was (case_not L s) (some o) ∧ KeepsBase L s (some o) :=
  ⟨fun h => ⟨h, by rw [← h]; exact case_not_keeps⟩, fun h => h.1⟩

theorem case_regcmp_keeps {L : VMLocals} {s : EngineState} {f : reg_t → reg_t → Bool} :
    KeepsBase L s (case_regcmp L s f) := by
  apply KeepsBase_of
  intro o h
  unfold case_regcmp at h
  all_goals (repeat' split at h)
  all_goals (try simp_all [Option.bind_eq_some, Option.map_eq_some', POP32_was, KeepsBase])
  all_goals (try (repeat' split at h))
  all_goals (try simp_all [Option.bind_eq_some, Option.map_eq_some', POP32_was, KeepsBase])
  all_goals (try (revert h; (try simp only [exists_imp, and_imp,
        forall_exists_index]); intros; subst_vars; simp_all [Option.bind_eq_some,
        Option.map_eq_some', POP32_was, KeepsBase]))
  all_goals (try (cases o <;> simp_all [Option.bind_eq_some, Option.map_eq_some', POP32_was,
        KeepsBase]))
  all_goals (try (repeat' split))
  all_goals (try simp_all [Option.bind_eq_some, Option.map_eq_some', POP32_was, KeepsBase])

theorem case_regcmp_kwas {L : VMLocals} {s : EngineState} {f : reg_t → reg_t → Bool} (o : Outcome) :
    case_regcmp L s f = some o ↔ Was (case_regcmp L s f) (some o) ∧ KeepsBase L s (some o) :=
  ⟨fun h => ⟨h, by rw [← h]; exact case_regcmp_keeps⟩, fun h => h.1⟩

theorem case_branch_keeps {L : VMLocals} {s : EngineState} {want : Bool} :
    KeepsBase L s (case_branch L s want) := by
  apply KeepsBase_of
  intro o h
  unfold case_branch at h
  all_goals (repeat' split at h)
  all_goals (try simp_all [Option.bind_eq_some, Option.map_eq_some', modXs_was, KeepsBase])
  all_goals (try (repeat' split at h))
  all_goals (try simp_all [Option.bind_eq_some, Option.map_eq_some', modXs_was, KeepsBase])
  all_goals (try (revert h; (try simp only [exists_imp, and_imp,
        forall_exists_index]); intros; subst_vars; simp_all [Option.bind_eq_some,
        Option.map_eq_some', modXs_was, KeepsBase]))
  all_goals (try (cases o <;> simp_all [Option.bind_eq_some, Option.map_eq_some', modXs_was,
        KeepsBase]))
  all_goals (try (repeat' split))
  all_goals (try simp_all [Option.bind_eq_some, Option.map_eq_some', modXs_was, KeepsBase])

theorem case_branch_kwas {L : VMLocals} {s : EngineState} {want : Bool} (o : Outcome) :
    case_branch L s want = some o ↔ Was (case_branch L s want) (some o) ∧ KeepsBase L s (some o) :=
  ⟨fun h => ⟨h, by rw [← h]; exact case_branch_keeps⟩, fun h => h.1⟩

theorem case_jmp_keeps {L : VMLocals} {s : EngineState} :
    KeepsBase L s (case_jmp L s) := by
  apply KeepsBase_of
  intro o h
  unfold case_jmp at h
  all_goals (repeat' split at h)
  all_goals (try simp_all [Option.bind_eq_some, Option.map_eq_some', modXs_was, KeepsBase])
  all_goals (try (repeat' split at h))
  all_goals (try simp_all [Option.bind_eq_some, Option.map_eq_some', modXs_was, KeepsBase])
  all_goals (try (revert h; (try simp only [exists_imp, and_imp,
        forall_exists_index]); intros; subst_vars; simp_all [Option.bind_eq_some,
        Option.map_eq_some', modXs_was, KeepsBase]))
  all_goals (try (cases o <;> simp_all [Option.bind_eq_some, Option.map_eq_some', modXs_was,
        KeepsBase]))
  all_goals (try (repeat' split))
  all_goals (try simp_all [Option.bind_eq_some, Option.map_eq_some', modXs_was, KeepsBase])

theorem case_jmp_kwas {L : VMLocals} {s : EngineState} (o : Outcome) :
    case_jmp L s = some o ↔ Was (case_jmp L s) (some o) ∧ KeepsBase L s (some o) :=
  ⟨fun h => ⟨h, by rw [← h]; exact case_jmp_keeps⟩, fun h => h.1⟩

theorem case_toss_keeps {L : VMLocals} {s : EngineState} :
    KeepsBase L s (case_toss L s) := by
  apply KeepsBase_of
  intro o h
  unfold case_toss at h
  all_goals (repeat' split at h)
  all_goals (try simp_all [Option.bind_eq_some, Option.map_eq_some', modXs_was, KeepsBase])
  all_goals (try (repeat' split at h))
  all_goals (try simp_all [Option.bind_eq_some, Option.map_eq_some', modXs_was, KeepsBase])
  all_goals (try (revert h; (try simp only [exists_imp, and_imp,
        forall_exists_index]); intros; subst_vars; simp_all [Option.bind_eq_some,
        Option.map_eq_some', modXs_was, KeepsBase]))
  all_goals (try (cases o <;> simp_all [Option.bind_eq_some, Option.map_eq_some', modXs_was,
        KeepsBase]))
  all_goals (try (repeat' split))
  all_goals (try simp_all [Option.bind_eq_some, Option.map_eq_some', modXs_was, KeepsBase])

theorem case_toss_kwas {L : VMLocals} {s : EngineState} (o : Outcome) :
    case_toss L s = some o ↔ Was (case_toss L s) (some o) ∧ KeepsBase L s (some o) :=
  ⟨fun h => ⟨h, by rw [← h]; exact case_toss_keeps⟩, fun h => h.1⟩

theorem case_dup_keeps {L : VMLocals} {s : EngineState} :
    KeepsBase L s (case_dup L s) := by
  apply KeepsBase_of
  intro o h
  unfold case_dup at h
  all_goals (repeat' split at h)
  all_goals (try simp_all [Option.bind_eq_some, Option.map_eq_some', PUSH32_was, KeepsBase])
  all_goals (try (repeat' split at h))
  all_goals (try simp_all [Option.bind_eq_some, Option.map_eq_some', PUSH32_was, KeepsBase])
  all_goals (try (revert h; (try simp only [exists_imp, and_imp,
        forall_exists_index]); intros; subst_vars; simp_all [Option.bind_eq_some,
        Option.map_eq_some', PUSH32_was, KeepsBase]))
  all_goals (try (cases o <;> simp_all [Option.bind_eq_some, Option.map_eq_some', PUSH32_was,
        KeepsBase]))
  all_goals (try (repeat' split))
  all_goals (try simp_all [Option.bind_eq_some, Option.map_eq_some', PUSH32_was, KeepsBase])

theorem case_dup_kwas {L : VMLocals} {s : EngineState} (o : Outcome) :
    case_dup L s = some o ↔ Was (case_dup L s) (some o) ∧ KeepsBase L s (some o) :=
  ⟨fun h => ⟨h, by rw [← h]; exact case_dup_keeps⟩, fun h => h.1⟩

theorem case_link_keeps {L : VMLocals} {s : EngineState} :
    KeepsBase L s (case_link L s) := by
  apply KeepsBase_of
  intro o h
  unfold case_link at h
  all_goals (repeat' split at h)
  all_goals (try simp_all [Option.bind_eq_some, Option.map_eq_some', modXs_was, linkLoop_was,
        KeepsBase])
  all_goals (try (repeat' split at h))
  all_goals (try simp_all [Option.bind_eq_some, Option.map_eq_some', modXs_was, linkLoop_was,
        KeepsBase])
  all_goals (try (revert h; (try simp only [exists_imp, and_imp,
        forall_exists_index]); intros; subst_vars; simp_all [Option.bind_eq_some,
        Option.map_eq_some', modXs_was, linkLoop_was, KeepsBase]))
  all_goals (try (cases o <;> simp_all [Option.bind_eq_some, Option.map_eq_some', modXs_was,
        linkLoop_was, KeepsBase]))
  all_goals (try (repeat' split))
  all_goals (try simp_all [Option.bind_eq_some, Option.map_eq_some', modXs_was, linkLoop_was,
        KeepsBase])

theorem case_link_kwas {L : VMLocals} {s : EngineState} (o : Outcome) :
    case_link L s = some o ↔ Was (case_link L s) (some o) ∧ KeepsBase L s (some o) :=
  ⟨fun h => ⟨h, by rw [← h]; exact case_link_keeps⟩, fun h => h.1⟩

theorem case_call_keeps {L : VMLocals} {s : EngineState} :
    KeepsBase L s (case_call L s) := by
  apply KeepsBase_of
  intro o h
  unfold case_call at h
  all_goals (repeat' split at h)
  all_goals (try simp_all [Option.bind_eq_some, Option.map_eq_some', store_was,
        validate_arithmetic_was, validate_arithmetic_base, modXs_was, add_exec_stack_entry_was,
        KeepsBase])
  all_goals (try (repeat' split at h))
  all_goals (try simp_all [Option.bind_eq_some, Option.map_eq_some', store_was,
        validate_arithmetic_was, validate_arithmetic_base, modXs_was, add_exec_stack_entry_was,
        KeepsBase])
  all_goals (try (revert h; (try simp only [exists_imp, and_imp,
        forall_exists_index]); intros; subst_vars; simp_all [Option.bind_eq_some,
        Option.map_eq_some', store_was, validate_arithmetic_was, validate_arithmetic_base,
        modXs_was, add_exec_stack_entry_was, KeepsBase]))
  all_goals (try (cases o <;> simp_all [Option.bind_eq_some, Option.map_eq_some', store_was,
        validate_arithmetic_was, validate_arithmetic_base, modXs_was, add_exec_stack_entry_was,
        KeepsBase]))
  all_goals (try (repeat' split))
  all_goals (try simp_all [Option.bind_eq_some, Option.map_eq_some', store_was,
        validate_arithmetic_was, validate_arithmetic_base, modXs_was, add_exec_stack_entry_was,
        KeepsBase])

theorem case_call_kwas {L : VMLocals} {s : EngineState} (o : Outcome) :
    case_call L s = some o ↔ Was (case_call L s) (some o) ∧ KeepsBase L s (some o) :=
  ⟨fun h => ⟨h, by rw [← h]; exact case_call_keeps⟩, fun h => h.1⟩

theorem kfunc_was {E : Env} (hE : EnvKeepsBase E) {i : Int} {kf : KFunc}
    (hi : idx E.kfuncTable i = some kf) (s : EngineState) (n argc : Int) (argp : Ptr)
    (r : reg_t × EngineState) :
    kf.func s n argc argp = some r ↔
      Was (kf.func s n argc argp) (some r) ∧ r.2.execution_stack_base = s.execution_stack_base := by
  have hm : kf ∈ E.kfuncTable := by
    unfold idx at hi
    split at hi
    · exact List.getElem?_mem hi
    · cases hi
  exact ⟨fun h => ⟨h, hE.2.2.2 kf hm s n argc argp r h⟩, fun h => h.1⟩

theorem callKernel_base {E : Env} (hE : EnvKeepsBase E) {i : Int} {kf : KFunc}
    (hi : idx E.kfuncTable i = some kf) {s a : EngineState} {n argc : Int} {argp : Ptr}
    (h : callKernel E kf s n argc argp = some a) :
    a.execution_stack_base = s.execution_stack_base := by
  have hk := kfunc_was hE hi
  unfold callKernel at h
  repeat' split at h
  all_goals (try simp_all [Option.map_eq_some', setError_base])
  all_goals (try (revert h; (try simp only [exists_imp, and_imp,
        forall_exists_index]); intros; subst_vars; simp_all [Option.map_eq_some', setError_base]))

theorem callKernel_was {E : Env} (hE : EnvKeepsBase E) {i : Int} {kf : KFunc}
    (hi : idx E.kfuncTable i = some kf) (s a : EngineState) (n argc : Int) (argp : Ptr) :
    callKernel E kf s n argc argp = some a ↔
      Was (callKernel E kf s n argc argp) (some a) ∧
        a.execution_stack_base = s.execution_stack_base :=
  ⟨fun h => ⟨h, callKernel_base hE hi h⟩, fun h => h.1⟩

theorem case_callk_keeps {E : Env} {L : VMLocals} {s : EngineState} (hE : EnvKeepsBase E) :
    KeepsBase L s (case_callk E L s) := by
  apply KeepsBase_of
  intro o h
  unfold case_callk callkBody at h
  have hk := fun kf (hi : idx E.kfuncTable (opparam L 0) = some kf) => callKernel_was hE hi
  all_goals (repeat' split at h)
  all_goals (try simp_all [Option.bind_eq_some, Option.map_eq_some', setError_base,
        validate_arithmetic_was, validate_arithmetic_base, modXs_was, gc_countdown_base hE, hE.1,
        hE.2.1, hE.2.2.1, KeepsBase])
  all_goals (try (repeat' split at h))
  all_goals (try simp_all [Option.bind_eq_some, Option.map_eq_some', setError_base,
        validate_arithmetic_was, validate_arithmetic_base, modXs_was, gc_countdown_base hE, hE.1,
        hE.2.1, hE.2.2.1, KeepsBase])
  all_goals (try (revert h; (try simp only [exists_imp, and_imp,
        forall_exists_index]); intros; subst_vars; simp_all [Option.bind_eq_some,
        Option.map_eq_some', setError_base, validate_arithmetic_was, validate_arithmetic_base,
        modXs_was, gc_countdown_base hE, hE.1, hE.2.1, hE.2.2.1, KeepsBase]))
  all_goals (try (cases o <;> simp_all [Option.bind_eq_some, Option.map_eq_some', setError_base,
        validate_arithmetic_was, validate_arithmetic_base, modXs_was, gc_countdown_base hE, hE.1,
        hE.2.1, hE.2.2.1, KeepsBase]))
  all_goals (try (repeat' split))
  all_goals (try simp_all [Option.bind_eq_some, Option.map_eq_some', setError_base,
        validate_arithmetic_was, validate_arithmetic_base, modXs_was, gc_countdown_base hE, hE.1,
        hE.2.1, hE.2.2.1, KeepsBase])

theorem case_callk_kwas {E : Env} {L : VMLocals} {s : EngineState} (hE : EnvKeepsBase E) (o :
      Outcome) :
    case_callk E L s = some o ↔ Was (case_callk E L s) (some o) ∧ KeepsBase L s (some o) :=
  ⟨fun h => ⟨h, by rw [← h]; exact case_callk_keeps hE⟩, fun h => h.1⟩

theorem case_calle_keeps {E : Env} {L : VMLocals} {s : EngineState} {script pubfunct framesize :
      Int} (hE : EnvKeepsBase E) :
    KeepsBase L s (case_calle E L s script pubfunct framesize) := by
  apply KeepsBase_of
  intro o h
  unfold case_calle at h
  all_goals (repeat' split at h)
  all_goals (try simp_all [Option.bind_eq_some, Option.map_eq_some', store_was, setFrame_was,
        execute_method_was hE, hE.1, hE.2.1, hE.2.2.1, KeepsBase])
  all_goals (try (repeat' split at h))
  all_goals (try simp_all [Option.bind_eq_some, Option.map_eq_some', store_was, setFrame_was,
        execute_method_was hE, hE.1, hE.2.1, hE.2.2.1, KeepsBase])
  all_goals (try (revert h; (try simp only [exists_imp, and_imp,
        forall_exists_index]); intros; subst_vars; simp_all [Option.bind_eq_some,
        Option.map_eq_some', store_was, setFrame_was, execute_method_was hE, hE.1, hE.2.1,
        hE.2.2.1, KeepsBase]))
  all_goals (try (cases o <;> simp_all [Option.bind_eq_some, Option.map_eq_some', store_was,
        setFrame_was, execute_method_was hE, hE.1, hE.2.1, hE.2.2.1, KeepsBase]))
  all_goals (try (repeat' split))
  all_goals (try simp_all [Option.bind_eq_some, Option.map_eq_some', store_was, setFrame_was,
        execute_method_was hE, hE.1, hE.2.1, hE.2.2.1, KeepsBase])

theorem case_calle_kwas {E : Env} {L : VMLocals} {s : EngineState} {script pubfunct framesize :
      Int} (hE : EnvKeepsBase E) (o : Outcome) :
    case_calle E L s script pubfunct framesize = some o ↔ Was (case_calle E L s script pubfunct
          framesize) (some o) ∧ KeepsBase L s (some o) :=
  ⟨fun h => ⟨h, by rw [← h]; exact case_calle_keeps hE⟩, fun h => h.1⟩

theorem sendBody_keeps {E : Env} {L : VMLocals} {s : EngineState} {send_obj work_obj : reg_t}
      {opparam : Int} :
    KeepsBase L s (sendBody E L s send_obj work_obj opparam) := by
  apply KeepsBase_of
  intro o h
  unfold sendBody at h
  all_goals (repeat' split at h)
  all_goals (try simp_all [Option.bind_eq_some, Option.map_eq_some', store_was, setFrame_was,
        send_selector_was, KeepsBase])
  all_goals (try (repeat' split at h))
  all_goals (try simp_all [Option.bind_eq_some, Option.map_eq_some', store_was, setFrame_was,
        send_selector_was, KeepsBase])
  all_goals (try (revert h; (try simp only [exists_imp, and_imp,
        forall_exists_index]); intros; subst_vars; simp_all [Option.bind_eq_some,
        Option.map_eq_some', store_was, setFrame_was, send_selector_was, KeepsBase]))
  all_goals (try (cases o <;> simp_all [Option.bind_eq_some, Option.map_eq_some', store_was,
        setFrame_was, send_selector_was, KeepsBase]))
  all_goals (try (repeat' split))
  all_goals (try simp_all [Option.bind_eq_some, Option.map_eq_some', store_was, setFrame_was,
        send_selector_was, KeepsBase])

theorem sendBody_kwas {E : Env} {L : VMLocals} {s : EngineState} {send_obj work_obj : reg_t}
      {opparam : Int} (o : Outcome) :
    sendBody E L s send_obj work_obj opparam = some o ↔ Was (sendBody E L s send_obj work_obj
          opparam) (some o) ∧ KeepsBase L s (some o) :=
  ⟨fun h => ⟨h, by rw [← h]; exact sendBody_keeps⟩, fun h => h.1⟩

theorem case_send_keeps {E : Env} {L : VMLocals} {s : EngineState} {v : Int} :
    KeepsBase L s (case_send E L s v) := by
  apply KeepsBase_of
  intro o h
  unfold case_send at h
  all_goals (repeat' split at h)
  all_goals (try simp_all [Option.bind_eq_some, Option.map_eq_some', KeepsBase, sendBody_kwas])
  all_goals (try (repeat' split at h))
  all_goals (try simp_all [Option.bind_eq_some, Option.map_eq_some', KeepsBase, sendBody_kwas])
  all_goals (try (revert h; (try simp only [exists_imp, and_imp,
        forall_exists_index]); intros; subst_vars; simp_all [Option.bind_eq_some,
        Option.map_eq_some', KeepsBase, sendBody_kwas]))
  all_goals (try (cases o <;> simp_all [Option.bind_eq_some, Option.map_eq_some', KeepsBase,
        sendBody_kwas]))
  all_goals (try (repeat' split))
  all_goals (try simp_all [Option.bind_eq_some, Option.map_eq_some', KeepsBase, sendBody_kwas])

theorem case_send_kwas {E : Env} {L : VMLocals} {s : EngineState} {v : Int} (o : Outcome) :
    case_send E L s v = some o ↔ Was (case_send E L s v) (some o) ∧ KeepsBase L s (some o) :=
  ⟨fun h => ⟨h, by rw [← h]; exact case_send_keeps⟩, fun h => h.1⟩

theorem case_self_keeps {E : Env} {L : VMLocals} {s : EngineState} {v : Int} :
    KeepsBase L s (case_self E L s v) := by
  apply KeepsBase_of
  intro o h
  unfold case_self at h
  all_goals (repeat' split at h)
  all_goals (try simp_all [Option.bind_eq_some, Option.map_eq_some', KeepsBase, sendBody_kwas])
  all_goals (try (repeat' split at h))
  all_goals (try simp_all [Option.bind_eq_some, Option.map_eq_some', KeepsBase, sendBody_kwas])
  all_goals (try (revert h; (try simp only [exists_imp, and_imp,
        forall_exists_index]); intros; subst_vars; simp_all [Option.bind_eq_some,
        Option.map_eq_some', KeepsBase, sendBody_kwas]))
  all_goals (try (cases o <;> simp_all [Option.bind_eq_some, Option.map_eq_some', KeepsBase,
        sendBody_kwas]))
  all_goals (try (repeat' split))
  all_goals (try simp_all [Option.bind_eq_some, Option.map_eq_some', KeepsBase, sendBody_kwas])

theorem case_self_kwas {E : Env} {L : VMLocals} {s : EngineState} {v : Int} (o : Outcome) :
    case_self E L s v = some o ↔ Was (case_self E L s v) (some o) ∧ KeepsBase L s (some o) :=
  ⟨fun h => ⟨h, by rw [← h]; exact case_self_keeps⟩, fun h => h.1⟩

theorem case_super_keeps {E : Env} {L : VMLocals} {s : EngineState} {v w : Int} (hE : EnvKeepsBase
      E) :
    KeepsBase L s (case_super E L s v w) := by
  apply KeepsBase_of
  intro o h
  unfold case_super at h
  all_goals (repeat' split at h)
  all_goals (try simp_all [Option.bind_eq_some, Option.map_eq_some', script_error_base,
        get_class_address_was hE, hE.1, hE.2.1, hE.2.2.1, KeepsBase, sendBody_kwas])
  all_goals (try (repeat' split at h))
  all_goals (try simp_all [Option.bind_eq_some, Option.map_eq_some', script_error_base,
        get_class_address_was hE, hE.1, hE.2.1, hE.2.2.1, KeepsBase, sendBody_kwas])
  all_goals (try (revert h; (try simp only [exists_imp, and_imp,
        forall_exists_index]); intros; subst_vars; simp_all [Option.bind_eq_some,
        Option.map_eq_some', script_error_base, get_class_address_was hE, hE.1, hE.2.1, hE.2.2.1,
        KeepsBase, sendBody_kwas]))
  all_goals (try (cases o <;> simp_all [Option.bind_eq_some, Option.map_eq_some',
        script_error_base, get_class_address_was hE, hE.1, hE.2.1, hE.2.2.1, KeepsBase,
        sendBody_kwas]))
  all_goals (try (repeat' split))
  all_goals (try simp_all [Option.bind_eq_some, Option.map_eq_some', script_error_base,
        get_class_address_was hE, hE.1, hE.2.1, hE.2.2.1, KeepsBase, sendBody_kwas])

theorem case_super_kwas {E : Env} {L : VMLocals} {s : EngineState} {v w : Int} (hE : EnvKeepsBase
      E) (o : Outcome) :
    case_super E L s v w = some o ↔ Was (case_super E L s v w) (some o) ∧ KeepsBase L s (some o) :=
  ⟨fun h => ⟨h, by rw [← h]; exact case_super_keeps hE⟩, fun h => h.1⟩

theorem case_rest_keeps {L : VMLocals} {s : EngineState} {v : Int} :
    KeepsBase L s (case_rest L s v) := by
  apply KeepsBase_of
  intro o h
  unfold case_rest at h
  all_goals (repeat' split at h)
  all_goals (try simp_all [Option.bind_eq_some, Option.map_eq_some', restLoop_was, KeepsBase])
  all_goals (try (repeat' split at h))
  all_goals (try simp_all [Option.bind_eq_some, Option.map_eq_some', restLoop_was, KeepsBase])
  all_goals (try (revert h; (try simp only [exists_imp, and_imp,
        forall_exists_index]); intros; subst_vars; simp_all [Option.bind_eq_some,
        Option.map_eq_some', restLoop_was, KeepsBase]))
  all_goals (try (cases o <;> simp_all [Option.bind_eq_some, Option.map_eq_some', restLoop_was,
        KeepsBase]))
  all_goals (try (repeat' split))
  all_goals (try simp_all [Option.bind_eq_some, Option.map_eq_some', restLoop_was, KeepsBase])

theorem case_rest_kwas {L : VMLocals} {s : EngineState} {v : Int} (o : Outcome) :
    case_rest L s v = some o ↔ Was (case_rest L s v) (some o) ∧ KeepsBase L s (some o) :=
  ⟨fun h => ⟨h, by rw [← h]; exact case_rest_keeps⟩, fun h => h.1⟩

theorem case_pToa_keeps {L : VMLocals} {s : EngineState} :
    KeepsBase L s (case_pToa L s) := by
  apply KeepsBase_of
  intro o h
  unfold case_pToa at h
  all_goals (repeat' split at h)
  all_goals (try simp_all [Option.bind_eq_some, Option.map_eq_some', validate_property_was,
        validate_property_base, KeepsBase])
  all_goals (try (repeat' split at h))
  all_goals (try simp_all [Option.bind_eq_some, Option.map_eq_some', validate_property_was,
        validate_property_base, KeepsBase])
  all_goals (try (revert h; (try simp only [exists_imp, and_imp,
        forall_exists_index]); intros; subst_vars; simp_all [Option.bind_eq_some,
        Option.map_eq_some', validate_property_was, validate_property_base, KeepsBase]))
  all_goals (try (cases o <;> simp_all [Option.bind_eq_some, Option.map_eq_some',
        validate_property_was, validate_property_base, KeepsBase]))
  all_goals (try (repeat' split))
  all_goals (try simp_all [Option.bind_eq_some, Option.map_eq_some', validate_property_was,
        validate_property_base, KeepsBase])

theorem case_pToa_kwas {L : VMLocals} {s : EngineState} (o : Outcome) :
    case_pToa L s = some o ↔ Was (case_pToa L s) (some o) ∧ KeepsBase L s (some o) :=
  ⟨fun h => ⟨h, by rw [← h]; exact case_pToa_keeps⟩, fun h => h.1⟩

theorem case_aTop_keeps {L : VMLocals} {s : EngineState} :
    KeepsBase L s (case_aTop L s) := by
  apply KeepsBase_of
  intro o h
  unfold case_aTop at h
  all_goals (repeat' split at h)
  all_goals (try simp_all [Option.bind_eq_some, Option.map_eq_some', validate_property_was,
        validate_property_base, refWrite_was, KeepsBase])
  all_goals (try (repeat' split at h))
  all_goals (try simp_all [Option.bind_eq_some, Option.map_eq_some', validate_property_was,
        validate_property_base, refWrite_was, KeepsBase])
  all_goals (try (revert h; (try simp only [exists_imp, and_imp,
        forall_exists_index]); intros; subst_vars; simp_all [Option.bind_eq_some,
        Option.map_eq_some', validate_property_was, validate_property_base, refWrite_was,
        KeepsBase]))
  all_goals (try (cases o <;> simp_all [Option.bind_eq_some, Option.map_eq_some',
        validate_property_was, validate_property_base, refWrite_was, KeepsBase]))
  all_goals (try (repeat' split))
  all_goals (try simp_all [Option.bind_eq_some, Option.map_eq_some', validate_property_was,
        validate_property_base, refWrite_was, KeepsBase])

theorem case_aTop_kwas {L : VMLocals} {s : EngineState} (o : Outcome) :
    case_aTop L s = some o ↔ Was (case_aTop L s) (some o) ∧ KeepsBase L s (some o) :=
  ⟨fun h => ⟨h, by rw [← h]; exact case_aTop_keeps⟩, fun h => h.1⟩

theorem case_pTos_keeps {L : VMLocals} {s : EngineState} :
    KeepsBase L s (case_pTos L s) := by
  apply KeepsBase_of
  intro o h
  unfold case_pTos at h
  all_goals (repeat' split at h)
  all_goals (try simp_all [Option.bind_eq_some, Option.map_eq_some', PUSH32_was,
        validate_property_was, validate_property_base, KeepsBase])
  all_goals (try (repeat' split at h))
  all_goals (try simp_all [Option.bind_eq_some, Option.map_eq_some', PUSH32_was,
        validate_property_was, validate_property_base, KeepsBase])
  all_goals (try (revert h; (try simp only [exists_imp, and_imp,
        forall_exists_index]); intros; subst_vars; simp_all [Option.bind_eq_some,
        Option.map_eq_some', PUSH32_was, validate_property_was, validate_property_base, KeepsBase]))
  all_goals (try (cases o <;> simp_all [Option.bind_eq_some, Option.map_eq_some', PUSH32_was,
        validate_property_was, validate_property_base, KeepsBase]))
  all_goals (try (repeat' split))
  all_goals (try simp_all [Option.bind_eq_some, Option.map_eq_some', PUSH32_was,
        validate_property_was, validate_property_base, KeepsBase])

theorem case_pTos_kwas {L : VMLocals} {s : EngineState} (o : Outcome) :
    case_pTos L s = some o ↔ Was (case_pTos L s) (some o) ∧ KeepsBase L s (some o) :=
  ⟨fun h => ⟨h, by rw [← h]; exact case_pTos_keeps⟩, fun h => h.1⟩

theorem case_sTop_keeps {L : VMLocals} {s : EngineState} :
    KeepsBase L s (case_sTop L s) := by
  apply KeepsBase_of
  intro o h
  unfold case_sTop at h
  all_goals (repeat' split at h)
  all_goals (try simp_all [Option.bind_eq_some, Option.map_eq_some', POP32_was,
        validate_property_was, validate_property_base, refWrite_was, KeepsBase])
  all_goals (try (repeat' split at h))
  all_goals (try simp_all [Option.bind_eq_some, Option.map_eq_some', POP32_was,
        validate_property_was, validate_property_base, refWrite_was, KeepsBase])
  all_goals (try (revert h; (try simp only [exists_imp, and_imp,
        forall_exists_index]); intros; subst_vars; simp_all [Option.bind_eq_some,
        Option.map_eq_some', POP32_was, validate_property_was, validate_property_base,
        refWrite_was, KeepsBase]))
  all_goals (try (cases o <;> simp_all [Option.bind_eq_some, Option.map_eq_some', POP32_was,
        validate_property_was, validate_property_base, refWrite_was, KeepsBase]))
  all_goals (try (repeat' split))
  all_goals (try simp_all [Option.bind_eq_some, Option.map_eq_some', POP32_was,
        validate_property_was, validate_property_base, refWrite_was, KeepsBase])

theorem case_sTop_kwas {L : VMLocals} {s : EngineState} (o : Outcome) :
    case_sTop L s = some o ↔ Was (case_sTop L s) (some o) ∧ KeepsBase L s (some o) :=
  ⟨fun h => ⟨h, by rw [← h]; exact case_sTop_keeps⟩, fun h => h.1⟩

theorem case_ipToa_keeps {L : VMLocals} {s : EngineState} {d : Int} :
    KeepsBase L s (case_ipToa L s d) := by
  apply KeepsBase_of
  intro o h
  unfold case_ipToa at h
  all_goals (repeat' split at h)
  all_goals (try simp_all [Option.bind_eq_some, Option.map_eq_some', validate_arithmetic_was,
        validate_arithmetic_base, validate_property_was, validate_property_base, refWrite_was,
        KeepsBase])
  all_goals (try (repeat' split at h))
  all_goals (try simp_all [Option.bind_eq_some, Option.map_eq_some', validate_arithmetic_was,
        validate_arithmetic_base, validate_property_was, validate_property_base, refWrite_was,
        KeepsBase])
  all_goals (try (revert h; (try simp only [exists_imp, and_imp,
        forall_exists_index]); intros; subst_vars; simp_all [Option.bind_eq_some,
        Option.map_eq_some', validate_arithmetic_was, validate_arithmetic_base,
        validate_property_was, validate_property_base, refWrite_was, KeepsBase]))
  all_goals (try (cases o <;> simp_all [Option.bind_eq_some, Option.map_eq_some',
        validate_arithmetic_was, validate_arithmetic_base, validate_property_was,
        validate_property_base, refWrite_was, KeepsBase]))
  all_goals (try (repeat' split))
  all_goals (try simp_all [Option.bind_eq_some, Option.map_eq_some', validate_arithmetic_was,
        validate_arithmetic_base, validate_property_was, validate_property_base, refWrite_was,
        KeepsBase])

theorem case_ipToa_kwas {L : VMLocals} {s : EngineState} {d : Int} (o : Outcome) :
    case_ipToa L s d = some o ↔ Was (case_ipToa L s d) (some o) ∧ KeepsBase L s (some o) :=
  ⟨fun h => ⟨h, by rw [← h]; exact case_ipToa_keeps⟩, fun h => h.1⟩

theorem case_ipTos_keeps {L : VMLocals} {s : EngineState} {d : Int} :
    KeepsBase L s (case_ipTos L s d) := by
  apply KeepsBase_of
  intro o h
  unfold case_ipTos at h
  all_goals (repeat' split at h)
  all_goals (try simp_all [Option.bind_eq_some, Option.map_eq_some', validate_arithmetic_was,
        validate_arithmetic_base, PUSH_was, validate_property_was, validate_property_base,
        refWrite_was, KeepsBase])
  all_goals (try (repeat' split at h))
  all_goals (try simp_all [Option.bind_eq_some, Option.map_eq_some', validate_arithmetic_was,
        validate_arithmetic_base, PUSH_was, validate_property_was, validate_property_base,
        refWrite_was, KeepsBase])
  all_goals (try (revert h; (try simp only [exists_imp, and_imp,
        forall_exists_index]); intros; subst_vars; simp_all [Option.bind_eq_some,
        Option.map_eq_some', validate_arithmetic_was, validate_arithmetic_base, PUSH_was,
        validate_property_was, validate_property_base, refWrite_was, KeepsBase]))
  all_goals (try (cases o <;> simp_all [Option.bind_eq_some, Option.map_eq_some',
        validate_arithmetic_was, validate_arithmetic_base, PUSH_was, validate_property_was,
        validate_property_base, refWrite_was, KeepsBase]))
  all_goals (try (repeat' split))
  all_goals (try simp_all [Option.bind_eq_some, Option.map_eq_some', validate_arithmetic_was,
        validate_arithmetic_base, PUSH_was, validate_property_was, validate_property_base,
        refWrite_was, KeepsBase])

theorem case_ipTos_kwas {L : VMLocals} {s : EngineState} {d : Int} (o : Outcome) :
    case_ipTos L s d = some o ↔ Was (case_ipTos L s d) (some o) ∧ KeepsBase L s (some o) :=
  ⟨fun h => ⟨h, by rw [← h]; exact case_ipTos_keeps⟩, fun h => h.1⟩

theorem case_class_keeps {E : Env} {L : VMLocals} {s : EngineState} (hE : EnvKeepsBase E) :
    KeepsBase L s (case_class E L s) := by
  apply KeepsBase_of
  intro o h
  unfold case_class at h
  all_goals (repeat' split at h)
  all_goals (try simp_all [Option.bind_eq_some, Option.map_eq_some', get_class_address_was hE,
        hE.1, hE.2.1, hE.2.2.1, KeepsBase])
  all_goals (try (repeat' split at h))
  all_goals (try simp_all [Option.bind_eq_some, Option.map_eq_some', get_class_address_was hE,
        hE.1, hE.2.1, hE.2.2.1, KeepsBase])
  all_goals (try (revert h; (try simp only [exists_imp, and_imp,
        forall_exists_index]); intros; subst_vars; simp_all [Option.bind_eq_some,
        Option.map_eq_some', get_class_address_was hE, hE.1, hE.2.1, hE.2.2.1, KeepsBase]))
  all_goals (try (cases o <;> simp_all [Option.bind_eq_some, Option.map_eq_some',
        get_class_address_was hE, hE.1, hE.2.1, hE.2.2.1, KeepsBase]))
  all_goals (try (repeat' split))
  all_goals (try simp_all [Option.bind_eq_some, Option.map_eq_some', get_class_address_was hE,
        hE.1, hE.2.1, hE.2.2.1, KeepsBase])

theorem case_class_kwas {E : Env} {L : VMLocals} {s : EngineState} (hE : EnvKeepsBase E) (o :
      Outcome) :
    case_class E L s = some o ↔ Was (case_class E L s) (some o) ∧ KeepsBase L s (some o) :=
  ⟨fun h => ⟨h, by rw [← h]; exact case_class_keeps hE⟩, fun h => h.1⟩

theorem case_lea_keeps {E : Env} {L : VMLocals} {s : EngineState} :
    KeepsBase L s (case_lea E L s) := by
  apply KeepsBase_of
  intro o h
  unfold case_lea at h
  all_goals (repeat' split at h)
  all_goals (try simp_all [Option.bind_eq_some, Option.map_eq_some',
        signed_validate_arithmetic_was, signed_validate_arithmetic_base, KeepsBase])
  all_goals (try (repeat' split at h))
  all_goals (try simp_all [Option.bind_eq_some, Option.map_eq_some',
        signed_validate_arithmetic_was, signed_validate_arithmetic_base, KeepsBase])
  all_goals (try (revert h; (try simp only [exists_imp, and_imp,
        forall_exists_index]); intros; subst_vars; simp_all [Option.bind_eq_some,
        Option.map_eq_some', signed_validate_arithmetic_was, signed_validate_arithmetic_base,
        KeepsBase]))
  all_goals (try (cases o <;> simp_all [Option.bind_eq_some, Option.map_eq_some',
        signed_validate_arithmetic_was, signed_validate_arithmetic_base, KeepsBase]))
  all_goals (try (repeat' split))
  all_goals (try simp_all [Option.bind_eq_some, Option.map_eq_some',
        signed_validate_arithmetic_was, signed_validate_arithmetic_base, KeepsBase])

theorem case_lea_kwas {E : Env} {L : VMLocals} {s : EngineState} (o : Outcome) :
    case_lea E L s = some o ↔ Was (case_lea E L s) (some o) ∧ KeepsBase L s (some o) :=
  ⟨fun h => ⟨h, by rw [← h]; exact case_lea_keeps⟩, fun h => h.1⟩

theorem case_lofs_keeps {E : Env} {L : VMLocals} {s : EngineState} {toStack : Bool} :
    KeepsBase L s (case_lofs E L s toStack) := by
  apply KeepsBase_of
  intro o h
  unfold case_lofs at h
  all_goals (repeat' split at h)
  all_goals (try simp_all [Option.bind_eq_some, Option.map_eq_some', setError_base, PUSH32_was,
        KeepsBase])
  all_goals (try (repeat' split at h))
  all_goals (try simp_all [Option.bind_eq_some, Option.map_eq_some', setError_base, PUSH32_was,
        KeepsBase])
  all_goals (try (revert h; (try simp only [exists_imp, and_imp,
        forall_exists_index]); intros; subst_vars; simp_all [Option.bind_eq_some,
        Option.map_eq_some', setError_base, PUSH32_was, KeepsBase]))
  all_goals (try (cases o <;> simp_all [Option.bind_eq_some, Option.map_eq_some', setError_base,
        PUSH32_was, KeepsBase]))
  all_goals (try (repeat' split))
  all_goals (try simp_all [Option.bind_eq_some, Option.map_eq_some', setError_base, PUSH32_was,
        KeepsBase])

theorem case_lofs_kwas {E : Env} {L : VMLocals} {s : EngineState} {toStack : Bool} (o : Outcome) :
    case_lofs E L s toStack = some o ↔ Was (case_lofs E L s toStack) (some o) ∧ KeepsBase L s (some
          o) :=
  ⟨fun h => ⟨h, by rw [← h]; exact case_lofs_keeps⟩, fun h => h.1⟩

theorem case_var_keeps {E : Env} {L : VMLocals} {s : EngineState} {opnumber : Nat} :
    KeepsBase L s (case_var E L s opnumber) := by
  apply KeepsBase_of
  intro o h
  unfold case_var at h
  all_goals (repeat' split at h)
  all_goals (try simp_all [Option.bind_eq_some, Option.map_eq_some', validate_arithmetic_was,
        validate_arithmetic_base, PUSH32_was, POP32_was, READ_VAR_was, WRITE_VAR_was, varIndex_was,
        varIndex_base, KeepsBase])
  all_goals (try (repeat' split at h))
  all_goals (try simp_all [Option.bind_eq_some, Option.map_eq_some', validate_arithmetic_was,
        validate_arithmetic_base, PUSH32_was, POP32_was, READ_VAR_was, WRITE_VAR_was, varIndex_was,
        varIndex_base, KeepsBase])
  all_goals (try (revert h; (try simp only [exists_imp, and_imp,
        forall_exists_index]); intros; subst_vars; simp_all [Option.bind_eq_some,
        Option.map_eq_some', validate_arithmetic_was, validate_arithmetic_base, PUSH32_was,
        POP32_was, READ_VAR_was, WRITE_VAR_was, varIndex_was, varIndex_base, KeepsBase]))
  all_goals (try (cases o <;> simp_all [Option.bind_eq_some, Option.map_eq_some',
        validate_arithmetic_was, validate_arithmetic_base, PUSH32_was, POP32_was, READ_VAR_was,
        WRITE_VAR_was, varIndex_was, varIndex_base, KeepsBase]))
  all_goals (try (repeat' split))
  all_goals (try simp_all [Option.bind_eq_some, Option.map_eq_some', validate_arithmetic_was,
        validate_arithmetic_base, PUSH32_was, POP32_was, READ_VAR_was, WRITE_VAR_was, varIndex_was,
        varIndex_base, KeepsBase])

theorem case_var_kwas {E : Env} {L : VMLocals} {s : EngineState} {opnumber : Nat} (o : Outcome) :
    case_var E L s opnumber = some o ↔ Was (case_var E L s opnumber) (some o) ∧ KeepsBase L s (some
          o) :=
  ⟨fun h => ⟨h, by rw [← h]; exact case_var_keeps⟩, fun h => h.1⟩

theorem retLoop_keeps {n : Nat} {L : VMLocals} {s : EngineState} :
    KeepsBase L s (retLoop n L s) := by
  induction n generalizing L s with
  | zero => simp [retLoop, KeepsBase]
  | succ n ih =>
    apply KeepsBase_of
    intro o h
    unfold retLoop at h
    split at h
    · rename_i xsf old_xs rest hf hes
      split at h
      · rename_i hb
        cases h
        simp only [KeepsBase]
        exact ⟨old_xs, s, hes, rfl, hb, rfl⟩
      · split at h
        · cases h
        · rename_i s1 h1
          have hs1 : s1.execution_stack_base = s.execution_stack_base := by
            split at h1
            · exact execVarselector_base h1
            · cases h1; rfl
          split at h
          · cases h
          · dsimp only at h
            repeat' split at h
            all_goals first
              | (rw [← h]; exact KeepsBase_from _ _ _ _ _ hs1 rfl ih)
              | (cases h; simp [KeepsBase, hs1])
    · cases h

theorem retLoop_kwas {n : Nat} {L : VMLocals} {s : EngineState} (o : Outcome) :
    retLoop n L s = some o ↔ Was (retLoop n L s) (some o) ∧ KeepsBase L s (some o) :=
  ⟨fun h => ⟨h, by rw [← h]; exact retLoop_keeps⟩, fun h => h.1⟩

theorem case_ret_keeps {L : VMLocals} {s : EngineState} :
    KeepsBase L s (case_ret L s) := by
  apply KeepsBase_of
  intro o h
  unfold case_ret at h
  all_goals (repeat' split at h)
  all_goals (try simp_all [Option.bind_eq_some, Option.map_eq_some', KeepsBase, retLoop_kwas])
  all_goals (try (repeat' split at h))
  all_goals (try simp_all [Option.bind_eq_some, Option.map_eq_some', KeepsBase, retLoop_kwas])
  all_goals (try (revert h; (try simp only [exists_imp, and_imp,
        forall_exists_index]); intros; subst_vars; simp_all [Option.bind_eq_some,
        Option.map_eq_some', KeepsBase, retLoop_kwas]))
  all_goals (try (cases o <;> simp_all [Option.bind_eq_some, Option.map_eq_some', KeepsBase,
        retLoop_kwas]))
  all_goals (try (repeat' split))
  all_goals (try simp_all [Option.bind_eq_some, Option.map_eq_some', KeepsBase, retLoop_kwas])

theorem case_ret_kwas {L : VMLocals} {s : EngineState} (o : Outcome) :
    case_ret L s = some o ↔ Was (case_ret L s) (some o) ∧ KeepsBase L s (some o) :=
  ⟨fun h => ⟨h, by rw [← h]; exact case_ret_keeps⟩, fun h => h.1⟩

theorem endOfInstruction_keeps {L : VMLocals} {s : EngineState} {pc : Nat} {sp : Ptr} :
    KeepsBase L s (endOfInstruction L s pc sp) := by
  apply KeepsBase_of
  intro o h
  unfold endOfInstruction at h
  all_goals (repeat' split at h)
  all_goals (try simp_all [Option.bind_eq_some, Option.map_eq_some', modXs_was, KeepsBase])
  all_goals (try (repeat' split at h))
  all_goals (try simp_all [Option.bind_eq_some, Option.map_eq_some', modXs_was, KeepsBase])
  all_goals (try (revert h; (try simp only [exists_imp, and_imp,
        forall_exists_index]); intros; subst_vars; simp_all [Option.bind_eq_some,
        Option.map_eq_some', modXs_was, KeepsBase]))
  all_goals (try (cases o <;> simp_all [Option.bind_eq_some, Option.map_eq_some', modXs_was,
        KeepsBase]))
  all_goals (try (repeat' split))
  all_goals (try simp_all [Option.bind_eq_some, Option.map_eq_some', modXs_was, KeepsBase])

theorem endOfInstruction_kwas {L : VMLocals} {s : EngineState} {pc : Nat} {sp : Ptr} (o : Outcome) :
    endOfInstruction L s pc sp = some o ↔ Was (endOfInstruction L s pc sp) (some o) ∧ KeepsBase L s
          (some o) :=
  ⟨fun h => ⟨h, by rw [← h]; exact endOfInstruction_keeps⟩, fun h => h.1⟩

theorem op_selfID_keeps {L : VMLocals} {s : EngineState} :
    KeepsBase L s ((getFrame s L.xs).map (fun x => Outcome.next L { s with r_acc := x.objp })) := by
  apply KeepsBase_of
  intro o h
  all_goals (try simp_all [Option.bind_eq_some, Option.map_eq_some', KeepsBase])
  all_goals (try (revert h; (try simp only [exists_imp, and_imp,
        forall_exists_index]); intros; subst_vars; simp_all [Option.bind_eq_some,
        Option.map_eq_some', KeepsBase]))

theorem op_PUSH32_keeps {L : VMLocals} {s : EngineState} {v : reg_t} :
    KeepsBase L s ((PUSH32 L s v).map (Outcome.next L)) := by
  apply KeepsBase_of
  intro o h
  all_goals (try simp_all [Option.bind_eq_some, Option.map_eq_some', PUSH32_was, KeepsBase])
  all_goals (try (revert h; (try simp only [exists_imp, and_imp,
        forall_exists_index]); intros; subst_vars; simp_all [Option.bind_eq_some,
        Option.map_eq_some', PUSH32_was, KeepsBase]))

theorem op_PUSH_keeps {L : VMLocals} {s : EngineState} {v : Int} :
    KeepsBase L s ((PUSH L s v).map (Outcome.next L)) := by
  apply KeepsBase_of
  intro o h
  all_goals (try simp_all [Option.bind_eq_some, Option.map_eq_some', PUSH_was, KeepsBase])
  all_goals (try (revert h; (try simp only [exists_imp, and_imp,
        forall_exists_index]); intros; subst_vars; simp_all [Option.bind_eq_some,
        Option.map_eq_some', PUSH_was, KeepsBase]))

theorem op_pushSelf_keeps {L : VMLocals} {s : EngineState} :
    KeepsBase L s ((getFrame s L.xs).bind (fun x => (PUSH32 L s x.objp).map (Outcome.next L))) := by
  apply KeepsBase_of
  intro o h
  all_goals (try simp_all [Option.bind_eq_some, Option.map_eq_some', PUSH32_was, KeepsBase])
  all_goals (try (revert h; (try simp only [exists_imp, and_imp,
        forall_exists_index]); intros; subst_vars; simp_all [Option.bind_eq_some,
        Option.map_eq_some', PUSH32_was, KeepsBase]))

theorem op_error_keeps {L : VMLocals} {s : EngineState} :
    KeepsBase L s (some (Outcome.next L (script_error s))) := by
  apply KeepsBase_of
  intro o h
  all_goals (try simp_all [Option.bind_eq_some, Option.map_eq_some', script_error_base, KeepsBase])
  all_goals (try (revert h; (try simp only [exists_imp, and_imp,
        forall_exists_index]); intros; subst_vars; simp_all [Option.bind_eq_some,
        Option.map_eq_some', script_error_base, KeepsBase]))

theorem execOpcode_keeps {E : Env} {L : VMLocals} {s : EngineState} {opnumber : Nat}
    (hE : EnvKeepsBase E) : KeepsBase L s (execOpcode E L s opnumber) := by
  unfold execOpcode
  by_cases h00 : opnumber = 0x00
  · rw [if_pos h00]; exact case_bnot_keeps
  rw [if_neg h00]
  by_cases h01 : opnumber = 0x01
  · rw [if_pos h01]; exact case_addsub_keeps
  rw [if_neg h01]
  by_cases h02 : opnumber = 0x02
  · rw [if_pos h02]; exact case_addsub_keeps
  rw [if_neg h02]
  by_cases h03 : opnumber = 0x03
  · rw [if_pos h03]; exact case_binary_keeps
  rw [if_neg h03]
  by_cases h04 : opnumber = 0x04
  · rw [if_pos h04]; exact case_div_keeps
  rw [if_neg h04]
  by_cases h05 : opnumber = 0x05
  · rw [if_pos h05]; exact case_mod_keeps
  rw [if_neg h05]
  by_cases h06 : opnumber = 0x06
  · rw [if_pos h06]; exact case_shift_keeps
  rw [if_neg h06]
  by_cases h07 : opnumber = 0x07
  · rw [if_pos h07]; exact case_shift_keeps
  rw [if_neg h07]
  by_cases h08 : opnumber = 0x08
  · rw [if_pos h08]; exact case_binary_keeps
  rw [if_neg h08]
  by_cases h09 : opnumber = 0x09
  · rw [if_pos h09]; exact case_binary_keeps
  rw [if_neg h09]
  by_cases h0a : opnumber = 0x0a
  · rw [if_pos h0a]; exact case_binary_keeps
  rw [if_neg h0a]
  by_cases h0b : opnumber = 0x0b
  · rw [if_pos h0b]; exact case_neg_keeps
  rw [if_neg h0b]
  by_cases h0c : opnumber = 0x0c
  · rw [if_pos h0c]; exact case_not_keeps
  rw [if_neg h0c]
  by_cases h0d : opnumber = 0x0d
  · rw [if_pos h0d]; exact case_regcmp_keeps
  rw [if_neg h0d]
  by_cases h0e : opnumber = 0x0e
  · rw [if_pos h0e]; exact case_regcmp_keeps
  rw [if_neg h0e]
  by_cases h0f : opnumber = 0x0f
  · rw [if_pos h0f]; exact case_binary_keeps
  rw [if_neg h0f]
  by_cases h10 : opnumber = 0x10
  · rw [if_pos h10]; exact case_binary_keeps
  rw [if_neg h10]
  by_cases h11 : opnumber = 0x11
  · rw [if_pos h11]; exact case_binary_keeps
  rw [if_neg h11]
  by_cases h12 : opnumber = 0x12
  · rw [if_pos h12]; exact case_binary_keeps
  rw [if_neg h12]
  by_cases h13 : opnumber = 0x13
  · rw [if_pos h13]; exact case_regcmp_keeps
  rw [if_neg h13]
  by_cases h14 : opnumber = 0x14
  · rw [if_pos h14]; exact case_regcmp_keeps
  rw [if_neg h14]
  by_cases h15 : opnumber = 0x15
  · rw [if_pos h15]; exact case_regcmp_keeps
  rw [if_neg h15]
  by_cases h16 : opnumber = 0x16
  · rw [if_pos h16]; exact case_regcmp_keeps
  rw [if_neg h16]
  by_cases h17 : opnumber = 0x17
  · rw [if_pos h17]; exact case_branch_keeps
  rw [if_neg h17]
  by_cases h18 : opnumber = 0x18
  · rw [if_pos h18]; exact case_branch_keeps
  rw [if_neg h18]
  by_cases h19 : opnumber = 0x19
  · rw [if_pos h19]; exact case_jmp_keeps
  rw [if_neg h19]
  by_cases h1a : opnumber = 0x1a
  · rw [if_pos h1a]; exact case_ldi_keeps
  rw [if_neg h1a]
  by_cases h1b : opnumber = 0x1b
  · rw [if_pos h1b]; exact case_push_keeps
  rw [if_neg h1b]
  by_cases h1c : opnumber = 0x1c
  · rw [if_pos h1c]; exact case_pushi_keeps
  rw [if_neg h1c]
  by_cases h1d : opnumber = 0x1d
  · rw [if_pos h1d]; exact case_toss_keeps
  rw [if_neg h1d]
  by_cases h1e : opnumber = 0x1e
  · rw [if_pos h1e]; exact case_dup_keeps
  rw [if_neg h1e]
  by_cases h1f : opnumber = 0x1f
  · rw [if_pos h1f]; exact case_link_keeps
  rw [if_neg h1f]
  by_cases h20 : opnumber = 0x20
  · rw [if_pos h20]; exact case_call_keeps
  rw [if_neg h20]
  by_cases h21 : opnumber = 0x21
  · rw [if_pos h21]; exact case_callk_keeps hE
  rw [if_neg h21]
  by_cases h22 : opnumber = 0x22
  · rw [if_pos h22]; exact case_calle_keeps hE
  rw [if_neg h22]
  by_cases h23 : opnumber = 0x23
  · rw [if_pos h23]; exact case_calle_keeps hE
  rw [if_neg h23]
  by_cases h24 : opnumber = 0x24
  · rw [if_pos h24]; exact case_ret_keeps
  rw [if_neg h24]
  by_cases h25 : opnumber = 0x25
  · rw [if_pos h25]; exact case_send_keeps
  rw [if_neg h25]
  by_cases h28 : opnumber = 0x28
  · rw [if_pos h28]; exact case_class_keeps hE
  rw [if_neg h28]
  by_cases h2a : opnumber = 0x2a
  · rw [if_pos h2a]; exact case_self_keeps
  rw [if_neg h2a]
  by_cases h2b : opnumber = 0x2b
  · rw [if_pos h2b]; exact case_super_keeps hE
  rw [if_neg h2b]
  by_cases h2c : opnumber = 0x2c
  · rw [if_pos h2c]; exact case_rest_keeps
  rw [if_neg h2c]
  by_cases h2d : opnumber = 0x2d
  · rw [if_pos h2d]; exact case_lea_keeps
  rw [if_neg h2d]
  by_cases h2e : opnumber = 0x2e
  · rw [if_pos h2e]; exact op_selfID_keeps
  rw [if_neg h2e]
  by_cases h30 : opnumber = 0x30
  · rw [if_pos h30]; exact op_PUSH32_keeps
  rw [if_neg h30]
  by_cases h31 : opnumber = 0x31
  · rw [if_pos h31]; exact case_pToa_keeps
  rw [if_neg h31]
  by_cases h32 : opnumber = 0x32
  · rw [if_pos h32]; exact case_aTop_keeps
  rw [if_neg h32]
  by_cases h33 : opnumber = 0x33
  · rw [if_pos h33]; exact case_pTos_keeps
  rw [if_neg h33]
  by_cases h34 : opnumber = 0x34
  · rw [if_pos h34]; exact case_sTop_keeps
  rw [if_neg h34]
  by_cases h35 : opnumber = 0x35
  · rw [if_pos h35]; exact case_ipToa_keeps
  rw [if_neg h35]
  by_cases h36 : opnumber = 0x36
  · rw [if_pos h36]; exact case_ipToa_keeps
  rw [if_neg h36]
  by_cases h37 : opnumber = 0x37
  · rw [if_pos h37]; exact case_ipTos_keeps
  rw [if_neg h37]
  by_cases h38 : opnumber = 0x38
  · rw [if_pos h38]; exact case_ipTos_keeps
  rw [if_neg h38]
  by_cases h39 : opnumber = 0x39
  · rw [if_pos h39]; exact case_lofs_keeps
  rw [if_neg h39]
  by_cases h3a : opnumber = 0x3a
  · rw [if_pos h3a]; exact case_lofs_keeps
  rw [if_neg h3a]
  by_cases h3b : opnumber = 0x3b
  · rw [if_pos h3b]; exact op_PUSH_keeps
  rw [if_neg h3b]
  by_cases h3c : opnumber = 0x3c
  · rw [if_pos h3c]; exact op_PUSH_keeps
  rw [if_neg h3c]
  by_cases h3d : opnumber = 0x3d
  · rw [if_pos h3d]; exact op_PUSH_keeps
  rw [if_neg h3d]
  by_cases h3e : opnumber = 0x3e
  · rw [if_pos h3e]; exact op_pushSelf_keeps
  rw [if_neg h3e]
  by_cases hv : 0x40 ≤ opnumber ∧ opnumber ≤ 0x7f
  · rw [if_pos hv]; exact case_var_keeps
  rw [if_neg hv]
  exact op_error_keeps

theorem execOpcode_kwas {E : Env} {L : VMLocals} {s : EngineState} {opnumber : Nat}
    (hE : EnvKeepsBase E) (o : Outcome) :
    execOpcode E L s opnumber = some o ↔
      Was (execOpcode E L s opnumber) (some o) ∧ KeepsBase L s (some o) :=
  ⟨fun h => ⟨h, by rw [← h]; exact execOpcode_keeps hE⟩, fun h => h.1⟩

theorem fetchOperands_base {E : Env} {opcode fuel temp : Nat} {L : VMLocals} {s : EngineState} {a :
      VMLocals × EngineState}
    (h : fetchOperands E opcode fuel temp L s = some a) :
    a.2.execution_stack_base = s.execution_stack_base ∧ a.1.old_execution_stack_base =
          L.old_execution_stack_base := by
  induction fuel generalizing temp L s with
  | zero =>
    unfold fetchOperands at h
    repeat' split at h
    all_goals (try simp_all [Option.bind_eq_some, Option.map_eq_some', fetchOperand_was])
    all_goals (try (repeat' split at h))
    all_goals (try simp_all [Option.bind_eq_some, Option.map_eq_some', fetchOperand_was])
    all_goals (try (revert h; (try simp only [exists_imp, and_imp,
          forall_exists_index]); intros; subst_vars; first | rfl | simp_all [Option.bind_eq_some,
          Option.map_eq_some', fetchOperand_was]))
  | succ n ih =>
    unfold fetchOperands at h
    repeat' split at h
    all_goals (try have ih2 := ih h)
    all_goals (try simp_all [Option.bind_eq_some, Option.map_eq_some', fetchOperand_was])
    all_goals (try (repeat' split at h))
    all_goals (try have ih2 := ih h)
    all_goals (try simp_all [Option.bind_eq_some, Option.map_eq_some', fetchOperand_was])
    all_goals (try (revert h; (try simp only [exists_imp, and_imp,
          forall_exists_index]); intros; subst_vars; first | rfl | simp_all [Option.bind_eq_some,
          Option.map_eq_some', fetchOperand_was]))

theorem fetchOperands_was {E : Env} {opcode fuel temp : Nat} {L : VMLocals} {s : EngineState} (a :
      VMLocals × EngineState) :
    fetchOperands E opcode fuel temp L s = some a ↔ Was (fetchOperands E opcode fuel temp L s)
          (some a) ∧
      a.2.execution_stack_base = s.execution_stack_base ∧ a.1.old_execution_stack_base =
            L.old_execution_stack_base :=
  ⟨fun h => ⟨h, fetchOperands_base h⟩, fun h => h.1⟩

theorem posChangedInit_base {E : Env} {L : VMLocals} {s : EngineState} {a : VMLocals × EngineState}
    (h : posChangedInit E L s = some a) :
    a.2.execution_stack_base = s.execution_stack_base ∧ a.1.old_execution_stack_base =
          L.old_execution_stack_base := by
  unfold posChangedInit at h
  repeat' split at h
  all_goals (try simp_all [Option.bind_eq_some, Option.map_eq_some'])
  all_goals (try (repeat' split at h))
  all_goals (try simp_all [Option.bind_eq_some, Option.map_eq_some'])
  all_goals (try (revert h; (try simp only [exists_imp, and_imp,
        forall_exists_index]); intros; subst_vars; first | rfl | simp_all [Option.bind_eq_some,
        Option.map_eq_some']))
  all_goals (try (repeat' split))
  all_goals (try simp_all [Option.bind_eq_some, Option.map_eq_some'])

theorem posChangedInit_was {E : Env} {L : VMLocals} {s : EngineState} (a : VMLocals × EngineState) :
    posChangedInit E L s = some a ↔ Was (posChangedInit E L s) (some a) ∧
      a.2.execution_stack_base = s.execution_stack_base ∧ a.1.old_execution_stack_base =
            L.old_execution_stack_base :=
  ⟨fun h => ⟨h, posChangedInit_base h⟩, fun h => h.1⟩

theorem debugHook_base {E : Env} {L : VMLocals} {s : EngineState} (hE : EnvKeepsBase E) :
    (debugHook E L s).1.execution_stack_base = s.execution_stack_base ∧
      (debugHook E L s).2.old_execution_stack_base = L.old_execution_stack_base := by
  unfold debugHook
  split
  · exact ⟨hE.1 s L, rfl⟩
  · exact ⟨rfl, rfl⟩

theorem debugHook_was {E : Env} {L : VMLocals} {s : EngineState} (hE : EnvKeepsBase E)
    (a : EngineState × VMLocals) :
    debugHook E L s = a ↔ Was (debugHook E L s) a ∧
      a.1.execution_stack_base = s.execution_stack_base ∧
      a.2.old_execution_stack_base = L.old_execution_stack_base :=
  ⟨fun h => ⟨h, by rw [← h]; exact debugHook_base hE⟩, fun h => h.1⟩

theorem vmStep_keeps {E : Env} {L : VMLocals} {s : EngineState} (hE : EnvKeepsBase E) :
    KeepsBase L s (vmStep E L s) := by
  apply KeepsBase_of
  intro o h
  unfold vmStep at h
  by_cases hp : s.executionStackPosChanged = true
  · simp only [if_pos hp] at h
    all_goals (repeat' split at h)
    all_goals (try simp_all [Option.map_eq_some', posChangedInit_was, debugHook_was hE,
          debugHook_base hE, GET_OP_BYTE_was, fetchOperands_was, execOpcode_kwas hE,
          endOfInstruction_kwas, KeepsBase, setError_base, script_error_base,
          apply_ite EngineState.execution_stack_base])
    all_goals (try (cases o <;> simp_all [Option.map_eq_some', posChangedInit_was,
          debugHook_was hE, debugHook_base hE, GET_OP_BYTE_was, fetchOperands_was,
          execOpcode_kwas hE, endOfInstruction_kwas, KeepsBase, setError_base, script_error_base,
          apply_ite EngineState.execution_stack_base]))
    all_goals (try (revert h; (try simp only [exists_imp, and_imp,
          forall_exists_index]); intros; subst_vars; simp_all [Option.map_eq_some',
          posChangedInit_was, debugHook_was hE, debugHook_base hE, GET_OP_BYTE_was,
          fetchOperands_was, execOpcode_kwas hE, endOfInstruction_kwas, KeepsBase, setError_base,
          script_error_base, apply_ite EngineState.execution_stack_base]))
  · simp only [if_neg hp] at h
    all_goals (repeat' split at h)
    all_goals (try simp_all [Option.map_eq_some', posChangedInit_was, debugHook_was hE,
          debugHook_base hE, GET_OP_BYTE_was, fetchOperands_was, execOpcode_kwas hE,
          endOfInstruction_kwas, KeepsBase, setError_base, script_error_base,
          apply_ite EngineState.execution_stack_base])
    all_goals (try (cases o <;> simp_all [Option.map_eq_some', posChangedInit_was,
          debugHook_was hE, debugHook_base hE, GET_OP_BYTE_was, fetchOperands_was,
          execOpcode_kwas hE, endOfInstruction_kwas, KeepsBase, setError_base, script_error_base,
          apply_ite EngineState.execution_stack_base]))
    all_goals (try (revert h; (try simp only [exists_imp, and_imp,
          forall_exists_index]); intros; subst_vars; simp_all [Option.map_eq_some',
          posChangedInit_was, debugHook_was hE, debugHook_base hE, GET_OP_BYTE_was,
          fetchOperands_was, execOpcode_kwas hE, endOfInstruction_kwas, KeepsBase, setError_base,
          script_error_base, apply_ite EngineState.execution_stack_base]))

theorem runLoop_hardReturn {E : Env} (hE : EnvKeepsBase E) (fuel : Nat) :
    ∀ (L : VMLocals) (s s1 : EngineState) (ra : Int),
      runLoop E fuel L s = RunResult.hardReturn ra s1 →
      ∃ L1, ra = L1.restadjust ∧
        HardReturnAt s.execution_stack_base L.old_execution_stack_base L1 s1 := by
  induction fuel with
  | zero =>
    intro L s s1 ra h
    simp [runLoop] at h
  | succ n ih =>
    intro L s s1 ra h
    unfold runLoop at h
    have hk := vmStep_keeps hE (L := L) (s := s)
    split at h
    · cases h
    · rename_i L2 s2 hv
      rw [hv] at hk
      simp only [KeepsBase] at hk
      obtain ⟨L1, hra, hr⟩ := ih L2 s2 s1 ra h
      rw [hk.1, hk.2] at hr
      exact ⟨L1, hra, hr⟩
    · rename_i L2 s2 hv
      rw [hv] at hk
      simp only [KeepsBase] at hk
      cases h
      exact ⟨L2, rfl, hk⟩
    · cases h

theorem exEnv_keeps_base : EnvKeepsBase exEnv :=
  ⟨fun _ _ => rfl, fun _ => rfl, fun _ _ => rfl, fun kf hkf => by simp [exEnv] at hkf⟩

/-- C5: an invocation of `run_vm` with `restoring = 0` on an execution stack of `n`
frames that ends by a hard return.  The hard return takes place in a state `s2`
that has exactly `n` frames, frame `n - 1` on top, and whose base is the index
`n - 1` recorded at entry; it leaves `n - 1` frames, `execution_stack_base` as it
was before the invocation, and in `r_amp_rest` the value `ra` that the local
`restadjust` has at that moment.  The environment functions (debugger, garbage
collector, loader, kernel functions) are taken to leave the base alone. -/
theorem run_vm_hard_return (E : Env) (hE : EnvKeepsBase E) (fuel : Nat) (s s1 : EngineState)
    (ra : Int) (h : run_vm E fuel s 0 = RunResult.hardReturn ra s1) :
    (∃ (top : ExecStack) (s2 : EngineState), s2.executionStack = top :: s1.executionStack ∧
      s2.executionStack.length = s.executionStack.length ∧
      s2.execution_stack_base = (s.executionStack.length : Int) - 1) ∧
    s1.executionStack.length = s.executionStack.length - 1 ∧
    s1.execution_stack_base = s.execution_stack_base ∧
    s1.executionStackPosChanged = true ∧
    s1.r_amp_rest = ra := by
  unfold run_vm at h
  cases hes : s.executionStack with
  | nil => simp only [hes] at h; cases h
  | cons x rest =>
    simp only [hes] at h
    split at h
    · cases h
    · split at h
      · cases h
      · obtain ⟨L1, hra, top, s2, h2, hb, hsz, hs1⟩ := runLoop_hardReturn hE fuel _ _ _ _ h
        simp [esSize, hes] at hb hsz
        have hlen : s2.executionStack.length = rest.length + 1 := by omega
        have hl1 : s1.executionStack.length = rest.length := by
          rw [h2, List.length_cons] at hlen
          omega
        refine ⟨⟨top, s2, h2, ?_, ?_⟩, ?_, ?_, ?_, ?_⟩
        · rw [hlen, List.length_cons]
        · rw [hb, List.length_cons]; push_cast; ring
        · rw [hl1, List.length_cons]; rfl
        · rw [hs1]
        · rw [hs1]
        · rw [hs1, hra]

theorem run_vm_hard_return_witness :
    EnvKeepsBase exEnv ∧ run_vm exEnv 5 exNested 0 = RunResult.hardReturn 3 exNestedExit ∧
    ((∃ (top : ExecStack) (s2 : EngineState),
          s2.executionStack = top :: exNestedExit.executionStack ∧
        s2.executionStack.length = exNested.executionStack.length ∧
        s2.execution_stack_base = (exNested.executionStack.length : Int) - 1) ∧
      exNestedExit.executionStack.length = exNested.executionStack.length - 1 ∧
      exNestedExit.execution_stack_base = exNested.execution_stack_base ∧
      exNestedExit.executionStackPosChanged = true ∧
      exNestedExit.r_amp_rest = 3) :=
  ⟨exEnv_keeps_base, by decide!,
    run_vm_hard_return exEnv exEnv_keeps_base 5 exNested exNestedExit 3 (by decide!)⟩

/-! ### Recovery after an instruction that raises the error flag -/

/-- C11 (does not hold for the code): when `send` raises the error flag after it has
pushed a frame, the recovery writes the saved program-counter offset and stack
pointer into the new frame.  On the example machine the frame at 1:630 with stack
pointer at cell 4 sends the unknown selector 99 and the method selector 31: the
callee frame ends with program counter 1:630 instead of 1:310, and the sending
frame keeps the program counter 1:632 and the stack pointer at cell 0.  With a
known first selector the callee frame starts at 1:310. -/
theorem send_error_recovery_hits_new_frame :
    exFrames (vmSteps exEnv 1 exLoopLocals (exSendStart 99))
      = some ([(⟨1, 630⟩, Ptr.stack 4), (⟨1, 632⟩, Ptr.stack 0)], 1) ∧
    exFrames (vmSteps exEnv 1 exLoopLocals (exSendStart 20))
      = some ([(⟨1, 310⟩, Ptr.stack 4), (⟨1, 632⟩, Ptr.stack 0)], 0) := by
  decide!

/-- Counterexample to C12 as stated: on the example machine `bnot` at 1:620 raises
the error flag (the accumulator holds a pointer); the abort flag is clear and the
debugger hook does nothing.  After that iteration the frame's program counter is
back at 620, and the opcode the following iteration reads is the byte at 620,
`bnot` again, not the byte `0x35` of the instruction at 621. -/
theorem error_refetch_counterexample :
    exFrames (vmSteps exEnv 1 exLoopLocals exErrStart) = some ([(⟨1, 620⟩, Ptr.stack 1)], 1) ∧
    exNextOpcode exEnv (vmSteps exEnv 1 exLoopLocals exErrStart) = some 0x00 ∧
    exMem 620 = 0x00 ∧ exMem 621 = 0x35 := by
  decide!

theorem endOfInstruction_error (L L1 : VMLocals) (s s1 : EngineState) (pc : Nat) (sp : Ptr)
    (h : endOfInstruction L s pc sp = some (Outcome.next L1 s1))
    (herr : s1.script_error_flag ≠ 0) :
    ∃ x1, getFrame s1 L1.xs = some x1 ∧ x1.addr_pc.offset = pc ∧ x1.sp = sp := by
  unfold endOfInstruction at h
  generalize (if s.executionStackPosChanged = true then L.xs_new else some L.xs) = xs at h
  cases xs with
  | none => cases h
  | some i =>
    dsimp only at h
    split at h
    · unfold modXs at h
      simp only [Option.map_eq_some'] at h
      obtain ⟨s2, h2, h3⟩ := h
      injection h3 with hL hs
      subst hL hs
      split at h2
      · cases h2
      · rename_i x hx
        rw [setFrame_eq _ _ _ _ hx] at h2
        cases h2
        exact ⟨_, getFrame_set _ _ _ _ hx, rfl, rfl⟩
    · rename_i hflag
      cases h
      exact absurd herr (by simpa using hflag)

theorem vmStep_next_endOfInstruction (E : Env) (L L1 : VMLocals) (s s1 : EngineState)
    (x0 : ExecStack) (h : vmStep E L s = some (Outcome.next L1 s1))
    (hx : getFrame s L.xs = some x0) :
    ∃ L6 s8, endOfInstruction L6 s8 x0.addr_pc.offset x0.sp = some (Outcome.next L1 s1) := by
  unfold vmStep at h
  rw [hx] at h
  dsimp only at h
  repeat' split at h
  all_goals first
    | (rename_i hn _; cases h; exact absurd rfl (hn _ _))
    | exact ⟨_, _, h⟩
    | cases h

/-- C12, amended: after a loop iteration whose instruction raises the error flag and
leaves the stack position unchanged, the current frame has the program-counter
offset and the stack pointer it had before the instruction was fetched, and
`GET_OP_BYTE` reads the byte at that offset: the following iteration fetches the
offending instruction again, not the instruction after it. -/
theorem error_refetches_instruction (E : Env) (L L1 : VMLocals) (s s1 : EngineState)
    (x0 : ExecStack) (h : vmStep E L s = some (Outcome.next L1 s1))
    (herr : s1.script_error_flag ≠ 0) (_hpos : s1.executionStackPosChanged = false)
    (hx : getFrame s L.xs = some x0) :
    ∃ x1, getFrame s1 L1.xs = some x1 ∧ x1.addr_pc.offset = x0.addr_pc.offset ∧
      x1.sp = x0.sp ∧
      (GET_OP_BYTE E L1 s1).map (fun r => r.1)
        = (codeByte E L1 x0.addr_pc.offset).map (fun (b : Nat) => (b : Int)) := by
  obtain ⟨L6, s8, he⟩ := vmStep_next_endOfInstruction E L L1 s s1 x0 h hx
  obtain ⟨x1, h1, hpc, hsp⟩ := endOfInstruction_error L6 L1 s8 s1 _ _ he herr
  refine ⟨x1, h1, hpc, hsp, ?_⟩
  unfold GET_OP_BYTE
  rw [h1]
  dsimp only
  rw [setFrame_eq _ _ _ _ h1, hpc]
  cases codeByte E L1 x0.addr_pc.offset <;> rfl

theorem error_refetches_instruction_witness :
    vmStep exEnv exLoopLocals exErrStart = some (Outcome.next exErrAfter.1 exErrAfter.2) ∧
    exErrAfter.2.script_error_flag ≠ 0 ∧ exErrAfter.2.executionStackPosChanged = false ∧
    getFrame exErrStart exLoopLocals.xs = some { exBaseFrame 1 with addr_pc := ⟨1, 620⟩ } ∧
    ∃ x1, getFrame exErrAfter.2 exErrAfter.1.xs = some x1 ∧ x1.addr_pc.offset = 620 ∧
      x1.sp = Ptr.stack 1 ∧
      (GET_OP_BYTE exEnv exErrAfter.1 exErrAfter.2).map (fun r => r.1)
        = (codeByte exEnv exErrAfter.1 620).map (fun (b : Nat) => (b : Int)) :=
  ⟨by decide!, by decide!, by decide!, by decide!,
    error_refetches_instruction exEnv exLoopLocals exErrAfter.1 exErrStart exErrAfter.2
      { exBaseFrame 1 with addr_pc := ⟨1, 620⟩ } (by decide!) (by decide!) (by decide!)
      (by decide!)⟩

/-! ### Validation of variable and property accesses -/

/-- Counterexample to C13 as stated: for a local variable block `[11, 12, 13]`
`validate_variable` raises the error flag at index 5 and at index -1 of three, and at
index 2 of a block taken to have two slots, but returns 0, which grants the access,
as it does for a global block.  So `validate_write_var` performs the store: slot 2,
beyond the two slots, receives 77; and `validate_read_var` performs the load: it
returns the 13 found there, not the default value 99.  At index 5 store and load
leave the allocated block and have no defined result, where the claim has the
memory untouched and the default value returned. -/
theorem variable_out_of_range_counterexample :
    validate_variable exEnv exLocalsState (Ptr.locals 0 0) 1 3 5 = (0, setError exLocalsState) ∧
    validate_variable exEnv exLocalsState (Ptr.locals 0 0) 1 3 (-1)
      = (0, setError exLocalsState) ∧
    validate_variable exEnv exLocalsState (Ptr.locals 0 0) 0 3 5 = (0, setError exLocalsState) ∧
    validate_variable exEnv exLocalsState (Ptr.locals 0 0) 1 2 2 = (0, setError exLocalsState) ∧
    validate_write_var exEnv exLocalsState (Ptr.locals 0 0) 1 2 2 ⟨0, 77⟩
      = some { setError exLocalsState with localsBlocks := [[⟨0, 11⟩, ⟨0, 12⟩, ⟨0, 77⟩]] } ∧
    validate_read_var exEnv exLocalsState (Ptr.locals 0 0) 1 2 2 ⟨0, 99⟩
      = some (⟨0, 13⟩, setError exLocalsState) ∧
    validate_write_var exEnv exLocalsState (Ptr.locals 0 0) 1 3 5 ⟨0, 77⟩
      = store (setError exLocalsState) (Ptr.locals 0 5) ⟨0, 77⟩ ∧
    validate_write_var exEnv exLocalsState (Ptr.locals 0 0) 1 3 5 ⟨0, 77⟩ = none ∧
    validate_read_var exEnv exLocalsState (Ptr.locals 0 0) 1 3 5 ⟨0, 99⟩ = none ∧
    validate_read_var exEnv exLocalsState (Ptr.locals 0 0) 1 3 2 ⟨0, 99⟩
      = some (⟨0, 13⟩, exLocalsState) := by
  decide!

/-- C13, amended: for a global or local variable block (`type` 0 or 1) an access
whose index is below 0 or not below `max` is reported, not rejected:
`validate_variable` raises the error and debug flags, unless weak validations are
on, and returns 0; `validate_write_var` then performs the store to `r[index]` and
`validate_read_var` the load from `r[index]`, as for an index in range, and the
default value is not used. -/
theorem variable_out_of_range_reported (E : Env) (s : EngineState) (r : Ptr) (type : Nat)
    (max index : Int) (htype : type = 0 ∨ type = 1) (hout : index < 0 ∨ index ≥ max) :
    validate_variable E s r type max index
      = (0, if s.weak_validations = 0 then setError s else s) ∧
    (s.weak_validations = 0 →
      (validate_variable E s r type max index).2.script_error_flag = 1 ∧
      (validate_variable E s r type max index).2.script_debug_flag = 1) ∧
    (∀ value, validate_write_var E s r type max index value
      = store (if s.weak_validations = 0 then setError s else s) (r.add index) value) ∧
    (∀ d, validate_read_var E s r type max index d
      = (load s (r.add index)).map
          (fun v => (v, if s.weak_validations = 0 then setError s else s))) ∧
    (∀ d1 d2, validate_read_var E s r type max index d1
      = validate_read_var E s r type max index d2) := by
  have hnt : ¬ (type = 3 ∨ type = 2) := by omega
  have hv : validate_variable E s r type max index
      = (0, if s.weak_validations = 0 then setError s else s) := by
    unfold validate_variable
    simp only [hout, if_true, hnt, if_false]
  have hload : ∀ p, load (if s.weak_validations = 0 then setError s else s) p = load s p := by
    intro p
    split <;> rfl
  have hread : ∀ d, validate_read_var E s r type max index d
      = (load s (r.add index)).map
          (fun v => (v, if s.weak_validations = 0 then setError s else s)) := by
    intro d
    unfold validate_read_var
    rw [hv]
    simp only [if_true, hload]
  refine ⟨hv, fun hw => ?_, fun value => ?_, hread, fun d1 d2 => by rw [hread d1, hread d2]⟩
  · rw [hv]
    simp only [hw, if_true]
    exact ⟨rfl, rfl⟩
  · unfold validate_write_var
    rw [hv]
    simp only [if_true]

theorem variable_out_of_range_reported_witness :
    (((1 : Nat) = 0 ∨ (1 : Nat) = 1) ∧ ((2 : Int) < 0 ∨ (2 : Int) ≥ 2)) ∧
    validate_variable exEnv exLocalsState (Ptr.locals 0 0) 1 2 2
      = (0, if exLocalsState.weak_validations = 0 then setError exLocalsState
          else exLocalsState) ∧
    validate_read_var exEnv exLocalsState (Ptr.locals 0 0) 1 2 2 ⟨0, 99⟩
      = (load exLocalsState ((Ptr.locals 0 0).add 2)).map
          (fun v => (v, if exLocalsState.weak_validations = 0 then setError exLocalsState
            else exLocalsState)) :=
  ⟨⟨by decide, by decide⟩,
    (variable_out_of_range_reported exEnv exLocalsState (Ptr.locals 0 0) 1 2 2
      (by decide) (by decide)).1,
    (variable_out_of_range_reported exEnv exLocalsState (Ptr.locals 0 0) 1 2 2
      (by decide) (by decide)).2.2.2.1 ⟨0, 99⟩⟩

theorem POP32_objects (L : VMLocals) (s s1 : EngineState) (v : reg_t)
    (h : POP32 L s = some (v, s1)) : s1.objects = s.objects := by
  unfold POP32 at h
  split at h
  · cases h
  · split at h
    · cases h
    · rename_i f hf s2 h2
      unfold setFrame at h2
      split at h2
      · cases h2
        simp only [Option.map_eq_some', Prod.mk.injEq] at h
        obtain ⟨_, _, _, rfl⟩ := h
        unfold validate_stack_addr setError
        repeat' split
        all_goals rfl
      · cases h2

/-- C14: for an object with `n` property slots (pool index `o`), the validated
access at index `i` is the slot `i` of the object exactly when `0 ≤ i < n`;
otherwise it is the dummy register, and the writes of aTop and sTop with
that index go on to the next instruction with every object unchanged. -/
theorem property_access_validated (s : EngineState) (o : Nat) (ob : Object) (i : Int)
    (ho : s.objects[o]? = some ob) :
    ((validate_property s (some o) i).1 = some (Ptr.prop o i) ↔
      0 ≤ i ∧ i < ob._variables.length) ∧
    (0 ≤ i ∧ i < ob._variables.length →
      load (validate_property s (some o) i).2 (Ptr.prop o i) = ob._variables[i.toNat]?) ∧
    (¬ (0 ≤ i ∧ i < ob._variables.length) →
      (validate_property s (some o) i).1 = none ∧
      ∀ L : VMLocals, L.obj = some o → opparam L 0 >>> 1 = i →
        case_aTop L s = some (Outcome.next L { s with dummy_register := s.r_acc }) ∧
        ∀ v s1, POP32 L s = some (v, s1) →
          case_sTop L s = some (Outcome.next L { s1 with dummy_register := v }) ∧
          s1.objects = s.objects) := by
  have hv : ∀ s0 : EngineState, s0.objects = s.objects →
      validate_property s0 (some o) i =
        if i < 0 ∨ i.toNat ≥ ob._variables.length then
          (none, { s0 with dummy_register := NULL_REG })
        else (some (Ptr.prop o i), s0) := by
    intro s0 h0
    unfold validate_property
    simp only [Option.some_bind, h0, ho]
  have hs := hv s rfl
  refine ⟨?_, ?_, ?_⟩
  · rw [hs]
    split
    · rename_i hc
      simp only [reduceCtorEq, false_iff, not_and, not_lt]
      intro h0
      rcases hc with hc | hc
      · omega
      · omega
    · rename_i hc
      simp only [true_iff]
      omega
  · intro hin
    rw [hs, if_neg (by omega)]
    simp only [load, ho, Option.some_bind, idx, hin.1, if_true]
  · intro hout
    have hc : i < 0 ∨ i.toNat ≥ ob._variables.length := by omega
    refine ⟨by rw [hs, if_pos hc], ?_⟩
    intro L hL hi
    refine ⟨?_, ?_⟩
    · unfold case_aTop
      rw [hL, hi, hs, if_pos hc]
      rfl
    · intro v s1 hp
      have h1 := POP32_objects L s s1 v hp
      refine ⟨?_, h1⟩
      unfold case_sTop
      rw [hp]
      dsimp only
      rw [hL, hi, hv s1 h1, if_pos hc]
      rfl

theorem property_access_validated_witness :
    (exState [] [] ⟨0, 42⟩).objects[1]? = some exParent ∧ exParent._variables.length = 3 ∧
    (validate_property (exState [] [] ⟨0, 42⟩) (some 1) 2).1 = some (Ptr.prop 1 2) ∧
    (validate_property (exState [] [] ⟨0, 42⟩) (some 1) 3).1 = none ∧
    (validate_property (exState [] [] ⟨0, 42⟩) (some 1) (-1)).1 = none ∧
    case_aTop { exLocals 0 with obj := some 1, opparams := [10] } (exState [] [] ⟨0, 42⟩)
      = some (Outcome.next { exLocals 0 with obj := some 1, opparams := [10] }
          { exState [] [] ⟨0, 42⟩ with dummy_register := ⟨0, 42⟩ }) :=
  ⟨rfl, rfl,
    (property_access_validated (exState [] [] ⟨0, 42⟩) 1 exParent 2 rfl).1.2
      ⟨by decide, by decide⟩,
    ((property_access_validated (exState [] [] ⟨0, 42⟩) 1 exParent 3 rfl).2.2
      (by decide)).1,
    ((property_access_validated (exState [] [] ⟨0, 42⟩) 1 exParent (-1) rfl).2.2
      (by decide)).1,
    (((property_access_validated (exState [] [] ⟨0, 42⟩) 1 exParent 5 rfl).2.2
      (by decide)).2 { exLocals 0 with obj := some 1, opparams := [10] } rfl (by decide)).1⟩

/-! ### Pointer arithmetic on locals -/

/-- Counterexample to C20 as stated: on the example machine, where a register takes 4
bytes, `pointer_add` advances a register into a Locals region by 2 for n = 1 and by 6
for n = 3, not by 4 and 12, the addresses `lea` builds for the local variable
indices 1 and 3. -/
theorem pointer_add_locals_counterexample :
    GET_SEGMENT_ANY exLocalsState 3 = some (MemObject.MEM_OBJ_LOCALS 0) ∧
    exEnv.SIZEOF_REG_T = 4 ∧
    pointer_add exLocalsState ⟨3, 0⟩ 1 = (⟨3, 2⟩, exLocalsState) ∧
    pointer_add exLocalsState ⟨3, 0⟩ 3 = (⟨3, 6⟩, exLocalsState) ∧
    case_lea exEnv (exLocalsOf 2 1) exLocalsState
      = some (Outcome.next (exLocalsOf 2 1) { exLocalsState with r_acc := ⟨3, 4⟩ }) ∧
    case_lea exEnv (exLocalsOf 2 3) exLocalsState
      = some (Outcome.next (exLocalsOf 2 3) { exLocalsState with r_acc := ⟨3, 12⟩ }) := by
  decide

theorem u16_scale (x k : Int) :
    u16 ((u16 ((u16 x : Int) * (4 : Nat)) : Int) + 2 * (2 * k))
      = u16 ((u16 (x + k) : Int) * (4 : Nat)) := by
  unfold u16
  omega

/-- C20, amended: for a register into a Locals region `pointer_add(base, n)` keeps the
segment and advances the offset by `2 * n` modulo 2^16, leaving the state alone:
`n` is an offset in the bytes of the script, of which a variable takes two.  Where a
register takes 4 bytes this is the scale of `lea` in these units: adding `2 * k` to
the address that `lea` builds for a variable index gives the address that `lea`
builds for the index `k` higher. -/
theorem pointer_add_locals_bytes (s : EngineState) (base : reg_t) (n : Int) (b : Nat)
    (hseg : GET_SEGMENT_ANY s base.segment = some (MemObject.MEM_OBJ_LOCALS b)) :
    pointer_add s base n = ({ base with offset := u16 (base.offset + 2 * n) }, s) ∧
    (pointer_add s base n).1.segment = base.segment ∧
    ∀ (E : Env) (L : VMLocals) (k : Int), E.SIZEOF_REG_T = 4 →
      (L.variables_seg[u16 (opparam L 0) / 2 % 4]?).getD 0 = base.segment →
      (accAfter (case_lea E L s)).map (fun a => (pointer_add s a (2 * k)).1)
        = accAfter (case_lea E { L with opparams := [opparam L 0, opparam L 1 + k] } s) := by
  have hp : ∀ (r : reg_t) (m : Int), r.segment = base.segment →
      pointer_add s r m = ({ r with offset := u16 (r.offset + 2 * m) }, s) := by
    intro r m hr
    unfold pointer_add
    rw [hr, hseg]
  refine ⟨hp base n rfl, by rw [hp base n rfl], ?_⟩
  intro E L k hsz hsg
  have h0 : opparam { L with opparams := [opparam L 0, opparam L 1 + k] } 0 = opparam L 0 := rfl
  have h1 : opparam { L with opparams := [opparam L 0, opparam L 1 + k] } 1
      = opparam L 1 + k := rfl
  unfold case_lea
  simp only [h0, h1, accAfter, Option.map_some', hsz, hsg]
  have hp2 := fun off : Nat => hp ⟨base.segment, off⟩ (2 * k) rfl
  simp only [hp2, Option.some.injEq, reg_t.mk.injEq, true_and]
  rw [← add_assoc]
  exact u16_scale _ _

theorem pointer_add_locals_bytes_witness :
    GET_SEGMENT_ANY exLocalsState (⟨3, 4⟩ : reg_t).segment
      = some (MemObject.MEM_OBJ_LOCALS 0) ∧
    pointer_add exLocalsState ⟨3, 4⟩ 3 = (⟨3, 10⟩, exLocalsState) ∧
    (accAfter (case_lea exEnv (exLocalsOf 2 1) exLocalsState)).map
        (fun a => (pointer_add exLocalsState a (2 * 2)).1)
      = accAfter (case_lea exEnv
          { exLocalsOf 2 1 with opparams := [opparam (exLocalsOf 2 1) 0,
            opparam (exLocalsOf 2 1) 1 + 2] } exLocalsState) ∧
    accAfter (case_lea exEnv (exLocalsOf 2 1) exLocalsState) = some ⟨3, 4⟩ ∧
    accAfter (case_lea exEnv (exLocalsOf 2 3) exLocalsState) = some ⟨3, 12⟩ ∧
    pointer_add exLocalsState ⟨3, 4⟩ (2 * 2) = (⟨3, 12⟩, exLocalsState) :=
  ⟨rfl, (pointer_add_locals_bytes exLocalsState ⟨3, 4⟩ 3 0 rfl).1,
    (pointer_add_locals_bytes exLocalsState ⟨3, 4⟩ 3 0 rfl).2.2 exEnv (exLocalsOf 2 1) 2 rfl rfl,
    by decide, by decide, by decide⟩

/-! ### The script loader -/

/-- C15 (does not hold for the code): a class block of an SCI0 script with a
species id outside the class table makes `script_instantiate` return 1, not 0.
On the example machine script 5 declares species 7 for a class table of two
entries: the error flag is raised and no class-table entry is written, but the
result is 1, the segment of the loaded script 0, while the segment allocated for
the attempt stays in the heap (three segments instead of two).  A missing
resource (script 9) gives 0. -/
theorem invalid_species_returns_one :
    (exLoadState 0).classtable.length = 2 ∧ (exLoadState 0).heap.length = 2 ∧
    readLE16 exClassScript.data 12 = some 7 ∧
    (script_instantiate exEnv exLoader 10 (exLoadState 0) 5).map
        (fun r => (r.1, r.2.script_error_flag, r.2.classtable, r.2.heap.length))
      = some (1, 1, (exLoadState 0).classtable, 3) ∧
    (script_instantiate exEnv exLoader 10 (exLoadState 0) 9).map (fun r => r.1) = some 0 := by
  decide

/-- C16 (does not hold for the code): in the heap+script dialect a script resource
without a heap resource is not detected, because the test looks at the pointer
argument `heap` and not at the resource `*heap`.  On the example machine (version
at `SCI_VERSION_1_1`, script 5 without heap resource) `script_instantiate_common`
allocates segment 2 and reports a fresh load with `*heap` null, and
`script_instantiate` then has no result: `script_instantiate_sci11` reads
`heap->data`. -/
theorem missing_heap_resource_not_detected :
    exLoader.findResource ResourceType.kResourceTypeScript 5 = some exClassScript ∧
    exLoader.findResource ResourceType.kResourceTypeHeap 5 = none ∧
    (exLoadState 6).version ≥ exEnv.SCI_VERSION_1_1 ∧ (exLoadState 6).heap.length = 2 ∧
    (script_instantiate_common exEnv exLoader (exLoadState 6) 5 true).map
        (fun r => (r.1.seg_id, r.1.was_new, r.1.heap, r.2.heap.length))
      = some (2, false, none, 3) ∧
    script_instantiate exEnv exLoader 10 (exLoadState 6) 5 = none := by
  decide

/-- C17: without a script resource for the requested id `script_instantiate`
returns 0 and leaves the whole state as it is (segments, locker counts, class
table), in both dialects and for every state, whether the script is loaded or
not. -/
theorem missing_script_resource (E : Env) (Ld : Loader) (fuel : Nat) (s : EngineState)
    (script_nr : Int)
    (h : Ld.findResource ResourceType.kResourceTypeScript script_nr = none) :
    script_instantiate E Ld fuel s script_nr = some (0, s) := by
  unfold script_instantiate
  split
  · rename_i hv
    unfold script_instantiate_sci11 script_instantiate_common
    simp [h, hv]
  · rename_i hv
    unfold script_instantiate_sci0 script_instantiate_common
    simp [h, hv]

theorem missing_script_resource_witness :
    (exLoader.findResource ResourceType.kResourceTypeScript 9 = none ∧
      script_instantiate exEnv exLoader 10 (exLoadState 0) 9 = some (0, exLoadState 0)) ∧
    (getScriptIfLoaded (exLoadState 6) (exEnv.segGet (exLoadState 6) 0)).isSome = true ∧
    script_instantiate exEnv { exLoader with findResource := fun _ _ => none } 10
      (exLoadState 6) 0 = some (0, exLoadState 6) :=
  ⟨⟨rfl, missing_script_resource exEnv exLoader 10 (exLoadState 0) 9 rfl⟩, rfl,
    missing_script_resource exEnv { exLoader with findResource := fun _ _ => none } 10
      (exLoadState 6) 0 rfl⟩

theorem getScriptIfLoaded_idx (s : EngineState) (seg : Int) (scr : Script)
    (h : getScriptIfLoaded s seg = some scr) :
    0 ≤ seg ∧ seg.toNat < s.heap.length ∧
      s.heap[seg.toNat]? = some (some (MemObject.MEM_OBJ_SCRIPT scr)) := by
  unfold getScriptIfLoaded at h
  split at h
  · rename_i scr2 h0
    cases h
    unfold idx at h0
    split at h0
    · rename_i hpos
      refine ⟨hpos, ?_, h0⟩
      by_contra hc
      rw [List.getElem?_eq_none (Nat.le_of_not_lt hc)] at h0
      cases h0
    · cases h0
  · cases h

theorem getScriptIfLoaded_withScript (s : EngineState) (seg : Int) (scr scr2 : Script)
    (h : getScriptIfLoaded s seg = some scr) :
    getScriptIfLoaded (withScript s seg scr2) seg = some scr2 := by
  obtain ⟨h0, hlt, _⟩ := getScriptIfLoaded_idx s seg scr h
  unfold getScriptIfLoaded idx withScript
  simp only [h0, if_true]
  rw [List.getElem?_set_self hlt]

theorem modScript_eq (s : EngineState) (seg : Int) (scr : Script) (f : Script → Script)
    (hscr : getScriptIfLoaded s seg = some scr) :
    modScript s seg f = some (withScript s seg (f scr)) := by
  unfold modScript
  rw [hscr]
  rfl

/-- C18: when the script resource is available and the script is loaded and not
marked deleted, `script_instantiate` returns the segment the script is loaded in
and changes nothing but that script's locker count, which goes up by one: buffer,
locals block, export-table offset and deleted mark of the script, all other
segments and the class table stay as they are. -/
theorem reload_increments_lockers (E : Env) (Ld : Loader) (fuel : Nat) (s : EngineState)
    (script_nr : Int) (res : Resource) (scr : Script)
    (hres : Ld.findResource ResourceType.kResourceTypeScript script_nr = some res)
    (hscr : getScriptIfLoaded s (E.segGet s script_nr) = some scr)
    (hdel : scr.markedAsDeleted = false) :
    script_instantiate E Ld fuel s script_nr
      = some (E.segGet s script_nr,
          withScript s (E.segGet s script_nr) { scr with lockers := scr.lockers + 1 }) ∧
    getScriptIfLoaded
        (withScript s (E.segGet s script_nr) { scr with lockers := scr.lockers + 1 })
        (E.segGet s script_nr)
      = some { scr with lockers := scr.lockers + 1 } ∧
    (withScript s (E.segGet s script_nr) { scr with lockers := scr.lockers + 1 }).classtable
      = s.classtable := by
  have hm := modScript_eq s (E.segGet s script_nr) scr
    (fun c => { c with lockers := c.lockers + 1 }) hscr
  refine ⟨?_, getScriptIfLoaded_withScript s _ scr _ hscr, rfl⟩
  unfold script_instantiate
  split
  · rename_i hv
    unfold script_instantiate_sci11 script_instantiate_common
    simp [hres, hv, script_locate_by_segment, hscr, hdel, hm]
  · rename_i hv
    unfold script_instantiate_sci0 script_instantiate_common
    simp [hres, hv, script_locate_by_segment, hscr, hdel, hm]

theorem reload_increments_lockers_witness :
    exLoader.findResource ResourceType.kResourceTypeScript 0 = some { data := [0, 0], size := 2 } ∧
    exEnv.segGet (exLoadState 0) 0 = 1 ∧
    (script_instantiate exEnv exLoader 10 (exLoadState 0) 0).map
        (fun r => (r.1, (getScriptIfLoaded r.2 1).map (fun c => c.lockers), r.2.classtable))
      = some (1, some 2, (exLoadState 0).classtable) := by
  have h := (reload_increments_lockers exEnv exLoader 10 (exLoadState 0) 0
    { data := [0, 0], size := 2 }
    { nr := 0, buf := 0, buf_size := 1000, script_size := 1000, objects := [0, 1, 2],
      locals_segment := 0, locals_block := none, lockers := 1, markedAsDeleted := false,
      export_table_offset := 0, synonyms_offset := 0, synonyms_nr := 0 } rfl rfl rfl).1
  refine ⟨rfl, rfl, ?_⟩
  rw [h]
  rfl

/-! ### Uninstantiation -/

theorem freeClassEntry_eq (seg : Nat) : freeClassEntry seg = freeClassEntries [seg] := by
  funext c
  simp [freeClassEntry, freeClassEntries]

theorem freeClassEntries_nil (c : Class) : freeClassEntries [] c = c := by
  simp [freeClassEntries]

theorem freeClassEntries_append (l1 l2 : List Nat) (c : Class) :
    freeClassEntries l2 (freeClassEntries l1 c) = freeClassEntries (l1 ++ l2) c := by
  unfold freeClassEntries
  by_cases h1 : c.reg.segment ∈ l1
  · simp only [h1, if_true, List.mem_append, true_or]
    split <;> rfl
  · simp only [h1, if_false, List.mem_append, false_or]

theorem getScriptIfLoaded_withScript_ne (s : EngineState) (seg g : Int) (x : Script)
    (hseg : 0 ≤ seg) (hne : g ≠ seg) :
    getScriptIfLoaded (withScript s seg x) g = getScriptIfLoaded s g := by
  unfold getScriptIfLoaded idx withScript
  by_cases hg : 0 ≤ g
  · simp only [hg, if_true]
    rw [List.getElem?_set_ne (by omega)]
  · simp only [hg, if_false]

theorem Uninstantiates_refl (s : EngineState) : Uninstantiates s [] s := by
  refine ⟨?_, fun g scr h h0 => ⟨scr, h, h0⟩⟩
  have : freeClassEntries [] = id := funext freeClassEntries_nil
  rw [this, List.map_id]

theorem Uninstantiates_trans (s s1 s2 : EngineState) (l1 l2 : List Nat)
    (h1 : Uninstantiates s l1 s1) (h2 : Uninstantiates s1 l2 s2) :
    Uninstantiates s (l1 ++ l2) s2 := by
  refine ⟨?_, ?_⟩
  · rw [h2.1, h1.1, List.map_map]
    congr 1
    funext c
    exact freeClassEntries_append l1 l2 c
  · intro g scr hg h0
    obtain ⟨scr1, hg1, h01⟩ := h1.2 g scr hg h0
    exact h2.2 g scr1 hg1 h01

theorem Uninstantiates_withScript (s : EngineState) (seg : Int) (scr : Script)
    (f : Script → Script) (hscr : getScriptIfLoaded s seg = some scr)
    (hf : scr.lockers = 0 → (f scr).lockers = 0) :
    Uninstantiates s [] (withScript s seg (f scr)) := by
  refine ⟨?_, ?_⟩
  · have : freeClassEntries [] = id := funext freeClassEntries_nil
    rw [this, List.map_id]
    rfl
  · intro g scr0 hg h0
    by_cases hne : g = seg
    · subst hne
      rw [hscr] at hg
      cases hg
      exact ⟨f scr, getScriptIfLoaded_withScript s g scr _ hscr, hf h0⟩
    · rw [getScriptIfLoaded_withScript_ne s seg g _ (getScriptIfLoaded_idx s seg scr hscr).1 hne]
      exact ⟨scr0, hg, h0⟩

theorem Uninstantiates_classtable (s : EngineState) (seg : Nat) :
    Uninstantiates s [seg] { s with classtable := s.classtable.map (freeClassEntry seg) } := by
  refine ⟨?_, fun g scr h h0 => ⟨scr, h, h0⟩⟩
  rw [freeClassEntry_eq]
theorem uninstantiateLoop_spec (E : Env) (Ld : Loader)
    (recur : EngineState → Int → Option (List Nat × EngineState)) (script_nr : Int) (seg : Nat)
    (hrec : ∀ s nr l s1, recur s nr = some (l, s1) → Uninstantiates s l s1) :
    ∀ (fuel offset : Nat) (objlength : Int) (s : EngineState) (l : List Nat) (s1 : EngineState),
      uninstantiateLoop E Ld recur script_nr seg fuel offset objlength s = some (l, s1) →
      Uninstantiates s l s1 := by
  intro fuel
  induction fuel with
  | zero =>
    intro offset objlength s l s1 h
    simp [uninstantiateLoop] at h
  | succ n ih =>
    intro offset objlength s l s1 h
    unfold uninstantiateLoop at h
    dsimp only at h
    split at h
    · cases h
      exact Uninstantiates_refl s
    · split at h
      · split at h
        · cases h
        · rename_i freed s2 hr
          split at h
          · cases h
          · rename_i freed2 s3 hl
            cases h
            refine Uninstantiates_trans _ _ _ _ _ ?_ (ih _ _ _ _ _ hl)
            split at hr
            · split at hr
              · cases hr
              · split at hr
                · split at hr
                  · cases hr
                  · split at hr
                    · rename_i scr hscr hl0
                      rw [modScript_eq _ _ _ _ hscr] at hr
                      simp only [Option.map_some', Option.some.injEq, Prod.mk.injEq] at hr
                      obtain ⟨rfl, rfl⟩ := hr
                      exact Uninstantiates_withScript _ _ _
                        (fun x => { x with lockers := Ld.decrementLockers x.lockers }) hscr
                        (fun h0 => absurd h0 hl0)
                    · cases hr
                      exact Uninstantiates_refl _
                · exact hrec _ _ _ _ hr
            · cases hr
              exact Uninstantiates_refl _
      · exact ih _ _ _ _ _ h

theorem script_uninstantiate_spec (E : Env) (Ld : Loader) (hdec : Ld.decrementLockers 0 = 0) :
    ∀ (fuel : Nat) (s : EngineState) (script_nr : Int) (l : List Nat) (s1 : EngineState),
      script_uninstantiate E Ld fuel s script_nr = some (l, s1) → Uninstantiates s l s1 := by
  intro fuel
  induction fuel with
  | zero =>
    intro s script_nr l s1 h
    simp [script_uninstantiate] at h
  | succ n ih =>
    intro s script_nr l s1 h
    unfold script_uninstantiate at h
    dsimp only at h
    split at h
    · cases h
      exact Uninstantiates_refl s
    · split at h
      · rename_i sa scr hm hscr
        rw [modScript_eq _ _ _ _ hscr] at hm
        cases hm
        have h1 : Uninstantiates s []
            (withScript s (u16 (E.segGet s script_nr))
              { scr with lockers := Ld.decrementLockers scr.lockers }) :=
          Uninstantiates_withScript s _ scr
            (fun x => { x with lockers := Ld.decrementLockers x.lockers }) hscr
            (fun h0 => by simp only [h0, hdec])
        split at h
        · cases h
          exact h1
        · have h2 := Uninstantiates_trans _ _ _ _ _ h1
            (Uninstantiates_classtable
              (withScript s (u16 (E.segGet s script_nr))
                { scr with lockers := Ld.decrementLockers scr.lockers })
              (u16 (E.segGet s script_nr)))
          split at h
          · cases h
          · rename_i freed s3 hr
            have h3 : Uninstantiates s ([u16 (E.segGet s script_nr)] ++ freed) s3 := by
              refine Uninstantiates_trans _ _ _ _ _ h2 ?_
              split at hr
              · unfold script_uninstantiate_sci0 at hr
                exact uninstantiateLoop_spec E Ld _ script_nr _
                  (fun s0 nr l0 s10 h0 => ih s0 nr l0 s10 h0) _ _ _ _ _ _ hr
              · cases hr
                exact Uninstantiates_refl _
            split at h
            · cases h
            · rename_i scr3 hscr3
              split at h
              · cases h
                exact h3
              · rw [modScript_eq _ _ _ _ hscr3] at h
                cases h
                have h4 := Uninstantiates_trans _ _ _ _ _ h3
                  (Uninstantiates_withScript s3 _ scr3
                    (fun x => { x with markedAsDeleted := true }) hscr3 (fun h0 => h0))
                simpa using h4
      · cases h

/-- C19: `script_uninstantiate` on a loaded script, for a locker decrement that
leaves an unlocked script unlocked.  If the decrement brings the locker count to
zero and the call returns, the class table afterwards is the old one with the
register nulled (script number kept) in exactly the entries that pointed into a
segment freed by the call, this script's segment is among them, and the script is
marked deleted; in the heap+script dialect the call does return, and frees this
segment only.  If the count is still positive the call returns, and only the
locker count of this script has changed: class table and deleted mark are as
before. -/
theorem uninstantiate_frees_class_table (E : Env) (Ld : Loader) (fuel : Nat)
    (s : EngineState) (script_nr : Int) (scr : Script)
    (hdec : Ld.decrementLockers 0 = 0)
    (hscr : getScriptIfLoaded s (u16 (E.segGet s script_nr)) = some scr) :
    (∀ freed s1, script_uninstantiate E Ld fuel s script_nr = some (freed, s1) →
      Ld.decrementLockers scr.lockers = 0 →
      s1.classtable = s.classtable.map (freeClassEntries freed) ∧
      u16 (E.segGet s script_nr) ∈ freed ∧
      ∃ scr1, getScriptIfLoaded s1 (u16 (E.segGet s script_nr)) = some scr1 ∧
        scr1.markedAsDeleted = true) ∧
    (Ld.decrementLockers scr.lockers = 0 → ¬ s.version < E.SCI_VERSION_1_1 →
      ∃ s1, script_uninstantiate E Ld (fuel + 1) s script_nr
        = some ([u16 (E.segGet s script_nr)], s1)) ∧
    (0 < Ld.decrementLockers scr.lockers →
      script_uninstantiate E Ld (fuel + 1) s script_nr
        = some ([], withScript s (u16 (E.segGet s script_nr))
            { scr with lockers := Ld.decrementLockers scr.lockers }) ∧
      (withScript s (u16 (E.segGet s script_nr))
        { scr with lockers := Ld.decrementLockers scr.lockers }).classtable = s.classtable ∧
      getScriptIfLoaded (withScript s (u16 (E.segGet s script_nr))
          { scr with lockers := Ld.decrementLockers scr.lockers })
          (u16 (E.segGet s script_nr))
        = some { scr with lockers := Ld.decrementLockers scr.lockers }) := by
  refine ⟨?_, ?_, ?_⟩
  · intro freed s1 h h0
    have hspec := script_uninstantiate_spec E Ld hdec fuel s script_nr freed s1 h
    cases fuel with
    | zero => simp [script_uninstantiate] at h
    | succ n =>
      unfold script_uninstantiate at h
      simp only [script_locate_by_segment, hscr, modScript_eq _ _ _ _ hscr] at h
      rw [if_neg (by omega)] at h
      have hz : ∃ x, getScriptIfLoaded
          (withScript s (u16 (E.segGet s script_nr))
            { scr with lockers := Ld.decrementLockers scr.lockers })
          (u16 (E.segGet s script_nr)) = some x ∧ x.lockers = 0 :=
        ⟨_, getScriptIfLoaded_withScript s _ scr _ hscr, h0⟩
      obtain ⟨x, hx, hx0⟩ := hz
      split at h
      · cases h
      · rename_i l3 s3 hr
        have h3 : ∃ scr3, getScriptIfLoaded s3 (u16 (E.segGet s script_nr)) = some scr3 ∧
            scr3.lockers = 0 := by
          split at hr
          · unfold script_uninstantiate_sci0 at hr
            exact (uninstantiateLoop_spec E Ld _ script_nr _
              (fun s0 nr l0 s10 hh => script_uninstantiate_spec E Ld hdec n s0 nr l0 s10 hh)
              _ _ _ _ _ _ hr).2 _ x hx hx0
          · cases hr
            exact ⟨x, hx, hx0⟩
        obtain ⟨scr3, hs3, hl3⟩ := h3
        rw [hs3] at h
        simp only [hl3, ne_eq, not_true_eq_false, if_false, modScript_eq _ _ _ _ hs3,
          Option.map_some', Option.some.injEq, Prod.mk.injEq] at h
        obtain ⟨hl, hs⟩ := h
        subst hl hs
        exact ⟨hspec.1, List.mem_cons_self _ _,
          ⟨_, getScriptIfLoaded_withScript s3 _ scr3 _ hs3, rfl⟩⟩
  · intro h0 hv
    have hx : getScriptIfLoaded
        { withScript s (u16 (E.segGet s script_nr))
            { scr with lockers := Ld.decrementLockers scr.lockers } with
          classtable := (withScript s (u16 (E.segGet s script_nr))
            { scr with lockers := Ld.decrementLockers scr.lockers }).classtable.map
              (freeClassEntry (u16 (E.segGet s script_nr))) }
        (u16 (E.segGet s script_nr))
          = some { scr with lockers := Ld.decrementLockers scr.lockers } :=
      getScriptIfLoaded_withScript s _ scr _ hscr
    unfold script_uninstantiate
    simp only [script_locate_by_segment, hscr, modScript_eq _ _ _ _ hscr]
    rw [if_neg (by omega)]
    have hv2 : ¬ (withScript s (u16 (E.segGet s script_nr))
        { scr with lockers := Ld.decrementLockers scr.lockers }).version
          < E.SCI_VERSION_1_1 := hv
    simp only [hv2, if_false, hx, modScript_eq _ _ _ _ hx]
    simp only [h0, ne_eq, not_true_eq_false, if_false,
      Option.map_some', Option.some.injEq, Prod.mk.injEq, true_and, exists_eq']
  · intro hpos
    refine ⟨?_, rfl, getScriptIfLoaded_withScript s _ scr _ hscr⟩
    unfold script_uninstantiate
    simp only [script_locate_by_segment, hscr, modScript_eq _ _ _ _ hscr]
    rw [if_pos hpos]

theorem uninstantiate_frees_class_table_witness :
    (exLoader.decrementLockers 0 = 0 ∧
      getScriptIfLoaded (exUnloadState 1) (u16 (exEnv.segGet (exUnloadState 1) 0))
        = some (exScript0 1) ∧
      script_uninstantiate exEnv exLoader 5 (exUnloadState 1) 0 = some ([1], exUnloadExit) ∧
      exLoader.decrementLockers (exScript0 1).lockers = 0) ∧
    (exUnloadExit.classtable = (exUnloadState 1).classtable.map (freeClassEntries [1]) ∧
      u16 (exEnv.segGet (exUnloadState 1) 0) ∈ [1] ∧
      ∃ scr1, getScriptIfLoaded exUnloadExit (u16 (exEnv.segGet (exUnloadState 1) 0))
          = some scr1 ∧ scr1.markedAsDeleted = true) ∧
    exUnloadExit.classtable = [⟨0, NULL_REG⟩, ⟨0, NULL_REG⟩, ⟨7, ⟨4, 10⟩⟩] ∧
    (∃ s1, script_uninstantiate exEnv exLoader 1 { exUnloadState 1 with version := 6 } 0
      = some ([1], s1)) ∧
    (0 < exLoader.decrementLockers (exScript0 2).lockers ∧
      script_uninstantiate exEnv exLoader 1 (exUnloadState 2) 0
        = some ([], withScript (exUnloadState 2) 1 (exScript0 1)) ∧
      (withScript (exUnloadState 2) 1 (exScript0 1)).classtable
        = (exUnloadState 2).classtable) :=
  ⟨⟨rfl, rfl, by decide, rfl⟩,
    (uninstantiate_frees_class_table exEnv exLoader 5 (exUnloadState 1) 0
      (exScript0 1) rfl rfl).1 [1] exUnloadExit (by decide) rfl,
    rfl,
    (uninstantiate_frees_class_table exEnv exLoader 0 { exUnloadState 1 with version := 6 } 0
      (exScript0 1) rfl rfl).2.1 rfl (by decide),
    by decide,
    ((uninstantiate_frees_class_table exEnv exLoader 0 (exUnloadState 2) 0
      (exScript0 2) rfl rfl).2.2 (by decide)).1,
    ((uninstantiate_frees_class_table exEnv exLoader 0 (exUnloadState 2) 0
      (exScript0 2) rfl rfl).2.2 (by decide)).2.1⟩

/-! ### Pointer arithmetic -/

/-- A pop through `POP32` when the stack pointer of the current frame is one above
the valid stack cell `i`. -/
theorem POP32_eq (L : VMLocals) (s : EngineState) (f : ExecStack) (i : Nat) (b : reg_t)
    (hf : getFrame s L.xs = some f) (hsp : f.sp = Ptr.stack (i + 1))
    (hb : s.stack[i]? = some b) :
    POP32 L s = some (b, popped L s f i) := by
  have hlt : i < s.stack.length := by
    by_contra hn
    rw [List.getElem?_eq_none (by omega)] at hb
    simp at hb
  unfold POP32
  simp only [hf, hsp, Ptr.add]
  rw [setFrame_eq s L.xs f _ hf]
  have e : ((i : Int) + 1 + -1) = (i : Int) := by omega
  simp only [e]
  rw [validate_stack_addr_ok _ i (by simpa using hlt)]
  simp only [load, idx, Int.natCast_nonneg, if_true, Int.toNat_ofNat, hb, Option.map_some',
    popped]

/-- C21, counterexample to the claim as stated: a register into a clones table
(segment 2 of the example state) resolves to an allocated region, and adding 0 to
it yields the null register. -/
theorem pointer_add_zero_counterexample :
    GET_SEGMENT_ANY exClonesState 2 = some (MemObject.MEM_OBJ_CLONES [some 0]) ∧
    pointer_add exClonesState ⟨2, 8⟩ 0 = (NULL_REG, exClonesState) ∧
    (⟨2, 8⟩ : reg_t) ≠ NULL_REG := by
  decide

/-- C21, amended: for a register whose segment resolves to a Locals, Script, Stack
or DynMem region, `pointer_add` with offset 0 returns the register as it is
(segment and offset) and leaves the state alone. -/
theorem pointer_add_zero (s : EngineState) (r : reg_t) (m : MemObject)
    (hm : GET_SEGMENT_ANY s r.segment = some m)
    (hk : (∃ b, m = MemObject.MEM_OBJ_LOCALS b) ∨ (∃ scr, m = MemObject.MEM_OBJ_SCRIPT scr) ∨
      m = MemObject.MEM_OBJ_STACK ∨ m = MemObject.MEM_OBJ_DYNMEM)
    (ho : r.offset < 65536) :
    pointer_add s r 0 = (r, s) := by
  have e : u16 ((r.offset : Int) + 0) = r.offset := by
    unfold u16
    omega
  have e2 : u16 ((r.offset : Int) + 2 * 0) = r.offset := by
    unfold u16
    omega
  unfold pointer_add
  rw [hm]
  rcases hk with ⟨b, rfl⟩ | ⟨scr, rfl⟩ | rfl | rfl <;> simp only [e, e2]

theorem pointer_add_zero_witness :
    (GET_SEGMENT_ANY exLocalsState 3 = some (MemObject.MEM_OBJ_LOCALS 0) ∧
      pointer_add exLocalsState ⟨3, 6⟩ 0 = (⟨3, 6⟩, exLocalsState)) ∧
    pointer_add exClonesState ⟨1, 8⟩ 0 = (⟨1, 8⟩, exClonesState) :=
  ⟨⟨rfl, pointer_add_zero exLocalsState ⟨3, 6⟩ (MemObject.MEM_OBJ_LOCALS 0) rfl
      (Or.inl ⟨0, rfl⟩) (by decide)⟩,
    pointer_add_zero exClonesState ⟨1, 8⟩ _ rfl (Or.inr (Or.inl ⟨_, rfl⟩)) (by decide)⟩

/-- C22 (does not hold for the code): `pointer_add` returns the null register in
both failure cases but raises the error flag only for a segment that resolves to no
region.  On the example state segment 9 is not allocated and segment 2 is a clones
table: adding 3 to a register of segment 9 raises the flag, adding 3 to a register
of the clones table leaves the state, and with it the flag, as it is; so `add`
with that register as operand ends with the null register in the accumulator and
the error flag clear. -/
theorem pointer_add_unsupported_keeps_flag :
    exClonesState.script_error_flag = 0 ∧
    GET_SEGMENT_ANY exClonesState 9 = none ∧
    pointer_add exClonesState ⟨9, 4⟩ 3 = (NULL_REG, setError exClonesState) ∧
    (setError exClonesState).script_error_flag = 1 ∧
    GET_SEGMENT_ANY exClonesState 2 = some (MemObject.MEM_OBJ_CLONES [some 0]) ∧
    pointer_add exClonesState ⟨2, 8⟩ 3 = (NULL_REG, exClonesState) ∧
    exObserve (execOpcode exEnv exLoopLocals exClonesState 0x01)
      = some ([Ptr.stack 0], NULL_REG, 0) := by
  decide

/-! ### Addition and subtraction -/

/-- C23: with the operand `b` on top of the stack and exactly one of `b` and the
accumulator a pointer, `add` sets the accumulator to `pointer_add(p, n)` and `sub`
to `pointer_add(p, -n)`, where `p` is the pointer among the two and `n` the offset
of the other; the operand is popped, and the state is the one `pointer_add` leaves. -/
theorem add_sub_one_pointer (E : Env) (L : VMLocals) (s : EngineState) (f : ExecStack)
    (i : Nat) (b : reg_t)
    (hf : getFrame s L.xs = some f) (hsp : f.sp = Ptr.stack (i + 1))
    (hb : s.stack[i]? = some b) :
    (b.segment ≠ 0 → s.r_acc.segment = 0 →
      execOpcode E L s 0x01 = some (Outcome.next L
        { (pointer_add (popped L s f i) b s.r_acc.offset).2 with
          r_acc := (pointer_add (popped L s f i) b s.r_acc.offset).1 }) ∧
      execOpcode E L s 0x02 = some (Outcome.next L
        { (pointer_add (popped L s f i) b (-(s.r_acc.offset : Int))).2 with
          r_acc := (pointer_add (popped L s f i) b (-(s.r_acc.offset : Int))).1 })) ∧
    (b.segment = 0 → s.r_acc.segment ≠ 0 →
      execOpcode E L s 0x01 = some (Outcome.next L
        { (pointer_add (popped L s f i) s.r_acc b.offset).2 with
          r_acc := (pointer_add (popped L s f i) s.r_acc b.offset).1 }) ∧
      execOpcode E L s 0x02 = some (Outcome.next L
        { (pointer_add (popped L s f i) s.r_acc (-(b.offset : Int))).2 with
          r_acc := (pointer_add (popped L s f i) s.r_acc (-(b.offset : Int))).1 })) := by
  have hp := POP32_eq L s f i b hf hsp hb
  have hacc : (popped L s f i).r_acc = s.r_acc := rfl
  refine ⟨fun h1 h2 => ⟨?_, ?_⟩, fun h1 h2 => ⟨?_, ?_⟩⟩
  all_goals
    simp only [execOpcode, OfNat.ofNat_ne_zero, OfNat.ofNat_ne_one, if_false, if_true,
      Nat.reduceEqDiff, case_addsub, hp, hacc, h1, h2, ne_eq, not_true_eq_false,
      not_false_eq_true, or_true, true_or, one_mul, neg_mul]

theorem add_sub_one_pointer_witness :
    (getFrame (exState [⟨1, 8⟩] [exBaseFrame 1] ⟨0, 4⟩) exLoopLocals.xs = some (exBaseFrame 1) ∧
      (exState [⟨1, 8⟩] [exBaseFrame 1] ⟨0, 4⟩).stack[0]? = some ⟨1, 8⟩) ∧
    (execOpcode exEnv exLoopLocals (exState [⟨1, 8⟩] [exBaseFrame 1] ⟨0, 4⟩) 0x01
        = some (Outcome.next exLoopLocals (exState [⟨1, 8⟩] [exBaseFrame 0] ⟨1, 12⟩)) ∧
      execOpcode exEnv exLoopLocals (exState [⟨1, 8⟩] [exBaseFrame 1] ⟨0, 4⟩) 0x02
        = some (Outcome.next exLoopLocals (exState [⟨1, 8⟩] [exBaseFrame 0] ⟨1, 4⟩))) ∧
    (execOpcode exEnv exLoopLocals (exState [⟨0, 4⟩] [exBaseFrame 1] ⟨1, 8⟩) 0x01
        = some (Outcome.next exLoopLocals (exState [⟨0, 4⟩] [exBaseFrame 0] ⟨1, 12⟩)) ∧
      execOpcode exEnv exLoopLocals (exState [⟨0, 4⟩] [exBaseFrame 1] ⟨1, 8⟩) 0x02
        = some (Outcome.next exLoopLocals (exState [⟨0, 4⟩] [exBaseFrame 0] ⟨1, 4⟩))) :=
  ⟨⟨rfl, rfl⟩,
    (add_sub_one_pointer exEnv exLoopLocals (exState [⟨1, 8⟩] [exBaseFrame 1] ⟨0, 4⟩)
      (exBaseFrame 1) 0 ⟨1, 8⟩ rfl rfl rfl).1 (by decide) rfl,
    (add_sub_one_pointer exEnv exLoopLocals (exState [⟨0, 4⟩] [exBaseFrame 1] ⟨1, 8⟩)
      (exBaseFrame 1) 0 ⟨0, 4⟩ rfl rfl rfl).2 rfl (by decide)⟩

/-- C24: with the operand `b` on top of the stack and both `b` and the accumulator
pointers, `add` and `sub` pop the operand, raise the error flag and leave the null
register in the accumulator. -/
theorem add_sub_two_pointers (E : Env) (L : VMLocals) (s : EngineState) (f : ExecStack)
    (i : Nat) (b : reg_t)
    (hf : getFrame s L.xs = some f) (hsp : f.sp = Ptr.stack (i + 1))
    (hb : s.stack[i]? = some b) (hbp : b.segment ≠ 0) (hap : s.r_acc.segment ≠ 0) :
    execOpcode E L s 0x01
      = some (Outcome.next L { setError (popped L s f i) with r_acc := NULL_REG }) ∧
    execOpcode E L s 0x02
      = some (Outcome.next L { setError (popped L s f i) with r_acc := NULL_REG }) ∧
    ({ setError (popped L s f i) with r_acc := NULL_REG } : EngineState).script_error_flag = 1 := by
  have hp := POP32_eq L s f i b hf hsp hb
  have hacc : (popped L s f i).r_acc = s.r_acc := rfl
  have hadd : ∀ k : Int, pointer_add (setError (popped L s f i)) NULL_REG (k * 0)
      = (NULL_REG, setError (popped L s f i)) := by
    intro k
    simp only [pointer_add, GET_SEGMENT_ANY, NULL_REG, lt_self_iff_false, if_false, mul_zero]
    rfl
  refine ⟨?_, ?_, rfl⟩
  all_goals
    simp only [execOpcode, OfNat.ofNat_ne_zero, OfNat.ofNat_ne_one, if_false, if_true,
      Nat.reduceEqDiff, case_addsub, hp, hacc, hbp, hap, ne_eq, not_true_eq_false,
      not_false_eq_true, or_true, true_or, hadd]

theorem add_sub_two_pointers_witness :
    execOpcode exEnv exLoopLocals (exState [⟨1, 8⟩] [exBaseFrame 1] ⟨1, 108⟩) 0x01
      = some (Outcome.next exLoopLocals
          { setError (popped exLoopLocals (exState [⟨1, 8⟩] [exBaseFrame 1] ⟨1, 108⟩)
              (exBaseFrame 1) 0) with r_acc := NULL_REG }) ∧
    exObserve (execOpcode exEnv exLoopLocals (exState [⟨1, 8⟩] [exBaseFrame 1] ⟨1, 108⟩) 0x02)
      = some ([Ptr.stack 0], NULL_REG, 1) :=
  ⟨(add_sub_two_pointers exEnv exLoopLocals (exState [⟨1, 8⟩] [exBaseFrame 1] ⟨1, 108⟩)
      (exBaseFrame 1) 0 ⟨1, 8⟩ rfl rfl rfl (by decide) (by decide)).1,
    by
      rw [(add_sub_two_pointers exEnv exLoopLocals (exState [⟨1, 8⟩] [exBaseFrame 1] ⟨1, 108⟩)
        (exBaseFrame 1) 0 ⟨1, 8⟩ rfl rfl rfl (by decide) (by decide)).2.1]
      rfl⟩

/-- C25: with the operand `b` on top of the stack and both `b` and the accumulator
plain, `add` leaves `(0, (b + a) mod 65536)` and `sub` leaves `(0, (b - a) mod 65536)`
in the accumulator; the operand is popped (the stack pointer goes down by one
cell) and nothing else changes, the error flag included. -/
theorem add_sub_plain (E : Env) (L : VMLocals) (s : EngineState) (f : ExecStack)
    (i : Nat) (b : reg_t)
    (hf : getFrame s L.xs = some f) (hsp : f.sp = Ptr.stack (i + 1))
    (hb : s.stack[i]? = some b) (hbp : b.segment = 0) (hap : s.r_acc.segment = 0) :
    execOpcode E L s 0x01 = some (Outcome.next L
      { popped L s f i with r_acc := ⟨0, (b.offset + s.r_acc.offset) % 65536⟩ }) ∧
    execOpcode E L s 0x02 = some (Outcome.next L
      { popped L s f i with
        r_acc := ⟨0, (((b.offset : Int) - s.r_acc.offset) % 65536).toNat⟩ }) ∧
    (popped L s f i).script_error_flag = s.script_error_flag ∧
    (getFrame (popped L s f i) L.xs).map (fun x => x.sp) = some (Ptr.stack i) := by
  have hp := POP32_eq L s f i b hf hsp hb
  have hacc : (popped L s f i).r_acc = s.r_acc := rfl
  have e1 : make_reg 0 ((b.offset : Int) + 1 * (s.r_acc.offset : Int))
      = ⟨0, (b.offset + s.r_acc.offset) % 65536⟩ := by
    simp only [make_reg, u16, reg_t.mk.injEq]
    constructor
    · rfl
    · omega
  have e2 : make_reg 0 ((b.offset : Int) + (-1) * (s.r_acc.offset : Int))
      = ⟨0, (((b.offset : Int) - s.r_acc.offset) % 65536).toNat⟩ := by
    simp only [make_reg, u16, reg_t.mk.injEq]
    constructor
    · rfl
    · congr 2
      ring
  refine ⟨?_, ?_, rfl, ?_⟩
  · simp only [execOpcode, OfNat.ofNat_ne_zero, OfNat.ofNat_ne_one, if_false, if_true,
      Nat.reduceEqDiff, case_addsub, hp, hacc, hbp, hap, ne_eq, not_true_eq_false,
      or_self, e1]
  · simp only [execOpcode, OfNat.ofNat_ne_zero, OfNat.ofNat_ne_one, if_false, if_true,
      Nat.reduceEqDiff, case_addsub, hp, hacc, hbp, hap, ne_eq, not_true_eq_false,
      or_self, e2]
  · unfold popped
    rw [getFrame_set s L.xs f _ hf]
    rfl

theorem add_sub_plain_witness :
    execOpcode exEnv exLoopLocals (exState [⟨0, 65530⟩] [exBaseFrame 1] ⟨0, 10⟩) 0x01
      = some (Outcome.next exLoopLocals (exState [⟨0, 65530⟩] [exBaseFrame 0] ⟨0, 4⟩)) ∧
    execOpcode exEnv exLoopLocals (exState [⟨0, 3⟩] [exBaseFrame 1] ⟨0, 10⟩) 0x02
      = some (Outcome.next exLoopLocals (exState [⟨0, 3⟩] [exBaseFrame 0] ⟨0, 65529⟩)) :=
  ⟨(add_sub_plain exEnv exLoopLocals (exState [⟨0, 65530⟩] [exBaseFrame 1] ⟨0, 10⟩)
      (exBaseFrame 1) 0 ⟨0, 65530⟩ rfl rfl rfl rfl rfl).1,
    (add_sub_plain exEnv exLoopLocals (exState [⟨0, 3⟩] [exBaseFrame 1] ⟨0, 10⟩)
      (exBaseFrame 1) 0 ⟨0, 3⟩ rfl rfl rfl rfl rfl).2.1⟩

/-! ### Comparisons -/

theorem make_reg_truth (c : Prop) [Decidable c] :
    make_reg 0 (if c then 1 else 0) = ⟨0, if c then 1 else 0⟩ := by
  split <;> rfl

theorem case_regcmp_eq (L : VMLocals) (s : EngineState) (f : ExecStack) (i : Nat) (b : reg_t)
    (g : reg_t → reg_t → Bool)
    (hf : getFrame s L.xs = some f) (hsp : f.sp = Ptr.stack (i + 1))
    (hb : s.stack[i]? = some b) :
    case_regcmp L s g = some (Outcome.next L
      { popped L { s with r_prev := s.r_acc } f i with
        r_acc := ⟨0, if g b s.r_acc = true then 1 else 0⟩ }) := by
  have hp := POP32_eq L { s with r_prev := s.r_acc } f i b hf hsp hb
  unfold case_regcmp
  rw [hp]
  simp only [make_reg_truth]
  rfl

theorem case_binary_truth (L : VMLocals) (s : EngineState) (f : ExecStack) (i : Nat) (b : reg_t)
    (g : Int → Int → Prop) [∀ x y, Decidable (g x y)]
    (hf : getFrame s L.xs = some f) (hsp : f.sp = Ptr.stack (i + 1))
    (hb : s.stack[i]? = some b) :
    ∃ s1 v, case_binary L s true (fun x y => if g x y then 1 else 0)
        = some (Outcome.next L s1) ∧
      s1.r_prev = s.r_acc ∧ s1.r_acc = ⟨0, v⟩ ∧ v ≤ 1 := by
  have hp := POP32_eq L { s with r_prev := s.r_acc } f i b hf hsp hb
  unfold case_binary POP
  simp only [if_true, hp, Option.map_some', make_reg_truth]
  refine ⟨_, _, rfl, ?_, rfl, ?_⟩
  · unfold validate_arithmetic popped setError
    repeat' split
    all_goals rfl
  · split <;> omega

/-- C26: with an operand `b` on top of the stack, each of the comparison opcodes
`eq?` (0x0d) to `ule?` (0x16) goes on to the next instruction with the
accumulator of before in `r_prev` and a plain register of offset 0 or 1 in the
accumulator, whatever `b` and the accumulator hold. -/
theorem comparison_sets_prev_and_truth (E : Env) (L : VMLocals) (s : EngineState)
    (f : ExecStack) (i : Nat) (b : reg_t) (op : Nat)
    (hf : getFrame s L.xs = some f) (hsp : f.sp = Ptr.stack (i + 1))
    (hb : s.stack[i]? = some b) (hop : 0x0d ≤ op ∧ op ≤ 0x16) :
    ∃ s1 v, execOpcode E L s op = some (Outcome.next L s1) ∧
      s1.r_prev = s.r_acc ∧ s1.r_acc = ⟨0, v⟩ ∧ v ≤ 1 := by
  have hr : ∀ g : reg_t → reg_t → Bool, ∃ s1 v, case_regcmp L s g = some (Outcome.next L s1) ∧
      s1.r_prev = s.r_acc ∧ s1.r_acc = ⟨0, v⟩ ∧ v ≤ 1 := by
    intro g
    refine ⟨_, _, case_regcmp_eq L s f i b g hf hsp hb, rfl, rfl, ?_⟩
    split <;> omega
  obtain ⟨h1, h2⟩ := hop
  interval_cases op
  all_goals simp only [execOpcode, OfNat.ofNat_ne_zero, OfNat.ofNat_ne_one, if_false, if_true,
    Nat.reduceEqDiff]
  all_goals first
    | exact hr _
    | exact case_binary_truth L s f i b (fun x y => i16 x > i16 y) hf hsp hb
    | exact case_binary_truth L s f i b (fun x y => i16 x ≥ i16 y) hf hsp hb
    | exact case_binary_truth L s f i b (fun x y => i16 x < i16 y) hf hsp hb
    | exact case_binary_truth L s f i b (fun x y => i16 x ≤ i16 y) hf hsp hb

theorem comparison_sets_prev_and_truth_witness :
    (getFrame (exState [⟨1, 8⟩] [exBaseFrame 1] ⟨1, 108⟩) exLoopLocals.xs
        = some (exBaseFrame 1) ∧
      (exState [⟨1, 8⟩] [exBaseFrame 1] ⟨1, 108⟩).stack[0]? = some ⟨1, 8⟩) ∧
    (∃ s1 v, execOpcode exEnv exLoopLocals (exState [⟨1, 8⟩] [exBaseFrame 1] ⟨1, 108⟩) 0x0f
        = some (Outcome.next exLoopLocals s1) ∧
      s1.r_prev = ⟨1, 108⟩ ∧ s1.r_acc = ⟨0, v⟩ ∧ v ≤ 1) ∧
    (∃ s1 v, execOpcode exEnv exLoopLocals (exState [⟨1, 8⟩] [exBaseFrame 1] ⟨1, 108⟩) 0x0e
        = some (Outcome.next exLoopLocals s1) ∧
      s1.r_prev = ⟨1, 108⟩ ∧ s1.r_acc = ⟨0, v⟩ ∧ v ≤ 1) :=
  ⟨⟨rfl, rfl⟩,
    comparison_sets_prev_and_truth exEnv exLoopLocals (exState [⟨1, 8⟩] [exBaseFrame 1] ⟨1, 108⟩)
      (exBaseFrame 1) 0 ⟨1, 8⟩ 0x0f rfl rfl rfl (by decide),
    comparison_sets_prev_and_truth exEnv exLoopLocals (exState [⟨1, 8⟩] [exBaseFrame 1] ⟨1, 108⟩)
      (exBaseFrame 1) 0 ⟨1, 8⟩ 0x0e rfl rfl rfl (by decide)⟩

/-- C27: with an operand `b` on top of the stack, `ugt?`, `uge?`, `ult?` and `ule?`
(0x13 to 0x16) leave 0 in the accumulator when `b` and the accumulator are of
different segments, and otherwise the truth value of the comparison of the two
offsets as unsigned numbers, the offset of `b` on the left. -/
theorem unsigned_comparison (E : Env) (L : VMLocals) (s : EngineState)
    (f : ExecStack) (i : Nat) (b : reg_t)
    (hf : getFrame s L.xs = some f) (hsp : f.sp = Ptr.stack (i + 1))
    (hb : s.stack[i]? = some b) :
    execOpcode E L s 0x13 = some (Outcome.next L
      { popped L { s with r_prev := s.r_acc } f i with
        r_acc := ⟨0, if b.segment ≠ s.r_acc.segment then 0
          else if b.offset > s.r_acc.offset then 1 else 0⟩ }) ∧
    execOpcode E L s 0x14 = some (Outcome.next L
      { popped L { s with r_prev := s.r_acc } f i with
        r_acc := ⟨0, if b.segment ≠ s.r_acc.segment then 0
          else if b.offset ≥ s.r_acc.offset then 1 else 0⟩ }) ∧
    execOpcode E L s 0x15 = some (Outcome.next L
      { popped L { s with r_prev := s.r_acc } f i with
        r_acc := ⟨0, if b.segment ≠ s.r_acc.segment then 0
          else if b.offset < s.r_acc.offset then 1 else 0⟩ }) ∧
    execOpcode E L s 0x16 = some (Outcome.next L
      { popped L { s with r_prev := s.r_acc } f i with
        r_acc := ⟨0, if b.segment ≠ s.r_acc.segment then 0
          else if b.offset ≤ s.r_acc.offset then 1 else 0⟩ }) := by
  have e : ∀ (p q : Prop) [Decidable p] [Decidable q],
      (if decide (p ∧ q) = true then 1 else 0 : Nat) = if ¬ p then 0 else if q then 1 else 0 := by
    intro p q _ _
    by_cases hp : p <;> by_cases hq : q <;> simp [hp, hq]
  refine ⟨?_, ?_, ?_, ?_⟩
  all_goals
    simp only [execOpcode, OfNat.ofNat_ne_zero, OfNat.ofNat_ne_one, if_false, if_true,
      Nat.reduceEqDiff]
    rw [case_regcmp_eq L s f i b _ hf hsp hb]
    simp only [e, ne_eq]

theorem unsigned_comparison_witness :
    (getFrame (exState [⟨1, 0x9000⟩] [exBaseFrame 1] ⟨1, 3⟩) exLoopLocals.xs
        = some (exBaseFrame 1) ∧
      (exState [⟨1, 0x9000⟩] [exBaseFrame 1] ⟨1, 3⟩).stack[0]? = some ⟨1, 0x9000⟩) ∧
    exObserve (execOpcode exEnv exLoopLocals (exState [⟨1, 0x9000⟩] [exBaseFrame 1] ⟨1, 3⟩) 0x13)
      = some ([Ptr.stack 0], ⟨0, 1⟩, 0) ∧
    exObserve (execOpcode exEnv exLoopLocals (exState [⟨1, 0x9000⟩] [exBaseFrame 1] ⟨1, 3⟩) 0x15)
      = some ([Ptr.stack 0], ⟨0, 0⟩, 0) ∧
    exObserve (execOpcode exEnv exLoopLocals (exState [⟨2, 0x9000⟩] [exBaseFrame 1] ⟨1, 3⟩) 0x13)
      = some ([Ptr.stack 0], ⟨0, 0⟩, 0) ∧
    exObserve (execOpcode exEnv exLoopLocals (exState [⟨2, 1⟩] [exBaseFrame 1] ⟨1, 3⟩) 0x16)
      = some ([Ptr.stack 0], ⟨0, 0⟩, 0) :=
  ⟨⟨rfl, rfl⟩,
    by
      rw [(unsigned_comparison exEnv exLoopLocals (exState [⟨1, 0x9000⟩] [exBaseFrame 1] ⟨1, 3⟩)
        (exBaseFrame 1) 0 ⟨1, 0x9000⟩ rfl rfl rfl).1]
      rfl,
    by
      rw [(unsigned_comparison exEnv exLoopLocals (exState [⟨1, 0x9000⟩] [exBaseFrame 1] ⟨1, 3⟩)
        (exBaseFrame 1) 0 ⟨1, 0x9000⟩ rfl rfl rfl).2.2.1]
      rfl,
    by
      rw [(unsigned_comparison exEnv exLoopLocals (exState [⟨2, 0x9000⟩] [exBaseFrame 1] ⟨1, 3⟩)
        (exBaseFrame 1) 0 ⟨2, 0x9000⟩ rfl rfl rfl).1]
      rfl,
    by
      rw [(unsigned_comparison exEnv exLoopLocals (exState [⟨2, 1⟩] [exBaseFrame 1] ⟨1, 3⟩)
        (exBaseFrame 1) 0 ⟨2, 1⟩ rfl rfl rfl).2.2.2]
      rfl⟩
/-! ### Pending variable accesses -/

theorem validate_arithmetic_frames {s : EngineState} {r : reg_t} :
    (validate_arithmetic s r).2.executionStack = s.executionStack := by
  unfold validate_arithmetic setError
  repeat' split
  all_goals rfl

theorem validate_arithmetic_fwas {s : EngineState} {r : reg_t} (a : Int × EngineState) :
    validate_arithmetic s r = a ↔ Was (validate_arithmetic s r) a ∧
      a.2.executionStack = s.executionStack :=
  ⟨fun h => ⟨h, by rw [← h]; exact validate_arithmetic_frames⟩, fun h => h.1⟩

theorem lookup_selector_fwas {E : Env} {s : EngineState} {loc : reg_t} {sel : Int}
    (a : LookupResult × EngineState) :
    lookup_selector E s loc sel = some a ↔ Was (lookup_selector E s loc sel) (some a) ∧
      a.2.executionStack = s.executionStack :=
  ⟨fun h => ⟨h, SameButFlagsAndObjects_es_eq _ _ (lookup_selector_state E s a.2 loc sel a.1 h).2⟩,
    fun h => h.1⟩

theorem setError_frames (s : EngineState) : (setError s).executionStack = s.executionStack := rfl

theorem script_error_frames (s : EngineState) :
    (script_error s).executionStack = s.executionStack := rfl

theorem sendLoop_frames {E : Env} {send_obj : reg_t} {fuel : Nat} {s : EngineState} {sp : Ptr}
    {framesize : Int} {argp : Ptr} {sendCalls : List CallsStruct}
    {a : Option (List CallsStruct) × EngineState}
    (h : sendLoop E send_obj fuel s sp framesize argp sendCalls = some a) :
    a.2.executionStack = s.executionStack := by
  induction fuel generalizing s sp framesize argp sendCalls with
  | zero =>
    unfold sendLoop at h
    repeat' split at h
    all_goals (try simp_all)
    all_goals (try (subst_vars; rfl))
  | succ n ih =>
    unfold sendLoop at h
    repeat' split at h
    all_goals (try have ih2 := ih h)
    all_goals (try simp_all [setError_frames, script_error_frames, validate_arithmetic_fwas,
      validate_arithmetic_frames, lookup_selector_fwas])
    all_goals (try (repeat' split at h))
    all_goals (try have ih2 := ih h)
    all_goals (try simp_all [setError_frames, script_error_frames, validate_arithmetic_fwas,
      validate_arithmetic_frames, lookup_selector_fwas])
    all_goals (try (revert h; (try simp only [exists_imp, and_imp,
          forall_exists_index]); intros; subst_vars; first | rfl | simp_all [setError_frames,
          script_error_frames, validate_arithmetic_fwas, validate_arithmetic_frames,
          lookup_selector_fwas]))

theorem store_frames (s s1 : EngineState) (p : Ptr) (w : reg_t) (h : store s p w = some s1) :
    s1.executionStack = s.executionStack ∧ s1.r_acc = s.r_acc := by
  cases p with
  | null => simp [store] at h
  | stack i =>
    simp only [store, Option.map_eq_some'] at h
    obtain ⟨_, _, rfl⟩ := h
    exact ⟨rfl, rfl⟩
  | prop o i =>
    simp only [store, Option.bind_eq_some, Option.map_eq_some'] at h
    obtain ⟨_, _, _, _, rfl⟩ := h
    exact ⟨rfl, rfl⟩
  | locals bl i =>
    simp only [store, Option.bind_eq_some, Option.map_eq_some'] at h
    obtain ⟨_, _, _, _, rfl⟩ := h
    exact ⟨rfl, rfl⟩

/-- A slot that can be read can be written, and reads back what was written. -/
theorem store_load (s : EngineState) (p : Ptr) (old w : reg_t) (h : load s p = some old) :
    ∃ s1, store s p w = some s1 ∧ load s1 p = some w := by
  have hidx : ∀ (l : List reg_t) (i : Int), idx l i = some old →
      setIdx l i w = some (l.set i.toNat w) ∧ idx (l.set i.toNat w) i = some w := by
    intro l i hi
    unfold idx at hi
    split at hi
    · rename_i h0
      have hlt : i.toNat < l.length := by
        by_contra hn
        rw [List.getElem?_eq_none (by omega)] at hi
        simp at hi
      simp only [setIdx, idx, h0, hlt, and_self, if_true, true_and]
      rw [List.getElem?_set_self hlt]
    · simp at hi
  cases p with
  | null => simp [load] at h
  | stack i =>
    simp only [load] at h
    obtain ⟨h1, h2⟩ := hidx _ _ h
    refine ⟨{ s with stack := s.stack.set i.toNat w }, ?_, h2⟩
    simp only [store, h1, Option.map_some']
  | prop o i =>
    simp only [load, Option.bind_eq_some] at h
    obtain ⟨ob, hob, hi⟩ := h
    obtain ⟨h1, h2⟩ := hidx _ _ hi
    have hlt : o < s.objects.length := by
      by_contra hn
      rw [List.getElem?_eq_none (by omega)] at hob
      simp at hob
    have hst : ∃ s1, store s (Ptr.prop o i) w = some s1 ∧
        s1.objects = s.objects.set o { ob with _variables := ob._variables.set i.toNat w } := by
      simp only [store, hob, Option.some_bind, h1, Option.map_some', Option.some.injEq,
        exists_eq_left']
    obtain ⟨s1, hs1, hobj⟩ := hst
    refine ⟨s1, hs1, ?_⟩
    simp only [load, hobj, List.getElem?_set_self hlt, Option.some_bind]
    exact h2
  | locals bl i =>
    simp only [load, Option.bind_eq_some] at h
    obtain ⟨l, hl, hi⟩ := h
    obtain ⟨h1, h2⟩ := hidx _ _ hi
    have hlt : bl < s.localsBlocks.length := by
      by_contra hn
      rw [List.getElem?_eq_none (by omega)] at hl
      simp at hl
    refine ⟨{ s with localsBlocks := s.localsBlocks.set bl (l.set i.toNat w) }, ?_, ?_⟩
    · simp only [store, hl, Option.some_bind, h1, Option.map_some']
    · simp only [load, List.getElem?_set_self hlt, Option.some_bind]
      exact h2

theorem execVarselector_setFrames (s : EngineState) (es : List ExecStack) (v : ExecStack) :
    execVarselector { s with executionStack := es } v
      = (execVarselector s v).map (fun x => { x with executionStack := es }) := by
  unfold execVarselector
  have hl : ∀ p, load { s with executionStack := es } p = load s p := by
    intro p; cases p <;> rfl
  have hs : ∀ p w, store { s with executionStack := es } p w
      = (store s p w).map (fun x => { x with executionStack := es }) := by
    intro p w
    cases p with
    | null => rfl
    | stack i =>
      simp only [store]
      cases setIdx s.stack i w <;> rfl
    | prop o i =>
      simp only [store]
      cases s.objects[o]? with
      | none => rfl
      | some ob =>
        simp only [Option.some_bind]
        cases setIdx ob._variables i w <;> rfl
    | locals bl i =>
      simp only [store]
      cases s.localsBlocks[bl]? with
      | none => rfl
      | some l =>
        simp only [Option.some_bind]
        cases setIdx l i w <;> rfl
  by_cases hc : v.argc ≠ 0
  · rw [if_pos hc, if_pos hc]
    simp only [hl, hs]
    cases load s (v.variables_argp.add 1) <;> rfl
  · rw [if_neg hc, if_neg hc]
    simp only [hl]
    cases load s v.addr_varp <;> rfl

theorem drainAccesses_setFrames (es : List ExecStack) :
    ∀ (vs : List ExecStack) (s : EngineState),
      drainAccesses vs { s with executionStack := es }
        = (drainAccesses vs s).map (fun x => { x with executionStack := es }) := by
  intro vs
  induction vs with
  | nil => intro s; rfl
  | cons v vs ih =>
    intro s
    simp only [drainAccesses, execVarselector_setFrames]
    cases execVarselector s v with
    | none => rfl
    | some s1 => simp only [Option.map_some', Option.some_bind, ih]

/-- The loop of `_exec_varselectors` on an execution stack that begins with the
VARSELECTOR frames `vs`, followed by `rest` with no such frame on top. -/
theorem execVarselectorsLoop_drain (rest : List ExecStack)
    (hrest : ∀ c ∈ rest.head?, c.type = EXEC_STACK_TYPE_CALL) :
    ∀ (vs : List ExecStack) (n : Nat) (s : EngineState),
      s.executionStack = vs ++ rest →
      (∀ v ∈ vs, v.type = EXEC_STACK_TYPE_VARSELECTOR) → vs.length ≤ n →
      execVarselectorsLoop n s
        = (drainAccesses vs s).map (fun x => { x with executionStack := rest }) := by
  intro vs
  induction vs with
  | nil =>
    intro n s hes _ _
    have hs : ({ s with executionStack := rest } : EngineState) = s := by
      rw [← List.nil_append rest, ← hes]
    simp only [drainAccesses, Option.map_some', hs]
    cases n with
    | zero => rfl
    | succ n =>
      unfold execVarselectorsLoop
      simp only [List.nil_append] at hes
      cases hr : rest with
      | nil => simp only [hes, hr]
      | cons c cs =>
        have hc := hrest c (by rw [hr]; rfl)
        simp only [hes, hr, hc, reduceCtorEq, if_false]
  | cons v vs ih =>
    intro n s hes hvs hn
    obtain ⟨n, rfl⟩ : ∃ m, n = m + 1 := ⟨n - 1, by simp only [List.length_cons] at hn; omega⟩
    have hv := hvs v (List.mem_cons_self _ _)
    unfold execVarselectorsLoop
    simp only [hes, List.cons_append, hv, if_true, drainAccesses]
    cases hx : execVarselector s v with
    | none => rfl
    | some s1 =>
      have hk := (execVarselector_keeps_es s s1 v hx).1
      simp only [Option.some_bind, hk, hes, List.cons_append, List.tail_cons]
      rw [ih n { s1 with executionStack := vs ++ rest } rfl
        (fun w hw => hvs w (List.mem_cons_of_mem _ hw))
        (by simp only [List.length_cons] at hn; omega)]
      rw [drainAccesses_setFrames, Option.map_map]
      rfl

/-- C29: on an execution stack that begins with the VARSELECTOR frames `vs` (nearest
to the top first) followed by `rest`, which is empty or has a CALL frame on top,
`_exec_varselectors` executes the accesses of `vs` in order and pops exactly these
frames.  The access of a frame without arguments copies its slot into the
accumulator and changes nothing else; the access of a frame with one or more
arguments is the store of argument 1 (`argp[1]`) to the slot, which leaves the
accumulator alone, whatever the further arguments are. -/
theorem exec_varselectors_drains (s : EngineState) (vs rest : List ExecStack)
    (hes : s.executionStack = vs ++ rest)
    (hvs : ∀ v ∈ vs, v.type = EXEC_STACK_TYPE_VARSELECTOR)
    (hrest : ∀ c ∈ rest.head?, c.type = EXEC_STACK_TYPE_CALL) :
    _exec_varselectors s
      = (drainAccesses vs s).map (fun x => { x with executionStack := rest }) ∧
    (∀ (s0 : EngineState) (v : ExecStack) (w : reg_t), v.argc = 0 →
      load s0 v.addr_varp = some w →
      execVarselector s0 v = some { s0 with r_acc := w } ∧
      load { s0 with r_acc := w } v.addr_varp = some w) ∧
    (∀ (s0 : EngineState) (v : ExecStack) (w old : reg_t), 1 ≤ v.argc →
      load s0 (v.variables_argp.add 1) = some w → load s0 v.addr_varp = some old →
      execVarselector s0 v = store s0 v.addr_varp w ∧
      ∃ s1, execVarselector s0 v = some s1 ∧ load s1 v.addr_varp = some w ∧
        s1.r_acc = s0.r_acc) := by
  refine ⟨?_, ?_, ?_⟩
  · unfold _exec_varselectors
    exact execVarselectorsLoop_drain rest hrest vs _ s hes hvs (by rw [hes]; simp)
  · intro s0 v w h0 hl
    refine ⟨?_, ?_⟩
    · simp only [execVarselector, h0, ne_eq, not_true_eq_false, if_false, hl, Option.map_some']
    · rw [← hl]
      cases v.addr_varp <;> rfl
  · intro s0 v w old h1 hw hold
    have hne : v.argc ≠ 0 := by omega
    have he : execVarselector s0 v = store s0 v.addr_varp w := by
      simp only [execVarselector, hne, ne_eq, not_false_eq_true, if_true, hw, Option.some_bind]
    obtain ⟨s1, hs1, hl1⟩ := store_load s0 v.addr_varp old w hold
    exact ⟨he, s1, by rw [he, hs1], hl1, (store_frames s0 s1 _ w hs1).2⟩

theorem exec_varselectors_drains_witness :
    (exPendingState.executionStack = exPending ++ [exBaseFrame 1] ∧
      (∀ v ∈ exPending, v.type = EXEC_STACK_TYPE_VARSELECTOR) ∧
      (∀ c ∈ [exBaseFrame 1].head?, c.type = EXEC_STACK_TYPE_CALL)) ∧
    _exec_varselectors exPendingState
      = (drainAccesses exPending exPendingState).map
          (fun x => { x with executionStack := [exBaseFrame 1] }) ∧
    (_exec_varselectors exPendingState).map
        (fun x => (x.executionStack, x.r_acc, (x.objects[0]?).map (fun ob => ob._variables)))
      = some ([exBaseFrame 1], ⟨0, 42⟩,
          some [⟨1, 108⟩, ⟨1, 108⟩, ⟨0, 0⟩, ⟨0, 77⟩, ⟨0, 42⟩]) :=
  ⟨⟨rfl, by decide, by decide⟩,
    (exec_varselectors_drains exPendingState exPending [exBaseFrame 1] rfl (by decide)
      (by decide)).1,
    by decide⟩

/-! ### No pending access survives a send -/

theorem execVarselectorsLoop_top :
    ∀ (n : Nat) (s s3 : EngineState), execVarselectorsLoop n s = some s3 →
      s.executionStack.length ≤ n →
      ∀ c ∈ s3.executionStack.head?, c.type = EXEC_STACK_TYPE_CALL := by
  intro n
  induction n with
  | zero =>
    intro s s3 h hn c hc
    simp only [execVarselectorsLoop, Option.some.injEq] at h
    subst h
    have : s.executionStack = [] := List.length_eq_zero.mp (by omega)
    rw [this] at hc
    simp at hc
  | succ n ih =>
    intro s s3 h hn
    unfold execVarselectorsLoop at h
    cases hes : s.executionStack with
    | nil =>
      simp only [hes, Option.some.injEq] at h
      subst h
      intro c hc
      rw [hes] at hc
      simp at hc
    | cons x rest =>
      simp only [hes] at h
      by_cases hx : x.type = EXEC_STACK_TYPE_VARSELECTOR
      · simp only [hx, if_true] at h
        cases hv : execVarselector s x with
        | none => simp [hv] at h
        | some s1 =>
          simp only [hv] at h
          have hk := (execVarselector_keeps_es s s1 x hv).1
          refine ih _ s3 h ?_
          simp only [hk, hes, List.tail_cons]
          rw [hes] at hn
          simp only [List.length_cons] at hn
          omega
      · simp only [hx, if_false, Option.some.injEq] at h
        subst h
        intro c hc
        rw [hes] at hc
        simp only [List.head?_cons, Option.mem_def, Option.some.injEq] at hc
        subst hc
        cases ht : x.type with
        | EXEC_STACK_TYPE_CALL => rfl
        | EXEC_STACK_TYPE_VARSELECTOR => exact absurd ht hx

theorem add_exec_stack_varselector_frames (s s1 : EngineState) (objp : reg_t) (argc : Int)
    (argp : Ptr) (selector : Int) (address : Ptr) (origin : Int)
    (h : add_exec_stack_varselector s objp argc argp selector address origin = some s1) :
    ∃ v, s1.executionStack = v :: s.executionStack ∧ v.type = EXEC_STACK_TYPE_VARSELECTOR := by
  unfold add_exec_stack_varselector add_exec_stack_entry at h
  cases hst : store s argp (make_reg 0 argc) with
  | none => simp [hst] at h
  | some s0 =>
    have hk := (store_frames s s0 _ _ hst).1
    simp only [hst, Option.map_some', Option.some.injEq] at h
    subst h
    simp only [hk]
    exact ⟨_, rfl, rfl⟩

theorem pushCalls_varselectors (send_obj work_obj : reg_t) (origin : Int) :
    ∀ (calls : List CallsStruct) (s s2 : EngineState),
      (∀ c ∈ calls, c.type = EXEC_STACK_TYPE_VARSELECTOR) →
      pushCalls send_obj work_obj origin calls s = some s2 →
      ∃ vs, s2.executionStack = vs ++ s.executionStack ∧
        ∀ v ∈ vs, v.type = EXEC_STACK_TYPE_VARSELECTOR := by
  intro calls
  induction calls with
  | nil =>
    intro s s2 _ h
    simp only [pushCalls, Option.some.injEq] at h
    subst h
    exact ⟨[], rfl, by simp⟩
  | cons c cs ih =>
    intro s s2 hty h
    have hc := hty c (List.mem_cons_self _ _)
    unfold pushCalls at h
    simp only [hc, if_true] at h
    cases ha : add_exec_stack_varselector s work_obj c.argc c.argp c.selector c.address_var
        origin with
    | none => simp [ha] at h
    | some s1 =>
      simp only [ha] at h
      obtain ⟨v, hv, hvt⟩ := add_exec_stack_varselector_frames _ _ _ _ _ _ _ _ ha
      obtain ⟨vs, hvs, hvst⟩ := ih s1 s2 (fun d hd => hty d (List.mem_cons_of_mem _ hd)) h
      refine ⟨vs ++ [v], by rw [hvs, hv]; simp, ?_⟩
      intro w hw
      simp only [List.mem_append, List.mem_singleton] at hw
      rcases hw with hw | rfl
      · exact hvst w hw
      · exact hvt

/-- C30: when the walk over the send frame ends without the error of an oversized
argument count and `send_selector` returns, the execution stack is empty (the
result is NULL) or has a CALL frame on top, which is the frame returned.  If all
the calls registered by the walk are variable accesses and the send is issued with
a CALL frame on top, the execution stack afterwards is the one of before, and the
frame returned is that top frame. -/
theorem send_leaves_no_varselector (E : Env) (s : EngineState) (send_obj work_obj : reg_t)
    (sp : Ptr) (framesize : Int) (argp : Ptr) (calls : List CallsStruct) (s0 s1 : EngineState)
    (r : Option Nat)
    (hloop : sendLoop E send_obj framesize.toNat s sp framesize argp [] = some (some calls, s0))
    (h : send_selector E s send_obj work_obj sp framesize argp = some (r, s1)) :
    ((s1.executionStack = [] ∧ r = none) ∨
      ∃ c rest, s1.executionStack = c :: rest ∧ c.type = EXEC_STACK_TYPE_CALL ∧
        r = some rest.length ∧ getFrame s1 rest.length = some c) ∧
    ((∀ c ∈ calls, c.type = EXEC_STACK_TYPE_VARSELECTOR) →
      ∀ t rest, s.executionStack = t :: rest → t.type = EXEC_STACK_TYPE_CALL →
        s1.executionStack = s.executionStack ∧ r = some rest.length ∧
        getFrame s1 rest.length = some t) := by
  have hs0 : s0.executionStack = s.executionStack := sendLoop_frames hloop
  unfold send_selector at h
  simp only [hloop] at h
  cases hp : pushCalls send_obj work_obj (esSize s - 1) calls s0 with
  | none => simp [hp] at h
  | some s2 =>
    simp only [hp] at h
    cases hx : _exec_varselectors s2 with
    | none => simp [hx] at h
    | some s3 =>
      simp only [hx] at h
      have htop := execVarselectorsLoop_top _ s2 s3 hx (le_refl _)
      have hret : s3 = s1 ∧ ((s1.executionStack = [] ∧ r = none) ∨
          ∃ c rest, s1.executionStack = c :: rest ∧ c.type = EXEC_STACK_TYPE_CALL ∧
            r = some rest.length ∧ getFrame s1 rest.length = some c) := by
        cases hes : s3.executionStack with
        | nil =>
          simp only [hes, List.isEmpty_nil, if_true, Option.some.injEq, Prod.mk.injEq] at h
          obtain ⟨hr, hs⟩ := h
          subst hs
          exact ⟨rfl, Or.inl ⟨hes, hr.symm⟩⟩
        | cons c rest =>
          simp only [hes, List.isEmpty_cons, Bool.false_eq_true, if_false, List.length_cons,
            Nat.add_sub_cancel, Option.some.injEq, Prod.mk.injEq] at h
          obtain ⟨hr, hs⟩ := h
          subst hs
          exact ⟨rfl, Or.inr ⟨c, rest, hes, htop c (by rw [hes]; rfl), hr.symm,
            getFrame_top _ c rest hes⟩⟩
      obtain ⟨hs31, hret⟩ := hret
      subst hs31
      refine ⟨hret, ?_⟩
      intro hty t rest hes ht
      obtain ⟨vs, hvs, hvst⟩ := pushCalls_varselectors _ _ _ calls s0 s2 hty hp
      rw [hs0, hes] at hvs
      have hd := execVarselectorsLoop_drain (t :: rest)
        (by intro c hc; simp only [List.head?_cons, Option.mem_def, Option.some.injEq] at hc
            subst hc; exact ht)
        vs s2.executionStack.length s2 hvs hvst (by rw [hvs]; simp)
      unfold _exec_varselectors at hx
      rw [hd] at hx
      simp only [Option.map_eq_some'] at hx
      obtain ⟨y, _, hy⟩ := hx
      have he : s3.executionStack = t :: rest := by rw [← hy]
      rcases hret with ⟨hn, _⟩ | ⟨c, rest2, hc, _, hr, hg⟩
      · rw [he] at hn; cases hn
      · rw [he] at hc
        cases hc
        exact ⟨by rw [he, hes], hr, hg⟩

theorem send_leaves_no_varselector_witness :
    (sendLoop exEnv ⟨1, 8⟩ (5 : Int).toNat exVarSendState (Ptr.stack 5) 5 (Ptr.stack 0) []
        = some (some exVarSendCalls, exVarSendWalked) ∧
      send_selector exEnv exVarSendState ⟨1, 8⟩ ⟨1, 8⟩ (Ptr.stack 5) 5 (Ptr.stack 0)
        = some (some 0, exVarSendExit) ∧
      (∀ c ∈ exVarSendCalls, c.type = EXEC_STACK_TYPE_VARSELECTOR) ∧
      exVarSendState.executionStack = [exBaseFrame 5]) ∧
    exVarSendExit.executionStack = exVarSendState.executionStack ∧
    (some 0 : Option Nat) = some ([] : List ExecStack).length ∧
    getFrame exVarSendExit ([] : List ExecStack).length = some (exBaseFrame 5) := by
  have h1 : sendLoop exEnv ⟨1, 8⟩ (5 : Int).toNat exVarSendState (Ptr.stack 5) 5 (Ptr.stack 0) []
      = some (some exVarSendCalls, exVarSendWalked) := by decide
  have h2 : send_selector exEnv exVarSendState ⟨1, 8⟩ ⟨1, 8⟩ (Ptr.stack 5) 5 (Ptr.stack 0)
      = some (some 0, exVarSendExit) := by decide!
  have h3 : ∀ c ∈ exVarSendCalls, c.type = EXEC_STACK_TYPE_VARSELECTOR := by decide
  exact ⟨⟨h1, h2, h3, rfl⟩,
    (send_leaves_no_varselector exEnv exVarSendState ⟨1, 8⟩ ⟨1, 8⟩ (Ptr.stack 5) 5 (Ptr.stack 0)
      exVarSendCalls exVarSendWalked exVarSendExit (some 0) h1 h2).2 h3 (exBaseFrame 5) [] rfl
      rfl⟩

/-! ### Conditional branches -/

theorem GET_OP_BYTE_eq (E : Env) (L : VMLocals) (s : EngineState) (x : ExecStack)
    (buf : BytePtr) (hx : getFrame s L.xs = some x) (hbuf : L.code_buf = CodeBuf.script buf) :
    GET_OP_BYTE E L s = some (((E.mem (buf + x.addr_pc.offset) % 256 : Nat) : Int),
      withPc L.xs s x (u16 (x.addr_pc.offset + 1))) := by
  unfold GET_OP_BYTE
  simp only [hx, codeByte, hbuf, setFrame_eq s L.xs x _ hx]
  rfl

theorem GET_OP_WORD_eq (E : Env) (L : VMLocals) (s : EngineState) (x : ExecStack)
    (buf : BytePtr) (hx : getFrame s L.xs = some x) (hbuf : L.code_buf = CodeBuf.script buf) :
    GET_OP_WORD E L s = some (((E.mem (buf + x.addr_pc.offset) % 256 +
        256 * (E.mem (buf + (x.addr_pc.offset + 1 : Nat)) % 256) : Nat) : Int),
      withPc L.xs s x (u16 (x.addr_pc.offset + 2))) := by
  unfold GET_OP_WORD
  simp only [hx, codeByte, hbuf, setFrame_eq s L.xs x _ hx]
  rfl

theorem getFrame_withPc (i : Nat) (s : EngineState) (x : ExecStack) (t : Nat)
    (hx : getFrame s i = some x) :
    getFrame (withPc i s x t) i
      = some { x with addr_pc := { x.addr_pc with offset := t } } :=
  getFrame_set s i x _ hx

theorem withPc_withPc (i : Nat) (s : EngineState) (x y : ExecStack) (t u : Nat) :
    withPc i (withPc i s x t) y u = withPc i s y u := by
  unfold withPc
  simp only [replaceFrame_replaceFrame]

theorem fetch_branch_operand (E : Env) (L : VMLocals) (s : EngineState) (x : ExecStack)
    (buf : BytePtr) (op : Nat)
    (hx : getFrame s L.xs = some x) (hbuf : L.code_buf = CodeBuf.script buf)
    (hfit : x.addr_pc.offset + 3 < 65536)
    (hfmt : E.g_opcode_formats (op / 2) 0 = opcode_format.Script_SRelative ∧
      E.g_opcode_formats (op / 2) 1 = opcode_format.Script_None) :
    fetchOperands E op 4 0 L (withPc L.xs s x (u16 (x.addr_pc.offset + 1)))
      = some ({ L with opparams := L.opparams.set 0 (branchOperand E buf op x.addr_pc.offset) },
          withPc L.xs s x (x.addr_pc.offset + branchLength op)) := by
  have h1 : u16 ((x.addr_pc.offset : Int) + 1) = x.addr_pc.offset + 1 := by
    unfold u16; omega
  have hx1 := getFrame_withPc L.xs s x (x.addr_pc.offset + 1) hx
  rw [h1]
  unfold fetchOperands
  simp only [hfmt.1, reduceCtorEq, if_false, fetchOperand]
  by_cases hodd : op % 2 = 1
  · have h2 : u16 (((x.addr_pc.offset + 1 : Nat) : Int) + 1) = x.addr_pc.offset + 2 := by
      unfold u16; omega
    simp only [hodd, if_true, GET_OP_BYTE_eq E L _ _ buf hx1 hbuf, Option.map_some',
      withPc_withPc, h2]
    unfold fetchOperands
    simp only [hfmt.2, if_true, branchOperand, branchLength, hodd]
    rfl
  · have h2 : u16 (((x.addr_pc.offset + 1 : Nat) : Int) + 2) = x.addr_pc.offset + 3 := by
      unfold u16; omega
    simp only [hodd, if_false, GET_OP_WORD_eq E L _ _ buf hx1 hbuf, Option.map_some',
      withPc_withPc, h2]
    unfold fetchOperands
    simp only [hfmt.2, if_true, branchOperand, branchLength, hodd, if_false]
    rfl

theorem case_branch_eq (L : VMLocals) (s : EngineState) (x : ExecStack) (want : Bool)
    (hx : getFrame s L.xs = some x) :
    case_branch L s want = some (Outcome.next L
      (if decide (s.r_acc.offset ≠ 0 ∨ s.r_acc.segment ≠ 0) = want then
        withPc L.xs s x (u16 (x.addr_pc.offset + opparam L 0)) else s)) := by
  unfold case_branch
  split
  · simp only [modXs, hx, setFrame_eq s L.xs x _ hx, Option.map_some']
    rfl
  · rfl

theorem endOfInstruction_ok (L : VMLocals) (s : EngineState) (pc : Nat) (sp : Ptr)
    (hpos : s.executionStackPosChanged = false) (herr : s.script_error_flag = 0) :
    endOfInstruction L s pc sp
      = some (Outcome.next L { s with script_step_counter := s.script_step_counter + 1 }) := by
  unfold endOfInstruction
  simp only [hpos, Bool.false_eq_true, if_false, herr, ne_eq, not_true_eq_false]

theorem branch_step (E : Env) (L : VMLocals) (s : EngineState) (x : ExecStack)
    (buf : BytePtr) (op : Nat) (want : Bool)
    (hx : getFrame s L.xs = some x)
    (hrun : s.executionStackPosChanged = false ∧ s.script_abort_flag = 0 ∧
      s.script_debug_flag = 0 ∧ s.sci_debug_flags = 0)
    (hok : ¬ x.sp.diff x.fp < 0 ∧ x.addr_pc.offset < L.code_buf_size ∧
      x.addr_pc.offset + 3 < 65536)
    (hbuf : L.code_buf = CodeBuf.script buf) (hpar : 0 < L.opparams.length)
    (hop : E.mem (buf + x.addr_pc.offset) % 256 = op)
    (hfmt : E.g_opcode_formats (op / 2) 0 = opcode_format.Script_SRelative ∧
      E.g_opcode_formats (op / 2) 1 = opcode_format.Script_None)
    (hn : op / 2 = if want then 0x17 else 0x18) :
    vmStep E L s = some (Outcome.next (branchLocals E L x buf op)
      (afterInstruction L.xs s x
        (if decide (s.r_acc.offset ≠ 0 ∨ s.r_acc.segment ≠ 0) = want then
          u16 ((x.addr_pc.offset + branchLength op : Nat) + branchOperand E buf op x.addr_pc.offset)
        else x.addr_pc.offset + branchLength op))) := by
  obtain ⟨hpos, habort, hdbg1, hdbg2⟩ := hrun
  obtain ⟨hsp, hpc, hfit⟩ := hok
  have hdbg : ∀ L0 : VMLocals, debugHook E L0 { s with script_error_flag := 0 }
      = ({ s with script_error_flag := 0 }, L0) := by
    intro L0
    simp only [debugHook, hdbg1, hdbg2, ne_eq, not_true_eq_false, or_self, if_false]
  have hx2 : getFrame { s with script_error_flag := 0 } L.xs = some x := hx
  have hget := GET_OP_BYTE_eq E { L with variables_max := L.variables_max.set 2 (x.sp.diff x.fp) }
    { s with script_error_flag := 0 } x buf hx2 hbuf
  have hfetch := fetch_branch_operand E
    { L with variables_max := L.variables_max.set 2 (x.sp.diff x.fp) }
    { s with script_error_flag := 0 } x buf op hx2 hbuf hfit hfmt
  have hx7 := getFrame_withPc L.xs { s with script_error_flag := 0 } x
    (x.addr_pc.offset + branchLength op) hx2
  have hbr := case_branch_eq (branchLocals E L x buf op) _ _ want hx7
  have hexec : execOpcode E (branchLocals E L x buf op)
      (withPc L.xs { s with script_error_flag := 0 } x (x.addr_pc.offset + branchLength op))
      (op / 2) = case_branch (branchLocals E L x buf op)
        (withPc L.xs { s with script_error_flag := 0 } x (x.addr_pc.offset + branchLength op))
        want := by
    rw [hn]
    cases want <;>
      simp only [execOpcode, OfNat.ofNat_ne_zero, OfNat.ofNat_ne_one, if_false, if_true,
        Nat.reduceEqDiff, Bool.false_eq_true]
  have hpar2 : opparam (branchLocals E L x buf op) 0 = branchOperand E buf op x.addr_pc.offset := by
    simp only [opparam, branchLocals, List.getElem?_set_self hpar, Option.getD_some]
  rw [hbr, hpar2] at hexec
  have hacc : ∀ t, (withPc L.xs { s with script_error_flag := 0 } x t).r_acc = s.r_acc :=
    fun _ => rfl
  simp only [hacc] at hexec
  rw [hop] at hget
  by_cases hc : decide (s.r_acc.offset ≠ 0 ∨ s.r_acc.segment ≠ 0) = want
  · simp only [hc, if_true, withPc_withPc] at hexec ⊢
    cases s
    simp only at hpos habort hdbg1 hdbg2
    subst hpos habort hdbg1 hdbg2
    unfold vmStep
    simp only [hx, Bool.false_eq_true, if_false, ne_eq, not_true_eq_false, hdbg,
      hx2, hsp, ge_iff_le, Nat.not_le.mpr hpc, hget, Int.toNat_ofNat, hfetch]
    simp only [branchLocals] at hexec ⊢
    simp only [hexec]
    rw [endOfInstruction_ok _ _ _ _ rfl rfl]
    simp only [afterInstruction, Nat.cast_add, withPc_withPc]
    rfl
  · simp only [hc, if_false] at hexec ⊢
    cases s
    simp only at hpos habort hdbg1 hdbg2
    subst hpos habort hdbg1 hdbg2
    unfold vmStep
    simp only [hx, Bool.false_eq_true, if_false, ne_eq, not_true_eq_false, hdbg,
      hx2, hsp, ge_iff_le, Nat.not_le.mpr hpc, hget, Int.toNat_ofNat, hfetch]
    simp only [branchLocals] at hexec ⊢
    simp only [hexec]
    rw [endOfInstruction_ok _ _ _ _ rfl rfl]
    rfl

/-- C28: one loop iteration on a branch instruction, in a run without abort,
debugger or error, for an instruction that lies below offset 65533 of the code
buffer.  The operand is read as a signed byte or word behind the opcode byte.  On
`bt` (0x17) the program counter of the frame ends at the end of the instruction
plus the operand, modulo 65536, when the accumulator has a non-zero offset or a
non-zero segment, and at the end of the instruction otherwise; on `bnt` (0x18) it
is the other way round.  Nothing else changes but the step counter. -/
theorem branch_on_truthiness (E : Env) (L : VMLocals) (s : EngineState) (x : ExecStack)
    (buf : BytePtr) (op : Nat)
    (hx : getFrame s L.xs = some x)
    (hrun : s.executionStackPosChanged = false ∧ s.script_abort_flag = 0 ∧
      s.script_debug_flag = 0 ∧ s.sci_debug_flags = 0)
    (hok : ¬ x.sp.diff x.fp < 0 ∧ x.addr_pc.offset < L.code_buf_size ∧
      x.addr_pc.offset + 3 < 65536)
    (hbuf : L.code_buf = CodeBuf.script buf) (hpar : 0 < L.opparams.length)
    (hop : E.mem (buf + x.addr_pc.offset) % 256 = op)
    (hfmt : E.g_opcode_formats (op / 2) 0 = opcode_format.Script_SRelative ∧
      E.g_opcode_formats (op / 2) 1 = opcode_format.Script_None) :
    (op / 2 = 0x17 →
      vmStep E L s = some (Outcome.next (branchLocals E L x buf op)
        (afterInstruction L.xs s x
          (if s.r_acc.offset ≠ 0 ∨ s.r_acc.segment ≠ 0 then
            u16 ((x.addr_pc.offset + branchLength op : Nat)
              + branchOperand E buf op x.addr_pc.offset)
          else x.addr_pc.offset + branchLength op)))) ∧
    (op / 2 = 0x18 →
      vmStep E L s = some (Outcome.next (branchLocals E L x buf op)
        (afterInstruction L.xs s x
          (if s.r_acc.offset ≠ 0 ∨ s.r_acc.segment ≠ 0 then x.addr_pc.offset + branchLength op
          else u16 ((x.addr_pc.offset + branchLength op : Nat)
              + branchOperand E buf op x.addr_pc.offset))))) := by
  constructor
  · intro hn
    have h := branch_step E L s x buf op true hx hrun hok hbuf hpar hop hfmt (by simpa using hn)
    rw [h]
    by_cases hc : s.r_acc.offset ≠ 0 ∨ s.r_acc.segment ≠ 0
    · simp only [hc, decide_True, if_true]
    · simp only [hc, decide_False, Bool.false_eq_true, if_false]
  · intro hn
    have h := branch_step E L s x buf op false hx hrun hok hbuf hpar hop hfmt (by simpa using hn)
    rw [h]
    by_cases hc : s.r_acc.offset ≠ 0 ∨ s.r_acc.segment ≠ 0
    · simp only [hc, decide_True, Bool.true_eq_false, if_false, if_true]
    · simp only [hc, decide_False, if_true, if_false]

theorem branch_on_truthiness_witness :
    (getFrame (exBranchState 640 ⟨1, 0⟩) exLoopLocals.xs = some (exFrameAt 640) ∧
      exBranchEnv.mem (0 + (exFrameAt 640).addr_pc.offset) % 256 = 0x2f ∧
      exBranchEnv.mem (0 + (exFrameAt 650).addr_pc.offset) % 256 = 0x30 ∧
      branchOperand exBranchEnv 0 0x2f 640 = 5 ∧ branchOperand exBranchEnv 0 0x30 650 = -3) ∧
    vmStep exBranchEnv exLoopLocals (exBranchState 640 ⟨1, 0⟩)
      = some (Outcome.next (branchLocals exBranchEnv exLoopLocals (exFrameAt 640) 0 0x2f)
          (afterInstruction 0 (exBranchState 640 ⟨1, 0⟩) (exFrameAt 640) 647)) ∧
    vmStep exBranchEnv exLoopLocals (exBranchState 650 ⟨1, 0⟩)
      = some (Outcome.next (branchLocals exBranchEnv exLoopLocals (exFrameAt 650) 0 0x30)
          (afterInstruction 0 (exBranchState 650 ⟨1, 0⟩) (exFrameAt 650) 653)) ∧
    vmStep exBranchEnv exLoopLocals (exBranchState 650 ⟨0, 0⟩)
      = some (Outcome.next (branchLocals exBranchEnv exLoopLocals (exFrameAt 650) 0 0x30)
          (afterInstruction 0 (exBranchState 650 ⟨0, 0⟩) (exFrameAt 650) 650)) :=
  ⟨⟨rfl, by decide, by decide, by decide, by decide⟩,
    (branch_on_truthiness exBranchEnv exLoopLocals (exBranchState 640 ⟨1, 0⟩) (exFrameAt 640) 0
      0x2f rfl ⟨rfl, rfl, rfl, rfl⟩ (by decide) rfl (by decide) (by decide) (by decide)).1
      (by decide),
    (branch_on_truthiness exBranchEnv exLoopLocals (exBranchState 650 ⟨1, 0⟩) (exFrameAt 650) 0
      0x30 rfl ⟨rfl, rfl, rfl, rfl⟩ (by decide) rfl (by decide) (by decide) (by decide)).2
      (by decide),
    (branch_on_truthiness exBranchEnv exLoopLocals (exBranchState 650 ⟨0, 0⟩) (exFrameAt 650) 0
      0x30 rfl ⟨rfl, rfl, rfl, rfl⟩ (by decide) rfl (by decide) (by decide) (by decide)).2
      (by decide)⟩

/-! ### Pushing a frame -/

/-- C32: with `argp` at the valid stack cell `i`, `add_exec_stack_entry` stores
`make_reg(0, argc)` in that cell and in no other, and pushes one CALL frame with
`fp = sp` the given stack pointer, `variables_argp = argp` and the given locals
segment (`pc.segment` for the callee-locals marker); the frames of before stay
below it as they are.  For `0 ≤ argc < 65536` the stored register is `(0, argc)`. -/
theorem add_exec_stack_entry_effect (s : EngineState) (pc : reg_t) (sp : Ptr) (objp : reg_t)
    (argc : Int) (i : Nat) (selector : Int) (sendp : reg_t) (origin : Int)
    (locals_segment : Int) (hi : i < s.stack.length) :
    add_exec_stack_entry s pc sp objp argc (Ptr.stack i) selector sendp origin locals_segment
      = some { s with
          stack := s.stack.set i (make_reg 0 argc),
          executionStack :=
            { objp := objp, sendp := sendp, addr_pc := pc, addr_varp := Ptr.null, fp := sp,
              sp := sp, argc := argc, variables_argp := Ptr.stack i,
              local_segment := if locals_segment ≠ SCI_XS_CALLEE_LOCALS then locals_segment
                else pc.segment,
              selector := selector, origin := origin,
              type := EXEC_STACK_TYPE_CALL } :: s.executionStack } ∧
    (s.stack.set i (make_reg 0 argc))[i]? = some (make_reg 0 argc) ∧
    (∀ j, j ≠ i → (s.stack.set i (make_reg 0 argc))[j]? = s.stack[j]?) ∧
    (0 ≤ argc → argc < 65536 → make_reg 0 argc = ⟨0, argc.toNat⟩) := by
  refine ⟨?_, List.getElem?_set_self hi, fun j hj => List.getElem?_set_ne (Ne.symm hj), ?_⟩
  · simp only [add_exec_stack_entry, store, setIdx, Int.natCast_nonneg, Int.toNat_ofNat, hi,
      and_self, if_true, Option.map_some']
  · intro h0 h1
    simp only [make_reg, u16, reg_t.mk.injEq]
    constructor
    · rfl
    · congr 1
      omega

theorem add_exec_stack_entry_effect_witness :
    (2 < (exState [⟨0, 7⟩, ⟨0, 8⟩, ⟨0, 9⟩] [exBaseFrame 3] NULL_REG).stack.length) ∧
    (add_exec_stack_entry (exState [⟨0, 7⟩, ⟨0, 8⟩, ⟨0, 9⟩] [exBaseFrame 3] NULL_REG) ⟨1, 310⟩
        (Ptr.stack 3) ⟨1, 8⟩ 4 (Ptr.stack 2) 31 ⟨1, 8⟩ 0 SCI_XS_CALLEE_LOCALS).map
        (fun x => (x.stack, x.executionStack.length,
          x.executionStack.head?.map (fun f => (f.local_segment, f.type)),
          x.executionStack.tail))
      = some ([⟨0, 7⟩, ⟨0, 8⟩, ⟨0, 4⟩], 2, some (1, EXEC_STACK_TYPE_CALL), [exBaseFrame 3]) := by
  have h := (add_exec_stack_entry_effect
    (exState [⟨0, 7⟩, ⟨0, 8⟩, ⟨0, 9⟩] [exBaseFrame 3] NULL_REG)
    ⟨1, 310⟩ (Ptr.stack 3) ⟨1, 8⟩ 4 2 31 ⟨1, 8⟩ 0 SCI_XS_CALLEE_LOCALS (by decide)).1
  exact ⟨by decide, (congrArg (Option.map _) h).trans rfl⟩

/-- C38 (does not hold for the code): `call` executes `xs->sp[1].offset += restadjust`
before it moves the stack pointer, so with a pending rest adjustment it writes the
cell above the caller's stack pointer.  On the example machine, with the stack
pointer at cell 4, one explicit argument and the rest adjustment 2, the callee's
zeroth argument slot (cell 0) receives 3 and cell 5 goes from 5 to 7.  With the
stack pointer at cell 2 and no rest adjustment the operand stack stays as it is
(the zeroth argument slot receives the 1 it holds). -/
theorem call_writes_above_stack_pointer :
    (exCallState 4).stack = [⟨0, 1⟩, ⟨0, 10⟩, ⟨0, 20⟩, ⟨0, 30⟩, ⟨0, 0⟩, ⟨0, 5⟩, ⟨0, 0⟩] ∧
    (getFrame (exCallState 4) 0).map (fun x => x.sp) = some (Ptr.stack 4) ∧
    exStack (execOpcode exEnv (exCallLocals 1 2) (exCallState 4) 0x20)
      = some [⟨0, 3⟩, ⟨0, 10⟩, ⟨0, 20⟩, ⟨0, 30⟩, ⟨0, 0⟩, ⟨0, 7⟩, ⟨0, 0⟩] ∧
    exStack (execOpcode exEnv (exCallLocals 1 0) (exCallState 2) 0x20)
      = some [⟨0, 1⟩, ⟨0, 10⟩, ⟨0, 20⟩, ⟨0, 30⟩, ⟨0, 0⟩, ⟨0, 5⟩, ⟨0, 0⟩] := by
  decide

/-! ### Signed division -/

theorem u16_i16 (x : Int) : u16 (i16 x) = u16 x := by
  unfold u16 i16
  split <;> congr 1 <;> omega

theorem i16_signed_validate (s : EngineState) (a : reg_t) (ha : a.segment = 0) :
    signed_validate_arithmetic s a = (if a.offset / 32768 % 2 = 1 then (a.offset : Int) - 65536
      else a.offset, s) ∧
    i16 (signed_validate_arithmetic s a).1 = i16 a.offset := by
  have h : signed_validate_arithmetic s a = (if a.offset / 32768 % 2 = 1 then
      (a.offset : Int) - 65536 else a.offset, s) := by
    unfold signed_validate_arithmetic
    simp only [ha, ne_eq, not_true_eq_false, if_false]
    split <;> rfl
  refine ⟨h, ?_⟩
  rw [h]
  simp only
  split
  · unfold i16
    have e : ((a.offset : Int) - 65536) % 65536 = (a.offset : Int) % 65536 := by omega
    rw [e]
  · rfl

theorem tmod_nonpos (x y : Int) (h : x ≤ 0) : x.tmod y ≤ 0 := by
  cases x with
  | ofNat m =>
    have hm : m = 0 := by
      have : (Int.ofNat m) = (m : Int) := rfl
      omega
    subst hm
    cases y <;> simp [Int.tmod]
  | negSucc m =>
    cases y with
    | ofNat n =>
      simp only [Int.tmod]
      have : (0 : Int) ≤ Int.ofNat (m.succ % n) := Int.ofNat_nonneg _
      omega
    | negSucc n =>
      simp only [Int.tmod]
      have : (0 : Int) ≤ Int.ofNat (m.succ % n.succ) := Int.ofNat_nonneg _
      omega

/-- C37: with the plain operand `b` on top of the stack and a plain accumulator `a`
whose signed 16 bit value is not 0, `div` leaves `(0, q mod 65536)` in the
accumulator, `q` being the quotient of the signed 16 bit values of `b` and `a`
truncated toward zero, and `mod` leaves `(0, r mod 65536)` with `r = b - a * q`,
which has the sign of `b`; the operand is popped.  The quotient of -32768 and -1
is stored as 0x8000. -/
theorem div_mod_signed (E : Env) (L : VMLocals) (s : EngineState) (f : ExecStack)
    (i : Nat) (b : reg_t)
    (hf : getFrame s L.xs = some f) (hsp : f.sp = Ptr.stack (i + 1))
    (hb : s.stack[i]? = some b) (hbp : b.segment = 0) (hap : s.r_acc.segment = 0)
    (hnz : i16 s.r_acc.offset ≠ 0) :
    execOpcode E L s 0x04 = some (Outcome.next L
      { popped L s f i with
        r_acc := ⟨0, u16 (Int.tdiv (i16 b.offset) (i16 s.r_acc.offset))⟩ }) ∧
    execOpcode E L s 0x05 = some (Outcome.next L
      { popped L s f i with
        r_acc := ⟨0, u16 (i16 b.offset
          - i16 s.r_acc.offset * Int.tdiv (i16 b.offset) (i16 s.r_acc.offset))⟩ }) ∧
    (0 ≤ i16 b.offset → 0 ≤ i16 b.offset
      - i16 s.r_acc.offset * Int.tdiv (i16 b.offset) (i16 s.r_acc.offset)) ∧
    (i16 b.offset ≤ 0 → i16 b.offset
      - i16 s.r_acc.offset * Int.tdiv (i16 b.offset) (i16 s.r_acc.offset) ≤ 0) ∧
    (i16 b.offset = -32768 → i16 s.r_acc.offset = -1 →
      u16 (Int.tdiv (i16 b.offset) (i16 s.r_acc.offset)) = 0x8000) := by
  have hp := POP32_eq L s f i b hf hsp hb
  obtain ⟨hsv, hsi⟩ := i16_signed_validate s s.r_acc hap
  have hva : validate_arithmetic (popped L s f i) b = ((b.offset : Int), popped L s f i) := by
    simp only [validate_arithmetic, hbp, ne_eq, not_true_eq_false, if_false]
  have hmk : ∀ q : Int, make_reg 0 (i16 q) = ⟨0, u16 q⟩ := by
    intro q
    simp only [make_reg, u16_i16]
    rfl
  have hs1 : (signed_validate_arithmetic s s.r_acc).2 = s := by rw [hsv]
  refine ⟨?_, ?_, ?_, ?_, ?_⟩
  · simp only [execOpcode, OfNat.ofNat_ne_zero, OfNat.ofNat_ne_one, if_false, if_true,
      Nat.reduceEqDiff, case_div]
    rw [hs1, hsi, if_pos hnz]
    simp only [POP, hp, Option.map_some', hva, hmk]
  · simp only [execOpcode, OfNat.ofNat_ne_zero, OfNat.ofNat_ne_one, if_false, if_true,
      Nat.reduceEqDiff, case_mod]
    rw [hs1, hsi, if_pos hnz]
    simp only [POP, hp, Option.map_some', hva, hmk, Int.tmod_def]
  · intro h0
    rw [← Int.tmod_def]
    exact Int.tmod_nonneg _ h0
  · intro h0
    rw [← Int.tmod_def]
    exact tmod_nonpos _ _ h0
  · intro h1 h2
    rw [h1, h2]
    decide

theorem div_mod_signed_witness :
    (getFrame (exState [⟨0, 65529⟩] [exBaseFrame 1] ⟨0, 2⟩) exLoopLocals.xs
        = some (exBaseFrame 1) ∧
      i16 (exState [⟨0, 65529⟩] [exBaseFrame 1] ⟨0, 2⟩).r_acc.offset ≠ 0 ∧
      i16 65529 = -7) ∧
    execOpcode exEnv exLoopLocals (exState [⟨0, 65529⟩] [exBaseFrame 1] ⟨0, 2⟩) 0x04
      = some (Outcome.next exLoopLocals (exState [⟨0, 65529⟩] [exBaseFrame 0] ⟨0, 65533⟩)) ∧
    execOpcode exEnv exLoopLocals (exState [⟨0, 65529⟩] [exBaseFrame 1] ⟨0, 2⟩) 0x05
      = some (Outcome.next exLoopLocals (exState [⟨0, 65529⟩] [exBaseFrame 0] ⟨0, 65535⟩)) ∧
    execOpcode exEnv exLoopLocals (exState [⟨0, 0x8000⟩] [exBaseFrame 1] ⟨0, 0xffff⟩) 0x04
      = some (Outcome.next exLoopLocals (exState [⟨0, 0x8000⟩] [exBaseFrame 0] ⟨0, 0x8000⟩)) :=
  ⟨⟨rfl, by decide, by decide⟩,
    (div_mod_signed exEnv exLoopLocals (exState [⟨0, 65529⟩] [exBaseFrame 1] ⟨0, 2⟩)
      (exBaseFrame 1) 0 ⟨0, 65529⟩ rfl rfl rfl rfl rfl (by decide)).1,
    (div_mod_signed exEnv exLoopLocals (exState [⟨0, 65529⟩] [exBaseFrame 1] ⟨0, 2⟩)
      (exBaseFrame 1) 0 ⟨0, 65529⟩ rfl rfl rfl rfl rfl (by decide)).2.1,
    (div_mod_signed exEnv exLoopLocals (exState [⟨0, 0x8000⟩] [exBaseFrame 1] ⟨0, 0xffff⟩)
      (exBaseFrame 1) 0 ⟨0, 0x8000⟩ rfl rfl rfl rfl rfl (by decide)).1⟩

/-! ### The dummy register -/

theorem validate_property_invalid (s : EngineState) (obj : Option Nat) (i : Int)
    (hinv : obj = none ∨ ∃ o ob, obj = some o ∧ s.objects[o]? = some ob ∧
      (i < 0 ∨ i.toNat ≥ ob._variables.length)) (t : EngineState)
    (ht : t.objects = s.objects) :
    validate_property t obj i = (none, { t with dummy_register := NULL_REG }) := by
  unfold validate_property
  rcases hinv with rfl | ⟨o, ob, rfl, hob, hi⟩
  · rfl
  · simp only [Option.some_bind, ht, hob, hi, if_true]

/-- C40: for a null object, or an index outside the property slots of the object,
the reads of the property opcodes do not depend on the value `v` the dummy register
holds from earlier accesses: pToa (0x31) leaves the null register in the
accumulator, pTos (0x33) pushes the null register, and the results of ipToa,
dpToa, ipTos and dpTos (0x35 to 0x38) are the same for any two values of the
dummy register.  In particular a value written by aTop (0x32) to such a property
is not read back. -/
theorem invalid_property_reads_null (E : Env) (L : VMLocals) (s : EngineState)
    (hinv : L.obj = none ∨ ∃ o ob, L.obj = some o ∧ s.objects[o]? = some ob ∧
      (opparam L 0 >>> 1 < 0 ∨ (opparam L 0 >>> 1).toNat ≥ ob._variables.length))
    (v w : reg_t) :
    execOpcode E L { s with dummy_register := v } 0x31
      = some (Outcome.next L { s with dummy_register := NULL_REG, r_acc := NULL_REG }) ∧
    execOpcode E L { s with dummy_register := v } 0x33
      = (PUSH32 L { s with dummy_register := NULL_REG } NULL_REG).map (Outcome.next L) ∧
    (∀ op, 0x35 ≤ op → op ≤ 0x38 →
      execOpcode E L { s with dummy_register := v } op
        = execOpcode E L { s with dummy_register := w } op) ∧
    execOpcode E L s 0x32 = some (Outcome.next L { s with dummy_register := s.r_acc }) ∧
    execOpcode E L { s with dummy_register := s.r_acc } 0x31
      = some (Outcome.next L { s with dummy_register := NULL_REG, r_acc := NULL_REG }) := by
  have hvp := validate_property_invalid s L.obj (opparam L 0 >>> 1) hinv
  have h31 : ∀ u : reg_t, execOpcode E L { s with dummy_register := u } 0x31
      = some (Outcome.next L { s with dummy_register := NULL_REG, r_acc := NULL_REG }) := by
    intro u
    simp only [execOpcode, OfNat.ofNat_ne_zero, OfNat.ofNat_ne_one, if_false, if_true,
      Nat.reduceEqDiff, Nat.reduceLeDiff, false_and, and_false, case_pToa,
      hvp { s with dummy_register := u } rfl, refRead, Option.map_some']
  refine ⟨h31 v, ?_, ?_, ?_, h31 _⟩
  · simp only [execOpcode, OfNat.ofNat_ne_zero, OfNat.ofNat_ne_one, if_false, if_true,
      Nat.reduceEqDiff, Nat.reduceLeDiff, false_and, and_false, case_pTos,
      hvp { s with dummy_register := v } rfl, refRead]
  · intro op h1 h2
    interval_cases op
    all_goals
      simp only [execOpcode, OfNat.ofNat_ne_zero, OfNat.ofNat_ne_one, if_false, if_true,
        Nat.reduceEqDiff, Nat.reduceLeDiff, false_and, and_false, case_ipToa, case_ipTos,
        hvp { s with dummy_register := v } rfl, hvp { s with dummy_register := w } rfl,
        refRead]
  · simp only [execOpcode, OfNat.ofNat_ne_zero, OfNat.ofNat_ne_one, if_false, if_true,
      Nat.reduceEqDiff, Nat.reduceLeDiff, false_and, and_false, case_aTop,
      hvp s rfl, refWrite, Option.map_some']

theorem invalid_property_reads_null_witness :
    ((exState [] [] ⟨0, 42⟩).objects[1]? = some exParent ∧
      (opparam { exLocals 0 with obj := some 1, opparams := [10] } 0 >>> 1).toNat
        ≥ exParent._variables.length) ∧
    execOpcode exEnv { exLocals 0 with obj := some 1, opparams := [10] }
        { exState [] [] ⟨0, 42⟩ with dummy_register := ⟨0, 77⟩ } 0x31
      = some (Outcome.next { exLocals 0 with obj := some 1, opparams := [10] }
          { exState [] [] ⟨0, 42⟩ with dummy_register := NULL_REG, r_acc := NULL_REG }) ∧
    execOpcode exEnv { exLocals 0 with obj := none, opparams := [0] }
        { exState [] [] ⟨0, 42⟩ with dummy_register := ⟨0, 77⟩ } 0x35
      = execOpcode exEnv { exLocals 0 with obj := none, opparams := [0] }
        { exState [] [] ⟨0, 42⟩ with dummy_register := ⟨0, 88⟩ } 0x35 :=
  ⟨⟨rfl, by decide⟩,
    (invalid_property_reads_null exEnv { exLocals 0 with obj := some 1, opparams := [10] }
      (exState [] [] ⟨0, 42⟩) (Or.inr ⟨1, exParent, rfl, rfl, Or.inr (by decide)⟩)
      ⟨0, 77⟩ ⟨0, 88⟩).1,
    (invalid_property_reads_null exEnv { exLocals 0 with obj := none, opparams := [0] }
      (exState [] [] ⟨0, 42⟩) (Or.inl rfl) ⟨0, 77⟩ ⟨0, 88⟩).2.2.1 0x35 (by decide)
      (by decide)⟩

/-! ### The abort flag -/

/-- Counterexample to C33 as stated: `run_vm` entered with the abort flag set and a
frame whose program counter is in segment 7, which holds no script, returns at the
abort check of the first iteration, but the set-up of the frame has already put
its program counter offset to 1 (it was 600); accumulator and operand stack are as
before.  With the program counter in the loaded script (segment 1) the frame is
as before. -/
theorem abort_counterexample :
    (exAbortState 7).executionStack.map (fun f => f.addr_pc) = [⟨7, 600⟩] ∧
    exAborted (run_vm exEnv 5 (exAbortState 7) 0) = some ([⟨7, 1⟩], [⟨0, 3⟩], ⟨0, 9⟩) ∧
    exAborted (run_vm exEnv 5 (exAbortState 1) 0) = some ([⟨1, 600⟩], [⟨0, 3⟩], ⟨0, 9⟩) := by
  decide

/-- C33, amended: a loop iteration that starts with the abort flag set ends the run
at once, whatever the error flag is (it is cleared), with the accumulator and the
operand stack as they were.  The frames of the execution stack are as they were,
except when the stack position has changed and the program counter of the top
frame is in a segment without script: then the offset of that program counter has
been set to 1. -/
theorem abort_ends_run (E : Env) (L : VMLocals) (s : EngineState) (x0 : ExecStack)
    (fuel : Nat)
    (hx : getFrame s L.xs = some x0) (habort : s.script_abort_flag ≠ 0) :
    ∃ s2, vmStep E L s = some (Outcome.aborted s2) ∧
      runLoop E (fuel + 1) L s = RunResult.aborted s2 ∧
      s2.r_acc = s.r_acc ∧ s2.stack = s.stack ∧ s2.objects = s.objects ∧
      s2.script_error_flag = 0 ∧
      (s.executionStackPosChanged = false → s2 = { s with script_error_flag := 0 }) ∧
      (∀ t rest, s.executionStackPosChanged = true → s.executionStack = t :: rest →
        (script_locate_by_segment s t.addr_pc.segment ≠ none →
          s2.executionStack = s.executionStack) ∧
        (script_locate_by_segment s t.addr_pc.segment = none →
          s2.executionStack = { t with addr_pc := { t.addr_pc with offset := 1 } } :: rest)) := by
  have hrun : ∀ s2, vmStep E L s = some (Outcome.aborted s2) →
      runLoop E (fuel + 1) L s = RunResult.aborted s2 := by
    intro s2 h
    simp only [runLoop, h]
  have hlen := getFrame_lt s L.xs x0 hx
  cases s with
  | mk es base pos acc prev rest_ stack objects lb heap sseg s000 ct flags version gn gc abort
      err dbg steps gci dsr dsk weak sdf bpf dummy =>
  simp only at habort hlen
  cases pos with
  | false =>
    have hv : vmStep E L (EngineState.mk es base false acc prev rest_ stack objects
        lb heap sseg s000 ct flags version gn gc abort err dbg steps gci dsr dsk weak sdf
        bpf dummy) = some (Outcome.aborted
          (EngineState.mk es base false acc prev rest_ stack objects lb heap sseg s000 ct flags
            version gn gc abort 0 dbg steps gci dsr dsk weak sdf bpf dummy)) := by
      unfold vmStep
      simp only [hx, Bool.false_eq_true, if_false, habort, ne_eq, not_false_eq_true, if_true]
    refine ⟨_, hv, hrun _ hv, rfl, rfl, rfl, rfl, fun _ => rfl, ?_⟩
    intro t rest h
    cases h
  | true =>
    cases es with
    | nil => simp at hlen
    | cons t rest =>
      cases hscr : script_locate_by_segment
        (EngineState.mk (t :: rest) base false acc prev rest_ stack objects lb heap sseg s000 ct
          flags version gn gc abort err dbg steps gci dsr dsk weak sdf bpf dummy)
        t.addr_pc.segment with
      | none =>
        have hv : vmStep E L (EngineState.mk (t :: rest) base true acc prev rest_ stack objects
            lb heap sseg s000 ct flags version gn gc abort err dbg steps gci dsr dsk weak sdf
            bpf dummy) = some (Outcome.aborted
              (EngineState.mk ({ t with addr_pc := { t.addr_pc with offset := 1 } } :: rest) base
                false acc prev rest_ stack objects lb heap sseg s000 ct flags version gn gc abort
                0 dbg steps gci dsr dsk weak sdf bpf dummy)) := by
          unfold vmStep
          simp only [hx, if_true, posChangedInit, hscr, habort, ne_eq, not_false_eq_true]
        refine ⟨_, hv, hrun _ hv, rfl, rfl, rfl, rfl, fun h => (by cases h), ?_⟩
        intro t2 rest2 _ h2
        cases h2
        exact ⟨fun h => absurd hscr h, fun _ => rfl⟩
      | some scr =>
        have hv : vmStep E L (EngineState.mk (t :: rest) base true acc prev rest_ stack objects
            lb heap sseg s000 ct flags version gn gc abort err dbg steps gci dsr dsk weak sdf
            bpf dummy) = some (Outcome.aborted
              (EngineState.mk (t :: rest) base
                false acc prev rest_ stack objects lb heap sseg s000 ct flags version gn gc abort
                0 dbg steps gci dsr dsk weak sdf bpf dummy)) := by
          unfold vmStep
          simp only [hx, if_true, posChangedInit, hscr, habort, ne_eq, not_false_eq_true]
        refine ⟨_, hv, hrun _ hv, rfl, rfl, rfl, rfl, fun h => (by cases h), ?_⟩
        intro t2 rest2 _ h2
        cases h2
        refine ⟨fun _ => rfl, fun h => ?_⟩
        have h3 : script_locate_by_segment
            (EngineState.mk (t :: rest) base false acc prev rest_ stack objects lb heap sseg s000
              ct flags version gn gc abort err dbg steps gci dsr dsk weak sdf bpf dummy)
            t.addr_pc.segment = none := h
        rw [hscr] at h3
        cases h3

theorem abort_ends_run_witness :
    (getFrame (exAbortState 7) exLoopLocals.xs
        = some { exBaseFrame 1 with addr_pc := ⟨7, 600⟩ } ∧
      (exAbortState 7).script_abort_flag ≠ 0) ∧
    ∃ s2, vmStep exEnv exLoopLocals (exAbortState 7) = some (Outcome.aborted s2) ∧
      runLoop exEnv (0 + 1) exLoopLocals (exAbortState 7) = RunResult.aborted s2 ∧
      s2.r_acc = (exAbortState 7).r_acc ∧ s2.stack = (exAbortState 7).stack ∧
      s2.objects = (exAbortState 7).objects ∧ s2.script_error_flag = 0 ∧
      ((exAbortState 7).executionStackPosChanged = false →
        s2 = { exAbortState 7 with script_error_flag := 0 }) ∧
      (∀ t rest, (exAbortState 7).executionStackPosChanged = true →
        (exAbortState 7).executionStack = t :: rest →
        (script_locate_by_segment (exAbortState 7) t.addr_pc.segment ≠ none →
          s2.executionStack = (exAbortState 7).executionStack) ∧
        (script_locate_by_segment (exAbortState 7) t.addr_pc.segment = none →
          s2.executionStack
            = { t with addr_pc := { t.addr_pc with offset := 1 } } :: rest)) :=
  ⟨⟨rfl, by decide⟩,
    abort_ends_run exEnv exLoopLocals (exAbortState 7)
      { exBaseFrame 1 with addr_pc := ⟨7, 600⟩ } 0 rfl (by decide)⟩
/-! ### The collection countdown -/

/-- The two fields the collector's schedule depends on, after `gc_countdown`, for a
collector that leaves them alone. -/
theorem gc_countdown_fields (E : Env) (s : EngineState) (hrun : ∀ t, GcSame t (E.run_gc t)) :
    (gc_countdown E s).gc_countdown
        = (if s.gc_countdown ≤ 0 then s.script_gc_interval else s.gc_countdown - 1) ∧
      (gc_countdown E s).script_gc_interval = s.script_gc_interval := by
  unfold gc_countdown
  split
  · exact ⟨(hrun _).1, (hrun _).2⟩
  · exact ⟨rfl, rfl⟩

theorem succ_mod_cases (m d : Nat) (hd : 0 < d) :
    (m % d + 1 < d ∧ (m + 1) % d = m % d + 1) ∨ (m % d + 1 = d ∧ (m + 1) % d = 0) := by
  have h1 : m % d < d := Nat.mod_lt m hd
  have h2 : (m + 1) % d = (m % d + 1) % d := (Nat.mod_add_mod m d 1).symm
  by_cases h : m % d + 1 < d
  · left
    exact ⟨h, by rw [h2, Nat.mod_eq_of_lt h]⟩
  · right
    have h3 : m % d + 1 = d := by omega
    exact ⟨h3, by rw [h2, h3, Nat.mod_self]⟩

theorem scanVarselector_run_gc (E : Env) (g : EngineState → EngineState) (buf : BytePtr)
    (slc : Int) (n : Nat) : ∀ i : Int,
      scanVarselector { E with run_gc := g } buf slc n i = scanVarselector E buf slc n i := by
  induction n with
  | zero => intro i; rfl
  | succ n ih =>
    intro i
    unfold scanVarselector
    rw [ih]
    rfl

theorem scanFuncselector_run_gc (E : Env) (g : EngineState → EngineState) (s : EngineState)
    (obj : Object) (slc : Int) (n : Nat) : ∀ i : Int,
      scanFuncselector { E with run_gc := g } s obj slc n i
        = scanFuncselector E s obj slc n i := by
  induction n with
  | zero => intro i; rfl
  | succ n ih =>
    intro i
    unfold scanFuncselector
    rw [ih]
    rfl

theorem lookupFunctionLoop_run_gc (E : Env) (g : EngineState → EngineState) (s : EngineState)
    (k : Int) (fuel : Nat) : ∀ o : Option Nat,
      lookupFunctionLoop { E with run_gc := g } s k fuel o = lookupFunctionLoop E s k fuel o := by
  induction fuel with
  | zero => intro o; cases o <;> rfl
  | succ fuel ih =>
    intro o
    cases o with
    | none => rfl
    | some o =>
      unfold lookupFunctionLoop
      simp only [ih, _class_locate_funcselector, scanFuncselector_run_gc]
      rfl

theorem lookup_selector_run_gc (E : Env) (g : EngineState → EngineState) (s : EngineState)
    (r : reg_t) (k : Int) :
    lookup_selector { E with run_gc := g } s r k = lookup_selector E s r k := by
  unfold lookup_selector _lookup_selector_function _obj_locate_varselector
  simp only [lookupFunctionLoop_run_gc, scanVarselector_run_gc]
  rfl

theorem sendLoop_run_gc (E : Env) (g : EngineState → EngineState) (send_obj : reg_t)
    (fuel : Nat) : ∀ (s : EngineState) (sp : Ptr) (framesize : Int) (argp : Ptr)
      (calls : List CallsStruct),
      sendLoop { E with run_gc := g } send_obj fuel s sp framesize argp calls
        = sendLoop E send_obj fuel s sp framesize argp calls := by
  induction fuel with
  | zero => intro s sp framesize argp calls; rfl
  | succ fuel ih =>
    intro s sp framesize argp calls
    unfold sendLoop
    simp only [ih, lookup_selector_run_gc]

theorem send_selector_run_gc (E : Env) (g : EngineState → EngineState) (s : EngineState)
    (send_obj work_obj : reg_t) (sp : Ptr) (framesize : Int) (argp : Ptr) :
    send_selector { E with run_gc := g } s send_obj work_obj sp framesize argp
      = send_selector E s send_obj work_obj sp framesize argp := by
  unfold send_selector
  rw [sendLoop_run_gc]

theorem sendBody_run_gc (E : Env) (g : EngineState → EngineState) (L : VMLocals)
    (s : EngineState) (send_obj work_obj : reg_t) (p : Int) :
    sendBody { E with run_gc := g } L s send_obj work_obj p
      = sendBody E L s send_obj work_obj p := by
  unfold sendBody
  simp only [send_selector_run_gc]

/-- No instruction but `callk` depends on the collector. -/
theorem execOpcode_run_gc (E : Env) (g : EngineState → EngineState) (L : VMLocals)
    (s : EngineState) (op : Nat) (hop : op ≠ 0x21) :
    execOpcode { E with run_gc := g } L s op = execOpcode E L s op := by
  have h1 : ∀ a b c, case_calle { E with run_gc := g } L s a b c = case_calle E L s a b c :=
    fun _ _ _ => rfl
  have h2 : ∀ a, case_send { E with run_gc := g } L s a = case_send E L s a := by
    intro a
    unfold case_send
    exact sendBody_run_gc _ _ _ _ _ _ _
  have h3 : case_class { E with run_gc := g } L s = case_class E L s := rfl
  have h4 : ∀ a, case_self { E with run_gc := g } L s a = case_self E L s a := by
    intro a
    unfold case_self
    simp only [sendBody_run_gc]
  have h5 : ∀ a b, case_super { E with run_gc := g } L s a b = case_super E L s a b := by
    intro a b
    unfold case_super
    have hc : ∀ t a b c, get_class_address { E with run_gc := g } t a b c
        = get_class_address E t a b c := fun _ _ _ _ => rfl
    simp only [sendBody_run_gc, hc]
  have h6 : case_lea { E with run_gc := g } L s = case_lea E L s := rfl
  have h7 : ∀ a, case_lofs { E with run_gc := g } L s a = case_lofs E L s a := fun _ => rfl
  have h8 : ∀ a, case_var { E with run_gc := g } L s a = case_var E L s a := fun _ => rfl
  unfold execOpcode
  simp only [hop, if_false, h1, h2, h3, h4, h5, h6, h7, h8]

theorem GcSame_refl (s : EngineState) : GcSame s s := ⟨rfl, rfl⟩

theorem GcSame_trans {s t u : EngineState} (h1 : GcSame s t) (h2 : GcSame t u) : GcSame s u :=
  ⟨h2.1.trans h1.1, h2.2.trans h1.2⟩

theorem modXs_gc {L : VMLocals} {s a : EngineState} {f : ExecStack → ExecStack}
    (h : modXs L s f = some a) : GcSame s a := by
  unfold modXs at h
  split at h
  · cases h
  · unfold setFrame at h
    split at h
    · cases h
      exact ⟨rfl, rfl⟩
    · cases h

theorem validate_arithmetic_gc (s : EngineState) (r : reg_t) :
    GcSame s (validate_arithmetic s r).2 := by
  unfold validate_arithmetic setError
  repeat' split
  all_goals exact ⟨rfl, rfl⟩

theorem callKernel_gc {E : Env} {kf : KFunc} {s a : EngineState} {n argc : Int} {argp : Ptr}
    (hk : ∀ t n argc argp r, kf.func t n argc argp = some r → GcSame t r.2)
    (h : callKernel E kf s n argc argp = some a) : GcSame s a := by
  have hmap : ∀ {o : Option (reg_t × EngineState)},
      (∀ r, o = some r → GcSame s r.2) →
      o.map (fun p => { p.2 with r_acc := p.1 }) = some a → GcSame s a := by
    intro o ho hm
    cases o with
    | none => cases hm
    | some r =>
      have h1 := ho r rfl
      cases hm
      exact ⟨h1.1, h1.2⟩
  unfold callKernel at h
  split at h
  · split at h
    · cases h
      exact ⟨rfl, rfl⟩
    · exact hmap (fun r hr => hk _ _ _ _ r hr) h
  · exact hmap (fun r hr => hk _ _ _ _ r hr) h

/-- The call of `callk` behind `gc_countdown` does not depend on the collector. -/
theorem callkBody_run_gc (E : Env) (c : EngineState → EngineState) (L : VMLocals)
    (t : EngineState) : callkBody { E with run_gc := c } L t = callkBody E L t := rfl

/-- Kernel functions that leave the countdown and the interval alone: the call of
`callk` behind `gc_countdown` leaves them alone. -/
theorem callkBody_gc (E : Env) (L L1 : VMLocals) (t s1 : EngineState)
    (hk : ∀ kf, kf ∈ E.kfuncTable → ∀ t n argc argp r, kf.func t n argc argp = some r →
      GcSame t r.2)
    (h : callkBody E L t = some (Outcome.next L1 s1)) :
    GcSame t s1 := by
  unfold callkBody at h
  simp only at h
  split at h
  · cases h
  · rename_i s2 hm
    have h2 := modXs_gc hm
    split at h
    · cases h
      split
      · exact ⟨h2.1, h2.2⟩
      · exact ⟨h2.1, h2.2⟩
    · split at h
      · rename_i kf x hi hx
        split at h
        · cases h
        · rename_i r0 hl
          have hmem : kf ∈ E.kfuncTable := by
            unfold idx at hi
            split at hi
            · exact List.getElem?_mem hi
            · cases hi
          split at h
          · cases h
          · rename_i s5 hc
            have h5 := callKernel_gc (hk kf hmem) hc
            split at h
            · cases h
            · cases h
              have h4 := validate_arithmetic_gc
                (if decide (t.flags &&& E.GF_SCI0_OLD ≠ 0) = true then s2
                  else { s2 with r_amp_rest := 0 }) r0
              have h3 : GcSame t (if decide (t.flags &&& E.GF_SCI0_OLD ≠ 0) = true then s2
                  else { s2 with r_amp_rest := 0 }) := by
                split
                · exact h2
                · exact ⟨h2.1, h2.2⟩
              have := GcSame_trans (GcSame_trans h3 h4) h5
              exact ⟨this.1, this.2⟩
      · cases h

/-- The countdown along a run of `M` kernel calls: `σ i` is the state in which kernel
call number `i + 1` starts. -/
theorem gc_chain_bounded (E : Env) (M : Nat) (σ : Nat → EngineState) (n g : Nat)
    (hrun : ∀ t, GcSame t (E.run_gc t))
    (hn : (σ 0).gc_countdown = n) (hg : (σ 0).script_gc_interval = g)
    (hchain : ∀ i, i < M → GcSame (gc_countdown E (σ i)) (σ (i + 1))) (i : Nat) (hi : i ≤ M) :
    (σ i).script_gc_interval = g ∧
      (i ≤ n → (σ i).gc_countdown = (n : Int) - i) ∧
      (n < i → (σ i).gc_countdown = (g : Int) - ((i - n - 1) % (g + 1) : Nat)) := by
  induction i with
  | zero => exact ⟨hg, fun _ => by simp [hn], fun h => by omega⟩
  | succ i ih =>
    obtain ⟨ihg, ih1, ih2⟩ := ih (by omega)
    have hf := gc_countdown_fields E (σ i) hrun
    have hc := hchain i (by omega)
    unfold GcSame at hc
    rw [hf.1, hf.2] at hc
    refine ⟨hc.2.trans ihg, fun h => ?_, fun h => ?_⟩
    · have h1 := ih1 (by omega)
      rw [hc.1, h1, if_neg (by omega)]
      push_cast
      omega
    · rcases Nat.lt_or_ge n i with h3 | h3
      · have h1 := ih2 h3
        have hlt : (i - n - 1) % (g + 1) < g + 1 := Nat.mod_lt _ (by omega)
        have hi2 : i + 1 - n - 1 = (i - n - 1) + 1 := by omega
        rw [hc.1, h1, hi2]
        rcases succ_mod_cases (i - n - 1) (g + 1) (by omega) with ⟨ha, hb⟩ | ⟨ha, hb⟩
        · rw [hb, if_neg (by omega)]
          push_cast
          omega
        · rw [hb, if_pos (by omega), ihg]
          simp
      · have h4 : i = n := by omega
        have h1 := ih1 (by omega)
        rw [hc.1, h1, if_pos (by omega), ihg, h4]
        simp

/-- C34: a run of `M` kernel calls: `callk` number `i + 1` is executed in the state
`σ i` and goes on in the state `τ i`, and what runs between two kernel calls leaves
the countdown and the interval alone, as do the collector and the kernel functions.
The countdown is `n ≥ 0` and the interval `g ≥ 0` at the start.  Each of the first
`n` instructions `callk` is the kernel call (`callkBody`, which does not depend on
the collector) made in its start state with the countdown lowered by one: the
collector is not run.  `callk` number `n + 1` is the kernel call made in the state
that the collector returns for the start state with the countdown reset to `g`: the
collector runs once, first of all, and the countdown is `g`, the interval, when it
has run and when the instruction ends.  In general `callk` number `i + 1` runs the collector
exactly when `i = n + m * (g + 1)` for some `m`.  No opcode other than `callk`
depends on the collector. -/
theorem callk_collects_every_interval (E : Env) (M : Nat) (σ τ : Nat → EngineState)
    (Ls L1s : Nat → VMLocals) (n g : Nat)
    (hrun : ∀ t, GcSame t (E.run_gc t))
    (hk : ∀ kf, kf ∈ E.kfuncTable → ∀ u a b c r, kf.func u a b c = some r → GcSame u r.2)
    (hn : (σ 0).gc_countdown = n) (hg : (σ 0).script_gc_interval = g)
    (hcall : ∀ i, i < M → case_callk E (Ls i) (σ i) = some (Outcome.next (L1s i) (τ i)))
    (hnext : ∀ i, i < M → GcSame (τ i) (σ (i + 1))) :
    (∀ i, i < n → i ≤ M → ∀ L, case_callk E L (σ i)
      = callkBody E L { σ i with gc_countdown := (n : Int) - i - 1 }) ∧
    (n ≤ M → ∀ L, case_callk E L (σ n)
      = callkBody E L (E.run_gc { σ n with gc_countdown := g })) ∧
    (n ≤ M → (E.run_gc { σ n with gc_countdown := g }).gc_countdown = g) ∧
    (n < M → (τ n).gc_countdown = g ∧ (τ n).script_gc_interval = g) ∧
    (∀ i, i ≤ M → ∀ L, case_callk E L (σ i)
      = if n ≤ i ∧ (i - n) % (g + 1) = 0 then
          callkBody E L (E.run_gc { σ i with gc_countdown := g })
        else callkBody E L { σ i with gc_countdown := (σ i).gc_countdown - 1 }) ∧
    (∀ c L t, callkBody { E with run_gc := c } L t = callkBody E L t) ∧
    (∀ c L t op, op ≠ 0x21 → execOpcode { E with run_gc := c } L t op = execOpcode E L t op) := by
  have hchain : ∀ i, i < M → GcSame (gc_countdown E (σ i)) (σ (i + 1)) := by
    intro i hi
    have h1 := callkBody_gc E (Ls i) (L1s i) (gc_countdown E (σ i)) (τ i) hk (hcall i hi)
    exact GcSame_trans h1 (hnext i hi)
  have hinv := gc_chain_bounded E M σ n g hrun hn hg hchain
  have hiff : ∀ i, i ≤ M → ((σ i).gc_countdown ≤ 0 ↔ n ≤ i ∧ (i - n) % (g + 1) = 0) := by
    intro i hi
    rcases Nat.lt_or_ge n i with h | h
    · have h1 := (hinv i hi).2.2 h
      obtain ⟨m, hm⟩ : ∃ m, i = n + 1 + m := ⟨i - n - 1, by omega⟩
      have e1 : i - n - 1 = m := by omega
      have e2 : i - n = m + 1 := by omega
      have hlt : m % (g + 1) < g + 1 := Nat.mod_lt _ (by omega)
      rw [e1] at h1
      rw [h1, e2]
      rcases succ_mod_cases m (g + 1) (by omega) with ⟨ha, hb⟩ | ⟨ha, hb⟩
      · rw [hb]
        constructor
        · intro h2
          omega
        · intro h2
          omega
      · rw [hb]
        constructor
        · intro _
          exact ⟨by omega, rfl⟩
        · intro _
          omega
    · have h1 := (hinv i hi).2.1 h
      rw [h1]
      constructor
      · intro h2
        have h3 : i = n := by omega
        exact ⟨by omega, by rw [h3]; simp⟩
      · intro h2
        omega
  have hpos : ∀ i, i ≤ M → (σ i).gc_countdown ≤ 0 → ∀ L, case_callk E L (σ i)
      = callkBody E L (E.run_gc { σ i with gc_countdown := g }) := by
    intro i hi hc L
    have hgi := (hinv i hi).1
    unfold case_callk gc_countdown
    rw [if_pos hc]
    simp only [hgi]
  have hneg : ∀ i, ¬ (σ i).gc_countdown ≤ 0 → ∀ L, case_callk E L (σ i)
      = callkBody E L { σ i with gc_countdown := (σ i).gc_countdown - 1 } := by
    intro i hc L
    unfold case_callk gc_countdown
    rw [if_neg hc]
  have hn0 : n ≤ M → (σ n).gc_countdown ≤ 0 := by
    intro h
    rw [(hinv n h).2.1 (Nat.le_refl n)]
    omega
  refine ⟨fun i hi hiM L => ?_, fun h L => hpos n h (hn0 h) L, fun _ => (hrun _).1,
    fun h => ?_, fun i hi L => ?_, fun c L t => rfl,
    fun c L t op hop => execOpcode_run_gc E c L t op hop⟩
  · have h1 := (hinv i hiM).2.1 (by omega)
    rw [hneg i (by omega) L, h1]
  · have h1 := callkBody_gc E (Ls n) (L1s n) (gc_countdown E (σ n)) (τ n) hk (hcall n h)
    have h2 := gc_countdown_fields E (σ n) hrun
    rw [h1.1, h1.2, h2.1, h2.2, if_pos (hn0 (by omega)), (hinv n (by omega)).1]
    exact ⟨rfl, rfl⟩
  · by_cases hc : (σ i).gc_countdown ≤ 0
    · rw [if_pos ((hiff i hi).mp hc)]
      exact hpos i hi hc L
    · rw [if_neg (fun h => hc ((hiff i hi).mpr h))]
      exact hneg i hc L

/-- An instruction that leaves an accumulator goes on, with the locals and the state
that `exLocalsAfter` and `exAfter` read off. -/
theorem next_of_accAfter (o : Option Outcome) (L : VMLocals) (s : EngineState)
    (h : (accAfter o).isSome = true) :
    o = some (Outcome.next (exLocalsAfter L o) (exAfter s o)) := by
  cases o with
  | none => simp [accAfter] at h
  | some r =>
    cases r with
    | next L1 t => rfl
    | hardReturn t => simp [accAfter] at h
    | aborted t => simp [accAfter] at h

/-- Witness for C34 on the example machine with a collector that frees segment 3, the
countdown at 1 and the interval 2: of five kernel calls the second and the fifth
run the collector, and segment 3 is free after exactly these two. -/
theorem callk_collects_every_interval_witness :
    ((exCallkStart 0).gc_countdown = (1 : Nat) ∧ (exCallkStart 0).script_gc_interval = (2 : Nat)) ∧
    (∀ i, i < 5 → case_callk exCollectorEnv exCallkLocals (exCallkStart i)
      = some (Outcome.next
          (exLocalsAfter exCallkLocals
            (case_callk exCollectorEnv exCallkLocals (exCallkStart i)))
          (exCallkEnd i))) ∧
    (∀ i, i < 5 → GcSame (exCallkEnd i) (exCallkStart (i + 1))) ∧
    ((∀ i, i < 1 → i ≤ 5 → ∀ L, case_callk exCollectorEnv L (exCallkStart i)
      = callkBody exCollectorEnv L
          { exCallkStart i with gc_countdown := ((1 : Nat) : Int) - i - 1 }) ∧
    (1 ≤ 5 → ∀ L, case_callk exCollectorEnv L (exCallkStart 1)
      = callkBody exCollectorEnv L
          (exCollectorEnv.run_gc { exCallkStart 1 with gc_countdown := (2 : Nat) })) ∧
    (1 ≤ 5 → (exCollectorEnv.run_gc
        { exCallkStart 1 with gc_countdown := (2 : Nat) }).gc_countdown = (2 : Nat)) ∧
    (1 < 5 → (exCallkEnd 1).gc_countdown = (2 : Nat) ∧
      (exCallkEnd 1).script_gc_interval = (2 : Nat)) ∧
    (∀ i, i ≤ 5 → ∀ L, case_callk exCollectorEnv L (exCallkStart i)
      = if 1 ≤ i ∧ (i - 1) % (2 + 1) = 0 then
          callkBody exCollectorEnv L
            (exCollectorEnv.run_gc { exCallkStart i with gc_countdown := (2 : Nat) })
        else callkBody exCollectorEnv L
          { exCallkStart i with gc_countdown := (exCallkStart i).gc_countdown - 1 }) ∧
    (∀ c L t, callkBody { exCollectorEnv with run_gc := c } L t
      = callkBody exCollectorEnv L t) ∧
    (∀ c L t op, op ≠ 0x21 → execOpcode { exCollectorEnv with run_gc := c } L t op
      = execOpcode exCollectorEnv L t op)) ∧
    List.map (fun i => exGcView (exCallkStart i)) [0, 1, 2, 3, 4]
      = [(1, some (some MemObject.MEM_OBJ_DYNMEM)), (0, some (some MemObject.MEM_OBJ_DYNMEM)),
         (2, some (some MemObject.MEM_OBJ_DYNMEM)), (1, some (some MemObject.MEM_OBJ_DYNMEM)),
         (0, some (some MemObject.MEM_OBJ_DYNMEM))] ∧
    List.map (fun i => exGcView (exCallkEnd i)) [0, 1, 2, 3, 4]
      = [(0, some (some MemObject.MEM_OBJ_DYNMEM)), (2, some none),
         (1, some (some MemObject.MEM_OBJ_DYNMEM)), (0, some (some MemObject.MEM_OBJ_DYNMEM)),
         (2, some none)] := by
  have hn : (exCallkStart 0).gc_countdown = (1 : Nat) := by decide
  have hg : (exCallkStart 0).script_gc_interval = (2 : Nat) := by decide
  have hacc : ∀ i, i < 5 →
      ((accAfter (case_callk exCollectorEnv exCallkLocals (exCallkStart i))).isSome
        = true) := by decide!
  have hcall : ∀ i, i < 5 → case_callk exCollectorEnv exCallkLocals (exCallkStart i)
      = some (Outcome.next
          (exLocalsAfter exCallkLocals
            (case_callk exCollectorEnv exCallkLocals (exCallkStart i)))
          (exCallkEnd i)) :=
    fun i hi => next_of_accAfter _ _ _ (hacc i hi)
  have hnext : ∀ i, i < 5 → GcSame (exCallkEnd i) (exCallkStart (i + 1)) :=
    fun i _ => ⟨rfl, rfl⟩
  refine ⟨⟨hn, hg⟩, hcall, hnext, ?_, ?_, ?_⟩
  · exact callk_collects_every_interval exCollectorEnv 5 exCallkStart exCallkEnd
      (fun _ => exCallkLocals)
      (fun i => exLocalsAfter exCallkLocals
        (case_callk exCollectorEnv exCallkLocals (exCallkStart i)))
      1 2 (fun _ => ⟨rfl, rfl⟩)
      (by
        intro kf hkf u a b c r hr
        simp only [exCollectorEnv, List.mem_singleton] at hkf
        subst hkf
        simp only [Option.some.injEq] at hr
        subst hr
        exact ⟨rfl, rfl⟩)
      hn hg hcall hnext
  · decide!
  · decide!

/-- Three kernel calls on the example machine, interval 2: countdown 1 goes to 0
without collection, countdown 0 is reset to the interval, countdown 2 goes to 1;
the kernel function leaves 1 in the accumulator each time. -/
theorem callk_counts_down_example :
    exGcFields (case_callk exKernelEnv exCallkLocals (exGcState 1)) = some (0, 2, ⟨0, 1⟩) ∧
    exGcFields (case_callk exKernelEnv exCallkLocals (exGcState 0)) = some (2, 2, ⟨0, 1⟩) ∧
    exGcFields (case_callk exKernelEnv exCallkLocals (exGcState 2)) = some (1, 2, ⟨0, 1⟩) := by
  refine ⟨?_, ?_, ?_⟩ <;> rfl
/-! ### The fake return buffer -/

/-- One iteration of the loop for a frame without script: the set-up block points the
interpreter at the fake return buffer, the opcode read there at offset 1 is `ret`
without operands, and `ret` runs. -/
theorem vmStep_fake (E : Env) (L : VMLocals) (s : EngineState) (x0 x : ExecStack)
    (rest : List ExecStack)
    (hx0 : getFrame s L.xs = some x0)
    (hpos : s.executionStackPosChanged = true)
    (hes : s.executionStack = x :: rest)
    (hscr : script_locate_by_segment s x.addr_pc.segment = none)
    (habort : s.script_abort_flag = 0)
    (hdbg : s.script_debug_flag = 0 ∧ s.sci_debug_flags = 0)
    (hsp : 0 ≤ x.sp.diff x.fp)
    (hfmt : E.g_opcode_formats 0x24 0 = opcode_format.Script_None) :
    vmStep E L s =
      match case_ret (fakeLocals L x rest) (fakeState s x rest) with
      | some (Outcome.next L6 s8) => endOfInstruction L6 s8 x0.addr_pc.offset x0.sp
      | r => r := by
  obtain ⟨hd1, hd2⟩ := hdbg
  have hscr2 : ∀ (b : Bool) t, script_locate_by_segment
      { s with executionStackPosChanged := b } t = script_locate_by_segment s t :=
    fun _ _ => rfl
  cases s with
  | mk es base pos acc prev rest_ stack objects lb heap sseg s000 ct flags version gn gc abort err dbg steps gci dsr dsk weak sdf bpf dummy =>
    simp only at hpos hes habort hd1 hd2
    subst hpos hes habort hd1 hd2
    unfold vmStep
    simp only [hx0, if_true, posChangedInit, hscr2, hscr, ne_eq, not_true_eq_false, if_false,
      debugHook, or_self]
    have hlt : ¬ x.sp.diff x.fp < 0 := not_lt.mpr hsp
    have hfmt2 : E.g_opcode_formats 36 0 = opcode_format.Script_None := hfmt
    simp [getFrame, setFrame, replaceFrame, GET_OP_BYTE, codeByte, hlt, fetchOperands, hfmt2,
      execOpcode, u16, fakeLocals, fakeState]
    generalize case_ret _ _ = r
    rcases r with _ | (_ | _ | _) <;> rfl

/-- C36: A frame `x` on top of the execution stack becomes current (the
position-changed flag is set) and the segment of its program counter holds no loaded
script; the abort flag and the debug flags are clear, the stack pointer of `x` is not
below its frame pointer, and `ret` has no operands.  The iteration of the loop does
not stop the run: it reads the opcode `ret` from the fake return buffer at offset 1
and executes `ret` once for `x`.  When `x` is the base frame, `run_vm` hard-returns
with `x` popped; when `x` is a CALL frame whose caller `c` is a CALL frame not below
the base, `x` is popped, `c` is resumed as the current frame and the loop goes on. -/
theorem missing_script_returns (E : Env) (L : VMLocals) (s : EngineState) (x0 x : ExecStack)
    (rest : List ExecStack)
    (hx0 : getFrame s L.xs = some x0)
    (hpos : s.executionStackPosChanged = true)
    (hes : s.executionStack = x :: rest)
    (hscr : script_locate_by_segment s x.addr_pc.segment = none)
    (habort : s.script_abort_flag = 0)
    (hdbg : s.script_debug_flag = 0 ∧ s.sci_debug_flags = 0)
    (hsp : 0 ≤ x.sp.diff x.fp)
    (hfmt : E.g_opcode_formats 0x24 0 = opcode_format.Script_None) :
    codeByte E (fakeLocals L x rest) 1 = some (0x24 * 2) ∧
    (vmStep E L s =
      match case_ret (fakeLocals L x rest) (fakeState s x rest) with
      | some (Outcome.next L6 s8) => endOfInstruction L6 s8 x0.addr_pc.offset x0.sp
      | r => r) ∧
    (esSize s - 1 = s.execution_stack_base →
      vmStep E L s = some (Outcome.hardReturn (fakeLocals L x rest)
        { s with execution_stack_base := L.old_execution_stack_base,
                 executionStack := rest, executionStackPosChanged := true,
                 script_error_flag := 0, r_amp_rest := L.restadjust }) ∧
      ∀ fuel, runLoop E (fuel + 1) L s = RunResult.hardReturn L.restadjust
        { s with execution_stack_base := L.old_execution_stack_base,
                 executionStack := rest, executionStackPosChanged := true,
                 script_error_flag := 0, r_amp_rest := L.restadjust }) ∧
    (∀ c rest2, rest = c :: rest2 →
      x.type = EXEC_STACK_TYPE_CALL → c.type = EXEC_STACK_TYPE_CALL →
      s.execution_stack_base < rest2.length + 1 →
      vmStep E L s = some (Outcome.next
        { fakeLocals L x rest with xs := rest2.length, xs_new := some rest2.length }
        { s with executionStack := resumeFrame c x :: rest2, executionStackPosChanged := true,
                 script_error_flag := 0,
                 script_step_counter := s.script_step_counter + 1 })) := by
  have hstep := vmStep_fake E L s x0 x rest hx0 hpos hes hscr habort hdbg hsp hfmt
  refine ⟨rfl, hstep, fun hbase => ?_, fun c rest2 hrest hxt hct hb => ?_⟩
  · have hret : case_ret (fakeLocals L x rest) (fakeState s x rest)
        = some (Outcome.hardReturn (fakeLocals L x rest)
          { s with execution_stack_base := L.old_execution_stack_base,
                   executionStack := rest, executionStackPosChanged := true,
                   script_error_flag := 0, r_amp_rest := L.restadjust }) := by
      have hb3 : (rest.length : Int) = s.execution_stack_base := by
        simp only [esSize, hes, List.length_cons] at hbase
        push_cast at hbase
        omega
      unfold case_ret
      simp only [fakeState, List.length_cons]
      rw [retLoop]
      simp [getFrame, fakeLocals, esSize, hb3]
    rw [hret] at hstep
    refine ⟨hstep, fun fuel => ?_⟩
    rw [runLoop, hstep]
    rfl
  · subst hrest
    have hret := retLoop_drain c rest2 { x with addr_pc := { x.addr_pc with offset := 2 } } hct []
      (fakeState s x (c :: rest2)).executionStack.length (fakeLocals L x (c :: rest2))
      (fakeState s x (c :: rest2)) (fakeState s x (c :: rest2))
      { x with addr_pc := { x.addr_pc with offset := 2 } } rfl rfl rfl rfl
      (fun v hv => by cases hv) hb (by simp [fakeState])
      (by simp [hxt, drainAccesses])
    unfold case_ret at hstep
    rw [hret] at hstep
    rw [hstep]
    simp only [endOfInstruction, withFrames, fakeState, fakeLocals, if_true, ne_eq,
      not_true_eq_false, if_false]
    rfl

theorem missing_script_returns_witness :
    (getFrame exFakeState exLoopLocals.xs = some (exBaseFrame 1) ∧
      exFakeState.executionStackPosChanged = true ∧
      exFakeState.executionStack = { exBaseFrame 1 with addr_pc := ⟨7, 600⟩ } :: [exBaseFrame 1] ∧
      script_locate_by_segment exFakeState 7 = none ∧
      exFakeState.script_abort_flag = 0 ∧
      (exFakeState.script_debug_flag = 0 ∧ exFakeState.sci_debug_flags = 0) ∧
      (0 : Int) ≤ (Ptr.stack 1).diff (Ptr.stack 0) ∧
      exEnv.g_opcode_formats 0x24 0 = opcode_format.Script_None) ∧
    vmStep exEnv exLoopLocals exFakeState = some (Outcome.next
      { fakeLocals exLoopLocals { exBaseFrame 1 with addr_pc := ⟨7, 600⟩ } [exBaseFrame 1] with
        xs := 0, xs_new := some 0 }
      { exFakeState with executionStack := [exBaseFrame 1], executionStackPosChanged := true,
                         script_error_flag := 0, script_step_counter := 1 }) :=
  ⟨⟨rfl, rfl, rfl, rfl, rfl, ⟨rfl, rfl⟩, by decide, rfl⟩,
    (missing_script_returns exEnv exLoopLocals exFakeState (exBaseFrame 1)
      { exBaseFrame 1 with addr_pc := ⟨7, 600⟩ } [exBaseFrame 1]
      rfl rfl rfl rfl rfl ⟨rfl, rfl⟩ (by decide) rfl).2.2.2 (exBaseFrame 1) [] rfl rfl rfl
      (by decide)⟩

/-- The whole run on the example machine: started on a single frame whose program
counter is in segment 7, which holds no script, `run_vm` hard-returns after one
iteration with the frame popped, the accumulator and the operand stack untouched. -/
theorem missing_script_run_example :
    exHardReturned (run_vm exEnv 5 (exState [⟨0, 3⟩]
        [{ exBaseFrame 1 with addr_pc := ⟨7, 600⟩ }] ⟨0, 9⟩) 0)
      = some ([], [⟨0, 3⟩], ⟨0, 9⟩) := by
  decide!
/-! ### Unresolved selectors -/

theorem locate_varselector_flag (E : Env) (s s2 : EngineState) (o : Nat) (slc i : Int)
    (h : _obj_locate_varselector E s o slc = some (i, s2)) :
    s2.script_error_flag = s.script_error_flag := by
  unfold _obj_locate_varselector at h
  repeat' split at h
  all_goals (try cases h)
  all_goals (try rfl)
  all_goals (try (simp only [Option.some.injEq, Prod.mk.injEq] at h; rw [← h.2]))

/-- The error flag after `lookup_selector`: as before, or raised. -/
theorem lookup_selector_flag (E : Env) (s s1 : EngineState) (loc : reg_t) (sel : Int)
    (r : LookupResult) (h : lookup_selector E s loc sel = some (r, s1)) :
    s1.script_error_flag = s.script_error_flag ∨ s1.script_error_flag = 1 := by
  unfold lookup_selector at h
  cases h1 : obj_get E s loc with
  | none =>
    simp only [h1, Option.some.injEq, Prod.mk.injEq] at h
    obtain ⟨_, hs⟩ := h
    subst hs
    exact Or.inr rfl
  | some o =>
    simp only [h1] at h
    cases h2 : s.objects[o]? with
    | none => simp [h2] at h
    | some ob =>
      simp only [h2] at h
      cases h3 : IS_CLASS E ob with
      | none => simp [h3] at h
      | some c =>
        simp only [h3] at h
        split at h
        · simp at h
        · cases h4 : _obj_locate_varselector E s o (selectorKey E s sel) with
          | none => simp [h4] at h
          | some res =>
            obtain ⟨i, s2⟩ := res
            simp only [h4] at h
            have hst := locate_varselector_flag E s s2 o _ i h4
            split at h
            · split at h
              · simp only [Option.some.injEq, Prod.mk.injEq] at h
                rw [← h.2]; exact Or.inl hst
              · simp at h
            · cases h5 : _lookup_selector_function E s2 (some o) (selectorKey E s sel) with
              | none => simp [h5] at h
              | some rr =>
                simp only [h5, Option.map_some', Option.some.injEq, Prod.mk.injEq] at h
                rw [← h.2]; exact Or.inl hst

/-- One iteration of the walk over a send frame whose first group is `g`: the walk
goes on behind the group with the calls registered as `callsFor` prescribes; the
error flag stays raised, and it is raised when `g` is unresolved and not kept. -/
theorem sendLoop_cons (E : Env) (send_obj : reg_t) (s0 : EngineState) (g : SendGroup)
    (F : Int) (fuel : Nat) (s : EngineState) (sp : Ptr) (pre rest : List reg_t)
    (acc : List CallsStruct)
    (hle : LookupEquiv E s0 s)
    (hres : (lookup_selector E s0 send_obj g.selector).map Prod.fst = some g.res)
    (hargc : g.args.length ≤ 0x800)
    (hpos : F > 0)
    (hstack : s.stack = pre ++ (⟨0, g.selector⟩ :: ⟨0, g.args.length⟩ :: g.args) ++ rest) :
    ∃ s2 sp2 acc2, LookupEquiv E s0 s2 ∧ SameButFlagsAndObjects s s2 ∧
      (s.script_error_flag = 1 → s2.script_error_flag = 1) ∧
      (g.res.kind = kSelectorNone → ¬ (s.gameName = "LSL6" ∧ (g.selector : Int) = 0x18c) →
        s2.script_error_flag = 1) ∧
      (∀ gs2, callsFor sp pre.length (g :: gs2) acc
        = callsFor sp2 (pre.length + 2 + g.args.length) gs2 acc2) ∧
      sendLoop E send_obj (fuel + 1) s sp F (Ptr.stack pre.length) acc
        = sendLoop E send_obj fuel s2 sp2 (F - (2 + (g.args.length : Int)))
            (Ptr.stack ((pre ++ (⟨0, g.selector⟩ :: ⟨0, g.args.length⟩ :: g.args)
              : List reg_t).length : Int)) acc2 := by
  have hl0 : load s (Ptr.stack pre.length) = some ⟨0, g.selector⟩ := by
    simp only [load, hstack, List.append_assoc, List.cons_append]
    exact idx_append_cons _ _ _
  have hl1 : load s ((Ptr.stack pre.length).add 1) = some ⟨0, g.args.length⟩ := by
    simp only [load, Ptr.add, hstack, List.append_assoc, List.cons_append]
    have := idx_append_cons (pre ++ [(⟨0, g.selector⟩ : reg_t)])
      (g.args ++ rest) (⟨0, g.args.length⟩ : reg_t)
    simpa using this
  let sb : EngineState := if E.selector_breakpoint s send_obj g.selector = true then
    { s with script_debug_flag := 1, breakpointFlag := true } else s
  have hsb : LookupEquiv E s sb ∧ SameButFlagsAndObjects s sb
      ∧ sb.script_error_flag = s.script_error_flag := by
    by_cases hb : E.selector_breakpoint s send_obj g.selector = true
    · have hsb1 : sb = { s with script_debug_flag := 1, breakpointFlag := true } := if_pos hb
      rw [hsb1]
      exact ⟨⟨rfl, rfl, rfl, rfl, fun _ => rfl⟩, rfl, rfl⟩
    · have hsb1 : sb = s := if_neg hb
      rw [hsb1]
      exact ⟨LookupEquiv_refl E s, rfl, rfl⟩
  have hle_sb := LookupEquiv_trans E s0 s sb hle hsb.1
  have hlk := lookup_selector_congr E s0 sb send_obj g.selector hle_sb
  rw [hres] at hlk
  cases hlk2 : lookup_selector E sb send_obj g.selector with
  | none => rw [hlk2] at hlk; simp at hlk
  | some rs =>
    obtain ⟨r, s2⟩ := rs
    rw [hlk2] at hlk
    simp only [Option.map_some', Option.some.injEq] at hlk
    subst hlk
    obtain ⟨hle2, hsame2⟩ := lookup_selector_state E sb s2 send_obj _ _ hlk2
    have hshape := lookup_selector_shape E sb s2 send_obj _ _ hlk2
    have hflag := lookup_selector_flag E sb s2 send_obj _ _ hlk2
    have hflag2 : s.script_error_flag = 1 → s2.script_error_flag = 1 := by
      intro h1
      rcases hflag with h | h
      · rw [h, hsb.2.2, h1]
      · exact h
    have hargc1 : ¬ ((g.args.length : Int) > 0x800) := by omega
    have hpre2 : ((pre ++ (⟨0, g.selector⟩ :: ⟨0, g.args.length⟩ :: g.args) : List reg_t).length
        : Int) = pre.length + 2 + g.args.length := by
      simp only [List.length_append, List.length_cons]
      push_cast
      ring
    have harg : ((Ptr.stack pre.length).add 1).add ((g.args.length : Int) + 1)
        = Ptr.stack ((pre ++ (⟨0, g.selector⟩ :: ⟨0, g.args.length⟩ :: g.args)
            : List reg_t).length : Int) := by
      simp only [Ptr.add, hpre2]
      congr 1
      ring
    have hsame_s2 : SameButFlagsAndObjects s s2 :=
      SameButFlagsAndObjects_trans s sb s2 hsb.2.1 hsame2
    have hle_s2 : LookupEquiv E s0 s2 := LookupEquiv_trans E s0 sb s2 hle_sb hle2
    have hgn : s2.gameName = s.gameName := (congrArg EngineState.gameName hsame_s2 : _)
    rcases hshape with hn | ⟨v, hv⟩ | ⟨f, hf⟩
    · refine ⟨if s2.gameName = "LSL6" ∧ (g.selector : Int) = 0x18c then s2 else setError s2,
        sp, acc, ?_, ?_, ?_, ?_, ?_, ?_⟩
      · by_cases hg : s2.gameName = "LSL6" ∧ (g.selector : Int) = 0x18c
        · simp only [hg, and_self, if_true]; exact hle_s2
        · simp only [hg, if_false]
          exact LookupEquiv_trans E s0 s2 _ hle_s2 ⟨rfl, rfl, rfl, rfl, fun _ => rfl⟩
      · by_cases hg : s2.gameName = "LSL6" ∧ (g.selector : Int) = 0x18c
        · simp only [hg, and_self, if_true]; exact hsame_s2
        · simp only [hg, if_false]
          exact SameButFlagsAndObjects_trans s s2 _ hsame_s2 (setError_same s2)
      · intro h1
        split
        · exact hflag2 h1
        · rfl
      · intro _ hk
        rw [hgn, if_neg hk]
        rfl
      · intro gs2
        simp only [callsFor, hn]
      · rw [sendLoop]
        simp only [hpos, if_true, hl0, hl1, validate_arithmetic, ne_eq, not_true_eq_false,
          if_false, hargc1]
        rw [show (if E.selector_breakpoint s send_obj (g.selector : Int) = true then
            { s with script_debug_flag := 1, breakpointFlag := true } else s) = sb from rfl, hlk2]
        simp only [hn, harg]
    · refine ⟨s2, sp, (⟨NULL_REG, v, Ptr.stack (pre.length + 1), g.args.length, g.selector,
        Ptr.null, EXEC_STACK_TYPE_VARSELECTOR⟩ : CallsStruct) :: acc,
        hle_s2, hsame_s2, hflag2, ?_, ?_, ?_⟩
      · intro hk
        rw [hv] at hk
        cases hk
      · intro gs2
        simp only [callsFor, hv, Ptr.add]
      · rw [sendLoop]
        simp only [hpos, if_true, hl0, hl1, validate_arithmetic, ne_eq, not_true_eq_false,
          if_false, hargc1]
        rw [show (if E.selector_breakpoint s send_obj (g.selector : Int) = true then
            { s with script_debug_flag := 1, breakpointFlag := true } else s) = sb from rfl, hlk2]
        simp only [hv, harg]
        rfl
    · refine ⟨s2, CALL_SP_CARRY, (⟨f, Ptr.null, Ptr.stack (pre.length + 1), g.args.length,
        g.selector, sp, EXEC_STACK_TYPE_CALL⟩ : CallsStruct) :: acc,
        hle_s2, hsame_s2, hflag2, ?_, ?_, ?_⟩
      · intro hk
        rw [hf] at hk
        cases hk
      · intro gs2
        simp only [callsFor, hf, Ptr.add]
      · rw [sendLoop]
        simp only [hpos, if_true, hl0, hl1, validate_arithmetic, ne_eq, not_true_eq_false,
          if_false, hargc1]
        rw [show (if E.selector_breakpoint s send_obj (g.selector : Int) = true then
            { s with script_debug_flag := 1, breakpointFlag := true } else s) = sb from rfl, hlk2]
        simp only [hf, harg]
        rfl

/-- The walk over a send frame ends with the error flag raised when the flag is
raised at its start or one of the groups is unresolved and not kept. -/
theorem sendLoop_flag (E : Env) (send_obj : reg_t) (s0 : EngineState) :
    ∀ (gs : List SendGroup) (fuel : Nat) (s : EngineState) (sp : Ptr) (pre post : List reg_t)
      (acc : List CallsStruct) (r : Option (List CallsStruct)) (s1 : EngineState),
      LookupEquiv E s0 s →
      (∀ g ∈ gs, (lookup_selector E s0 send_obj g.selector).map Prod.fst = some g.res) →
      (∀ g ∈ gs, g.args.length ≤ 0x800) →
      s.stack = pre ++ sendFrame gs ++ post →
      (sendFrame gs).length ≤ fuel →
      (s.script_error_flag = 1 ∨ ∃ g ∈ gs, g.res.kind = kSelectorNone ∧
        ¬ (s.gameName = "LSL6" ∧ (g.selector : Int) = 0x18c)) →
      sendLoop E send_obj fuel s sp (sendFrame gs).length (Ptr.stack pre.length) acc
        = some (r, s1) →
      s1.script_error_flag = 1 := by
  intro gs
  induction gs with
  | nil =>
    intro fuel s sp pre post acc r s1 _ _ _ _ _ hor h
    unfold sendLoop at h
    simp only [sendFrame, List.length_nil, Nat.cast_zero, gt_iff_lt, lt_self_iff_false,
      if_false, Option.some.injEq, Prod.mk.injEq] at h
    rcases hor with h1 | ⟨g, hg, _⟩
    · rw [← h.2]; exact h1
    · cases hg
  | cons g gs ih =>
    intro fuel s sp pre post acc r s1 hle hres hargc hstack hfuel hor h
    obtain ⟨fuel, rfl⟩ : ∃ f2, fuel = f2 + 1 := ⟨fuel - 1, by
      have : 0 < (sendFrame (g :: gs)).length := by simp [sendFrame]
      omega⟩
    have hfs : ((sendFrame (g :: gs)).length : Int) - (2 + (g.args.length : Int))
        = (sendFrame gs).length := by rw [sendFrame_length_cons g gs]; ring
    obtain ⟨s2, sp2, acc2, hle2, hsame2, hf1, hf2, _, hstep⟩ := sendLoop_cons E send_obj s0 g
      (sendFrame (g :: gs)).length fuel s sp pre (sendFrame gs ++ post) acc hle
      (hres g (List.mem_cons_self _ _)) (hargc g (List.mem_cons_self _ _))
      (by have : 0 < (sendFrame (g :: gs)).length := by simp [sendFrame]
          omega)
      (by rw [hstack]; simp [sendFrame])
    rw [hstep, hfs] at h
    have hst2 : s2.stack = (pre ++ (⟨0, g.selector⟩ :: ⟨0, g.args.length⟩ :: g.args))
        ++ sendFrame gs ++ post := by
      rw [SameButFlagsAndObjects_stack_eq s s2 hsame2, hstack]
      simp [sendFrame]
    have hgn : s2.gameName = s.gameName := (congrArg EngineState.gameName hsame2 : _)
    refine ih fuel s2 sp2 _ post acc2 r s1 hle2
      (fun g2 hg2 => hres g2 (List.mem_cons_of_mem _ hg2))
      (fun g2 hg2 => hargc g2 (List.mem_cons_of_mem _ hg2)) hst2
      (by simp only [sendFrame, List.length_cons, List.length_append] at hfuel; omega) ?_ h
    rcases hor with h1 | ⟨g2, hg2, hk, hkeep⟩
    · exact Or.inl (hf1 h1)
    · rcases List.mem_cons.mp hg2 with rfl | hin
      · exact Or.inl (hf2 hk hkeep)
      · exact Or.inr ⟨g2, hin, hk, by rw [hgn]; exact hkeep⟩

theorem store_flag (s s1 : EngineState) (p : Ptr) (v : reg_t) (h : store s p v = some s1) :
    s1.script_error_flag = s.script_error_flag := by
  unfold store at h
  cases p with
  | null => cases h
  | stack i =>
    simp only [Option.map_eq_some'] at h
    obtain ⟨_, _, h⟩ := h
    rw [← h]
  | prop o i =>
    simp only [Option.bind_eq_some, Option.map_eq_some'] at h
    obtain ⟨_, _, _, _, h⟩ := h
    rw [← h]
  | locals b i =>
    simp only [Option.bind_eq_some, Option.map_eq_some'] at h
    obtain ⟨_, _, _, _, h⟩ := h
    rw [← h]

theorem add_exec_stack_entry_flag (s s1 : EngineState) (pc : reg_t) (sp : Ptr) (objp : reg_t)
    (argc : Int) (argp : Ptr) (selector : Int) (sendp : reg_t) (origin ls : Int)
    (h : add_exec_stack_entry s pc sp objp argc argp selector sendp origin ls = some s1) :
    s1.script_error_flag = s.script_error_flag := by
  unfold add_exec_stack_entry at h
  simp only [Option.map_eq_some'] at h
  obtain ⟨s2, h2, h⟩ := h
  rw [← h]
  exact store_flag s s2 _ _ h2

theorem pushCalls_flag (send_obj work_obj : reg_t) (origin : Int) :
    ∀ (calls : List CallsStruct) (s s2 : EngineState),
      pushCalls send_obj work_obj origin calls s = some s2 →
      s2.script_error_flag = s.script_error_flag := by
  intro calls
  induction calls with
  | nil =>
    intro s s2 h
    simp only [pushCalls, Option.some.injEq] at h
    rw [h]
  | cons c cs ih =>
    intro s s2 h
    unfold pushCalls at h
    by_cases hc : c.type = EXEC_STACK_TYPE_VARSELECTOR
    · simp only [hc, if_true] at h
      cases ha : add_exec_stack_varselector s work_obj c.argc c.argp c.selector c.address_var
          origin with
      | none => simp [ha] at h
      | some s1 =>
        simp only [ha] at h
        rw [ih s1 s2 h]
        unfold add_exec_stack_varselector at ha
        split at ha
        · cases ha
        · rename_i s3 h3
          split at ha
          · cases ha
          · cases ha
            exact add_exec_stack_entry_flag s s3 _ _ _ _ _ _ _ _ _ h3
    · simp only [hc, if_false] at h
      cases ha : add_exec_stack_entry s c.address_func c.sp work_obj c.argc c.argp c.selector
          send_obj origin SCI_XS_CALLEE_LOCALS with
      | none => simp [ha] at h
      | some s1 =>
        simp only [ha] at h
        rw [ih s1 s2 h]
        exact add_exec_stack_entry_flag _ _ _ _ _ _ _ _ _ _ _ ha

theorem execVarselector_flag (s s1 : EngineState) (v : ExecStack)
    (h : execVarselector s v = some s1) : s1.script_error_flag = s.script_error_flag := by
  unfold execVarselector at h
  split at h
  · simp only [Option.bind_eq_some] at h
    obtain ⟨_, _, h⟩ := h
    exact store_flag _ _ _ _ h
  · simp only [Option.map_eq_some'] at h
    obtain ⟨_, _, h⟩ := h
    rw [← h]

theorem execVarselectorsLoop_flag :
    ∀ (n : Nat) (s s3 : EngineState), execVarselectorsLoop n s = some s3 →
      s3.script_error_flag = s.script_error_flag := by
  intro n
  induction n with
  | zero =>
    intro s s3 h
    simp only [execVarselectorsLoop, Option.some.injEq] at h
    rw [h]
  | succ n ih =>
    intro s s3 h
    unfold execVarselectorsLoop at h
    split at h
    · simp only [Option.some.injEq] at h
      rw [h]
    · split at h
      · split at h
        · cases h
        · rename_i s1 h1
          rw [ih _ _ h]
          exact execVarselector_flag s s1 _ h1
      · simp only [Option.some.injEq] at h
        rw [h]

theorem callsFor_noArgp_pos :
    ∀ (gs : List SendGroup) (sp : Ptr) (p q : Int) (acc acc2 : List CallsStruct),
      acc.map noArgp = acc2.map noArgp →
      (callsFor sp p gs acc).map noArgp = (callsFor sp q gs acc2).map noArgp := by
  intro gs
  induction gs with
  | nil => intro sp p q acc acc2 h; exact h
  | cons g gs ih =>
    intro sp p q acc acc2 h
    unfold callsFor
    split
    · exact ih _ _ _ _ _ (by simp only [List.map_cons, h, noArgp])
    · exact ih _ _ _ _ _ (by simp only [List.map_cons, h, noArgp])
    · exact ih _ _ _ _ _ h

/-- Up to the argument pointers, the calls registered for a send frame are those
registered for the frame without one of its unresolved groups. -/
theorem callsFor_skip (g : SendGroup) (gs2 : List SendGroup)
    (hnone : g.res.kind = kSelectorNone) :
    ∀ (gs1 : List SendGroup) (sp : Ptr) (p q : Int) (acc acc2 : List CallsStruct),
      acc.map noArgp = acc2.map noArgp →
      (callsFor sp p (gs1 ++ g :: gs2) acc).map noArgp
        = (callsFor sp q (gs1 ++ gs2) acc2).map noArgp := by
  intro gs1
  induction gs1 with
  | nil =>
    intro sp p q acc acc2 h
    simp only [List.nil_append]
    rw [callsFor]
    simp only [hnone]
    exact callsFor_noArgp_pos gs2 sp _ _ acc acc2 h
  | cons g1 gs1 ih =>
    intro sp p q acc acc2 h
    simp only [List.cons_append]
    unfold callsFor
    split
    · exact ih _ _ _ _ _ (by simp only [List.map_cons, h, noArgp])
    · exact ih _ _ _ _ _ (by simp only [List.map_cons, h, noArgp])
    · exact ih _ _ _ _ _ h

theorem frame_slots (s : EngineState) (g : SendGroup) (gs : List SendGroup)
    (pre post : List reg_t) (hstack : s.stack = pre ++ sendFrame (g :: gs) ++ post) :
    load s ((Ptr.stack ((pre.length : Int) + 1)).add (-1)) = some ⟨0, g.selector⟩ ∧
    load s (Ptr.stack ((pre.length : Int) + 1)) = some ⟨0, g.args.length⟩ ∧
    ∀ i : Nat, i < g.args.length →
      load s ((Ptr.stack ((pre.length : Int) + 1)).add (1 + i)) = g.args[i]? := by
  refine ⟨?_, ?_, ?_⟩
  · have h0 : (pre.length : Int) + 1 + -1 = pre.length := by ring
    simp only [load, Ptr.add, h0, hstack, sendFrame, List.append_assoc, List.cons_append]
    exact idx_append_cons _ _ _
  · simp only [load, hstack, sendFrame, List.append_assoc, List.cons_append]
    have := idx_append_cons (pre ++ [(⟨0, g.selector⟩ : reg_t)])
      (g.args ++ (sendFrame gs ++ post)) (⟨0, g.args.length⟩ : reg_t)
    simpa using this
  · intro i hi
    have h0 : (pre.length : Int) + 1 + (1 + (i : Int)) = ((pre.length + 2 + i : Nat) : Int) := by
      push_cast
      ring
    simp only [load, Ptr.add, h0, idx, Int.natCast_nonneg, if_true, Int.toNat_ofNat, hstack,
      sendFrame, List.append_assoc, List.cons_append]
    rw [List.getElem?_append_right (by omega)]
    have h1 : pre.length + 2 + i - pre.length = i + 2 := by omega
    rw [h1]
    simp only [List.getElem?_cons_succ]
    rw [List.getElem?_append_left hi]

/-- Every call registered for a send frame belongs to one of its groups that
resolve. -/
theorem callsFor_groups (s : EngineState) (post : List reg_t) :
    ∀ (gs : List SendGroup) (sp : Ptr) (pre : List reg_t) (acc : List CallsStruct),
      s.stack = pre ++ sendFrame gs ++ post →
      ∀ c ∈ callsFor sp pre.length gs acc, c ∈ acc ∨ ∃ g ∈ gs, CallOfGroup s c g := by
  intro gs
  induction gs with
  | nil => intro sp pre acc _ c hc; exact Or.inl hc
  | cons g gs ih =>
    intro sp pre acc hstack c hc
    have hslots := frame_slots s g gs pre post hstack
    have hpre2 : ((pre ++ (⟨0, g.selector⟩ :: ⟨0, g.args.length⟩ :: g.args) : List reg_t).length
        : Int) = pre.length + 2 + g.args.length := by
      simp only [List.length_append, List.length_cons]
      push_cast
      ring
    have hst2 : s.stack = (pre ++ (⟨0, g.selector⟩ :: ⟨0, g.args.length⟩ :: g.args))
        ++ sendFrame gs ++ post := by
      rw [hstack]; simp [sendFrame]
    have hih := fun sp2 acc2 => ih sp2 _ acc2 hst2 c
    rw [hpre2] at hih
    unfold callsFor at hc
    split at hc
    · rename_i hk _
      rcases hih _ _ hc with h | ⟨g2, hg2, h⟩
      · rcases List.mem_cons.mp h with rfl | h
        · exact Or.inr ⟨g, List.mem_cons_self _ _, by rw [hk]; simp, rfl, rfl, hslots⟩
        · exact Or.inl h
      · exact Or.inr ⟨g2, List.mem_cons_of_mem _ hg2, h⟩
    · rename_i hk _
      rcases hih _ _ hc with h | ⟨g2, hg2, h⟩
      · rcases List.mem_cons.mp h with rfl | h
        · exact Or.inr ⟨g, List.mem_cons_self _ _, by rw [hk]; simp, rfl, rfl, hslots⟩
        · exact Or.inl h
      · exact Or.inr ⟨g2, List.mem_cons_of_mem _ hg2, h⟩
    · rcases hih _ _ hc with h | ⟨g2, hg2, h⟩
      · exact Or.inl h
      · exact Or.inr ⟨g2, List.mem_cons_of_mem _ hg2, h⟩

/-- C31: A send frame `gs1 ++ g :: gs2` lies on the operand stack, its groups resolve
as recorded in them, and `g` is unresolved and not the selector kept for LSL6.  The
walk of `send_selector` over the frame ends with the error flag raised and with the
calls of `callsFor` registered: none of them belongs to `g`, each belongs to another
group of the frame (`CallOfGroup`: its selector, its argument count, its own slots),
and up to the argument pointers they are the calls registered for the frame
`gs1 ++ gs2`, in which `g` is absent.  `send_selector` goes on with these calls, and
the error flag is still raised when it returns. -/
theorem unresolved_group_skipped (E : Env) (s : EngineState) (send_obj work_obj : reg_t)
    (sp : Ptr) (gs1 : List SendGroup) (g : SendGroup) (gs2 : List SendGroup)
    (pre post : List reg_t)
    (hres : ∀ h ∈ gs1 ++ g :: gs2,
      (lookup_selector E s send_obj h.selector).map Prod.fst = some h.res)
    (hnone : g.res.kind = kSelectorNone)
    (hkeep : ¬ (s.gameName = "LSL6" ∧ (g.selector : Int) = 0x18c))
    (hargc : ∀ h ∈ gs1 ++ g :: gs2, h.args.length ≤ 0x800)
    (hstack : s.stack = pre ++ sendFrame (gs1 ++ g :: gs2) ++ post) :
    ∃ s1, sendLoop E send_obj (sendFrame (gs1 ++ g :: gs2)).length s sp
          (sendFrame (gs1 ++ g :: gs2)).length (Ptr.stack pre.length) []
        = some (some (callsFor sp pre.length (gs1 ++ g :: gs2) []), s1) ∧
      s1.script_error_flag = 1 ∧
      (∀ c ∈ callsFor sp pre.length (gs1 ++ g :: gs2) [],
        ∃ h ∈ gs1 ++ gs2, CallOfGroup s c h) ∧
      (callsFor sp pre.length (gs1 ++ g :: gs2) []).map noArgp
        = (callsFor sp pre.length (gs1 ++ gs2) []).map noArgp ∧
      send_selector E s send_obj work_obj sp (sendFrame (gs1 ++ g :: gs2)).length
          (Ptr.stack pre.length)
        = (pushCalls send_obj work_obj (esSize s - 1)
            (callsFor sp pre.length (gs1 ++ g :: gs2) []) s1).bind (fun s2 =>
              (_exec_varselectors s2).map (fun s3 =>
                (if s3.executionStack.isEmpty then none
                  else some (s3.executionStack.length - 1), s3))) ∧
      (∀ r s3, send_selector E s send_obj work_obj sp (sendFrame (gs1 ++ g :: gs2)).length
          (Ptr.stack pre.length) = some (r, s3) → s3.script_error_flag = 1) := by
  obtain ⟨s1, hloop, _, _⟩ := sendLoop_groups E send_obj s (gs1 ++ g :: gs2)
    (sendFrame (gs1 ++ g :: gs2)).length s sp pre post [] (LookupEquiv_refl E s) hres hargc
    hstack (le_refl _)
  have hflag : s1.script_error_flag = 1 :=
    sendLoop_flag E send_obj s (gs1 ++ g :: gs2) _ s sp pre post [] _ s1 (LookupEquiv_refl E s)
      hres hargc hstack (le_refl _)
      (Or.inr ⟨g, List.mem_append_right _ (List.mem_cons_self _ _), hnone, hkeep⟩) hloop
  have hsend : send_selector E s send_obj work_obj sp (sendFrame (gs1 ++ g :: gs2)).length
      (Ptr.stack pre.length)
      = (pushCalls send_obj work_obj (esSize s - 1)
          (callsFor sp pre.length (gs1 ++ g :: gs2) []) s1).bind (fun s2 =>
            (_exec_varselectors s2).map (fun s3 =>
              (if s3.executionStack.isEmpty then none
                else some (s3.executionStack.length - 1), s3))) := by
    unfold send_selector
    simp only [Int.toNat_ofNat, hloop]
    cases hp : pushCalls send_obj work_obj (esSize s - 1)
        (callsFor sp pre.length (gs1 ++ g :: gs2) []) s1 with
    | none => rfl
    | some s2 =>
      simp only [Option.some_bind]
      cases hx : _exec_varselectors s2 with
      | none => rfl
      | some s3 =>
        simp only [Option.map_some']
        split <;> rfl
  refine ⟨s1, hloop, hflag, ?_, callsFor_skip g gs2 hnone gs1 sp _ _ [] [] rfl, hsend, ?_⟩
  · intro c hc
    rcases callsFor_groups s post (gs1 ++ g :: gs2) sp pre [] hstack c hc with h | ⟨h, hh, hcg⟩
    · cases h
    · refine ⟨h, ?_, hcg⟩
      rcases List.mem_append.mp hh with h1 | h1
      · exact List.mem_append_left _ h1
      · rcases List.mem_cons.mp h1 with rfl | h2
        · exact absurd hnone hcg.1
        · exact List.mem_append_right _ h2
  · intro r s3 h
    rw [hsend] at h
    simp only [Option.bind_eq_some, Option.map_eq_some', Prod.mk.injEq] at h
    obtain ⟨s2, hp, s4, hx, _, h4⟩ := h
    rw [← h4]
    unfold _exec_varselectors at hx
    rw [execVarselectorsLoop_flag _ _ _ hx, pushCalls_flag _ _ _ _ _ _ hp]
    exact hflag


theorem unresolved_group_skipped_witness :
    exUnresolved.res.kind = kSelectorNone ∧
    ¬ (exUnresolvedState.gameName = "LSL6" ∧ (exUnresolved.selector : Int) = 0x18c) ∧
    exUnresolvedState.stack
      = [] ++ sendFrame (exMethodGroups.take 1 ++ exUnresolved :: exMethodGroups.drop 1)
        ++ [⟨0, 0⟩] ∧
    callsFor (Ptr.stack 8) ([] : List reg_t).length
        (exMethodGroups.take 1 ++ exUnresolved :: exMethodGroups.drop 1) []
      = [ { address_func := ⟨1, 400⟩, address_var := Ptr.null, argp := Ptr.stack 7, argc := 0,
            selector := 40, sp := CALL_SP_CARRY, type := EXEC_STACK_TYPE_CALL },
          { address_func := ⟨1, 310⟩, address_var := Ptr.null, argp := Ptr.stack 1, argc := 1,
            selector := 31, sp := Ptr.stack 8, type := EXEC_STACK_TYPE_CALL } ] ∧
    ∃ s1, sendLoop exEnv ⟨1, 8⟩
          (sendFrame (exMethodGroups.take 1 ++ exUnresolved :: exMethodGroups.drop 1)).length
          exUnresolvedState (Ptr.stack 8)
          (sendFrame (exMethodGroups.take 1 ++ exUnresolved :: exMethodGroups.drop 1)).length
          (Ptr.stack ([] : List reg_t).length) []
        = some (some (callsFor (Ptr.stack 8) ([] : List reg_t).length
            (exMethodGroups.take 1 ++ exUnresolved :: exMethodGroups.drop 1) []), s1) ∧
      s1.script_error_flag = 1 :=
  ⟨rfl, by decide!, by decide!, by decide!,
    let ⟨s1, h1, h2, _⟩ := unresolved_group_skipped exEnv exUnresolvedState ⟨1, 8⟩ ⟨1, 8⟩
      (Ptr.stack 8) (exMethodGroups.take 1) exUnresolved (exMethodGroups.drop 1) [] [⟨0, 0⟩]
      (by intro g hg
          simp only [exMethodGroups, List.take, List.drop, List.cons_append, List.nil_append,
            List.mem_cons, List.mem_singleton, List.not_mem_nil, or_false] at hg
          rcases hg with rfl | rfl | rfl <;> decide!)
      rfl (by decide!)
      (by intro g hg
          simp only [exMethodGroups, List.take, List.drop, List.cons_append, List.nil_append,
            List.mem_cons, List.mem_singleton, List.not_mem_nil, or_false] at hg
          rcases hg with rfl | rfl | rfl <;> decide!)
      (by decide!)
    ⟨s1, h1, h2⟩⟩

/-- On the example machine the send frame `[31 (5)] [77 (9)] [40 ()]` pushes the
frames of the selectors 31 and 40, each with the argument pointer of its own group,
and no frame for selector 77; the error flag is raised. -/
theorem unresolved_group_example :
    exSent (send_selector exEnv exUnresolvedState ⟨1, 8⟩ ⟨1, 8⟩ (Ptr.stack 8) 8 (Ptr.stack 0))
      = some ([(31, ⟨1, 310⟩, Ptr.stack 1), (40, ⟨1, 400⟩, Ptr.stack 7),
          (-1, ⟨1, 600⟩, Ptr.stack 0)], 1) := by
  decide!
/-! ### Oversized argument counts -/

theorem sendFrame_length_ge : ∀ gs : List SendGroup, 2 * gs.length ≤ (sendFrame gs).length := by
  intro gs
  induction gs with
  | nil => simp [sendFrame]
  | cons g gs ih =>
    simp only [sendFrame, List.length_cons, List.length_append]
    omega

/-- The walk over a send frame in which the groups `gs1` are followed by a group with
an argument count above 0x800: the walk reports an error and ends with the result
NULL, whatever calls it has registered; the state differs from the one at the start
in flags and `base_vars` fields only. -/
theorem sendLoop_oversized (E : Env) (send_obj : reg_t) (s0 : EngineState) (sel n : Nat)
    (hn : 0x800 < n) (rest : List reg_t) :
    ∀ (gs1 : List SendGroup) (fuel : Nat) (s : EngineState) (sp : Ptr) (pre : List reg_t)
      (acc : List CallsStruct) (F : Int),
      LookupEquiv E s0 s →
      (∀ g ∈ gs1, (lookup_selector E s0 send_obj g.selector).map Prod.fst = some g.res) →
      (∀ g ∈ gs1, g.args.length ≤ 0x800) →
      s.stack = pre ++ sendFrame gs1 ++ (⟨0, sel⟩ :: ⟨0, n⟩ :: rest) →
      ((sendFrame gs1).length : Int) < F →
      gs1.length + 1 ≤ fuel →
      ∃ s1, sendLoop E send_obj fuel s sp F (Ptr.stack pre.length) acc = some (none, s1) ∧
        s1.script_error_flag = 1 ∧ LookupEquiv E s0 s1 ∧ SameButFlagsAndObjects s s1 := by
  intro gs1
  induction gs1 with
  | nil =>
    intro fuel s sp pre acc F hle _ _ hstack hF hfuel
    obtain ⟨fuel, rfl⟩ : ∃ f2, fuel = f2 + 1 := ⟨fuel - 1, by omega⟩
    have hpos : F > 0 := by simpa [sendFrame] using hF
    have hl0 : load s (Ptr.stack pre.length) = some ⟨0, sel⟩ := by
      simp only [load, hstack, sendFrame, List.append_nil]
      exact idx_append_cons _ _ _
    have hl1 : load s ((Ptr.stack pre.length).add 1) = some ⟨0, n⟩ := by
      simp only [load, Ptr.add, hstack, sendFrame, List.append_nil]
      have := idx_append_cons (pre ++ [(⟨0, sel⟩ : reg_t)]) rest (⟨0, n⟩ : reg_t)
      simpa using this
    have hbig : ((n : Nat) : Int) > 0x800 := by omega
    refine ⟨script_error s, ?_, rfl, ?_, setError_same s⟩
    · rw [sendLoop]
      simp only [hpos, if_true, hl0, hl1, validate_arithmetic, ne_eq, not_true_eq_false,
        if_false, hbig]
    · exact LookupEquiv_trans E s0 s _ hle ⟨rfl, rfl, rfl, rfl, fun _ => rfl⟩
  | cons g gs ih =>
    intro fuel s sp pre acc F hle hres hargc hstack hF hfuel
    obtain ⟨fuel, rfl⟩ : ∃ f2, fuel = f2 + 1 := ⟨fuel - 1, by omega⟩
    have hlen := sendFrame_length_cons g gs
    obtain ⟨s2, sp2, acc2, hle2, hsame2, _, _, _, hstep⟩ := sendLoop_cons E send_obj s0 g
      F fuel s sp pre (sendFrame gs ++ (⟨0, sel⟩ :: ⟨0, n⟩ :: rest)) acc hle
      (hres g (List.mem_cons_self _ _)) (hargc g (List.mem_cons_self _ _))
      (by omega)
      (by rw [hstack]; simp [sendFrame])
    have hst2 : s2.stack = (pre ++ (⟨0, g.selector⟩ :: ⟨0, g.args.length⟩ :: g.args))
        ++ sendFrame gs ++ (⟨0, sel⟩ :: ⟨0, n⟩ :: rest) := by
      rw [SameButFlagsAndObjects_stack_eq s s2 hsame2, hstack]
      simp [sendFrame]
    obtain ⟨s1, h1, h2, h3, h4⟩ := ih fuel s2 sp2 _ acc2 (F - (2 + (g.args.length : Int))) hle2
      (fun g2 hg2 => hres g2 (List.mem_cons_of_mem _ hg2))
      (fun g2 hg2 => hargc g2 (List.mem_cons_of_mem _ hg2)) hst2
      (by omega) (by simp only [List.length_cons] at hfuel; omega)
    exact ⟨s1, by rw [hstep, h1], h2, h3, SameButFlagsAndObjects_trans s s2 s1 hsame2 h4⟩

/-- C35: The groups `gs1` of a send frame, which resolve, are followed by a group
whose argument count `n` is above 0x800, within the frame size `F`.  Then
`send_selector` returns NULL with the error flag raised and has pushed no frame, not
even for the groups of `gs1`: the execution stack, the accumulator, the operand
stack and every property slot are as they were; the state differs from the initial
one in flags and `base_vars` fields only. -/
theorem oversized_argc_pushes_nothing (E : Env) (s : EngineState) (send_obj work_obj : reg_t)
    (sp : Ptr) (gs1 : List SendGroup) (sel n : Nat) (pre rest : List reg_t) (F : Int)
    (hres : ∀ g ∈ gs1, (lookup_selector E s send_obj g.selector).map Prod.fst = some g.res)
    (hargc : ∀ g ∈ gs1, g.args.length ≤ 0x800)
    (hn : 0x800 < n)
    (hstack : s.stack = pre ++ sendFrame gs1 ++ (⟨0, sel⟩ :: ⟨0, n⟩ :: rest))
    (hF : ((sendFrame gs1).length : Int) < F) :
    ∃ s1, send_selector E s send_obj work_obj sp F (Ptr.stack pre.length) = some (none, s1) ∧
      s1.script_error_flag = 1 ∧
      s1.executionStack = s.executionStack ∧
      s1.r_acc = s.r_acc ∧
      s1.stack = s.stack ∧
      s1.objects.map (fun ob => ob._variables) = s.objects.map (fun ob => ob._variables) ∧
      (∀ p, load s1 p = load s p) ∧
      SameButFlagsAndObjects s s1 := by
  have hfuel : gs1.length + 1 ≤ F.toNat := by
    have := sendFrame_length_ge gs1
    omega
  obtain ⟨s1, hloop, hflag, hle, hsame⟩ := sendLoop_oversized E send_obj s sel n hn rest gs1
    F.toNat s sp pre [] F (LookupEquiv_refl E s) hres hargc hstack hF hfuel
  refine ⟨s1, ?_, hflag, SameButFlagsAndObjects_es_eq s s1 hsame,
    SameButFlagsAndObjects_acc_eq s s1 hsame, SameButFlagsAndObjects_stack_eq s s1 hsame, ?_,
    fun p => load_congr E s s1 hle hsame p, hsame⟩
  · unfold send_selector
    simp only [hloop]
  · have h := congrArg (List.map (fun ob : Object => ob._variables)) hle.2.2.2.1
    simpa only [List.map_map] using h

theorem oversized_argc_pushes_nothing_witness :
    ∃ s1, send_selector exEnv exOversizedState ⟨1, 8⟩ ⟨1, 8⟩ (Ptr.stack 5) 2054
        (Ptr.stack ([] : List reg_t).length) = some (none, s1) ∧
      s1.script_error_flag = 1 ∧
      s1.executionStack = exOversizedState.executionStack ∧
      s1.r_acc = exOversizedState.r_acc ∧
      s1.stack = exOversizedState.stack :=
  let ⟨s1, h1, h2, h3, h4, h5, _⟩ := oversized_argc_pushes_nothing exEnv exOversizedState
    ⟨1, 8⟩ ⟨1, 8⟩ (Ptr.stack 5) (exMethodGroups.take 1) 40 0x801 [] [⟨0, 0⟩] 2054
    (by intro g hg
        simp only [exMethodGroups, List.take, List.mem_cons, List.mem_singleton,
          List.not_mem_nil, or_false] at hg
        rcases hg with rfl
        decide!)
    (by intro g hg
        simp only [exMethodGroups, List.take, List.mem_cons, List.mem_singleton,
          List.not_mem_nil, or_false] at hg
        rcases hg with rfl
        decide!)
    (by decide) (by decide!) (by decide!)
  ⟨s1, h1, h2, h3, h4, h5⟩

/-- On the example machine the send frame whose second group announces 0x801
arguments leaves the execution stack, the operand stack, the accumulator and the
property slots as they were, and raises the error flag. -/
theorem oversized_argc_example :
    exNullSend (send_selector exEnv exOversizedState ⟨1, 8⟩ ⟨1, 8⟩ (Ptr.stack 5) 2054
        (Ptr.stack 0))
      = some ([exBaseFrame 5], exOversizedState.stack, ⟨0, 9⟩,
          exObjects.map (fun ob => ob._variables), 1) := by
  decide!
/-! ### Termination of the walk over a send frame -/

theorem validate_arithmetic_same (E : Env) (s : EngineState) (r : reg_t) :
    0 ≤ (validate_arithmetic s r).1 ∧ LookupEquiv E s (validate_arithmetic s r).2 ∧
      SameButFlagsAndObjects s (validate_arithmetic s r).2 := by
  unfold validate_arithmetic
  split
  · split
    · exact ⟨le_refl _, ⟨rfl, rfl, rfl, rfl, fun _ => rfl⟩, setError_same s⟩
    · exact ⟨le_refl _, LookupEquiv_refl E s, SameButFlagsAndObjects_refl s⟩
  · exact ⟨Int.natCast_nonneg _, LookupEquiv_refl E s, SameButFlagsAndObjects_refl s⟩

/-- One iteration of the walk of `send_selector`, whatever the two registers at the
argument pointer hold: the walk returns NULL, or it goes on behind a group of
`2 + argc` slots with `0 ≤ argc ≤ 0x800`, with at most one more call registered. -/
theorem sendLoop_iter (E : Env) (send_obj : reg_t) (s0 s : EngineState) (sp : Ptr) (F q : Int)
    (acc : List CallsStruct) (r0 r1 : reg_t)
    (hlook : (lookup_selector E s0 send_obj (validate_arithmetic s r0).1).isSome = true)
    (hle : LookupEquiv E s0 s)
    (hF : 0 < F)
    (hl0 : load s (Ptr.stack q) = some r0) (hl1 : load s (Ptr.stack (q + 1)) = some r1) :
    (∃ s1, SameButFlagsAndObjects s s1 ∧
      ∀ fuel, sendLoop E send_obj (fuel + 1) s sp F (Ptr.stack q) acc = some (none, s1)) ∨
    ∃ s2 sp2 acc2 argc, 0 ≤ argc ∧ argc ≤ 0x800 ∧ LookupEquiv E s0 s2 ∧
      SameButFlagsAndObjects s s2 ∧ acc2.length ≤ acc.length + 1 ∧
      ∀ fuel, sendLoop E send_obj (fuel + 1) s sp F (Ptr.stack q) acc
        = sendLoop E send_obj fuel s2 sp2 (F - (2 + argc)) (Ptr.stack (q + 2 + argc)) acc2 := by
  obtain ⟨_, hleA, hsameA⟩ := validate_arithmetic_same E s r0
  obtain ⟨hargc0, hleB, hsameB⟩ := validate_arithmetic_same E (validate_arithmetic s r0).2 r1
  generalize hva0 : validate_arithmetic s r0 = va0 at hlook hleA hsameA hargc0 hleB hsameB
  obtain ⟨selector, sA⟩ := va0
  generalize hva1 : validate_arithmetic sA r1 = va1 at hargc0 hleB hsameB
  obtain ⟨argc, sB⟩ := va1
  simp only at hlook hleA hsameA hargc0 hleB hsameB
  have hsame_B : SameButFlagsAndObjects s sB := SameButFlagsAndObjects_trans s sA sB hsameA hsameB
  have hle_B : LookupEquiv E s0 sB :=
    LookupEquiv_trans E s0 s sB hle (LookupEquiv_trans E s sA sB hleA hleB)
  have hq : (Ptr.stack q).add 1 = Ptr.stack (q + 1) := rfl
  by_cases hbig : argc > 0x800
  · left
    refine ⟨script_error sB, SameButFlagsAndObjects_trans s sB _ hsame_B (setError_same sB), ?_⟩
    intro fuel
    rw [sendLoop]
    simp only [hF, gt_iff_lt, if_true, hl0, hq, hl1, hva0, hva1]
    simp only [gt_iff_lt] at hbig
    simp only [hbig, if_true]
  · right
    let sb : EngineState := if E.selector_breakpoint sB send_obj selector = true then
      { sB with script_debug_flag := 1, breakpointFlag := true } else sB
    have hsb : LookupEquiv E sB sb ∧ SameButFlagsAndObjects sB sb := by
      by_cases hb : E.selector_breakpoint sB send_obj selector = true
      · have hsb1 : sb = { sB with script_debug_flag := 1, breakpointFlag := true } := if_pos hb
        rw [hsb1]
        exact ⟨⟨rfl, rfl, rfl, rfl, fun _ => rfl⟩, rfl⟩
      · have hsb1 : sb = sB := if_neg hb
        rw [hsb1]
        exact ⟨LookupEquiv_refl E sB, rfl⟩
    have hle_sb := LookupEquiv_trans E s0 sB sb hle_B hsb.1
    have hsame_sb := SameButFlagsAndObjects_trans s sB sb hsame_B hsb.2
    have hlk := lookup_selector_congr E s0 sb send_obj selector hle_sb
    have hsome := hlook
    cases hlk0 : lookup_selector E s0 send_obj selector with
    | none => rw [hlk0] at hsome; cases hsome
    | some rs0 =>
      rw [hlk0] at hlk
      cases hlk2 : lookup_selector E sb send_obj selector with
      | none => rw [hlk2] at hlk; simp at hlk
      | some rs =>
        obtain ⟨r, s2⟩ := rs
        obtain ⟨hle2, hsame2⟩ := lookup_selector_state E sb s2 send_obj _ _ hlk2
        have hshape := lookup_selector_shape E sb s2 send_obj _ _ hlk2
        have hsame_s2 : SameButFlagsAndObjects s s2 :=
          SameButFlagsAndObjects_trans s sb s2 hsame_sb hsame2
        have hle_s2 : LookupEquiv E s0 s2 := LookupEquiv_trans E s0 sb s2 hle_sb hle2
        have harg : (Ptr.stack (q + 1)).add (argc + 1) = Ptr.stack (q + 2 + argc) := by
          simp only [Ptr.add]
          congr 1
          ring
        have hnb : ¬ (2048 < argc) := by simpa using hbig
        have hunf : ∀ fuel, sendLoop E send_obj (fuel + 1) s sp F (Ptr.stack q) acc
            = (match lookup_selector E sb send_obj selector with
              | none => none
              | some (res, s) =>
                match res.kind, res.vptr, res.fptr with
                | kSelectorNone, _, _ =>
                  let s := if s.gameName = "LSL6" ∧ selector = 0x18c then s else setError s
                  sendLoop E send_obj fuel s sp (F - (2 + argc)) (Ptr.stack (q + 2 + argc)) acc
                | kSelectorVariable, some varp, _ =>
                  sendLoop E send_obj fuel s sp (F - (2 + argc)) (Ptr.stack (q + 2 + argc))
                    ((⟨NULL_REG, varp, Ptr.stack (q + 1), argc, selector, Ptr.null,
                      EXEC_STACK_TYPE_VARSELECTOR⟩ : CallsStruct) :: acc)
                | kSelectorMethod, _, some funcp =>
                  sendLoop E send_obj fuel s CALL_SP_CARRY (F - (2 + argc))
                    (Ptr.stack (q + 2 + argc))
                    ((⟨funcp, Ptr.null, Ptr.stack (q + 1), argc, selector, sp,
                      EXEC_STACK_TYPE_CALL⟩ : CallsStruct) :: acc)
                | _, _, _ => none) := by
          intro fuel
          rw [sendLoop]
          simp only [hF, gt_iff_lt, if_true, hl0, hq, hl1, hva0, hva1, hnb, if_false, harg]
        rcases hshape with hn | ⟨v, hv⟩ | ⟨f, hf⟩
        · refine ⟨if s2.gameName = "LSL6" ∧ selector = 0x18c then s2 else setError s2,
            sp, acc, argc, hargc0, by omega, ?_, ?_, by omega, ?_⟩
          · by_cases hg : s2.gameName = "LSL6" ∧ selector = 0x18c
            · simp only [hg, and_self, if_true]; exact hle_s2
            · simp only [hg, if_false]
              exact LookupEquiv_trans E s0 s2 _ hle_s2 ⟨rfl, rfl, rfl, rfl, fun _ => rfl⟩
          · by_cases hg : s2.gameName = "LSL6" ∧ selector = 0x18c
            · simp only [hg, and_self, if_true]; exact hsame_s2
            · simp only [hg, if_false]
              exact SameButFlagsAndObjects_trans s s2 _ hsame_s2 (setError_same s2)
          · intro fuel
            rw [hunf fuel, hlk2]
            simp only [hn]
        · refine ⟨s2, sp, (⟨NULL_REG, v, Ptr.stack (q + 1), argc, selector, Ptr.null,
            EXEC_STACK_TYPE_VARSELECTOR⟩ : CallsStruct) :: acc, argc, hargc0, by omega,
            hle_s2, hsame_s2, by simp, ?_⟩
          intro fuel
          rw [hunf fuel, hlk2]
          simp only [hv]
        · refine ⟨s2, CALL_SP_CARRY, (⟨f, Ptr.null, Ptr.stack (q + 1), argc, selector, sp,
            EXEC_STACK_TYPE_CALL⟩ : CallsStruct) :: acc, argc, hargc0, by omega,
            hle_s2, hsame_s2, by simp, ?_⟩
          intro fuel
          rw [hunf fuel, hlk2]
          simp only [hf]

/-- The walk over a send frame of any content comes to an end: with room for the
frame on the operand stack and the lookup defined on the receiver, the walk returns
within `(F + 1) / 2` iterations, after registering at most that many calls. -/
theorem sendLoop_total (E : Env) (send_obj : reg_t) (s0 : EngineState)
    (hlook : ∀ r ∈ s0.stack, (lookup_selector E s0 send_obj
      (if r.segment ≠ 0 then 0 else (r.offset : Int))).isSome = true) :
    ∀ (N : Nat) (s : EngineState) (sp : Ptr) (F q : Int) (acc : List CallsStruct),
      LookupEquiv E s0 s → s.stack = s0.stack → 0 ≤ q → (F ≤ 0 ∨ q + F < s.stack.length) →
      (F.toNat + 1) / 2 ≤ N →
      ∃ r s1, (∀ fuel, (F.toNat + 1) / 2 ≤ fuel →
          sendLoop E send_obj fuel s sp F (Ptr.stack q) acc = some (r, s1)) ∧
        SameButFlagsAndObjects s s1 ∧
        ∀ calls, r = some calls → calls.length ≤ acc.length + (F.toNat + 1) / 2 := by
  intro N
  induction N with
  | zero =>
    intro s sp F q acc _ _ _ _ hN
    have hF : ¬ (F > 0) := by omega
    refine ⟨some acc, s, ?_, SameButFlagsAndObjects_refl s, ?_⟩
    · intro fuel _
      unfold sendLoop
      simp only [hF, if_false]
    · intro calls hc
      simp only [Option.some.injEq] at hc
      rw [← hc]
      omega
  | succ N ih =>
    intro s sp F q acc hle hst0 hq hroom hN
    by_cases hF : F > 0
    · have hlen : q + F < s.stack.length := by
        rcases hroom with h | h
        · omega
        · exact h
      have hload : ∀ k : Int, 0 ≤ k → k < s.stack.length →
          ∃ r, r ∈ s.stack ∧ load s (Ptr.stack k) = some r := by
        intro k hk0 hk1
        have hlt : k.toNat < s.stack.length := by omega
        exact ⟨s.stack[k.toNat], List.getElem_mem _,
          by simp only [load, idx, hk0, if_true, List.getElem?_eq_getElem hlt]⟩
      obtain ⟨r0, hm0, hl0⟩ := hload q hq (by omega)
      obtain ⟨r1, _, hl1⟩ := hload (q + 1) (by omega) (by omega)
      have hsel : (lookup_selector E s0 send_obj (validate_arithmetic s r0).1).isSome = true := by
        have h1 := hlook r0 (by rw [← hst0]; exact hm0)
        have h2 : (validate_arithmetic s r0).1 = (if r0.segment ≠ 0 then 0 else (r0.offset : Int)) := by
          unfold validate_arithmetic
          split <;> rfl
        rw [h2]
        exact h1
      rcases sendLoop_iter E send_obj s0 s sp F q acc r0 r1 hsel hle hF hl0 hl1 with
        ⟨s1, hsame, h⟩ | ⟨s2, sp2, acc2, argc, ha0, ha1, hle2, hsame2, hacc, h⟩
      · refine ⟨none, s1, ?_, hsame, fun calls hc => by cases hc⟩
        intro fuel hfuel
        obtain ⟨fuel, rfl⟩ : ∃ f2, fuel = f2 + 1 := ⟨fuel - 1, by omega⟩
        exact h fuel
      · have hst : s2.stack = s.stack := SameButFlagsAndObjects_stack_eq s s2 hsame2
        obtain ⟨r, s1, hr, hsame1, hcalls⟩ := ih s2 sp2 (F - (2 + argc)) (q + 2 + argc) acc2 hle2
          (by rw [hst, hst0]) (by omega) (by rw [hst]; right; omega) (by omega)
        refine ⟨r, s1, ?_, SameButFlagsAndObjects_trans s s2 s1 hsame2 hsame1, ?_⟩
        · intro fuel hfuel
          obtain ⟨fuel, rfl⟩ : ∃ f2, fuel = f2 + 1 := ⟨fuel - 1, by omega⟩
          rw [h fuel]
          exact hr fuel (by omega)
        · intro calls hc
          have := hcalls calls hc
          omega
    · refine ⟨some acc, s, ?_, SameButFlagsAndObjects_refl s, ?_⟩
      · intro fuel _
        unfold sendLoop
        simp only [hF, if_false]
      · intro calls hc
        simp only [Option.some.injEq] at hc
        rw [← hc]
        omega

theorem add_exec_stack_entry_length (s s1 : EngineState) (pc : reg_t) (sp : Ptr) (objp : reg_t)
    (argc : Int) (argp : Ptr) (selector : Int) (sendp : reg_t) (origin ls : Int)
    (h : add_exec_stack_entry s pc sp objp argc argp selector sendp origin ls = some s1) :
    s1.executionStack.length = s.executionStack.length + 1 := by
  unfold add_exec_stack_entry at h
  simp only [Option.map_eq_some'] at h
  obtain ⟨s2, h2, h⟩ := h
  rw [← h]
  simp only [List.length_cons]
  rw [(store_frames s s2 _ _ h2).1]

theorem pushCalls_length (send_obj work_obj : reg_t) (origin : Int) :
    ∀ (calls : List CallsStruct) (s s2 : EngineState),
      pushCalls send_obj work_obj origin calls s = some s2 →
      s2.executionStack.length = s.executionStack.length + calls.length := by
  intro calls
  induction calls with
  | nil =>
    intro s s2 h
    simp only [pushCalls, Option.some.injEq] at h
    rw [h]
    rfl
  | cons c cs ih =>
    intro s s2 h
    unfold pushCalls at h
    by_cases hc : c.type = EXEC_STACK_TYPE_VARSELECTOR
    · simp only [hc, if_true] at h
      cases ha : add_exec_stack_varselector s work_obj c.argc c.argp c.selector c.address_var
          origin with
      | none => simp [ha] at h
      | some s1 =>
        simp only [ha] at h
        rw [ih s1 s2 h]
        obtain ⟨v, hv, _⟩ := add_exec_stack_varselector_frames _ _ _ _ _ _ _ _ ha
        rw [hv]
        simp only [List.length_cons]
        omega
    · simp only [hc, if_false] at h
      cases ha : add_exec_stack_entry s c.address_func c.sp work_obj c.argc c.argp c.selector
          send_obj origin SCI_XS_CALLEE_LOCALS with
      | none => simp [ha] at h
      | some s1 =>
        simp only [ha] at h
        rw [ih s1 s2 h, add_exec_stack_entry_length _ _ _ _ _ _ _ _ _ _ _ ha]
        simp only [List.length_cons]
        omega

theorem execVarselectorsLoop_length :
    ∀ (n : Nat) (s s3 : EngineState), execVarselectorsLoop n s = some s3 →
      s3.executionStack.length ≤ s.executionStack.length := by
  intro n
  induction n with
  | zero =>
    intro s s3 h
    simp only [execVarselectorsLoop, Option.some.injEq] at h
    rw [h]
  | succ n ih =>
    intro s s3 h
    unfold execVarselectorsLoop at h
    split at h
    · simp only [Option.some.injEq] at h
      rw [h]
    · split at h
      · split at h
        · cases h
        · rename_i s1 h1
          have h2 := ih _ _ h
          have h3 := (execVarselector_keeps_es s s1 _ h1).1
          simp only [List.length_tail] at h2
          rw [h3] at h2
          omega
      · simp only [Option.some.injEq] at h
        rw [h]

/-- C39: The walk of `send_selector` over a send frame of any size `F` and any
content comes to an end, provided the frame has room on the operand stack and the
lookup is defined for the registers of the stack read as selectors: it returns
within `(F + 1) / 2` iterations (more iterations granted make no difference, and
`F` are granted), each iteration either returns or moves on by `2 + argc` slots
with `0 ≤ argc ≤ 0x800`, at most `(F + 1) / 2` calls are registered, and
`send_selector` leaves at most that many frames more on the execution stack. -/
theorem send_walk_terminates (E : Env) (s : EngineState) (send_obj work_obj : reg_t)
    (sp : Ptr) (F q : Int)
    (hlook : ∀ r ∈ s.stack, (lookup_selector E s send_obj
      (if r.segment ≠ 0 then 0 else (r.offset : Int))).isSome = true)
    (hq : 0 ≤ q) (hroom : F ≤ 0 ∨ q + F < s.stack.length) :
    ∃ r s1,
      (∀ fuel, (F.toNat + 1) / 2 ≤ fuel →
        sendLoop E send_obj fuel s sp F (Ptr.stack q) [] = some (r, s1)) ∧
      sendLoop E send_obj F.toNat s sp F (Ptr.stack q) [] = some (r, s1) ∧
      (∀ calls, r = some calls → calls.length ≤ (F.toNat + 1) / 2) ∧
      (∀ r3 s3, send_selector E s send_obj work_obj sp F (Ptr.stack q) = some (r3, s3) →
        s3.executionStack.length ≤ s.executionStack.length + (F.toNat + 1) / 2) ∧
      (∀ (t : EngineState) (sp2 : Ptr) (F2 k : Int) (acc : List CallsStruct) (r0 r1 : reg_t),
        LookupEquiv E s t → t.stack = s.stack → 0 < F2 →
        load t (Ptr.stack k) = some r0 → load t (Ptr.stack (k + 1)) = some r1 →
        (∃ t1, ∀ fuel, sendLoop E send_obj (fuel + 1) t sp2 F2 (Ptr.stack k) acc
            = some (none, t1)) ∨
        ∃ t2 sp3 acc2 argc, 0 ≤ argc ∧ argc ≤ 0x800 ∧ acc2.length ≤ acc.length + 1 ∧
          ∀ fuel, sendLoop E send_obj (fuel + 1) t sp2 F2 (Ptr.stack k) acc
            = sendLoop E send_obj fuel t2 sp3 (F2 - (2 + argc)) (Ptr.stack (k + 2 + argc))
                acc2) := by
  obtain ⟨r, s1, hr, hsame, hcalls⟩ := sendLoop_total E send_obj s hlook ((F.toNat + 1) / 2)
    s sp F q [] (LookupEquiv_refl E s) rfl hq hroom (le_refl _)
  have hF : sendLoop E send_obj F.toNat s sp F (Ptr.stack q) [] = some (r, s1) :=
    hr F.toNat (by omega)
  refine ⟨r, s1, hr, hF, fun calls hc => by simpa using hcalls calls hc, ?_, ?_⟩
  · intro r3 s3 h
    unfold send_selector at h
    simp only [hF] at h
    cases r with
    | none =>
      simp only [Option.some.injEq, Prod.mk.injEq] at h
      rw [← h.2, SameButFlagsAndObjects_es_eq s s1 hsame]
      omega
    | some calls =>
      simp only at h
      cases hp : pushCalls send_obj work_obj (esSize s - 1) calls s1 with
      | none => simp [hp] at h
      | some s2 =>
        simp only [hp] at h
        cases hx : _exec_varselectors s2 with
        | none => simp [hx] at h
        | some s4 =>
          simp only [hx] at h
          have hs : s3 = s4 := by
            split at h <;> simp only [Option.some.injEq, Prod.mk.injEq] at h <;> exact h.2.symm
          have h1 := pushCalls_length _ _ _ _ _ _ hp
          have h2 := execVarselectorsLoop_length _ _ _ hx
          have h3 := hcalls calls rfl
          rw [SameButFlagsAndObjects_es_eq s s1 hsame] at h1
          simp only [List.length_nil, Nat.zero_add] at h3
          rw [hs]
          omega
  · intro t sp2 F2 k acc r0 r1 hle hst hF2 hl0 hl1
    have hm : r0 ∈ s.stack := by
      rw [← hst]
      simp only [load, idx] at hl0
      split at hl0
      · exact List.getElem?_mem hl0
      · cases hl0
    have hsel : (lookup_selector E s send_obj (validate_arithmetic t r0).1).isSome = true := by
      have h2 : (validate_arithmetic t r0).1 = (if r0.segment ≠ 0 then 0 else (r0.offset : Int)) := by
        unfold validate_arithmetic
        split <;> rfl
      rw [h2]
      exact hlook r0 hm
    rcases sendLoop_iter E send_obj s t sp2 F2 k acc r0 r1 hsel hle hF2 hl0 hl1 with
      ⟨t1, _, h⟩ | ⟨t2, sp3, acc2, argc, ha0, ha1, _, _, hacc, h⟩
    · exact Or.inl ⟨t1, h⟩
    · exact Or.inr ⟨t2, sp3, acc2, argc, ha0, ha1, hacc, h⟩

theorem send_walk_terminates_witness :
    ((∀ r ∈ exOddState.stack, (lookup_selector exEnv exOddState ⟨1, 8⟩
        (if r.segment ≠ 0 then 0 else (r.offset : Int))).isSome = true) ∧
      (0 : Int) ≤ 0 ∧ ((7 : Int) ≤ 0 ∨ (0 : Int) + 7 < exOddState.stack.length)) ∧
    ∃ r s1, sendLoop exEnv ⟨1, 8⟩ (7 : Int).toNat exOddState (Ptr.stack 8) 7 (Ptr.stack 0) []
        = some (r, s1) ∧
      ∀ calls, r = some calls → calls.length ≤ ((7 : Int).toNat + 1) / 2 :=
  ⟨⟨by decide!, by decide, by decide!⟩,
    let ⟨r, s1, _, h2, h3, _⟩ := send_walk_terminates exEnv exOddState ⟨1, 8⟩ ⟨1, 8⟩
      (Ptr.stack 8) 7 0 (by decide!) (by decide) (by decide!)
    ⟨r, s1, h2, h3⟩⟩

/-- On the example machine the walk over the ill-formed frame of seven slots ends
after three groups, within four iterations, with two calls registered. -/
theorem send_walk_example :
    exWalk (sendLoop exEnv ⟨1, 8⟩ 4 exOddState (Ptr.stack 8) 7 (Ptr.stack 0) [])
      = some [(40, 3, Ptr.stack 6), (31, 1, Ptr.stack 1)] ∧
    exWalk (sendLoop exEnv ⟨1, 8⟩ 3 exOddState (Ptr.stack 8) 7 (Ptr.stack 0) [])
      = some [(40, 3, Ptr.stack 6), (31, 1, Ptr.stack 1)] ∧
    exWalk (sendLoop exEnv ⟨1, 8⟩ 2 exOddState (Ptr.stack 8) 7 (Ptr.stack 0) []) = none := by
  refine ⟨?_, ?_, ?_⟩ <;> decide!

end Sci
